import Mathlib

/-!
# Nodal DSP engine: a shallow embedding and its verified properties

The C++ sources under `source/DSP` are embedded as pure Lean functions with
explicit state passing.  Every mutable C++ object becomes a structure, every
member function that mutates the object returns the new object (paired with
the returned value when there is one).

Conventions of the embedding

* `SampleType` (`float` / `double`) and `double` are one exact ordered field
  `α`; rounding, NaN and infinities are outside the model.  All definitions
  are generic in `α`, so they evaluate on `ℚ` and specialise to `ℝ`.
* `size_t` and `int` indices are `Nat` / `Int`; `static_cast<size_t>` of a
  non-negative value is `Nat.floor`.
* `std::vector<SampleType>` is `List α`; `v[i]` is `v.getD i 0`.
* `juce::AudioBuffer` is a sample function `channel → index → α` together
  with its dimensions.
* Functions of `<cmath>` and the classes of the JUCE library that the sources
  only call (`StateVariableTPTFilter`, `Compressor`, `Gain`, the IIR
  duplicator) are parameters, collected in `CMath` and `Juce`.
-/

namespace DSP

/-! ## Helpers shared by all components -/

/-- The function `juce::jlimit (lowerLimit, upperLimit, valueToConstrain)`. -/
def jlimit {β : Type} [LinearOrder β] (lowerLimit upperLimit valueToConstrain : β) : β :=
  if valueToConstrain < lowerLimit then lowerLimit
  else if upperLimit < valueToConstrain then upperLimit
  else valueToConstrain

/-- The loop `for (i = 0; i < n; ++i) s = body (i, s)`. -/
def forLoop {σ : Type} (n : Nat) (body : Nat → σ → σ) (s : σ) : σ :=
  match n with
  | 0 => s
  | k + 1 => body k (forLoop k body s)

/-- The functions of `<cmath>` used by the sources. -/
structure CMath (α : Type) where
  /-- The function `std::exp`. -/
  exp : α → α
  /-- The function `std::log`. -/
  log : α → α
  /-- The function `std::tanh`. -/
  tanh : α → α
  /-- The function `std::pow`. -/
  pow : α → α → α
  /-- The function `std::isnan`. -/
  isnan : α → Bool
  /-- The function `std::isinf`. -/
  isinf : α → Bool

/-- The class `juce::AudioBuffer<SampleType>`: dimensions and samples. -/
structure AudioBuffer (α : Type) where
  numChannels : Nat
  numSamples : Nat
  data : Nat → Nat → α

namespace AudioBuffer

variable {α : Type}

/-- The member `getSample (channel, sampleIndex)`. -/
def getSample (b : AudioBuffer α) (channel sampleIndex : Nat) : α :=
  b.data channel sampleIndex

/-- The member `setSample (channel, sampleIndex, newValue)` (also a write through
`getWritePointer (channel)[sampleIndex]`). -/
def setSample (b : AudioBuffer α) (channel sampleIndex : Nat) (newValue : α) : AudioBuffer α :=
  { b with data := fun c j => if c = channel ∧ j = sampleIndex then newValue else b.data c j }

/-- The member `setSize (newNumChannels, newNumSamples, ...)` as the sources call it (content
neither kept nor cleared): the dimensions change; the samples, unspecified in JUCE, are left
as they are. -/
def setSize (b : AudioBuffer α) (newNumChannels newNumSamples : Nat) : AudioBuffer α :=
  { b with numChannels := newNumChannels, numSamples := newNumSamples }

/-- The member `makeCopyOf (other)`: takes the dimensions and the samples of `other`. -/
def makeCopyOf (_b other : AudioBuffer α) : AudioBuffer α :=
  other

end AudioBuffer

/-! ## `Utils/ParameterSmoother.h` -/

/-- The class `Utils::ParameterSmoother<SampleType>`. -/
structure ParameterSmoother (α : Type) where
  _sampleRate : α
  _smoothingTimeMs : α
  smoothingCoeff : α
  currentValue : α
  targetValue : α

namespace ParameterSmoother

variable {α : Type} [LinearOrderedField α]

/-- The default-constructed smoother (the member initialisers of the class). -/
def default : ParameterSmoother α :=
  { _sampleRate := 44100, _smoothingTimeMs := 0, smoothingCoeff := 1,
    currentValue := 0, targetValue := 0 }

/-- The member `prepare (newSampleRate, newSmoothingTimeMs)`. -/
def prepare (M : CMath α) (s : ParameterSmoother α) (newSampleRate newSmoothingTimeMs : α) :
    ParameterSmoother α :=
  let s1 := { s with _sampleRate := newSampleRate, _smoothingTimeMs := newSmoothingTimeMs }
  if s1._smoothingTimeMs > 0 then
    let samplesForSmoothingTime := s1._smoothingTimeMs * (1 / 1000) * s1._sampleRate
    { s1 with smoothingCoeff := 1 - M.exp (-1 / samplesForSmoothingTime) }
  else
    { s1 with smoothingCoeff := 1 }

/-- The member `setTargetValue (newTargetValue)`. -/
def setTargetValue (s : ParameterSmoother α) (newTargetValue : α) : ParameterSmoother α :=
  { s with targetValue := newTargetValue }

/-- The member `getNextValue ()`: the returned value and the new smoother. -/
def getNextValue (s : ParameterSmoother α) : α × ParameterSmoother α :=
  let s1 := { s with currentValue := s.currentValue + s.smoothingCoeff * (s.targetValue - s.currentValue) }
  (s1.currentValue, s1)

/-- The smoother after one `getNextValue ()`. -/
def advance (s : ParameterSmoother α) : ParameterSmoother α :=
  (getNextValue s).2

/-- The member `processBlock (samples, numSamples, newTargetValue)`: the written
samples (as a function of the index) and the new smoother. -/
def processBlock (s : ParameterSmoother α) (samples : Nat → α) (numSamples : Nat)
    (newTargetValue : α) : (Nat → α) × ParameterSmoother α :=
  forLoop numSamples
    (fun i st =>
      let r := getNextValue st.2
      (fun j => if j = i then r.1 else st.1 j, r.2))
    (samples, setTargetValue s newTargetValue)

/-- The member `snapToTargetValue ()`. -/
def snapToTargetValue (s : ParameterSmoother α) : ParameterSmoother α :=
  { s with currentValue := s.targetValue }

/-- The member `getCurrentValue ()`. -/
def getCurrentValue (s : ParameterSmoother α) : α := s.currentValue

/-- The member `getTargetValue ()`. -/
def getTargetValue (s : ParameterSmoother α) : α := s.targetValue

/-- The member `reset (initialValue)`. -/
def reset (s : ParameterSmoother α) (initialValue : α) : ParameterSmoother α :=
  { s with currentValue := initialValue, targetValue := initialValue }

end ParameterSmoother

/-! ## `Filters/AllpassFilter.h` -/

/-- The class `Filters::AllpassFilter<SampleType>`. -/
structure AllpassFilter (α : Type) where
  delayLine : List α
  writeIndex : Nat
  _sampleRate : α
  delaySamples : α
  feedback : α

namespace AllpassFilter

variable {α : Type} [LinearOrderedField α] [FloorRing α]

/-- The default-constructed filter: an empty delay line. -/
def default : AllpassFilter α :=
  { delayLine := [], writeIndex := 0, _sampleRate := 44100, delaySamples := 1, feedback := 0 }

/-- The member `reset ()`. -/
def reset (f : AllpassFilter α) : AllpassFilter α :=
  { f with delayLine := List.replicate f.delayLine.length 0, writeIndex := 0,
           feedback := 0, delaySamples := 1 }

/-- The call `delayLine.resize (n, 0)` of `std::vector`. -/
def resize (l : List α) (n : Nat) : List α :=
  l.take n ++ List.replicate (n - l.length) 0

/-- The member `prepare (newSampleRate, maxDelayMs)`. -/
def prepare (f : AllpassFilter α) (newSampleRate maxDelayMs : α) : AllpassFilter α :=
  let f1 := { f with _sampleRate := newSampleRate }
  let maxDelaySamples := Nat.floor (maxDelayMs * (1 / 1000) * f1._sampleRate) + 1
  let f2 := { f1 with delayLine := resize f1.delayLine maxDelaySamples }
  reset f2

/-- The expression `delayLine.size() - 1` in `size_t` (64-bit) arithmetic. -/
def sizeMinusOne (f : AllpassFilter α) : Nat :=
  (f.delayLine.length + (2 ^ 64 - 1)) % 2 ^ 64

/-- The member `setDelayTime (delayMs)`. -/
def setDelayTime (f : AllpassFilter α) (delayMs : α) : AllpassFilter α :=
  let newDelaySamples := delayMs * (1 / 1000) * f._sampleRate
  { f with delaySamples := jlimit 1 (sizeMinusOne f : α) newDelaySamples }

/-- The member `setFeedback (newFeedback)`. -/
def setFeedback (f : AllpassFilter α) (newFeedback : α) : AllpassFilter α :=
  { f with feedback := jlimit (-(99 / 100)) (99 / 100) newFeedback }

/-- The local `readPosition` of `getInterpolatedSample ()`. -/
def readPosition (f : AllpassFilter α) : α :=
  let readPosition := (f.writeIndex : α) - f.delaySamples
  if readPosition < 0 then readPosition + (f.delayLine.length : α) else readPosition

/-- The private member `getInterpolatedSample ()`. -/
def getInterpolatedSample (f : AllpassFilter α) : α :=
  if f.delayLine.isEmpty then 0
  else
    let readPosition := readPosition f
    let readIndex1 := Nat.floor readPosition % f.delayLine.length
    let readIndex2 := (readIndex1 + 1) % f.delayLine.length
    let fraction := readPosition - (Int.floor readPosition : α)
    (1 - fraction) * f.delayLine.getD readIndex1 0 + fraction * f.delayLine.getD readIndex2 0

/-- The member `processSample (input)`: the returned output and the new filter. -/
def processSample (f : AllpassFilter α) (input : α) : α × AllpassFilter α :=
  if f.delayLine.isEmpty then (0, f)
  else
    let delayedSample := getInterpolatedSample f
    let output := -f.feedback * input + delayedSample
    let feedbackInput := input + f.feedback * delayedSample
    let f1 := { f with delayLine := f.delayLine.set f.writeIndex feedbackInput }
    let f2 := { f1 with writeIndex := (f1.writeIndex + 1) % f1.delayLine.length }
    (output, f2)

end AllpassFilter

/-! ## `Filters/SchroederAllpassChain.h` -/

/-- The class `Filters::SchroederAllpassChain<SampleType>`; the `std::array` of
`NumAllpassFilters = 4` filters is a list. -/
structure SchroederAllpassChain (α : Type) where
  allpassFilters : List (AllpassFilter α)
  delayTimeSmoother : ParameterSmoother α
  characterSmoother : ParameterSmoother α
  _sampleRate : α

namespace SchroederAllpassChain

variable {α : Type} [LinearOrderedField α] [FloorRing α]

/-- The constant `NumAllpassFilters`. -/
def NumAllpassFilters : Nat := 4

/-- The default-constructed chain. -/
def default : SchroederAllpassChain α :=
  { allpassFilters := List.replicate NumAllpassFilters AllpassFilter.default,
    delayTimeSmoother := ParameterSmoother.default,
    characterSmoother := ParameterSmoother.default,
    _sampleRate := 44100 }

/-- The local array `delayTimes` of `prepare`. -/
def delayTimes : List α := [123 / 10, 197 / 10, 291 / 10, 374 / 10]

/-- The local array `delayScales` of `updateParameters`. -/
def delayScales : List α := [41 / 100, 66 / 100, 97 / 100, 125 / 100]

/-- The member `prepare (newSampleRate, initialDelayMs, initialCharacter)`. -/
def prepare (M : CMath α) (c : SchroederAllpassChain α) (newSampleRate initialDelayMs initialCharacter : α) :
    SchroederAllpassChain α :=
  let c1 := { c with _sampleRate := newSampleRate }
  let prepared := List.zipWith
    (fun f t => ((f.prepare c1._sampleRate 100).setDelayTime t).setFeedback (7 / 10))
    c1.allpassFilters delayTimes
  let c2 := { c1 with allpassFilters := prepared }
  let c3 := { c2 with delayTimeSmoother := c2.delayTimeSmoother.prepare M c2._sampleRate 50 }
  let c4 := { c3 with characterSmoother := c3.characterSmoother.prepare M c3._sampleRate 10 }
  let c5 := { c4 with delayTimeSmoother :=
    (c4.delayTimeSmoother.setTargetValue initialDelayMs).snapToTargetValue }
  { c5 with characterSmoother :=
    (c5.characterSmoother.setTargetValue initialCharacter).snapToTargetValue }

/-- The member `setDelayTime (delayMs)`. -/
def setDelayTime (c : SchroederAllpassChain α) (delayMs : α) : SchroederAllpassChain α :=
  { c with delayTimeSmoother := c.delayTimeSmoother.setTargetValue (jlimit 1 100 delayMs) }

/-- The member `setCharacter (character)`. -/
def setCharacter (c : SchroederAllpassChain α) (character : α) : SchroederAllpassChain α :=
  { c with characterSmoother := c.characterSmoother.setTargetValue (jlimit (1 / 10) 10 character) }

/-- The private member `updateParameters ()`.  The function `std::log` is the total `M.log`, so
this follows the code only while the smoothed character is positive: for a negative one
`std::log` returns NaN, which `juce::jlimit` passes on as the feedback. -/
def updateParameters (M : CMath α) (c : SchroederAllpassChain α) : SchroederAllpassChain α :=
  let r1 := c.delayTimeSmoother.getNextValue
  let baseDelayTime := r1.1
  let c1 := { c with delayTimeSmoother := r1.2 }
  let r2 := c1.characterSmoother.getNextValue
  let character := r2.1
  let c2 := { c1 with characterSmoother := r2.2 }
  let feedback := 3 / 10 + 6 / 10 * (M.log character / M.log 10)
  let feedback := jlimit (1 / 10) (9 / 10) feedback
  let updated := List.zipWith
    (fun f scale => (f.setDelayTime (baseDelayTime * scale)).setFeedback feedback)
    c2.allpassFilters delayScales
  { c2 with allpassFilters := updated }

/-- The loop `for (auto& filter : allpassFilters) output = filter.processSample (output)`. -/
def processSeries : List (AllpassFilter α) → α → α × List (AllpassFilter α)
  | [], output => (output, [])
  | f :: fs, output =>
    let r := f.processSample output
    let rest := processSeries fs r.1
    (rest.1, r.2 :: rest.2)

/-- The member `processSample (input)`. -/
def processSample (M : CMath α) (c : SchroederAllpassChain α) (input : α) :
    α × SchroederAllpassChain α :=
  let c1 := updateParameters M c
  let r := processSeries c1.allpassFilters input
  (r.1, { c1 with allpassFilters := r.2 })

/-- The member `reset (initialDelayMs, initialCharacter)`. -/
def reset (c : SchroederAllpassChain α) (initialDelayMs initialCharacter : α) :
    SchroederAllpassChain α :=
  let c1 := { c with allpassFilters := c.allpassFilters.map AllpassFilter.reset }
  let c2 := { c1 with delayTimeSmoother :=
    ((c1.delayTimeSmoother.reset initialDelayMs).setTargetValue initialDelayMs).snapToTargetValue }
  { c2 with characterSmoother :=
    ((c2.characterSmoother.reset initialCharacter).setTargetValue initialCharacter).snapToTargetValue }

end SchroederAllpassChain

/-! ## `Effects/HaasEffect.h` -/

/-- The class `Effects::HaasEffect<SampleType>`. -/
structure HaasEffect (α : Type) where
  sampleRate : α
  rightDelay : AllpassFilter α
  delaySmoother : ParameterSmoother α

namespace HaasEffect

variable {α : Type} [LinearOrderedField α] [FloorRing α]

/-- The default-constructed effect. -/
def default : HaasEffect α :=
  { sampleRate := 44100, rightDelay := AllpassFilter.default,
    delaySmoother := ParameterSmoother.default }

/-- The member `reset ()`. -/
def reset (h : HaasEffect α) : HaasEffect α :=
  let h1 := { h with rightDelay := h.rightDelay.reset }
  { h1 with delaySmoother := h1.delaySmoother.reset 20 }

/-- The member `prepare (newSampleRate, maxBlockSize)`. -/
def prepare (M : CMath α) (h : HaasEffect α) (newSampleRate : α) (_maxBlockSize : Nat) :
    HaasEffect α :=
  let h1 := { h with sampleRate := newSampleRate }
  let maxDelayMs : α := 50
  let h2 := { h1 with rightDelay := (h1.rightDelay.prepare h1.sampleRate maxDelayMs).setFeedback 0 }
  let h3 := { h2 with delaySmoother :=
    ((h2.delaySmoother.prepare M h2.sampleRate 20).setTargetValue 20).snapToTargetValue }
  reset h3

/-- The member `setDelayMs (delayMs)`. -/
def setDelayMs (h : HaasEffect α) (delayMs : α) : HaasEffect α :=
  { h with delaySmoother := h.delaySmoother.setTargetValue (jlimit 0 50 delayMs) }

/-- The private member `updateParameters ()`. -/
def updateParameters (h : HaasEffect α) : HaasEffect α :=
  let r := h.delaySmoother.getNextValue
  let delayMs := r.1
  let h1 := { h with delaySmoother := r.2 }
  { h1 with rightDelay := h1.rightDelay.setDelayTime delayMs }

/-- The member `processBlock (buffer)`. -/
def processBlock (h : HaasEffect α) (buffer : AudioBuffer α) : AudioBuffer α × HaasEffect α :=
  forLoop buffer.numSamples
    (fun i st =>
      let h1 := updateParameters st.2
      let r := h1.rightDelay.processSample (st.1.getSample 1 i)
      (st.1.setSample 1 i r.1, { h1 with rightDelay := r.2 }))
    (buffer, h)

end HaasEffect

/-! ## `Effects/StereoEnhancer.h` -/

/-- The class `Effects::StereoEnhancer<SampleType>`. -/
structure StereoEnhancer (α : Type) where
  sampleRate : α
  widthSmoother : ParameterSmoother α
  currentWidthGain : α

namespace StereoEnhancer

variable {α : Type} [LinearOrderedField α]

/-- The default-constructed enhancer. -/
def default : StereoEnhancer α :=
  { sampleRate := 44100, widthSmoother := ParameterSmoother.default, currentWidthGain := 1 }

/-- The member `reset ()`. -/
def reset (e : StereoEnhancer α) : StereoEnhancer α :=
  let e1 := { e with widthSmoother := e.widthSmoother.reset 100 }
  { e1 with currentWidthGain := 1 }

/-- The member `prepare (newSampleRate)`. -/
def prepare (M : CMath α) (e : StereoEnhancer α) (newSampleRate : α) : StereoEnhancer α :=
  let e1 := { e with sampleRate := newSampleRate }
  let e2 := { e1 with widthSmoother := e1.widthSmoother.prepare M e1.sampleRate 20 }
  let e3 := { e2 with widthSmoother := e2.widthSmoother.setTargetValue 100 }
  let e4 := { e3 with widthSmoother := e3.widthSmoother.snapToTargetValue }
  reset e4

/-- The member `setWidth (widthPercent)`. -/
def setWidth (e : StereoEnhancer α) (widthPercent : α) : StereoEnhancer α :=
  { e with widthSmoother := e.widthSmoother.setTargetValue (jlimit 0 200 widthPercent) }

/-- The private member `updateParameters ()`. -/
def updateParameters (e : StereoEnhancer α) : StereoEnhancer α :=
  let r := e.widthSmoother.getNextValue
  let widthPercent := r.1
  let e1 := { e with widthSmoother := r.2 }
  { e1 with currentWidthGain := widthPercent / 100 }

/-- The body of the sample loop of `processBlock` at index `i`. -/
def processIndex (i : Nat) (st : AudioBuffer α × StereoEnhancer α) :
    AudioBuffer α × StereoEnhancer α :=
  let e1 := updateParameters st.2
  let leftSample := st.1.getSample 0 i
  let rightSample := st.1.getSample 1 i
  let midSignal := (leftSample + rightSample) * (1 / 2)
  let sideSignal := (leftSample - rightSample) * (1 / 2)
  let sideSignal := sideSignal * e1.currentWidthGain
  let newLeft := midSignal + sideSignal
  let newRight := midSignal - sideSignal
  ((st.1.setSample 0 i newLeft).setSample 1 i newRight, e1)

/-- The member `processBlock (buffer)`. -/
def processBlock (e : StereoEnhancer α) (buffer : AudioBuffer α) :
    AudioBuffer α × StereoEnhancer α :=
  forLoop buffer.numSamples processIndex (buffer, e)

end StereoEnhancer

/-! ## The JUCE library, as far as the sources call it -/

/-- The struct `juce::dsp::ProcessSpec`. -/
structure ProcessSpec (α : Type) where
  sampleRate : α
  maximumBlockSize : Nat
  numChannels : Nat

/-- The enum `juce::dsp::StateVariableTPTFilterType`. -/
inductive FilterType where
  | lowpass
  | bandpass
  | highpass
  deriving DecidableEq, Repr

/-- The JUCE functions and classes the sources only call.  Each class is a state
type with one function per member used. -/
structure Juce (α : Type) where
  /-- The function `juce::approximatelyEqual`. -/
  approximatelyEqual : α → α → Bool
  /-- The function `juce::Decibels::decibelsToGain`. -/
  decibelsToGain : α → α
  /-- The class `juce::dsp::StateVariableTPTFilter<SampleType>`. -/
  SVF : Type
  svfDefault : SVF
  svfSetType : SVF → FilterType → SVF
  svfSetResonance : SVF → α → SVF
  svfSetCutoffFrequency : SVF → α → SVF
  svfPrepare : SVF → ProcessSpec α → SVF
  svfReset : SVF → SVF
  /-- The member `processSample (channel, inputValue)`. -/
  svfProcessSample : SVF → Nat → α → α × SVF
  /-- The class `ProcessorDuplicator<IIR::Filter, IIR::Coefficients>`. -/
  IIR : Type
  iirDefault : IIR
  iirPrepare : IIR → ProcessSpec α → IIR
  iirReset : IIR → IIR
  /-- The assignment `*state = *makeHighShelf (sampleRate, cutOff, Q, gainFactor)`. -/
  iirSetHighShelf : IIR → α → α → α → α → IIR
  iirProcess : IIR → AudioBuffer α → AudioBuffer α × IIR
  /-- The class `juce::dsp::Gain<SampleType>`. -/
  Gain : Type
  gainDefault : Gain
  gainPrepare : Gain → ProcessSpec α → Gain
  gainReset : Gain → Gain
  gainSetGainLinear : Gain → α → Gain
  gainProcess : Gain → AudioBuffer α → AudioBuffer α × Gain
  gainProcessSample : Gain → α → α × Gain
  /-- The envelope follower and prepared spec inside `juce::dsp::Compressor<SampleType>`. -/
  Envelope : Type
  envelopeDefault : Envelope
  envelopePrepare : Envelope → ProcessSpec α → Envelope
  envelopeReset : Envelope → Envelope
  /-- The member `Compressor::process`, given threshold, ratio, attack and release. -/
  compressorProcess : α → α → α → α → Envelope → AudioBuffer α → AudioBuffer α × Envelope
  /-- The call `Compressor::processSample (sample)` as written in the sources. -/
  compressorProcessSample : α → α → α → α → Envelope → α → α × Envelope

/-- The class `juce::dsp::Compressor<SampleType>`: its four settings and its envelope state. -/
structure Compressor (α : Type) (J : Juce α) where
  thresholddB : α
  ratio : α
  attackTime : α
  releaseTime : α
  envelope : J.Envelope

namespace Compressor

variable {α : Type} [LinearOrderedField α] {J : Juce α}

/-- The default-constructed compressor (the member initialisers of the JUCE class). -/
def default : Compressor α J :=
  { thresholddB := 0, ratio := 1, attackTime := 1, releaseTime := 100, envelope := J.envelopeDefault }

/-- The member `setThreshold`. -/
def setThreshold (c : Compressor α J) (newThreshold : α) : Compressor α J :=
  { c with thresholddB := newThreshold }

/-- The member `setRatio`. -/
def setRatio (c : Compressor α J) (newRatio : α) : Compressor α J :=
  { c with ratio := newRatio }

/-- The member `setAttack`. -/
def setAttack (c : Compressor α J) (newAttack : α) : Compressor α J :=
  { c with attackTime := newAttack }

/-- The member `setRelease`. -/
def setRelease (c : Compressor α J) (newRelease : α) : Compressor α J :=
  { c with releaseTime := newRelease }

/-- The member `prepare (spec)`. -/
def prepare (c : Compressor α J) (spec : ProcessSpec α) : Compressor α J :=
  { c with envelope := J.envelopePrepare c.envelope spec }

/-- The member `reset ()`. -/
def reset (c : Compressor α J) : Compressor α J :=
  { c with envelope := J.envelopeReset c.envelope }

/-- The member `process (context)` on a whole buffer. -/
def process (c : Compressor α J) (buffer : AudioBuffer α) : AudioBuffer α × Compressor α J :=
  let r := J.compressorProcess c.thresholddB c.ratio c.attackTime c.releaseTime c.envelope buffer
  (r.1, { c with envelope := r.2 })

/-- The call `processSample (sample)`. -/
def processSample (c : Compressor α J) (sample : α) : α × Compressor α J :=
  let r := J.compressorProcessSample c.thresholddB c.ratio c.attackTime c.releaseTime c.envelope sample
  (r.1, { c with envelope := r.2 })

/-- The four settings of a compressor: threshold, ratio, attack, release. -/
def settings (c : Compressor α J) : α × α × α × α :=
  (c.thresholddB, c.ratio, c.attackTime, c.releaseTime)

end Compressor

/-! ## `Utils/DSPUtils.h` -/

namespace DSPUtils

variable {α : Type} [LinearOrderedField α]

/-- The function `dbToGain (db)`. -/
def dbToGain (M : CMath α) (db : α) : α :=
  M.pow 10 (db * (5 / 100))

/-- The function `percentageToNormalized (percentage)`. -/
def percentageToNormalized (percentage : α) : α :=
  jlimit 0 1 (percentage * (1 / 100))

end DSPUtils

/-! ## `Filters/EQFilters.h` -/

/-- The class `Filters::BrightnessEQ<SampleType>`. -/
structure BrightnessEQ (α : Type) (J : Juce α) where
  highShelfFilterDuplicator : J.IIR
  sampleRate : α

namespace BrightnessEQ

variable {α : Type} [LinearOrderedField α] {J : Juce α}

/-- The default-constructed equaliser. -/
def default : BrightnessEQ α J :=
  { highShelfFilterDuplicator := J.iirDefault, sampleRate := 44100 }

/-- The member `reset ()`. -/
def reset (q : BrightnessEQ α J) : BrightnessEQ α J :=
  { q with highShelfFilterDuplicator := J.iirReset q.highShelfFilterDuplicator }

/-- The member `prepare (spec)`. -/
def prepare (q : BrightnessEQ α J) (spec : ProcessSpec α) : BrightnessEQ α J :=
  let q1 := { q with sampleRate := spec.sampleRate }
  let q2 := { q1 with highShelfFilterDuplicator := J.iirPrepare q1.highShelfFilterDuplicator spec }
  reset q2

/-- The member `setBrightness (brightnessDb)`. -/
def setBrightness (q : BrightnessEQ α J) (brightnessDb : α) : BrightnessEQ α J :=
  let brightnessDb := jlimit (-12) 12 brightnessDb
  let gainFactor := J.decibelsToGain brightnessDb
  let shelved := J.iirSetHighShelf q.highShelfFilterDuplicator q.sampleRate 3000 (12 / 10) gainFactor
  { q with highShelfFilterDuplicator := shelved }

/-- The member `processBlock (buffer)`. -/
def processBlock (q : BrightnessEQ α J) (buffer : AudioBuffer α) :
    AudioBuffer α × BrightnessEQ α J :=
  let r := J.iirProcess q.highShelfFilterDuplicator buffer
  (r.1, { q with highShelfFilterDuplicator := r.2 })

end BrightnessEQ

/-! ## `Effects/MakeItLoud.h` -/

/-- The enum `MakeItLoud::CompressorMode`. -/
inductive CompressorMode where
  | Clean
  | Further
  | Crunchy
  deriving DecidableEq, Repr

/-- The conversion `static_cast<CompressorMode> (int)`: the enumerators are 0, 1, 2; any
other integer is a value without an enumerator. -/
def CompressorMode.ofInt (n : Int) : Option CompressorMode :=
  if n = 0 then some CompressorMode.Clean
  else if n = 1 then some CompressorMode.Further
  else if n = 2 then some CompressorMode.Crunchy
  else none

/-- The class `Effects::MakeItLoud<SampleType>`. -/
structure MakeItLoud (α : Type) (J : Juce α) where
  _inputGain : J.Gain
  _boostGain : J.Gain
  _preCompressor : Compressor α J
  _postCompressor : Compressor α J
  _boostValue : α
  _inputGainValue : α
  _sampleRate : α
  _blockSize : Int
  _enabled : Bool

namespace MakeItLoud

variable {α : Type} [LinearOrderedField α] {J : Juce α}

/-- The default-constructed stage (the member initialisers of the class). -/
def default : MakeItLoud α J :=
  { _inputGain := J.gainDefault, _boostGain := J.gainDefault,
    _preCompressor := Compressor.default, _postCompressor := Compressor.default,
    _boostValue := 1, _inputGainValue := 1, _sampleRate := 44100, _blockSize := 512,
    _enabled := true }

/-- The member `reset ()`. -/
def reset (m : MakeItLoud α J) : MakeItLoud α J :=
  { m with _inputGain := J.gainReset m._inputGain, _boostGain := J.gainReset m._boostGain,
           _preCompressor := m._preCompressor.reset, _postCompressor := m._postCompressor.reset }

/-- The member `prepare (spec)`. -/
def prepare (m : MakeItLoud α J) (spec : ProcessSpec α) : MakeItLoud α J :=
  let m1 := { m with _sampleRate := spec.sampleRate, _blockSize := (spec.maximumBlockSize : Int) }
  let m2 := { m1 with _inputGain := J.gainPrepare m1._inputGain spec,
                      _boostGain := J.gainPrepare m1._boostGain spec,
                      _preCompressor := m1._preCompressor.prepare spec,
                      _postCompressor := m1._postCompressor.prepare spec }
  reset m2

/-- The waveshaping of one sample in `processBlock`. -/
def waveshape (M : CMath α) (m : MakeItLoud α J) (sample : α) : α :=
  let sample := M.tanh (sample * m._boostValue)
  if M.isnan sample || M.isinf sample then 0 else sample

/-- The member `processBlock (buffer)`. -/
def processBlock (M : CMath α) (m : MakeItLoud α J) (buffer : AudioBuffer α) :
    AudioBuffer α × MakeItLoud α J :=
  if !m._enabled then (buffer, m)
  else if buffer.numChannels = 0 ∨ buffer.numSamples = 0 then (buffer, m)
  else
    let r1 := m._preCompressor.process buffer
    let m1 := { m with _preCompressor := r1.2 }
    let m2 := { m1 with _inputGain := J.gainSetGainLinear m1._inputGain m1._inputGainValue }
    let r2 := J.gainProcess m2._inputGain r1.1
    let m3 := { m2 with _inputGain := r2.2 }
    let m4 := { m3 with _boostGain := J.gainSetGainLinear m3._boostGain m3._boostValue }
    let r3 := J.gainProcess m4._boostGain r2.1
    let m5 := { m4 with _boostGain := r3.2 }
    let shaped := forLoop r3.1.numChannels
      (fun channel b => forLoop b.numSamples
        (fun i b1 => b1.setSample channel i (waveshape M m5 (b1.getSample channel i))) b)
      r3.1
    let r4 := m5._postCompressor.process shaped
    (r4.1, { m5 with _postCompressor := r4.2 })

/-- The member `processSingleSample (sample)`. -/
def processSingleSample (M : CMath α) (m : MakeItLoud α J) (sample : α) : α × MakeItLoud α J :=
  if !m._enabled then (sample, m)
  else
    let r1 := m._preCompressor.processSample sample
    let m1 := { m with _preCompressor := r1.2 }
    let r2 := J.gainProcessSample m1._inputGain (r1.1 * m1._inputGainValue)
    let m2 := { m1 with _inputGain := r2.2 }
    let r3 := J.gainProcessSample m2._boostGain (r2.1 * m2._boostValue)
    let m3 := { m2 with _boostGain := r3.2 }
    let sample := M.tanh r3.1
    let sample := if M.isnan sample || M.isinf sample then 0 else sample
    let r4 := m3._postCompressor.processSample sample
    (r4.1, { m3 with _postCompressor := r4.2 })

/-- The member `setBoost (boost)`. -/
def setBoost (m : MakeItLoud α J) (boost : α) : MakeItLoud α J :=
  { m with _boostValue := boost }

/-- The member `setInputGain (gain)`. -/
def setInputGain (m : MakeItLoud α J) (gain : α) : MakeItLoud α J :=
  { m with _inputGainValue := gain }

/-- The member `setEnabled (enabled)`. -/
def setEnabled (m : MakeItLoud α J) (enabled : Bool) : MakeItLoud α J :=
  { m with _enabled := enabled }

/-- The private member `applyCompressorSettings (threshold, ratio, attack, release)`. -/
def applyCompressorSettings (m : MakeItLoud α J) (threshold ratio attack release : α) :
    MakeItLoud α J :=
  let apply := fun (comp : Compressor α J) =>
    (((comp.setThreshold threshold).setRatio ratio).setAttack attack).setRelease release
  let m1 := { m with _preCompressor := apply m._preCompressor }
  { m1 with _postCompressor := apply m1._postCompressor }

/-- The member `setCompressorMode (CompressorMode mode)`; `none` is an enum value without
an enumerator, for which the `switch` has no case. -/
def setCompressorMode (m : MakeItLoud α J) (mode : Option CompressorMode) : MakeItLoud α J :=
  match mode with
  | some CompressorMode.Clean => applyCompressorSettings m (-20) 4 10 80
  | some CompressorMode.Further => applyCompressorSettings m (-15) 6 75 50
  | some CompressorMode.Crunchy => applyCompressorSettings m (-8) 5 100 200
  | none => m

/-- The member `setCompressorMode (int mode)`. -/
def setCompressorModeInt (m : MakeItLoud α J) (mode : Int) : MakeItLoud α J :=
  if mode = 0 then
    { m with _enabled := false }
  else
    let m1 := { m with _enabled := true }
    setCompressorMode m1 (CompressorMode.ofInt (jlimit 0 2 (mode + 1)))

end MakeItLoud

/-! ## `Core/ChasmDSPProcessor.h` -/

/-- The class `Core::ChasmDSPProcessor<SampleType>`. -/
structure ChasmDSPProcessor (α : Type) (J : Juce α) where
  leftAllpassChain : SchroederAllpassChain α
  rightAllpassChain : SchroederAllpassChain α
  brightnessEQ : BrightnessEQ α J
  stereoEnhancer : StereoEnhancer α
  haasEffect : HaasEffect α
  lowCutFilter : J.SVF
  highCutFilter : J.SVF
  inputGainSmoother : ParameterSmoother α
  outputGainSmoother : ParameterSmoother α
  mixSmoother : ParameterSmoother α
  delaySmoother : ParameterSmoother α
  brightnessSmoother : ParameterSmoother α
  characterSmoother : ParameterSmoother α
  lowCutSmoother : ParameterSmoother α
  highCutSmoother : ParameterSmoother α
  widthSmoother : ParameterSmoother α
  haasSmoother : ParameterSmoother α
  makeItLoud : MakeItLoud α J
  mil_InputGainSmoother : ParameterSmoother α
  mil_BoostSmoother : ParameterSmoother α
  wetBuffer : AudioBuffer α
  dryBuffer : AudioBuffer α
  sampleRate : α
  samplesPerBlock : Nat
  numChannels : Nat
  lastLowCut : α
  lastHighCut : α
  lowCutMin : α
  highCutMin : α
  lowCutMax : α
  highCutMax : α
  lowCutActive : Bool
  highCutActive : Bool

namespace ChasmDSPProcessor

variable {α : Type} [LinearOrderedField α] [FloorRing α] {J : Juce α}

/-- The constructor `ChasmDSPProcessor ()` after the member initialisers; `empty` is the
default-constructed `juce::AudioBuffer`. -/
def default : ChasmDSPProcessor α J :=
  let empty : AudioBuffer α := { numChannels := 0, numSamples := 0, data := fun _ _ => 0 }
  { leftAllpassChain := SchroederAllpassChain.default,
    rightAllpassChain := SchroederAllpassChain.default,
    brightnessEQ := BrightnessEQ.default,
    stereoEnhancer := StereoEnhancer.default,
    haasEffect := HaasEffect.default,
    lowCutFilter :=
      J.svfSetResonance (J.svfSetType J.svfDefault FilterType.highpass) (707 / 1000),
    highCutFilter :=
      J.svfSetResonance (J.svfSetType J.svfDefault FilterType.lowpass) (707 / 1000),
    inputGainSmoother := ParameterSmoother.default,
    outputGainSmoother := ParameterSmoother.default,
    mixSmoother := ParameterSmoother.default,
    delaySmoother := ParameterSmoother.default,
    brightnessSmoother := ParameterSmoother.default,
    characterSmoother := ParameterSmoother.default,
    lowCutSmoother := ParameterSmoother.default,
    highCutSmoother := ParameterSmoother.default,
    widthSmoother := ParameterSmoother.default,
    haasSmoother := ParameterSmoother.default,
    makeItLoud := MakeItLoud.default,
    mil_InputGainSmoother := ParameterSmoother.default,
    mil_BoostSmoother := ParameterSmoother.default,
    wetBuffer := empty,
    dryBuffer := empty,
    sampleRate := 44100,
    samplesPerBlock := 512,
    numChannels := 2,
    lastLowCut := 0,
    lastHighCut := 0,
    lowCutMin := 0,
    highCutMin := 0,
    lowCutMax := 44100 * (1 / 2) - 1,
    highCutMax := 44100 * (1 / 2) - 1,
    lowCutActive := false,
    highCutActive := false }

/-- The private member `prepareParameterSmoothers ()`. -/
def prepareParameterSmoothers (M : CMath α) (p : ChasmDSPProcessor α J) : ChasmDSPProcessor α J :=
  { p with
    inputGainSmoother := p.inputGainSmoother.prepare M p.sampleRate 1,
    outputGainSmoother := p.outputGainSmoother.prepare M p.sampleRate 1,
    mixSmoother := p.mixSmoother.prepare M p.sampleRate 5,
    delaySmoother := p.delaySmoother.prepare M p.sampleRate 5,
    brightnessSmoother := p.brightnessSmoother.prepare M p.sampleRate 5,
    characterSmoother := p.characterSmoother.prepare M p.sampleRate 5,
    lowCutSmoother := p.lowCutSmoother.prepare M p.sampleRate 5,
    highCutSmoother := p.highCutSmoother.prepare M p.sampleRate 5,
    widthSmoother := p.widthSmoother.prepare M p.sampleRate 5,
    haasSmoother := p.haasSmoother.prepare M p.sampleRate 1,
    mil_BoostSmoother := p.mil_BoostSmoother.prepare M p.sampleRate 1,
    mil_InputGainSmoother := p.mil_InputGainSmoother.prepare M p.sampleRate 1 }

/-- The three calls `s.reset (v); s.setTargetValue (v); s.snapToTargetValue ()`. -/
def resnap (s : ParameterSmoother α) (v : α) : ParameterSmoother α :=
  ((s.reset v).setTargetValue v).snapToTargetValue

/-- The member `reset (inputGain, ..., haasAmount)`. -/
def reset (p : ChasmDSPProcessor α J)
    (inputGain outputGain mix delayMs brightness character lowCut highCut width
      mil_InputGain mil_BoostValue : α) (mil_Mode : Int) (haasAmount : α) :
    ChasmDSPProcessor α J :=
  { p with
    leftAllpassChain := p.leftAllpassChain.reset delayMs character,
    rightAllpassChain := p.rightAllpassChain.reset delayMs character,
    brightnessEQ := p.brightnessEQ.reset,
    stereoEnhancer := p.stereoEnhancer.reset,
    inputGainSmoother := resnap p.inputGainSmoother inputGain,
    outputGainSmoother := resnap p.outputGainSmoother outputGain,
    mixSmoother := resnap p.mixSmoother mix,
    delaySmoother := resnap p.delaySmoother delayMs,
    brightnessSmoother := resnap p.brightnessSmoother brightness,
    characterSmoother := resnap p.characterSmoother character,
    lowCutSmoother := resnap p.lowCutSmoother lowCut,
    highCutSmoother := resnap p.highCutSmoother highCut,
    widthSmoother := resnap p.widthSmoother width,
    haasSmoother := resnap p.haasSmoother haasAmount,
    mil_BoostSmoother := resnap p.mil_BoostSmoother mil_BoostValue,
    mil_InputGainSmoother := resnap p.mil_InputGainSmoother mil_InputGain,
    makeItLoud := p.makeItLoud.setCompressorModeInt mil_Mode }

/-- The two calls `s.setTargetValue (v); s.snapToTargetValue ()` of `prepare`. -/
def snapTo (s : ParameterSmoother α) (v : α) : ParameterSmoother α :=
  (s.setTargetValue v).snapToTargetValue

/-- The member `prepare (spec, inputGain, ..., haasAmount)`. -/
def prepare (M : CMath α) (p : ChasmDSPProcessor α J) (spec : ProcessSpec α)
    (inputGain outputGain mix delayMs brightness character lowCut highCut width
      mil_InputGain mil_BoostValue : α) (mil_Mode : Int) (haasAmount : α) :
    ChasmDSPProcessor α J :=
  let p := { p with sampleRate := spec.sampleRate, samplesPerBlock := spec.maximumBlockSize,
                    numChannels := spec.numChannels }
  let p := { p with leftAllpassChain := p.leftAllpassChain.prepare M p.sampleRate delayMs character }
  let p := { p with rightAllpassChain := p.rightAllpassChain.prepare M p.sampleRate delayMs character }
  let p := { p with brightnessEQ := p.brightnessEQ.prepare spec }
  let p := { p with stereoEnhancer := p.stereoEnhancer.setWidth 100 }
  let p := { p with haasEffect := p.haasEffect.prepare M p.sampleRate p.samplesPerBlock }
  let p := prepareParameterSmoothers M p
  let p := { p with
    inputGainSmoother := snapTo p.inputGainSmoother inputGain,
    outputGainSmoother := snapTo p.outputGainSmoother outputGain,
    mixSmoother := snapTo p.mixSmoother mix,
    delaySmoother := snapTo p.delaySmoother delayMs,
    brightnessSmoother := snapTo p.brightnessSmoother brightness,
    characterSmoother := snapTo p.characterSmoother character,
    lowCutSmoother := snapTo p.lowCutSmoother lowCut,
    highCutSmoother := snapTo p.highCutSmoother highCut,
    widthSmoother := snapTo p.widthSmoother width,
    haasSmoother := snapTo p.haasSmoother haasAmount,
    mil_InputGainSmoother := snapTo p.mil_InputGainSmoother mil_InputGain,
    mil_BoostSmoother := snapTo p.mil_BoostSmoother mil_BoostValue }
  let p := { p with makeItLoud := p.makeItLoud.setCompressorModeInt mil_Mode }
  let p := { p with wetBuffer := p.wetBuffer.setSize p.numChannels p.samplesPerBlock }
  let p := { p with dryBuffer := p.dryBuffer.setSize p.numChannels p.samplesPerBlock }
  let p := { p with lowCutFilter := J.svfReset (J.svfPrepare p.lowCutFilter spec) }
  let p := { p with highCutFilter := J.svfReset (J.svfPrepare p.highCutFilter spec) }
  let p := { p with makeItLoud := p.makeItLoud.prepare spec }
  reset p inputGain outputGain mix delayMs brightness character lowCut highCut width
    mil_InputGain mil_BoostValue mil_Mode haasAmount

/-- The member `updateParameters (inputGainDb, ..., haasAmount)`. -/
def updateParameters (M : CMath α) (p : ChasmDSPProcessor α J)
    (inputGainDb outputGainDb mixPercent delayMs brightnessDb characterQ lowCutPercent
      highCutPercent widthPercent mil_InputGain mil_BoostValue : α) (mil_Mode : Int)
    (haasAmount : α) : ChasmDSPProcessor α J :=
  { p with
    inputGainSmoother := p.inputGainSmoother.setTargetValue (DSPUtils.dbToGain M inputGainDb),
    outputGainSmoother := p.outputGainSmoother.setTargetValue (DSPUtils.dbToGain M outputGainDb),
    mixSmoother := p.mixSmoother.setTargetValue (DSPUtils.percentageToNormalized mixPercent),
    delaySmoother := p.delaySmoother.setTargetValue delayMs,
    brightnessSmoother := p.brightnessSmoother.setTargetValue brightnessDb,
    characterSmoother := p.characterSmoother.setTargetValue characterQ,
    lowCutSmoother := p.lowCutSmoother.setTargetValue lowCutPercent,
    highCutSmoother := p.highCutSmoother.setTargetValue highCutPercent,
    widthSmoother := p.widthSmoother.setTargetValue widthPercent,
    haasSmoother := p.haasSmoother.setTargetValue haasAmount,
    mil_BoostSmoother := p.mil_BoostSmoother.setTargetValue (DSPUtils.dbToGain M mil_BoostValue),
    mil_InputGainSmoother :=
      p.mil_InputGainSmoother.setTargetValue (DSPUtils.dbToGain M mil_InputGain),
    makeItLoud := p.makeItLoud.setCompressorModeInt mil_Mode }

/-- The private member `shouldUpdateDSPComponents (sampleIndex)`. -/
def shouldUpdateDSPComponents (sampleIndex : Nat) : Bool :=
  sampleIndex % 32 == 0

/-- The private member `updateDSPComponents (delay, brightness, character, width, haasAmount)`. -/
def updateDSPComponents (p : ChasmDSPProcessor α J) (delay brightness character width haasAmount : α) :
    ChasmDSPProcessor α J :=
  { p with
    leftAllpassChain := (p.leftAllpassChain.setDelayTime delay).setCharacter character,
    rightAllpassChain := (p.rightAllpassChain.setDelayTime delay).setCharacter character,
    brightnessEQ := p.brightnessEQ.setBrightness brightness,
    stereoEnhancer := p.stereoEnhancer.setWidth width,
    haasEffect := p.haasEffect.setDelayMs haasAmount }

/-- The low-cut part of the sample loop of `processBlock`: advance the smoother and, when
the value differs from the cached one, re-tune the filter. -/
def updateLowCut (p : ChasmDSPProcessor α J) : ChasmDSPProcessor α J :=
  let r := p.lowCutSmoother.getNextValue
  let lowCutFreq := r.1
  let p := { p with lowCutSmoother := r.2 }
  if !J.approximatelyEqual lowCutFreq p.lastLowCut then
    let lowCutFreq := jlimit p.lowCutMin p.lowCutMax lowCutFreq
    { p with lowCutFilter := J.svfSetCutoffFrequency p.lowCutFilter lowCutFreq,
             lowCutActive := decide (lowCutFreq > 1),
             lastLowCut := lowCutFreq }
  else p

/-- The high-cut part of the sample loop of `processBlock`. -/
def updateHighCut (p : ChasmDSPProcessor α J) : ChasmDSPProcessor α J :=
  let r := p.highCutSmoother.getNextValue
  let highCutFreq := r.1
  let p := { p with highCutSmoother := r.2 }
  if !J.approximatelyEqual highCutFreq p.lastHighCut then
    let highCutFreq := jlimit p.highCutMin p.highCutMax highCutFreq
    { p with highCutFilter := J.svfSetCutoffFrequency p.highCutFilter highCutFreq,
             highCutActive := decide (highCutFreq < 19999),
             lastHighCut := highCutFreq }
  else p

/-- The loop `for (channel < buffer.getNumChannels ()) buffer[channel][sampleIndex] *= inputGain`
of `processSingleSample`. -/
def applyInputGain (buffer : AudioBuffer α) (sampleIndex : Nat) (inputGain : α) : AudioBuffer α :=
  forLoop buffer.numChannels
    (fun channel b => b.setSample channel sampleIndex (b.getSample channel sampleIndex * inputGain))
    buffer

/-- The loop of `processSingleSample` that copies the scaled input sample of every common
channel into the wet buffer. -/
def copyToWet (wetBuffer buffer : AudioBuffer α) (sampleIndex : Nat) : AudioBuffer α :=
  forLoop (min wetBuffer.numChannels buffer.numChannels)
    (fun channel w => w.setSample channel sampleIndex (buffer.getSample channel sampleIndex))
    wetBuffer

/-- The block `if (lowCutActive) { ... }` of `processSingleSample`. -/
def lowCutStereo (p : ChasmDSPProcessor α J) (leftSample rightSample : α) :
    α × α × ChasmDSPProcessor α J :=
  if p.lowCutActive then
    let a := J.svfProcessSample p.lowCutFilter 0 leftSample
    let b := J.svfProcessSample a.2 1 rightSample
    (a.1, b.1, { p with lowCutFilter := b.2 })
  else (leftSample, rightSample, p)

/-- The block `if (highCutActive) { ... }` of `processSingleSample`. -/
def highCutStereo (p : ChasmDSPProcessor α J) (leftSample rightSample : α) :
    α × α × ChasmDSPProcessor α J :=
  if p.highCutActive then
    let a := J.svfProcessSample p.highCutFilter 0 leftSample
    let b := J.svfProcessSample a.2 1 rightSample
    (a.1, b.1, { p with highCutFilter := b.2 })
  else (leftSample, rightSample, p)

/-- The private member `processSingleSample (buffer, sampleIndex, inputGain)`. -/
def processSingleSample (M : CMath α) (p : ChasmDSPProcessor α J) (buffer : AudioBuffer α)
    (sampleIndex : Nat) (inputGain : α) : ChasmDSPProcessor α J × AudioBuffer α :=
  let buffer : AudioBuffer α := applyInputGain buffer sampleIndex inputGain
  let p : ChasmDSPProcessor α J := { p with wetBuffer := copyToWet p.wetBuffer buffer sampleIndex }
  let leftSample : α := p.wetBuffer.getSample 0 sampleIndex
  let rightSample : α := p.wetBuffer.getSample 1 sampleIndex
  let rl := p.leftAllpassChain.processSample M leftSample
  let p : ChasmDSPProcessor α J := { p with leftAllpassChain := rl.2 }
  let rr := p.rightAllpassChain.processSample M rightSample
  let p : ChasmDSPProcessor α J := { p with rightAllpassChain := rr.2 }
  let lc := lowCutStereo p rl.1 rr.1
  let hc := highCutStereo lc.2.2 lc.1 lc.2.1
  let p : ChasmDSPProcessor α J := hc.2.2
  let p : ChasmDSPProcessor α J := { p with wetBuffer := p.wetBuffer.setSample 0 sampleIndex hc.1 }
  let p : ChasmDSPProcessor α J := { p with wetBuffer := p.wetBuffer.setSample 1 sampleIndex hc.2.1 }
  (p, buffer)

/-- The block `if (lowCutActive) { ... }` of `processSingleSampleMono`. -/
def lowCutMono (p : ChasmDSPProcessor α J) (workSample : α) : α × ChasmDSPProcessor α J :=
  if p.lowCutActive then
    let a := J.svfProcessSample p.lowCutFilter 0 workSample
    (a.1, { p with lowCutFilter := a.2 })
  else (workSample, p)

/-- The block `if (highCutActive) { ... }` of `processSingleSampleMono`. -/
def highCutMono (p : ChasmDSPProcessor α J) (workSample : α) : α × ChasmDSPProcessor α J :=
  if p.highCutActive then
    let a := J.svfProcessSample p.highCutFilter 0 workSample
    (a.1, { p with highCutFilter := a.2 })
  else (workSample, p)

/-- The private member `processSingleSampleMono (buffer, sampleIndex, inputGain)`. -/
def processSingleSampleMono (M : CMath α) (p : ChasmDSPProcessor α J) (buffer : AudioBuffer α)
    (sampleIndex : Nat) (inputGain : α) : ChasmDSPProcessor α J × AudioBuffer α :=
  let buffer : AudioBuffer α :=
    buffer.setSample 0 sampleIndex (buffer.getSample 0 sampleIndex * inputGain)
  let p : ChasmDSPProcessor α J :=
    { p with wetBuffer := p.wetBuffer.setSample 0 sampleIndex (buffer.getSample 0 sampleIndex) }
  let workSample : α := p.wetBuffer.getSample 0 sampleIndex
  let r := p.leftAllpassChain.processSample M workSample
  let p : ChasmDSPProcessor α J := { p with leftAllpassChain := r.2 }
  let lc := lowCutMono p r.1
  let hc := highCutMono lc.2 lc.1
  let p : ChasmDSPProcessor α J := hc.2
  let p : ChasmDSPProcessor α J := { p with wetBuffer := p.wetBuffer.setSample 0 sampleIndex hc.1 }
  (p, buffer)

/-- The smoothed values read at the top of the first sample loop of `processBlock`. -/
structure SmoothedControls (α : Type) where
  inputGain : α
  delay : α
  brightness : α
  character : α
  width : α
  haasAmount : α

/-- The six `getNextValue ()` calls at the top of the first sample loop of `processBlock`. -/
def advanceControls (p : ChasmDSPProcessor α J) : SmoothedControls α × ChasmDSPProcessor α J :=
  let r1 := p.inputGainSmoother.getNextValue
  let r2 := p.delaySmoother.getNextValue
  let r3 := p.brightnessSmoother.getNextValue
  let r4 := p.characterSmoother.getNextValue
  let r5 := p.widthSmoother.getNextValue
  let r6 := p.haasSmoother.getNextValue
  ({ inputGain := r1.1, delay := r2.1, brightness := r3.1, character := r4.1, width := r5.1,
     haasAmount := r6.1 },
   { p with inputGainSmoother := r1.2, delaySmoother := r2.2, brightnessSmoother := r3.2,
            characterSmoother := r4.2, widthSmoother := r5.2, haasSmoother := r6.2 })

/-- The body of the first sample loop of `processBlock` at index `i`. -/
def processIndex (M : CMath α) (i : Nat) (st : ChasmDSPProcessor α J × AudioBuffer α) :
    ChasmDSPProcessor α J × AudioBuffer α :=
  let c := advanceControls st.1
  let p : ChasmDSPProcessor α J := updateHighCut (updateLowCut c.2)
  let p : ChasmDSPProcessor α J :=
    if i = 0 ∨ shouldUpdateDSPComponents i = true then
      updateDSPComponents p c.1.delay c.1.brightness c.1.character c.1.width c.1.haasAmount
    else p
  if st.2.numChannels = 1 then processSingleSampleMono M p st.2 i c.1.inputGain
  else processSingleSample M p st.2 i c.1.inputGain

/-- The whole-block stages of `processBlock` between the two sample loops, applied to the
wet buffer: Brightness EQ, Haas effect, stereo enhancer, loudness stage. -/
def postStages (M : CMath α) (p : ChasmDSPProcessor α J) : ChasmDSPProcessor α J :=
  let r := p.brightnessEQ.processBlock p.wetBuffer
  let p := { p with wetBuffer := r.1, brightnessEQ := r.2 }
  let r := p.haasEffect.processBlock p.wetBuffer
  let p := { p with wetBuffer := r.1, haasEffect := r.2 }
  let r := p.stereoEnhancer.processBlock p.wetBuffer
  let p := { p with wetBuffer := r.1, stereoEnhancer := r.2 }
  let r := p.mil_InputGainSmoother.getNextValue
  let p := { p with mil_InputGainSmoother := r.2, makeItLoud := p.makeItLoud.setInputGain r.1 }
  let r := p.mil_BoostSmoother.getNextValue
  let p := { p with mil_BoostSmoother := r.2, makeItLoud := p.makeItLoud.setBoost r.1 }
  let r := p.makeItLoud.processBlock M p.wetBuffer
  { p with wetBuffer := r.1, makeItLoud := r.2 }

/-- The body of the final sample loop of `processBlock` at index `i`. -/
def mixIndex (i : Nat) (st : ChasmDSPProcessor α J × AudioBuffer α) :
    ChasmDSPProcessor α J × AudioBuffer α :=
  let p := st.1
  let buffer := st.2
  let r := p.mixSmoother.getNextValue
  let mix := r.1
  let p := { p with mixSmoother := r.2 }
  let r := p.outputGainSmoother.getNextValue
  let outputGain := r.1
  let p := { p with outputGainSmoother := r.2 }
  let buffer := forLoop buffer.numChannels
    (fun channel b =>
      let drySample := p.dryBuffer.getSample channel i
      let wetSample := p.wetBuffer.getSample channel i
      b.setSample channel i ((drySample * (1 - mix) + wetSample * mix) * outputGain))
    buffer
  (p, buffer)

/-- The block `if (wetBuffer.getNumSamples () != numSamples) { ... }` of `processBlock`. -/
def resizeScratch (p : ChasmDSPProcessor α J) (numSamples : Nat) : ChasmDSPProcessor α J :=
  if p.wetBuffer.numSamples ≠ numSamples then
    { p with wetBuffer := p.wetBuffer.setSize p.numChannels numSamples,
             dryBuffer := p.dryBuffer.setSize p.numChannels numSamples }
  else p

/-- The part of `processBlock` before the final sample loop: buffer sizing, the dry copy,
the first sample loop and the whole-block stages. -/
def wetPath (M : CMath α) (p : ChasmDSPProcessor α J) (buffer : AudioBuffer α) :
    ChasmDSPProcessor α J × AudioBuffer α :=
  let numSamples := buffer.numSamples
  let p := resizeScratch p numSamples
  let p := { p with dryBuffer := p.dryBuffer.makeCopyOf buffer }
  let st := forLoop numSamples (processIndex M) (p, buffer)
  (postStages M st.1, st.2)

/-- The member `processBlock (buffer)`: the new processor and the buffer processed in place. -/
def processBlock (M : CMath α) (p : ChasmDSPProcessor α J) (buffer : AudioBuffer α) :
    ChasmDSPProcessor α J × AudioBuffer α :=
  forLoop buffer.numSamples mixIndex (wetPath M p buffer)

end ChasmDSPProcessor

/-! ## States reachable through the public interface -/

/-- The smoothers a client can build: default construction followed by any calls of the
public members, `prepare` with a positive sample rate (its `jassert`). -/
inductive ParameterSmoother.Reachable {α : Type} [LinearOrderedField α] (M : CMath α) :
    ParameterSmoother α → Prop where
  | default : Reachable M ParameterSmoother.default
  | prepare (s : ParameterSmoother α) (sampleRate ms : α) :
      Reachable M s → 0 < sampleRate → Reachable M (s.prepare M sampleRate ms)
  | setTargetValue (s : ParameterSmoother α) (v : α) :
      Reachable M s → Reachable M (s.setTargetValue v)
  | getNextValue (s : ParameterSmoother α) :
      Reachable M s → Reachable M s.getNextValue.2
  | processBlock (s : ParameterSmoother α) (samples : Nat → α) (numSamples : Nat) (v : α) :
      Reachable M s → Reachable M (s.processBlock samples numSamples v).2
  | snapToTargetValue (s : ParameterSmoother α) :
      Reachable M s → Reachable M s.snapToTargetValue
  | reset (s : ParameterSmoother α) (v : α) :
      Reachable M s → Reachable M (s.reset v)

/-- The allpass filters a client can build: default construction followed by any calls of
the public members. -/
inductive AllpassFilter.Reachable {α : Type} [LinearOrderedField α] [FloorRing α] :
    AllpassFilter α → Prop where
  | default : Reachable AllpassFilter.default
  | prepare (f : AllpassFilter α) (sampleRate maxDelayMs : α) :
      Reachable f → Reachable (f.prepare sampleRate maxDelayMs)
  | setDelayTime (f : AllpassFilter α) (delayMs : α) :
      Reachable f → Reachable (f.setDelayTime delayMs)
  | setFeedback (f : AllpassFilter α) (g : α) :
      Reachable f → Reachable (f.setFeedback g)
  | processSample (f : AllpassFilter α) (x : α) :
      Reachable f → Reachable (f.processSample x).2
  | reset (f : AllpassFilter α) :
      Reachable f → Reachable f.reset

/-! ## Concrete instances used to evaluate the embedding -/

/-- A rational stand-in for `<cmath>`: first-order approximations, no NaN, no infinity. -/
def CMath.rational : CMath ℚ :=
  { exp := fun x => 1 + x, log := fun x => x - 1, tanh := fun x => x, pow := fun x _ => x,
    isnan := fun _ => false, isinf := fun _ => false }

/-- A JUCE instance whose classes are stateless and pass audio through unchanged. -/
def Juce.passThrough : Juce ℚ :=
  { approximatelyEqual := fun a b => decide (a = b), decibelsToGain := fun x => x,
    SVF := Unit, svfDefault := (), svfSetType := fun s _ => s, svfSetResonance := fun s _ => s,
    svfSetCutoffFrequency := fun s _ => s, svfPrepare := fun s _ => s, svfReset := fun s => s,
    svfProcessSample := fun s _ x => (x, s),
    IIR := Unit, iirDefault := (), iirPrepare := fun s _ => s, iirReset := fun s => s,
    iirSetHighShelf := fun s _ _ _ _ => s, iirProcess := fun s b => (b, s),
    Gain := Unit, gainDefault := (), gainPrepare := fun s _ => s, gainReset := fun s => s,
    gainSetGainLinear := fun s _ => s, gainProcess := fun s b => (b, s),
    gainProcessSample := fun s x => (x, s),
    Envelope := Unit, envelopeDefault := (), envelopePrepare := fun s _ => s,
    envelopeReset := fun s => s, compressorProcess := fun _ _ _ _ s b => (b, s),
    compressorProcessSample := fun _ _ _ _ s x => (x, s) }

/-! ## Driving an allpass filter with an input sequence -/

namespace AllpassFilter

variable {α : Type} [LinearOrderedField α] [FloorRing α]

/-- One sample period of a client that sets the delay length (in samples) to `delay` and then
calls `processSample (input)`. -/
def step (f : AllpassFilter α) (delay input : α) : α × AllpassFilter α :=
  processSample { f with delaySamples := delay } input

/-- The filter after the first `n` samples of `x`, the delay length before sample `k` being
`delay k`. -/
def run (f0 : AllpassFilter α) (delay x : Nat → α) : Nat → AllpassFilter α
  | 0 => f0
  | n + 1 => (step (run f0 delay x n) (delay n) (x n)).2

/-- The output sample `y[n]` of the run. -/
def output (f0 : AllpassFilter α) (delay x : Nat → α) (n : Nat) : α :=
  (step (run f0 delay x n) (delay n) (x n)).1

/-- The delayed sample `d` that `processSample` reads while it processes sample `n` of a run. -/
def delayed (f0 : AllpassFilter α) (delay x : Nat → α) (n : Nat) : α :=
  getInterpolatedSample { run f0 delay x n with delaySamples := delay n }

/-- The delayed sample in the words of the specification: with `p = writeIndex - delaySamples`
(plus capacity if negative), `i1 = floor p mod capacity`, `i2 = (i1 + 1) mod capacity` and
`f = p - floor p`, the value `(1 - f) * line[i1] + f * line[i2]`. -/
def delayedSampleSpec (f : AllpassFilter α) : α :=
  let capacity := f.delayLine.length
  let p0 := (f.writeIndex : α) - f.delaySamples
  let p := if p0 < 0 then p0 + (capacity : α) else p0
  let i1 := (Int.floor p % (capacity : Int)).toNat
  let i2 := (i1 + 1) % capacity
  let fr := p - (Int.floor p : α)
  (1 - fr) * f.delayLine.getD i1 0 + fr * f.delayLine.getD i2 0

/-- The unit impulse `1, 0, 0, ...`. -/
def impulse : Nat → ℚ := fun n => if n = 0 then 1 else 0

end AllpassFilter

/-! ## What the final mix loop reads -/

/-- The state that the final sample loop of `processBlock` reads besides the wet buffer: the
dry buffer, the mix smoother and the output-gain smoother. -/
def ChasmDSPProcessor.mixInputs {α : Type} {J : Juce α} (p : ChasmDSPProcessor α J) :
    AudioBuffer α × ParameterSmoother α × ParameterSmoother α :=
  (p.dryBuffer, p.mixSmoother, p.outputGainSmoother)

/-- A stereo test block of two samples: left `(1, 2)`, right `(3, 5)`. -/
def AudioBuffer.stereoRamp : AudioBuffer ℚ :=
  { numChannels := 2, numSamples := 2,
    data := fun c j => if c = 0 then (j : ℚ) + 1 else 2 * (j : ℚ) + 3 }

/-! ## The loudness stage up to its post-compressor -/

/-- The part of `MakeItLoud::processBlock` between the two early exits and the
post-compressor: pre-compressor, input gain, boost gain and the waveshaping loop.  It returns
the buffer that is handed to the post-compressor and the stage at that point. -/
def MakeItLoud.beforePostCompressor {α : Type} [LinearOrderedField α] {J : Juce α}
    (M : CMath α) (m : MakeItLoud α J) (buffer : AudioBuffer α) :
    AudioBuffer α × MakeItLoud α J :=
  let r1 := m._preCompressor.process buffer
  let m1 := { m with _preCompressor := r1.2 }
  let m2 := { m1 with _inputGain := J.gainSetGainLinear m1._inputGain m1._inputGainValue }
  let r2 := J.gainProcess m2._inputGain r1.1
  let m3 := { m2 with _inputGain := r2.2 }
  let m4 := { m3 with _boostGain := J.gainSetGainLinear m3._boostGain m3._boostValue }
  let r3 := J.gainProcess m4._boostGain r2.1
  let m5 := { m4 with _boostGain := r3.2 }
  let shaped := forLoop r3.1.numChannels
    (fun channel b => forLoop b.numSamples
      (fun i b1 => b1.setSample channel i (MakeItLoud.waveshape M m5 (b1.getSample channel i))) b)
    r3.1
  (shaped, m5)

/-- A JUCE instance on the rationals whose `Gain` multiplies by its linear gain (zero ramp
length, as after `prepare`); the filters and the compressor pass audio through.  The
comparison `approximatelyEqual` is a parameter. -/
def Juce.scaling (approximatelyEqual : ℚ → ℚ → Bool) : Juce ℚ :=
  { approximatelyEqual := approximatelyEqual, decibelsToGain := fun x => x,
    SVF := Unit, svfDefault := (), svfSetType := fun s _ => s, svfSetResonance := fun s _ => s,
    svfSetCutoffFrequency := fun s _ => s, svfPrepare := fun s _ => s, svfReset := fun s => s,
    svfProcessSample := fun s _ x => (x, s),
    IIR := Unit, iirDefault := (), iirPrepare := fun s _ => s, iirReset := fun s => s,
    iirSetHighShelf := fun s _ _ _ _ => s, iirProcess := fun s b => (b, s),
    Gain := ℚ, gainDefault := 1, gainPrepare := fun g _ => g, gainReset := fun g => g,
    gainSetGainLinear := fun _ v => v,
    gainProcess := fun g b => ({ b with data := fun c j => b.data c j * g }, g),
    gainProcessSample := fun g x => (x * g, g),
    Envelope := Unit, envelopeDefault := (), envelopePrepare := fun s _ => s,
    envelopeReset := fun s => s, compressorProcess := fun _ _ _ _ s b => (b, s),
    compressorProcessSample := fun _ _ _ _ s x => (x, s) }

/-- The body of the sample loop of `HaasEffect::processBlock` at index `i`. -/
def HaasEffect.processIndex {α : Type} [LinearOrderedField α] [FloorRing α] (i : Nat)
    (st : AudioBuffer α × HaasEffect α) : AudioBuffer α × HaasEffect α :=
  let h1 := HaasEffect.updateParameters st.2
  let r := h1.rightDelay.processSample (st.1.getSample 1 i)
  (st.1.setSample 1 i r.1, { h1 with rightDelay := r.2 })

/-- A Haas effect prepared at 1000 Hz (a delay line of 51 cells), in cleared state, whose
delay smoother rests at `d` milliseconds. -/
def HaasEffect.preparedAt (d : ℚ) : HaasEffect ℚ :=
  let h := (HaasEffect.default : HaasEffect ℚ).prepare CMath.rational 1000 512
  { h with delaySmoother := h.delaySmoother.reset d }

/-! ## The cut-off bookkeeping of the processor -/

/-- The function `juce::approximatelyEqual` on `float` values, written on the rationals: equal
up to the absolute tolerance `std::numeric_limits<float>::min () = 2^-126` or up to the
relative tolerance `std::numeric_limits<float>::epsilon () = 2^-23`. -/
def floatApproximatelyEqual (a b : ℚ) : Bool :=
  decide (|a - b| ≤ 1 / 2 ^ 126 ∨ |a - b| ≤ 1 / 2 ^ 23 * max |a| |b|)

/-- A stereo block of one sample: left 1, right 3. -/
def AudioBuffer.stereoOne : AudioBuffer ℚ :=
  { numChannels := 2, numSamples := 1, data := fun c _ => if c = 0 then 1 else 3 }

namespace ChasmDSPProcessor

variable {α : Type} [LinearOrderedField α] [FloorRing α] {J : Juce α}

/-- Everything the cut-off update of the sample loop reads and writes, the filters apart: the
two smoothers, the cached cut-offs, the active flags and the clamp limits. -/
def cutState (p : ChasmDSPProcessor α J) :
    ParameterSmoother α × ParameterSmoother α × α × α × Bool × Bool × α × α × α × α :=
  (p.lowCutSmoother, p.highCutSmoother, p.lastLowCut, p.lastHighCut, p.lowCutActive,
    p.highCutActive, p.lowCutMin, p.lowCutMax, p.highCutMin, p.highCutMax)

/-- The cut-off update of one iteration of the sample loop: low cut, then high cut. -/
def cutStep (p : ChasmDSPProcessor α J) : ChasmDSPProcessor α J :=
  updateHighCut (updateLowCut p)

/-- The invariant of the cut-off bookkeeping: the clamp limits are those of construction, and
an active flag is set only while the cached cut-off is inside the audible side of its
threshold. -/
def CutInv (p : ChasmDSPProcessor α J) : Prop :=
  p.lowCutMin = 0 ∧ p.highCutMax = 44100 * (1 / 2) - 1
  ∧ (p.lowCutActive = true → 1 < p.lastLowCut)
  ∧ (p.highCutActive = true → p.lastHighCut < 19999)

/-- The smoothed controls and the processor with which sample `i` is processed: the controls
advanced, the cut-offs updated and, every 32 samples, the components refreshed. -/
def atSample (i : Nat) (p : ChasmDSPProcessor α J) :
    SmoothedControls α × ChasmDSPProcessor α J :=
  let c := advanceControls p
  let q : ChasmDSPProcessor α J := updateHighCut (updateLowCut c.2)
  let q : ChasmDSPProcessor α J :=
    if i = 0 ∨ shouldUpdateDSPComponents i = true then
      updateDSPComponents q c.1.delay c.1.brightness c.1.character c.1.width c.1.haasAmount
    else q
  (c.1, q)

/-- The processor and the buffer at the start of iteration `i` of the first sample loop of
`processBlock (buffer)`. -/
def beforeIndex (M : CMath α) (p : ChasmDSPProcessor α J) (buffer : AudioBuffer α) (i : Nat) :
    ChasmDSPProcessor α J × AudioBuffer α :=
  forLoop i (processIndex M)
    ({ resizeScratch p buffer.numSamples with
        dryBuffer := (resizeScratch p buffer.numSamples).dryBuffer.makeCopyOf buffer }, buffer)

/-- The processors a client can build: construction followed by any calls of `prepare`,
`reset`, `updateParameters` and `processBlock`. -/
inductive Reachable (M : CMath α) : ChasmDSPProcessor α J → Prop where
  | default : Reachable M ChasmDSPProcessor.default
  | prepare (p : ChasmDSPProcessor α J) (spec : ProcessSpec α)
      (a1 a2 a3 a4 a5 a6 a7 a8 a9 a10 a11 : α) (mode : Int) (a13 : α) :
      Reachable M p → Reachable M (p.prepare M spec a1 a2 a3 a4 a5 a6 a7 a8 a9 a10 a11 mode a13)
  | reset (p : ChasmDSPProcessor α J)
      (a1 a2 a3 a4 a5 a6 a7 a8 a9 a10 a11 : α) (mode : Int) (a13 : α) :
      Reachable M p → Reachable M (p.reset a1 a2 a3 a4 a5 a6 a7 a8 a9 a10 a11 mode a13)
  | updateParameters (p : ChasmDSPProcessor α J)
      (a1 a2 a3 a4 a5 a6 a7 a8 a9 a10 a11 : α) (mode : Int) (a13 : α) :
      Reachable M p →
        Reachable M (p.updateParameters M a1 a2 a3 a4 a5 a6 a7 a8 a9 a10 a11 mode a13)
  | processBlock (p : ChasmDSPProcessor α J) (buffer : AudioBuffer α) :
      Reachable M p → Reachable M (p.processBlock M buffer).1

end ChasmDSPProcessor

namespace ChasmDSPProcessor

variable {α : Type} [LinearOrderedField α] [FloorRing α] {J : Juce α}

/-- The processor with which sample `i` of `processBlock (buffer)` is processed. -/
def processorAt (M : CMath α) (p : ChasmDSPProcessor α J) (buffer : AudioBuffer α) (i : Nat) :
    ChasmDSPProcessor α J :=
  (atSample i (beforeIndex M p buffer i).1).2

/-- The input gain with which sample `i` of `processBlock (buffer)` is processed. -/
def inputGainAt (M : CMath α) (p : ChasmDSPProcessor α J) (buffer : AudioBuffer α) (i : Nat) :
    α :=
  (atSample i (beforeIndex M p buffer i).1).1.inputGain

/-- The smoothed low-cut cut-off of sample `i` of `processBlock (buffer)`. -/
def lowCutAt (M : CMath α) (p : ChasmDSPProcessor α J) (buffer : AudioBuffer α) (i : Nat) : α :=
  ((beforeIndex M p buffer i).1.lowCutSmoother.getNextValue).1

/-- The smoothed high-cut cut-off of sample `i` of `processBlock (buffer)`. -/
def highCutAt (M : CMath α) (p : ChasmDSPProcessor α J) (buffer : AudioBuffer α) (i : Nat) : α :=
  ((beforeIndex M p buffer i).1.highCutSmoother.getNextValue).1

/-- The processor and the buffer after iteration `i` of the first sample loop of
`processBlock (buffer)`. -/
def afterIndex (M : CMath α) (p : ChasmDSPProcessor α J) (buffer : AudioBuffer α) (i : Nat) :
    ChasmDSPProcessor α J × AudioBuffer α :=
  processIndex M i (beforeIndex M p buffer i)

/-- The wet buffer of the stereo path right after the scaled input sample `i` was copied into
it, that is, what the allpass chains read. -/
def chainInputAt (M : CMath α) (p : ChasmDSPProcessor α J) (buffer : AudioBuffer α) (i : Nat) :
    AudioBuffer α :=
  copyToWet (processorAt M p buffer i).wetBuffer
    (applyInputGain (beforeIndex M p buffer i).2 i (inputGainAt M p buffer i)) i

end ChasmDSPProcessor

/-- A processor, with `juce::approximatelyEqual` at `float` tolerance, prepared with a
low-cut cut-off of `1 + 2^-23` Hz (the `float` next above 1). -/
def ChasmDSPProcessor.preparedAboveThreshold :
    ChasmDSPProcessor ℚ (Juce.scaling floatApproximatelyEqual) :=
  (ChasmDSPProcessor.default : ChasmDSPProcessor ℚ (Juce.scaling floatApproximatelyEqual)).prepare
    CMath.rational ⟨44100, 1, 2⟩ 1 1 (1 / 2) 30 0 1 (1 + 1 / 2 ^ 23) 20000 100 1 0 0 0

/-- The processor `preparedAboveThreshold` after it has processed one stereo sample and was
then reset with a low-cut cut-off of exactly 1 Hz. -/
def ChasmDSPProcessor.resetAtThreshold :
    ChasmDSPProcessor ℚ (Juce.scaling floatApproximatelyEqual) :=
  (ChasmDSPProcessor.preparedAboveThreshold.processBlock CMath.rational AudioBuffer.stereoOne).1.reset
    1 1 (1 / 2) 30 0 1 1 20000 100 1 0 0 0

/-! ## Silence -/

/-- Every sample of the block is zero. -/
def AudioBuffer.Silent {α : Type} [LinearOrderedField α] (b : AudioBuffer α) : Prop :=
  ∀ c j, c < b.numChannels → j < b.numSamples → b.data c j = 0

/-- What passing silence through the JUCE classes takes: each state type has a set of cleared
states (`svfRest`, `iirRest`, `envRest`); `reset ()` yields a cleared state and the setters of
coefficients keep it; a cleared filter or compressor maps silence to silence, keeps the
dimensions of the block and stays cleared; `Gain` maps silence to silence in every state. -/
structure Juce.SilenceLaws {α : Type} [LinearOrderedField α] (J : Juce α)
    (svfRest : J.SVF → Prop) (iirRest : J.IIR → Prop) (envRest : J.Envelope → Prop) : Prop where
  svfReset_rest : ∀ s, svfRest (J.svfReset s)
  svfSetCutoffFrequency_rest : ∀ s f, svfRest s → svfRest (J.svfSetCutoffFrequency s f)
  svfProcessSample_zero : ∀ s channel, svfRest s →
    (J.svfProcessSample s channel 0).1 = 0 ∧ svfRest (J.svfProcessSample s channel 0).2
  iirReset_rest : ∀ s, iirRest (J.iirReset s)
  iirSetHighShelf_rest : ∀ s sampleRate cutOff q gainFactor, iirRest s →
    iirRest (J.iirSetHighShelf s sampleRate cutOff q gainFactor)
  iirProcess_silent : ∀ s b, iirRest s → b.Silent →
    (J.iirProcess s b).1.Silent ∧ (J.iirProcess s b).1.numChannels = b.numChannels
      ∧ (J.iirProcess s b).1.numSamples = b.numSamples ∧ iirRest (J.iirProcess s b).2
  envelopeReset_rest : ∀ e, envRest (J.envelopeReset e)
  compressorProcess_silent : ∀ threshold ratio attack release e b, envRest e → b.Silent →
    (J.compressorProcess threshold ratio attack release e b).1.Silent
      ∧ (J.compressorProcess threshold ratio attack release e b).1.numChannels = b.numChannels
      ∧ (J.compressorProcess threshold ratio attack release e b).1.numSamples = b.numSamples
      ∧ envRest (J.compressorProcess threshold ratio attack release e b).2
  gainProcess_silent : ∀ g b, b.Silent →
    (J.gainProcess g b).1.Silent ∧ (J.gainProcess g b).1.numChannels = b.numChannels
      ∧ (J.gainProcess g b).1.numSamples = b.numSamples

/-- A stereo processor whose internal state is cleared: all delay lines of the two chains and
of the Haas effect hold only zeros, and the two cut filters, the brightness filter and the
two compressors are in cleared states. -/
def ChasmDSPProcessor.Cleared {α : Type} [LinearOrderedField α] [FloorRing α] {J : Juce α}
    (svfRest : J.SVF → Prop) (iirRest : J.IIR → Prop) (envRest : J.Envelope → Prop)
    (p : ChasmDSPProcessor α J) : Prop :=
  (∀ f ∈ p.leftAllpassChain.allpassFilters, ∀ v ∈ f.delayLine, v = 0)
  ∧ (∀ f ∈ p.rightAllpassChain.allpassFilters, ∀ v ∈ f.delayLine, v = 0)
  ∧ (∀ v ∈ p.haasEffect.rightDelay.delayLine, v = 0)
  ∧ svfRest p.lowCutFilter ∧ svfRest p.highCutFilter
  ∧ iirRest p.brightnessEQ.highShelfFilterDuplicator
  ∧ envRest p.makeItLoud._preCompressor.envelope
  ∧ envRest p.makeItLoud._postCompressor.envelope
  ∧ p.numChannels = 2 ∧ p.wetBuffer.numChannels = 2

/-- A silent stereo block of two samples. -/
def AudioBuffer.stereoSilence : AudioBuffer ℚ :=
  { numChannels := 2, numSamples := 2, data := fun _ _ => 0 }

/-- Everything the passage of silence through the processor reads, the two cut filters
apart: the chains, the Haas effect, the brightness EQ, the loudness stage, the channel count
and the wet buffer. -/
def ChasmDSPProcessor.quietState {α : Type} [LinearOrderedField α] [FloorRing α] {J : Juce α}
    (p : ChasmDSPProcessor α J) :
    SchroederAllpassChain α × SchroederAllpassChain α × HaasEffect α × BrightnessEQ α J
      × MakeItLoud α J × Nat × AudioBuffer α :=
  (p.leftAllpassChain, p.rightAllpassChain, p.haasEffect, p.brightnessEQ, p.makeItLoud,
    p.numChannels, p.wetBuffer)

/-! ## The allpass chain after `prepare` -/

/-- The local `feedback` of `SchroederAllpassChain::updateParameters` as a function of the
smoothed character. -/
def SchroederAllpassChain.feedbackOf {α : Type} [LinearOrderedField α] (M : CMath α)
    (character : α) : α :=
  jlimit (1 / 10) (9 / 10) (3 / 10 + 6 / 10 * (M.log character / M.log 10))

/-- A chain as `prepare (sampleRate, ...)` leaves its filters: four filters, each running at
`sampleRate` with a delay line of `floor (100 * 0.001 * sampleRate) + 1` cells. -/
def SchroederAllpassChain.PreparedAt {α : Type} [LinearOrderedField α] [FloorRing α]
    (sampleRate : α) (c : SchroederAllpassChain α) : Prop :=
  c.allpassFilters.length = 4
  ∧ ∀ f ∈ c.allpassFilters,
      f._sampleRate = sampleRate
      ∧ f.delayLine.length = Nat.floor (100 * (1 / 1000) * sampleRate) + 1

/-- The default chain prepared at 8000 Hz with a base delay of 100 ms and character 1. -/
def SchroederAllpassChain.preparedAtMaxDelay : SchroederAllpassChain ℚ :=
  (SchroederAllpassChain.default : SchroederAllpassChain ℚ).prepare CMath.rational 8000 100 1

/-- The stereo enhancers a client can build: default construction followed by any calls of
`prepare` (with a positive sample rate, the `jassert` of the smoother), `reset`, `setWidth`
and `processBlock`. -/
inductive StereoEnhancer.Reachable {α : Type} [LinearOrderedField α] (M : CMath α) :
    StereoEnhancer α → Prop where
  | default : Reachable M StereoEnhancer.default
  | prepare (e : StereoEnhancer α) (sampleRate : α) :
      Reachable M e → 0 < sampleRate → Reachable M (e.prepare M sampleRate)
  | reset (e : StereoEnhancer α) : Reachable M e → Reachable M e.reset
  | setWidth (e : StereoEnhancer α) (widthPercent : α) :
      Reachable M e → Reachable M (e.setWidth widthPercent)
  | processBlock (e : StereoEnhancer α) (buffer : AudioBuffer α) :
      Reachable M e → Reachable M (e.processBlock buffer).2

/-- The invariant of the width smoother of the enhancer: a coefficient in `(0, 1]`, current
and target width in `[0, 200]`, and a width gain in `[0, 2]`. -/
def StereoEnhancer.WidthInv {α : Type} [LinearOrderedField α] (e : StereoEnhancer α) : Prop :=
  (0 < e.widthSmoother.smoothingCoeff ∧ e.widthSmoother.smoothingCoeff ≤ 1)
  ∧ (0 ≤ e.widthSmoother.currentValue ∧ e.widthSmoother.currentValue ≤ 200)
  ∧ (0 ≤ e.widthSmoother.targetValue ∧ e.widthSmoother.targetValue ≤ 200)
  ∧ (0 ≤ e.currentWidthGain ∧ e.currentWidthGain ≤ 2)

/-- What the sources rely on when they hand a block to a JUCE processor in place: the
processor keeps the dimensions of the block. -/
structure Juce.KeepsDimensions {α : Type} [LinearOrderedField α] (J : Juce α) : Prop where
  iirProcess_dims : ∀ s b, (J.iirProcess s b).1.numChannels = b.numChannels
    ∧ (J.iirProcess s b).1.numSamples = b.numSamples
  gainProcess_dims : ∀ g b, (J.gainProcess g b).1.numChannels = b.numChannels
    ∧ (J.gainProcess g b).1.numSamples = b.numSamples
  compressorProcess_dims : ∀ threshold ratio attack release e b,
    (J.compressorProcess threshold ratio attack release e b).1.numChannels = b.numChannels
    ∧ (J.compressorProcess threshold ratio attack release e b).1.numSamples = b.numSamples

/-- The default processor (pass-through JUCE classes) prepared for stereo blocks of up to 512
samples at 44100 Hz with the default control values. -/
def ChasmDSPProcessor.preparedStereo : ChasmDSPProcessor ℚ Juce.passThrough :=
  (ChasmDSPProcessor.default : ChasmDSPProcessor ℚ Juce.passThrough).prepare CMath.rational
    ⟨44100, 512, 2⟩ 1 1 (1 / 2) 30 0 1 0 0 100 1 0 0 0

/-- A mono block of one sample with value 1. -/
def AudioBuffer.monoOne : AudioBuffer ℚ :=
  { numChannels := 1, numSamples := 1, data := fun _ _ => 1 }

namespace ChasmDSPProcessor

variable {α : Type} [LinearOrderedField α] [FloorRing α] {J : Juce α}

/-- The smoothers that neither the cut-off update nor the mix loop reads: the six read at the
top of the first sample loop and the two of the loudness stage. -/
def controlSmoothers (p : ChasmDSPProcessor α J) :
    ParameterSmoother α × ParameterSmoother α × ParameterSmoother α × ParameterSmoother α
      × ParameterSmoother α × ParameterSmoother α × ParameterSmoother α × ParameterSmoother α :=
  (p.inputGainSmoother, p.delaySmoother, p.brightnessSmoother, p.characterSmoother,
    p.widthSmoother, p.haasSmoother, p.mil_InputGainSmoother, p.mil_BoostSmoother)

/-- The sub-components that `updateDSPComponents` writes. -/
def components (p : ChasmDSPProcessor α J) :
    SchroederAllpassChain α × SchroederAllpassChain α × BrightnessEQ α J × StereoEnhancer α
      × HaasEffect α :=
  (p.leftAllpassChain, p.rightAllpassChain, p.brightnessEQ, p.stereoEnhancer, p.haasEffect)

end ChasmDSPProcessor

namespace ChasmDSPProcessor

variable {α : Type} [LinearOrderedField α] [FloorRing α] {J : Juce α}

/-- The processor right after the first sample loop of `processBlock (buffer)`; its wet
buffer is what the per-sample stage has produced. -/
def afterFirstLoop (M : CMath α) (p : ChasmDSPProcessor α J) (buffer : AudioBuffer α) :
    ChasmDSPProcessor α J :=
  (beforeIndex M p buffer buffer.numSamples).1

end ChasmDSPProcessor

/-- The processor `preparedStereo` after an `updateParameters` call that asks for 6 dB of
loudness input gain and 3 dB of boost. -/
def ChasmDSPProcessor.retargetedStereo : ChasmDSPProcessor ℚ Juce.passThrough :=
  ChasmDSPProcessor.preparedStereo.updateParameters CMath.rational 0 0 50 30 0 1 0 0 100 6 3 0 0

namespace ChasmDSPProcessor

variable {α : Type} [LinearOrderedField α] [FloorRing α] {J : Juce α}

/-- The part of the cut-off bookkeeping that complements `CutInv`: the remaining two clamp
limits are those of construction, and the low-cut flag is set exactly while the cached low-cut
cut-off is above 1 Hz. -/
def CutExact (p : ChasmDSPProcessor α J) : Prop :=
  p.lowCutMax = 44100 * (1 / 2) - 1 ∧ p.highCutMin = 0
  ∧ (p.lowCutActive = true ↔ 1 < p.lastLowCut)

end ChasmDSPProcessor

/-- A processor with pass-through JUCE classes prepared at 32000 Hz with a high-cut cut-off of
20000 Hz. -/
def ChasmDSPProcessor.preparedAt32k : ChasmDSPProcessor ℚ Juce.passThrough :=
  (ChasmDSPProcessor.default : ChasmDSPProcessor ℚ Juce.passThrough).prepare CMath.rational
    ⟨32000, 512, 2⟩ 1 1 (1 / 2) 30 0 1 0 20000 100 1 0 0 0

namespace ChasmDSPProcessor

variable {α : Type} [LinearOrderedField α] [FloorRing α] {J : Juce α}

/-- The processors a client can build when every `prepare` gets a positive sample rate and
every `prepare` and `reset` a mix value in `[0, 1]`: construction or `prepare` of any
processor, followed by any calls of `prepare`, `reset`, `updateParameters` (with arbitrary
arguments) and `processBlock`. -/
inductive ReachableWithUnitMix (M : CMath α) : ChasmDSPProcessor α J → Prop where
  | default : ReachableWithUnitMix M ChasmDSPProcessor.default
  | prepare (p : ChasmDSPProcessor α J) (spec : ProcessSpec α)
      (a1 a2 mix a4 a5 a6 a7 a8 a9 a10 a11 : α) (mode : Int) (a13 : α) :
      0 < spec.sampleRate → 0 ≤ mix → mix ≤ 1 →
        ReachableWithUnitMix M (p.prepare M spec a1 a2 mix a4 a5 a6 a7 a8 a9 a10 a11 mode a13)
  | reset (p : ChasmDSPProcessor α J)
      (a1 a2 mix a4 a5 a6 a7 a8 a9 a10 a11 : α) (mode : Int) (a13 : α) :
      ReachableWithUnitMix M p → 0 ≤ mix → mix ≤ 1 →
        ReachableWithUnitMix M (p.reset a1 a2 mix a4 a5 a6 a7 a8 a9 a10 a11 mode a13)
  | updateParameters (p : ChasmDSPProcessor α J)
      (a1 a2 a3 a4 a5 a6 a7 a8 a9 a10 a11 : α) (mode : Int) (a13 : α) :
      ReachableWithUnitMix M p →
        ReachableWithUnitMix M (p.updateParameters M a1 a2 a3 a4 a5 a6 a7 a8 a9 a10 a11 mode a13)
  | processBlock (p : ChasmDSPProcessor α J) (buffer : AudioBuffer α) :
      ReachableWithUnitMix M p → ReachableWithUnitMix M (p.processBlock M buffer).1

/-- The invariant of the mix smoother: coefficient, current value and target value all lie in
`[0, 1]`. -/
def UnitMix (s : ParameterSmoother α) : Prop :=
  (0 ≤ s.smoothingCoeff ∧ s.smoothingCoeff ≤ 1)
  ∧ (0 ≤ s.currentValue ∧ s.currentValue ≤ 1)
  ∧ (0 ≤ s.targetValue ∧ s.targetValue ≤ 1)

end ChasmDSPProcessor

/-- A JUCE instance over any sample type whose classes are stateless and pass audio through
unchanged, and whose `approximatelyEqual` holds for no pair of values. -/
def Juce.stateless (α : Type) : Juce α :=
  { approximatelyEqual := fun _ _ => false, decibelsToGain := fun x => x,
    SVF := Unit, svfDefault := (), svfSetType := fun s _ => s, svfSetResonance := fun s _ => s,
    svfSetCutoffFrequency := fun s _ => s, svfPrepare := fun s _ => s, svfReset := fun s => s,
    svfProcessSample := fun s _ x => (x, s),
    IIR := Unit, iirDefault := (), iirPrepare := fun s _ => s, iirReset := fun s => s,
    iirSetHighShelf := fun s _ _ _ _ => s, iirProcess := fun s b => (b, s),
    Gain := Unit, gainDefault := (), gainPrepare := fun s _ => s, gainReset := fun s => s,
    gainSetGainLinear := fun s _ => s, gainProcess := fun s b => (b, s),
    gainProcessSample := fun s x => (x, s),
    Envelope := Unit, envelopeDefault := (), envelopePrepare := fun s _ => s,
    envelopeReset := fun s => s, compressorProcess := fun _ _ _ _ s b => (b, s),
    compressorProcessSample := fun _ _ _ _ s x => (x, s) }

/-! ## `Effects/Limiter.h` -/

/-- The class `Effects::SmoothLimiter<SampleType>`. -/
structure SmoothLimiter (α : Type) (J : Juce α) where
  _sampleRate : α
  _enabled : Bool
  _ceiling : α
  _threshold : α
  _envelopeFollower : α
  _attackCoeff : α
  _releaseCoeff : α
  _compressor : Compressor α J

namespace SmoothLimiter

variable {α : Type} [LinearOrderedField α] {J : Juce α}

/-- The default-constructed limiter (the member initialisers of the class). -/
def default : SmoothLimiter α J :=
  { _sampleRate := 44100, _enabled := true, _ceiling := 1, _threshold := 8 / 10,
    _envelopeFollower := 0, _attackCoeff := 9 / 10, _releaseCoeff := 1 / 100,
    _compressor := Compressor.default }

/-- The member `reset ()`. -/
def reset (l : SmoothLimiter α J) : SmoothLimiter α J :=
  { l with _compressor := l._compressor.reset, _envelopeFollower := 0 }

/-- The member `prepare (newSampleRate)`. -/
def prepare (l : SmoothLimiter α J) (newSampleRate : α) : SmoothLimiter α J :=
  let l := { l with _sampleRate := newSampleRate }
  let l := { l with _compressor := l._compressor.prepare ⟨l._sampleRate, 256, 2⟩ }
  let l := { l with _compressor := l._compressor.setAttack (1 / 10) }
  let l := { l with _compressor := l._compressor.setRelease 10 }
  let l := { l with _compressor := l._compressor.setThreshold (-0) }
  let l := { l with _compressor := l._compressor.setRatio 20 }
  reset l

/-- The member `setEnabled (shouldBeEnabled)`. -/
def setEnabled (l : SmoothLimiter α J) (shouldBeEnabled : Bool) : SmoothLimiter α J :=
  { l with _enabled := shouldBeEnabled }

/-- The member `setCeiling (ceilingDb)`. -/
def setCeiling (l : SmoothLimiter α J) (ceilingDb : α) : SmoothLimiter α J :=
  { l with _ceiling := J.decibelsToGain ceilingDb }

/-- The private member `softClip (input)`. -/
def softClip (M : CMath α) (input : α) : α :=
  M.tanh (input * 2) * (1 / 2)

/-- The private member `dynamicLimit (input)`: the returned sample and the new limiter. -/
def dynamicLimit (l : SmoothLimiter α J) (input : α) : α × SmoothLimiter α J :=
  let inputLevel : α := |input|
  let l : SmoothLimiter α J :=
    if inputLevel > l._envelopeFollower then
      { l with _envelopeFollower :=
          l._envelopeFollower + (inputLevel - l._envelopeFollower) * l._attackCoeff }
    else
      { l with _envelopeFollower :=
          l._envelopeFollower + (inputLevel - l._envelopeFollower) * l._releaseCoeff }
  let gainReduction : α :=
    if l._envelopeFollower > l._threshold then
      l._threshold / (l._envelopeFollower + 1 / 1000000)
    else 1
  (input * gainReduction, l)

/-- The member `processSample (input)`: the returned sample and the new limiter. -/
def processSample (M : CMath α) (l : SmoothLimiter α J) (input : α) : α × SmoothLimiter α J :=
  if !l._enabled then (input, l)
  else
    let softClipped := softClip M input
    let r := dynamicLimit l softClipped
    (jlimit (-r.2._ceiling) r.2._ceiling r.1, r.2)

/-- The member `processStereoSample (left, right)`: the two samples and the new limiter. -/
def processStereoSample (M : CMath α) (l : SmoothLimiter α J) (left right : α) :
    α × α × SmoothLimiter α J :=
  if !l._enabled then (left, right, l)
  else
    let a := processSample M l left
    let b := processSample M a.2 right
    (a.1, b.1, b.2)

/-- The member `processBlock (buffer)`. -/
def processBlock (M : CMath α) (l : SmoothLimiter α J) (buffer : AudioBuffer α) :
    AudioBuffer α × SmoothLimiter α J :=
  if !l._enabled then (buffer, l)
  else
    let numChannels := buffer.numChannels
    let numSamples := buffer.numSamples
    let st := forLoop numChannels
      (fun channel st0 => forLoop numSamples
        (fun i st1 =>
          let r := processSample M st1.2 (st1.1.getSample channel i)
          (st1.1.setSample channel i r.1, r.2)) st0)
      (buffer, l)
    if numChannels > 0 then
      let r := st.2._compressor.process st.1
      (r.1, { st.2 with _compressor := r.2 })
    else st

/-- The private member `updateCoefficients ()`, which no member calls. -/
def updateCoefficients (M : CMath α) (l : SmoothLimiter α J) : SmoothLimiter α J :=
  if l._sampleRate > 0 then
    let attackTimeMs : α := 1 / 10
    let releaseTimeMs : α := 10
    let l := { l with _attackCoeff := 1 - M.exp (-1 / (attackTimeMs * (1 / 1000) * l._sampleRate)) }
    { l with _releaseCoeff := 1 - M.exp (-1 / (releaseTimeMs * (1 / 1000) * l._sampleRate)) }
  else l

/-- The limiters a client can build: construction followed by any calls of `prepare`,
`setEnabled`, `setCeiling` (where `decibelsToGain` returns a gain that is not negative),
`reset` and `processSample`. -/
inductive Reachable (M : CMath α) : SmoothLimiter α J → Prop where
  | default : Reachable M SmoothLimiter.default
  | prepare (l : SmoothLimiter α J) (newSampleRate : α) :
      Reachable M l → Reachable M (l.prepare newSampleRate)
  | setEnabled (l : SmoothLimiter α J) (shouldBeEnabled : Bool) :
      Reachable M l → Reachable M (l.setEnabled shouldBeEnabled)
  | setCeiling (l : SmoothLimiter α J) (ceilingDb : α) :
      Reachable M l → 0 ≤ J.decibelsToGain ceilingDb → Reachable M (l.setCeiling ceilingDb)
  | reset (l : SmoothLimiter α J) : Reachable M l → Reachable M l.reset
  | processSample (l : SmoothLimiter α J) (input : α) :
      Reachable M l → Reachable M (l.processSample M input).2

/-- The invariant of the limiter: threshold and coefficients are those of construction, the
envelope follower lies in `[0, 1/2)` and the ceiling is not negative. -/
def Inv (l : SmoothLimiter α J) : Prop :=
  l._threshold = 8 / 10 ∧ l._attackCoeff = 9 / 10 ∧ l._releaseCoeff = 1 / 100
  ∧ 0 ≤ l._envelopeFollower ∧ l._envelopeFollower < 1 / 2 ∧ 0 ≤ l._ceiling

end SmoothLimiter

/-! ## `Service/PresetManager.cpp` -/

/-- What `PresetManager` reads from the preset directory: the listing of a category and the
content of a preset file.  The type `σ` is that of the plug-in state (`juce::ValueTree`). -/
structure PresetFiles (σ : Type) where
  /-- The member `getPresetsInCategory (category)`: the names of the preset files found in the
  directory of the category, in the order of the listing. -/
  getPresetsInCategory : String → List String
  /-- The value tree that `loadPreset` reads from the file of a preset in a category, stamped
  with the modification date; `none` when the file does not exist or is not valid XML. -/
  readPresetFile : String → String → Option σ

/-- The class `Service::PresetManager`: the plug-in state and the two values that refer to its
properties `presetName` and `currentCategory`. -/
structure PresetManager (σ : Type) where
  valueTreeState : σ
  currentPreset : String
  currentCategory : String

namespace PresetManager

variable {σ : Type}

/-- The constant `defaultCategory`. -/
def defaultCategory : String := "Default"

/-- The test `c >= '0' && c <= '9'` on a character. -/
def isDigit (c : Char) : Bool :=
  decide ('0'.toNat ≤ c.toNat) && decide (c.toNat ≤ '9'.toNat)

/-- The loop `while (pos < str.length () && str[pos] >= '0' && str[pos] <= '9')
{ number = number * 10 + (str[pos] - '0'); pos++; }` of `getSortPriority`, on the characters
from `pos` on; the second argument is `number`.  The `int` is modelled without wrap-around. -/
def leadingNumber : List Char → Int → Int
  | [], number => number
  | c :: rest, number =>
    if isDigit c then leadingNumber rest (number * 10 + ((c.toNat : Int) - ('0'.toNat : Int)))
    else number

/-- The lambda `getSortPriority (str)` of the comparator in `getAllCategories`. -/
def getSortPriority (str : String) : Int :=
  match str.data with
  | [] => 1000
  | firstChar :: _ =>
    if isDigit firstChar then
      Int.tdiv (leadingNumber str.data 0) 10
    else 100

/-- The comparator that `getAllCategories` passes to `std::sort`; `compareNatural` is
`juce::String::compareNatural`. -/
def categoryLess (compareNatural : String → String → Int) (a b : String) : Bool :=
  let priorityA := getSortPriority a
  let priorityB := getSortPriority b
  if priorityA ≠ priorityB then decide (priorityA < priorityB)
  else decide (compareNatural a b < 0)

/-- The member `getCurrentPreset ()`. -/
def getCurrentPreset (m : PresetManager σ) : String := m.currentPreset

/-- The member `getCurrentCategory ()`. -/
def getCurrentCategory (m : PresetManager σ) : String :=
  let category := m.currentCategory
  if category.isEmpty then defaultCategory else category

/-- The member `loadPreset (presetName, category)`. -/
def loadPreset (E : PresetFiles σ) (m : PresetManager σ) (presetName category : String) :
    PresetManager σ :=
  if presetName.isEmpty then m
  else
    let finalCategory := if category.isEmpty then getCurrentCategory m else category
    match E.readPresetFile presetName finalCategory with
    | none => m
    | some valueTreeToLoad =>
      { m with valueTreeState := valueTreeToLoad, currentPreset := presetName,
               currentCategory := finalCategory }

/-- The search loop of `juce::StringArray::indexOf`, from index `i` on. -/
def indexOfFrom : List String → String → Int → Int
  | [], _, _ => -1
  | x :: xs, s, i => if x = s then i else indexOfFrom xs s (i + 1)

/-- The call `strings.indexOf (s)`: the first index of `s`, or -1. -/
def indexOf (strings : List String) (s : String) : Int := indexOfFrom strings s 0

/-- The call `strings[index]` of `juce::StringArray`: the empty string when the index is out
of range. -/
def stringAt (strings : List String) (index : Int) : String :=
  if 0 ≤ index ∧ index < (strings.length : Int) then strings.getD index.toNat "" else ""

/-- The member `loadNextPresetInCategory (category)`: the returned index and the new
manager. -/
def loadNextPresetInCategory (E : PresetFiles σ) (m : PresetManager σ) (category : String) :
    Int × PresetManager σ :=
  let categoryPresets := E.getPresetsInCategory category
  if categoryPresets.isEmpty then (-1, m)
  else
    let currentIndex := indexOf categoryPresets (getCurrentPreset m)
    let nextIndex :=
      if currentIndex + 1 > (categoryPresets.length : Int) - 1 then 0 else currentIndex + 1
    (nextIndex, loadPreset E m (stringAt categoryPresets nextIndex) category)

/-- The member `loadPreviousPresetInCategory (category)`: the returned index and the new
manager. -/
def loadPreviousPresetInCategory (E : PresetFiles σ) (m : PresetManager σ) (category : String) :
    Int × PresetManager σ :=
  let categoryPresets := E.getPresetsInCategory category
  if categoryPresets.isEmpty then (-1, m)
  else
    let currentIndex := indexOf categoryPresets (getCurrentPreset m)
    let previousIndex :=
      if currentIndex - 1 < 0 then (categoryPresets.length : Int) - 1 else currentIndex - 1
    (previousIndex, loadPreset E m (stringAt categoryPresets previousIndex) category)

end PresetManager

/-- A smoother that moves between positive values: current value and target are positive and
the coefficient lies in `[0, 1]`, so every value it returns is positive. -/
def ParameterSmoother.PositiveRamp {α : Type} [LinearOrderedField α] (s : ParameterSmoother α) :
    Prop :=
  0 < s.currentValue ∧ 0 < s.targetValue ∧ 0 ≤ s.smoothingCoeff ∧ s.smoothingCoeff ≤ 1

/-- The local `character` of `SchroederAllpassChain::updateParameters ()`, the value that is
handed to `std::log`. -/
def SchroederAllpassChain.logArgument {α : Type} [LinearOrderedField α]
    (c : SchroederAllpassChain α) : α :=
  (c.characterSmoother.getNextValue).1

namespace ChasmDSPProcessor

variable {α : Type} [LinearOrderedField α] [FloorRing α] {J : Juce α}

/-- The character smoothers of the two allpass chains. -/
def chainCharacters (p : ChasmDSPProcessor α J) : ParameterSmoother α × ParameterSmoother α :=
  (p.leftAllpassChain.characterSmoother, p.rightAllpassChain.characterSmoother)

/-- The value that the left chain hands to `std::log` when sample `i` of
`processBlock (buffer)` is processed. -/
def leftCharacterAt (M : CMath α) (p : ChasmDSPProcessor α J) (buffer : AudioBuffer α)
    (i : Nat) : α :=
  (processorAt M p buffer i).leftAllpassChain.logArgument

/-- The value that the right chain hands to `std::log` when sample `i` of
`processBlock (buffer)` is processed on the stereo path. -/
def rightCharacterAt (M : CMath α) (p : ChasmDSPProcessor α J) (buffer : AudioBuffer α)
    (i : Nat) : α :=
  (processorAt M p buffer i).rightAllpassChain.logArgument

end ChasmDSPProcessor

/-- A processor with pass-through JUCE classes prepared at 44100 Hz for two channels with
input and output gain 1, mix 0 and character -1. -/
def ChasmDSPProcessor.preparedNegativeCharacter : ChasmDSPProcessor ℚ Juce.passThrough :=
  (ChasmDSPProcessor.default : ChasmDSPProcessor ℚ Juce.passThrough).prepare CMath.rational
    ⟨44100, 512, 2⟩ 1 1 0 30 0 (-1) 0 0 100 1 0 0 0

/-! # Verified properties -/

set_option linter.unusedSectionVars false

/-! ## Parameter smoother -/

namespace ParameterSmoother

variable {α : Type} [LinearOrderedField α]

@[simp] theorem advance_targetValue (s : ParameterSmoother α) :
    (advance s).targetValue = s.targetValue := rfl

@[simp] theorem advance_smoothingCoeff (s : ParameterSmoother α) :
    (advance s).smoothingCoeff = s.smoothingCoeff := rfl

theorem advance_currentValue (s : ParameterSmoother α) :
    (advance s).currentValue
      = s.currentValue + s.smoothingCoeff * (s.targetValue - s.currentValue) := rfl

theorem getNextValue_fst (s : ParameterSmoother α) :
    (getNextValue s).1 = (advance s).currentValue := rfl

@[simp] theorem iterate_advance_targetValue (s : ParameterSmoother α) (n : Nat) :
    (advance^[n] s).targetValue = s.targetValue := by
  induction n with
  | zero => rfl
  | succ k ih => rw [Function.iterate_succ_apply', advance_targetValue, ih]

@[simp] theorem iterate_advance_smoothingCoeff (s : ParameterSmoother α) (n : Nat) :
    (advance^[n] s).smoothingCoeff = s.smoothingCoeff := by
  induction n with
  | zero => rfl
  | succ k ih => rw [Function.iterate_succ_apply', advance_smoothingCoeff, ih]

/-- Closed form of the current value after `n` calls of `getNextValue`. -/
theorem iterate_advance_currentValue (s : ParameterSmoother α) (n : Nat) :
    (advance^[n] s).currentValue
      = s.targetValue - (1 - s.smoothingCoeff) ^ n * (s.targetValue - s.currentValue) := by
  induction n with
  | zero => simp
  | succ k ih =>
    rw [Function.iterate_succ_apply', advance_currentValue, iterate_advance_targetValue,
      iterate_advance_smoothingCoeff, ih]
    ring

/-- A smoother whose current value is its target stays there. -/
theorem iterate_advance_of_snapped (s : ParameterSmoother α) (h : s.currentValue = s.targetValue)
    (n : Nat) : (advance^[n] s).currentValue = s.targetValue := by
  rw [iterate_advance_currentValue, h]; ring

/-- The samples written by `processBlock` do not influence the coefficient. -/
theorem processBlock_smoothingCoeff (s : ParameterSmoother α) (samples : Nat → α) (n : Nat)
    (v : α) : (processBlock s samples n v).2.smoothingCoeff = s.smoothingCoeff := by
  unfold processBlock
  induction n with
  | zero => rfl
  | succ k ih => simpa [forLoop, getNextValue] using ih

end ParameterSmoother

open ParameterSmoother

/-- C7: for a smoother with coefficient `c` in `(0, 1]` and a fixed target `t`, the current
value after `n` calls of `getNextValue` is `t - (1 - c)^n * (t - v0)` (and it is the value the
`n`-th call returned); every next value lies between the previous one and the target, the
distance to the target never grows, and the values converge to the target. -/
theorem C7_smoother_geometric_convergence {α : Type} [LinearOrderedField α] [Archimedean α]
    (s : ParameterSmoother α) (hpos : 0 < s.smoothingCoeff) (hle : s.smoothingCoeff ≤ 1) :
    (∀ n : Nat, (advance^[n] s).currentValue
        = s.targetValue - (1 - s.smoothingCoeff) ^ n * (s.targetValue - s.currentValue))
    ∧ (∀ n : Nat, (getNextValue (advance^[n] s)).1 = (advance^[n + 1] s).currentValue
        ∧ (getNextValue (advance^[n] s)).2 = advance^[n + 1] s)
    ∧ (∀ n : Nat, min (advance^[n] s).currentValue s.targetValue ≤ (advance^[n + 1] s).currentValue
        ∧ (advance^[n + 1] s).currentValue ≤ max (advance^[n] s).currentValue s.targetValue)
    ∧ (∀ n : Nat, |s.targetValue - (advance^[n + 1] s).currentValue|
        ≤ |s.targetValue - (advance^[n] s).currentValue|)
    ∧ (∀ ε : α, 0 < ε → ∃ N : Nat, ∀ n : Nat, N ≤ n →
        |s.targetValue - (advance^[n] s).currentValue| < ε) := by
  have h1c : 0 ≤ 1 - s.smoothingCoeff := by linarith
  have h1c' : 1 - s.smoothingCoeff < 1 := by linarith
  have hstep : ∀ n : Nat, (advance^[n + 1] s).currentValue
      = (advance^[n] s).currentValue
        + s.smoothingCoeff * (s.targetValue - (advance^[n] s).currentValue) := by
    intro n
    rw [Function.iterate_succ_apply', advance_currentValue, iterate_advance_targetValue,
      iterate_advance_smoothingCoeff]
  have hdist : ∀ n : Nat, |s.targetValue - (advance^[n] s).currentValue|
      = (1 - s.smoothingCoeff) ^ n * |s.targetValue - s.currentValue| := by
    intro n
    rw [iterate_advance_currentValue]
    have : s.targetValue - (s.targetValue - (1 - s.smoothingCoeff) ^ n * (s.targetValue - s.currentValue))
        = (1 - s.smoothingCoeff) ^ n * (s.targetValue - s.currentValue) := by ring
    rw [this, abs_mul, abs_of_nonneg (pow_nonneg h1c n)]
  refine ⟨iterate_advance_currentValue s, ?_, ?_, ?_, ?_⟩
  · intro n
    constructor
    · rw [Function.iterate_succ_apply']; rfl
    · rw [Function.iterate_succ_apply']; rfl
  · intro n
    rw [hstep n]
    rcases le_total (advance^[n] s).currentValue s.targetValue with h | h
    · rw [min_eq_left h, max_eq_right h]
      constructor
      · nlinarith
      · nlinarith
    · rw [min_eq_right h, max_eq_left h]
      constructor
      · nlinarith
      · nlinarith
  · intro n
    rw [hdist, hdist, pow_succ]
    have hp : 0 ≤ (1 - s.smoothingCoeff) ^ n * |s.targetValue - s.currentValue| :=
      mul_nonneg (pow_nonneg h1c n) (abs_nonneg _)
    nlinarith
  · intro ε hε
    have hd : 0 < |s.targetValue - s.currentValue| + 1 := by positivity
    obtain ⟨N, hN⟩ := exists_pow_lt_of_lt_one (div_pos hε hd) h1c'
    refine ⟨N, fun n hn => ?_⟩
    rw [hdist]
    have hmono : (1 - s.smoothingCoeff) ^ n ≤ (1 - s.smoothingCoeff) ^ N :=
      pow_le_pow_of_le_one h1c h1c'.le hn
    have hlt : (1 - s.smoothingCoeff) ^ n < ε / (|s.targetValue - s.currentValue| + 1) :=
      lt_of_le_of_lt hmono hN
    rw [lt_div_iff₀ hd] at hlt
    have hq : 0 ≤ (1 - s.smoothingCoeff) ^ n := pow_nonneg h1c n
    nlinarith [abs_nonneg (s.targetValue - s.currentValue)]

/-- Witness of C7 on the rationals: coefficient 1/2, start 0, target 1; after three calls the
current value is `1 - (1/2)^3 = 7/8`. -/
theorem C7_smoother_geometric_convergence_witness :
    (advance^[3] (⟨44100, 0, 1 / 2, 0, 1⟩ : ParameterSmoother ℚ)).currentValue
      = 1 - (1 - 1 / 2) ^ 3 * (1 - 0) :=
  (C7_smoother_geometric_convergence (⟨44100, 0, 1 / 2, 0, 1⟩ : ParameterSmoother ℚ)
    (by norm_num) (by norm_num)).1 3

/-- C8: after `snapToTargetValue ()` and after `reset (v)`, whatever the coefficient, every
following `getNextValue ()` returns exactly the target and leaves current value and target
equal to it. -/
theorem C8_smoother_snap_is_exact {α : Type} [LinearOrderedField α]
    (s : ParameterSmoother α) (v : α) (n : Nat) :
    (getNextValue (advance^[n] s.snapToTargetValue)).1 = s.targetValue
    ∧ (advance^[n + 1] s.snapToTargetValue).currentValue = s.targetValue
    ∧ (advance^[n + 1] s.snapToTargetValue).targetValue = s.targetValue
    ∧ (getNextValue (advance^[n] (s.reset v))).1 = v
    ∧ (advance^[n + 1] (s.reset v)).currentValue = v
    ∧ (advance^[n + 1] (s.reset v)).targetValue = v := by
  have hs : s.snapToTargetValue.currentValue = s.snapToTargetValue.targetValue := rfl
  have hr : (s.reset v).currentValue = (s.reset v).targetValue := rfl
  refine ⟨?_, ?_, ?_, ?_, ?_, ?_⟩
  · rw [getNextValue_fst, ← Function.iterate_succ_apply' advance,
      iterate_advance_of_snapped _ hs]; rfl
  · rw [iterate_advance_of_snapped _ hs]; rfl
  · rw [iterate_advance_targetValue]; rfl
  · rw [getNextValue_fst, ← Function.iterate_succ_apply' advance,
      iterate_advance_of_snapped _ hr]; rfl
  · rw [iterate_advance_of_snapped _ hr]; rfl
  · rw [iterate_advance_targetValue]; rfl

/-- C9: over the reals with `std::exp` the exponential, the smoothing coefficient is 1 after
default construction, `prepare` with a positive sample rate sets it to
`1 - exp (-1 / (ms * 0.001 * sampleRate))`, a value in `(0, 1)`, when `ms > 0` and to 1 when
`ms = 0`, no other member changes it, and so it lies in `(0, 1]` in every reachable state. -/
theorem C9_smoothing_coefficient_range (M : CMath ℝ) (hexp : M.exp = Real.exp) :
    (ParameterSmoother.default : ParameterSmoother ℝ).smoothingCoeff = 1
    ∧ (∀ (s : ParameterSmoother ℝ) (sampleRate ms : ℝ), 0 < sampleRate → 0 < ms →
        (s.prepare M sampleRate ms).smoothingCoeff
            = 1 - Real.exp (-1 / (ms * (1 / 1000) * sampleRate))
          ∧ 0 < (s.prepare M sampleRate ms).smoothingCoeff
          ∧ (s.prepare M sampleRate ms).smoothingCoeff < 1)
    ∧ (∀ (s : ParameterSmoother ℝ) (sampleRate : ℝ), (s.prepare M sampleRate 0).smoothingCoeff = 1)
    ∧ (∀ (s : ParameterSmoother ℝ) (v : ℝ), (s.setTargetValue v).smoothingCoeff = s.smoothingCoeff)
    ∧ (∀ s : ParameterSmoother ℝ, s.getNextValue.2.smoothingCoeff = s.smoothingCoeff)
    ∧ (∀ s : ParameterSmoother ℝ, s.snapToTargetValue.smoothingCoeff = s.smoothingCoeff)
    ∧ (∀ (s : ParameterSmoother ℝ) (v : ℝ), (s.reset v).smoothingCoeff = s.smoothingCoeff)
    ∧ (∀ (s : ParameterSmoother ℝ) (samples : Nat → ℝ) (n : Nat) (v : ℝ),
        (s.processBlock samples n v).2.smoothingCoeff = s.smoothingCoeff)
    ∧ (∀ s : ParameterSmoother ℝ, ParameterSmoother.Reachable M s →
        0 < s.smoothingCoeff ∧ s.smoothingCoeff ≤ 1) := by
  have hprep : ∀ (s : ParameterSmoother ℝ) (sampleRate ms : ℝ), 0 < sampleRate → 0 < ms →
      (s.prepare M sampleRate ms).smoothingCoeff
            = 1 - Real.exp (-1 / (ms * (1 / 1000) * sampleRate))
          ∧ 0 < (s.prepare M sampleRate ms).smoothingCoeff
          ∧ (s.prepare M sampleRate ms).smoothingCoeff < 1 := by
    intro s sampleRate ms hsr hms
    have hval : (s.prepare M sampleRate ms).smoothingCoeff
        = 1 - Real.exp (-1 / (ms * (1 / 1000) * sampleRate)) := by
      simp only [ParameterSmoother.prepare, gt_iff_lt, if_pos hms, hexp]
    have hx : 0 < ms * (1 / 1000) * sampleRate := by positivity
    have hneg : -1 / (ms * (1 / 1000) * sampleRate) < 0 :=
      div_neg_of_neg_of_pos (by norm_num) hx
    have h1 : Real.exp (-1 / (ms * (1 / 1000) * sampleRate)) < 1 := Real.exp_lt_one_iff.mpr hneg
    have h0 : 0 < Real.exp (-1 / (ms * (1 / 1000) * sampleRate)) := Real.exp_pos _
    rw [hval]
    exact ⟨rfl, by linarith, by linarith⟩
  have hzero : ∀ (s : ParameterSmoother ℝ) (sampleRate ms : ℝ), ¬ 0 < ms →
      (s.prepare M sampleRate ms).smoothingCoeff = 1 := by
    intro s sampleRate ms hms
    simp only [ParameterSmoother.prepare, gt_iff_lt, if_neg hms]
  refine ⟨rfl, hprep, fun s sampleRate => hzero s sampleRate 0 (lt_irrefl 0), fun _ _ => rfl,
    fun _ => rfl, fun _ => rfl, fun _ _ => rfl, ParameterSmoother.processBlock_smoothingCoeff, ?_⟩
  intro s hs
  induction hs with
  | default => exact ⟨by norm_num [ParameterSmoother.default], by norm_num [ParameterSmoother.default]⟩
  | prepare s sampleRate ms _ hsr _ =>
    by_cases hms : 0 < ms
    · obtain ⟨_, h0, h1⟩ := hprep s sampleRate ms hsr hms
      exact ⟨h0, h1.le⟩
    · rw [hzero s sampleRate ms hms]; norm_num
  | setTargetValue s v _ ih => exact ih
  | getNextValue s _ ih => exact ih
  | processBlock s samples n v _ ih =>
    rw [ParameterSmoother.processBlock_smoothingCoeff]; exact ih
  | snapToTargetValue s _ ih => exact ih
  | reset s v _ ih => exact ih

/-- Witness of C9: with the real exponential, preparing the default smoother at 44100 Hz with
5 ms gives a coefficient strictly between 0 and 1. -/
theorem C9_smoothing_coefficient_range_witness :
    0 < ((ParameterSmoother.default : ParameterSmoother ℝ).prepare
          ⟨Real.exp, Real.log, Real.tanh, fun x y => x ^ y, fun _ => false, fun _ => false⟩
          44100 5).smoothingCoeff
    ∧ ((ParameterSmoother.default : ParameterSmoother ℝ).prepare
          ⟨Real.exp, Real.log, Real.tanh, fun x y => x ^ y, fun _ => false, fun _ => false⟩
          44100 5).smoothingCoeff < 1 :=
  ((C9_smoothing_coefficient_range
      ⟨Real.exp, Real.log, Real.tanh, fun x y => x ^ y, fun _ => false, fun _ => false⟩ rfl).2.1
    ParameterSmoother.default 44100 5 (by norm_num) (by norm_num)).2

/-! ## Allpass filter -/

theorem jlimit_cases {β : Type} [LinearOrder β] (lo hi v : β) :
    jlimit lo hi v = lo ∨ jlimit lo hi v = hi ∨ (jlimit lo hi v = v ∧ lo ≤ v ∧ v ≤ hi) := by
  unfold jlimit
  split
  · exact Or.inl rfl
  · split
    · exact Or.inr (Or.inl rfl)
    · exact Or.inr (Or.inr ⟨rfl, not_lt.mp ‹_›, not_lt.mp ‹_›⟩)

theorem jlimit_of_mem {β : Type} [LinearOrder β] {lo hi v : β} (h1 : lo ≤ v) (h2 : v ≤ hi) :
    jlimit lo hi v = v := by
  unfold jlimit
  rw [if_neg (not_lt.mpr h1), if_neg (not_lt.mpr h2)]

theorem isEmpty_eq_false_of_ne_nil {β : Type} {l : List β} (h : l ≠ []) : l.isEmpty = false := by
  cases l with
  | nil => exact absurd rfl h
  | cons a t => rfl

/-- Every read of a list whose cells are bounded by `B` is bounded by `B`. -/
theorem abs_getD_le {β : Type} [LinearOrderedField β] {l : List β} {B : β} (hB : 0 ≤ B)
    (h : ∀ v ∈ l, |v| ≤ B) (i : Nat) : |l.getD i 0| ≤ B := by
  by_cases hi : i < l.length
  · rw [List.getD_eq_getElem l 0 hi]
    exact h _ (List.getElem_mem hi)
  · rw [List.getD_eq_default l 0 (not_lt.mp hi)]
    simpa using hB

namespace AllpassFilter

variable {α : Type} [LinearOrderedField α] [FloorRing α]

/-- The interpolated read is a convex combination of two cells. -/
theorem abs_getInterpolatedSample_le (f : AllpassFilter α) {B : α} (hB : 0 ≤ B)
    (h : ∀ v ∈ f.delayLine, |v| ≤ B) : |getInterpolatedSample f| ≤ B := by
  unfold getInterpolatedSample
  split
  · simpa using hB
  · have hfr0 : 0 ≤ readPosition f - (Int.floor (readPosition f) : α) := by
      have := Int.floor_le (readPosition f); linarith
    have hfr1 : readPosition f - (Int.floor (readPosition f) : α) ≤ 1 := by
      have := Int.lt_floor_add_one (readPosition f); linarith
    have h1 := abs_getD_le hB h (Nat.floor (readPosition f) % f.delayLine.length)
    have h2 := abs_getD_le hB h
      ((Nat.floor (readPosition f) % f.delayLine.length + 1) % f.delayLine.length)
    simp only []
    calc |(1 - (readPosition f - (Int.floor (readPosition f) : α)))
            * f.delayLine.getD (Nat.floor (readPosition f) % f.delayLine.length) 0
          + (readPosition f - (Int.floor (readPosition f) : α))
            * f.delayLine.getD
                ((Nat.floor (readPosition f) % f.delayLine.length + 1) % f.delayLine.length) 0|
        ≤ |(1 - (readPosition f - (Int.floor (readPosition f) : α)))
            * f.delayLine.getD (Nat.floor (readPosition f) % f.delayLine.length) 0|
          + |(readPosition f - (Int.floor (readPosition f) : α))
            * f.delayLine.getD
                ((Nat.floor (readPosition f) % f.delayLine.length + 1) % f.delayLine.length) 0| :=
          abs_add _ _
      _ ≤ (1 - (readPosition f - (Int.floor (readPosition f) : α))) * B
          + (readPosition f - (Int.floor (readPosition f) : α)) * B := by
          rw [abs_mul, abs_mul, abs_of_nonneg hfr0,
            abs_of_nonneg (by linarith : (0 : α) ≤ 1 - (readPosition f - (Int.floor (readPosition f) : α)))]
          exact add_le_add (mul_le_mul_of_nonneg_left h1 (by linarith))
            (mul_le_mul_of_nonneg_left h2 hfr0)
      _ = B := by ring

/-- What `processSample` does on a non-empty delay line. -/
theorem processSample_of_ne_nil (f : AllpassFilter α) (hne : f.delayLine ≠ []) (x : α) :
    processSample f x
      = (-f.feedback * x + getInterpolatedSample f,
          { f with
            delayLine := f.delayLine.set f.writeIndex (x + f.feedback * getInterpolatedSample f),
            writeIndex := (f.writeIndex + 1) % f.delayLine.length }) := by
  unfold processSample
  rw [isEmpty_eq_false_of_ne_nil hne]
  simp

/-- One sample period keeps the delay line within `M / (1 - |g|)` and bounds the output. -/
theorem step_bounded (f : AllpassFilter α) (delay x : α) {g M : α} (hg : |g| < 1)
    (hfb : f.feedback = g) (hx : |x| ≤ M) (h : ∀ v ∈ f.delayLine, |v| ≤ M / (1 - |g|)) :
    (∀ v ∈ (step f delay x).2.delayLine, |v| ≤ M / (1 - |g|))
    ∧ (step f delay x).2.feedback = g
    ∧ |(step f delay x).1| ≤ M * (|g| + 1 / (1 - |g|)) := by
  have hM : 0 ≤ M := le_trans (abs_nonneg x) hx
  have h1g : 0 < 1 - |g| := by linarith
  have hB : 0 ≤ M / (1 - |g|) := div_nonneg hM h1g.le
  have hfix : M + |g| * (M / (1 - |g|)) = M / (1 - |g|) := by
    field_simp
    ring
  have hout : M * (|g| + 1 / (1 - |g|)) = |g| * M + M / (1 - |g|) := by
    field_simp
    ring
  by_cases hne : f.delayLine = []
  · have hstep : step f delay x = (0, { f with delaySamples := delay }) := by
      simp [step, processSample, hne]
    rw [hstep]
    refine ⟨h, hfb, ?_⟩
    simp only [abs_zero]
    rw [hout]
    exact add_nonneg (mul_nonneg (abs_nonneg g) hM) hB
  · have hd : |getInterpolatedSample { f with delaySamples := delay }| ≤ M / (1 - |g|) :=
      abs_getInterpolatedSample_le _ hB h
    have hstep := processSample_of_ne_nil { f with delaySamples := delay } hne x
    unfold step
    rw [hstep]
    refine ⟨?_, hfb, ?_⟩
    · intro v hv
      rcases List.mem_or_eq_of_mem_set hv with hv | hv
      · exact h v hv
      · rw [hv]
        calc |x + f.feedback * getInterpolatedSample { f with delaySamples := delay }|
            ≤ |x| + |f.feedback * getInterpolatedSample { f with delaySamples := delay }| :=
              abs_add _ _
          _ ≤ M + |g| * (M / (1 - |g|)) := by
              rw [abs_mul, hfb]
              exact add_le_add hx (mul_le_mul_of_nonneg_left hd (abs_nonneg g))
          _ = M / (1 - |g|) := hfix
    · rw [hout]
      calc |-f.feedback * x + getInterpolatedSample { f with delaySamples := delay }|
          ≤ |-f.feedback * x| + |getInterpolatedSample { f with delaySamples := delay }| :=
            abs_add _ _
        _ ≤ |g| * M + M / (1 - |g|) := by
            rw [abs_mul, abs_neg, hfb]
            exact add_le_add (mul_le_mul_of_nonneg_left hx (abs_nonneg g)) hd

/-- The invariant of a run from a cleared delay line. -/
theorem run_bounded (f0 : AllpassFilter α) (delay x : Nat → α) {g M : α} (hg : |g| < 1)
    (hfb : f0.feedback = g) (hx : ∀ n, |x n| ≤ M) (h0 : ∀ v ∈ f0.delayLine, |v| ≤ M / (1 - |g|))
    (n : Nat) :
    (∀ v ∈ (run f0 delay x n).delayLine, |v| ≤ M / (1 - |g|))
    ∧ (run f0 delay x n).feedback = g := by
  induction n with
  | zero => exact ⟨h0, hfb⟩
  | succ k ih =>
    obtain ⟨h1, h2, _⟩ := step_bounded (run f0 delay x k) (delay k) (x k) hg ih.2 (hx k) ih.1
    exact ⟨h1, h2⟩

/-- Capacity, write cursor and feedback along a run from a state with the cursor at 0. -/
theorem run_shape (f0 : AllpassFilter α) (delay x : Nat → α) (capacity : Nat)
    (hcap : 0 < capacity) (hlen : f0.delayLine.length = capacity) (hw : f0.writeIndex = 0)
    (n : Nat) :
    (run f0 delay x n).delayLine.length = capacity
    ∧ (run f0 delay x n).writeIndex = n % capacity
    ∧ (run f0 delay x n).feedback = f0.feedback := by
  induction n with
  | zero => exact ⟨hlen, by rw [Nat.zero_mod]; exact hw, rfl⟩
  | succ k ih =>
    obtain ⟨h1, h2, h3⟩ := ih
    have hne : ({ run f0 delay x k with delaySamples := delay k } : AllpassFilter α).delayLine ≠ [] := by
      intro h
      have : (run f0 delay x k).delayLine.length = 0 := by
        show ({ run f0 delay x k with delaySamples := delay k } : AllpassFilter α).delayLine.length = 0
        rw [h]; rfl
      omega
    have hstep : run f0 delay x (k + 1)
        = (processSample { run f0 delay x k with delaySamples := delay k } (x k)).2 := rfl
    rw [hstep, processSample_of_ne_nil _ hne]
    refine ⟨?_, ?_, h3⟩
    · show ((run f0 delay x k).delayLine.set _ _).length = capacity
      rw [List.length_set, h1]
    · show ((run f0 delay x k).writeIndex + 1) % (run f0 delay x k).delayLine.length = _
      rw [h1, h2, Nat.mod_add_mod]

/-- With the cursor inside the line and a delay in `[1, capacity - 1]` the wrapped read
position lies in `[0, capacity)`. -/
theorem readPosition_mem (f : AllpassFilter α) (capacity : Nat)
    (hlen : f.delayLine.length = capacity) (hw : f.writeIndex < capacity)
    (h1 : 1 ≤ f.delaySamples) (h2 : f.delaySamples ≤ (capacity : α) - 1) :
    0 ≤ readPosition f ∧ readPosition f < (capacity : α) := by
  have hw0 : (0 : α) ≤ (f.writeIndex : α) := Nat.cast_nonneg _
  have hw1 : (f.writeIndex : α) + 1 ≤ (capacity : α) := by exact_mod_cast hw
  unfold readPosition
  simp only [hlen]
  split
  · constructor <;> linarith
  · constructor
    · exact not_lt.mp ‹_›
    · linarith

end AllpassFilter

/-- C4: an allpass filter with a cleared delay line of capacity at least 2, constant feedback
`g` in `[-0.99, 0.99]`, per-sample delays in `[1, capacity - 1]` (integer or fractional) and
inputs bounded by `M` keeps every delay-line value within `M / (1 - |g|)` and every output
within `M * (|g| + 1 / (1 - |g|))`, for all `n`; along the way the write cursor and the
wrapped read position stay inside the line. -/
theorem C4_allpass_output_bounded {α : Type} [LinearOrderedField α] [FloorRing α]
    (f0 : AllpassFilter α) (capacity : Nat) (g M : α) (delay x : Nat → α)
    (hcap : 2 ≤ capacity)
    (hline : f0.delayLine = List.replicate capacity 0) (hw : f0.writeIndex = 0)
    (hfb : f0.feedback = g) (hg1 : -(99 / 100) ≤ g) (hg2 : g ≤ 99 / 100)
    (hdelay : ∀ n, 1 ≤ delay n ∧ delay n ≤ (capacity : α) - 1)
    (hx : ∀ n, |x n| ≤ M) (n : Nat) :
    (∀ v ∈ (AllpassFilter.run f0 delay x n).delayLine, |v| ≤ M / (1 - |g|))
    ∧ |AllpassFilter.output f0 delay x n| ≤ M * (|g| + 1 / (1 - |g|))
    ∧ (AllpassFilter.run f0 delay x n).writeIndex < capacity
    ∧ 0 ≤ AllpassFilter.readPosition
          { AllpassFilter.run f0 delay x n with delaySamples := delay n }
    ∧ AllpassFilter.readPosition
          { AllpassFilter.run f0 delay x n with delaySamples := delay n } < (capacity : α) := by
  have hg : |g| < 1 := by
    rw [abs_lt]; constructor <;> linarith
  have hM : 0 ≤ M := le_trans (abs_nonneg (x 0)) (hx 0)
  have h0 : ∀ v ∈ f0.delayLine, |v| ≤ M / (1 - |g|) := by
    intro v hv
    rw [hline] at hv
    rw [List.eq_of_mem_replicate hv, abs_zero]
    exact div_nonneg hM (by linarith)
  have hlen : f0.delayLine.length = capacity := by rw [hline, List.length_replicate]
  have hrun := AllpassFilter.run_bounded f0 delay x hg hfb hx h0 n
  obtain ⟨hs1, hs2, _⟩ := AllpassFilter.run_shape f0 delay x capacity (by omega) hlen hw n
  have hwn : (AllpassFilter.run f0 delay x n).writeIndex < capacity := by
    rw [hs2]; exact Nat.mod_lt _ (by omega)
  have hpos := AllpassFilter.readPosition_mem
    { AllpassFilter.run f0 delay x n with delaySamples := delay n } capacity hs1 hwn
    (hdelay n).1 (hdelay n).2
  exact ⟨hrun.1,
    (AllpassFilter.step_bounded (AllpassFilter.run f0 delay x n) (delay n) (x n) hg hrun.2
      (hx n) hrun.1).2.2, hwn, hpos.1, hpos.2⟩

/-- On a non-empty delay line `delayLine.size() - 1` does not exceed the capacity. -/
theorem AllpassFilter.sizeMinusOne_le {β : Type} (f : AllpassFilter β) (hne : f.delayLine ≠ []) :
    AllpassFilter.sizeMinusOne f ≤ f.delayLine.length := by
  have hpos : 0 < f.delayLine.length := List.length_pos.mpr hne
  unfold AllpassFilter.sizeMinusOne
  have h : f.delayLine.length + (2 ^ 64 - 1) = (f.delayLine.length - 1) + 2 ^ 64 := by omega
  rw [h, Nat.add_mod_right]
  exact le_trans (Nat.mod_le _ _) (Nat.sub_le _ _)

/-- The call `resize (n)` yields `n` cells. -/
theorem AllpassFilter.length_resize {β : Type} [LinearOrderedField β] (l : List β) (n : Nat) :
    (AllpassFilter.resize l n).length = n := by
  unfold AllpassFilter.resize
  rw [List.length_append, List.length_take, List.length_replicate]
  omega

namespace AllpassFilter

variable {α : Type} [LinearOrderedField α] [FloorRing α]

/-- The class invariant: on a non-empty delay line the write cursor is inside the line and
the delay length lies between 0 and the capacity. -/
theorem Reachable.invariant {f : AllpassFilter α} (h : Reachable f) (hne : f.delayLine ≠ []) :
    f.writeIndex < f.delayLine.length ∧ 0 ≤ f.delaySamples
      ∧ f.delaySamples ≤ (f.delayLine.length : α) := by
  induction h with
  | default => exact absurd rfl hne
  | prepare f sampleRate maxDelayMs _ _ =>
    have hlen : 0 < (f.prepare sampleRate maxDelayMs).delayLine.length := List.length_pos.mpr hne
    refine ⟨hlen, ?_, ?_⟩
    · show (0 : α) ≤ 1
      exact zero_le_one
    · show (1 : α) ≤ ((f.prepare sampleRate maxDelayMs).delayLine.length : α)
      exact_mod_cast hlen
  | setDelayTime f delayMs _ ih =>
    have hne' : f.delayLine ≠ [] := hne
    obtain ⟨hw, _, _⟩ := ih hne'
    have hlen : 0 < f.delayLine.length := List.length_pos.mpr hne'
    have hsm : (sizeMinusOne f : α) ≤ (f.delayLine.length : α) := by
      exact_mod_cast sizeMinusOne_le f hne'
    have hone : (1 : α) ≤ (f.delayLine.length : α) := by exact_mod_cast hlen
    have hsm0 : (0 : α) ≤ (sizeMinusOne f : α) := Nat.cast_nonneg _
    refine ⟨hw, ?_, ?_⟩
    · show 0 ≤ jlimit 1 (sizeMinusOne f : α) (delayMs * (1 / 1000) * f._sampleRate)
      rcases jlimit_cases 1 (sizeMinusOne f : α) (delayMs * (1 / 1000) * f._sampleRate)
        with h | h | ⟨h, h1, _⟩
      · rw [h]; exact zero_le_one
      · rw [h]; exact hsm0
      · rw [h]; linarith
    · show jlimit 1 (sizeMinusOne f : α) (delayMs * (1 / 1000) * f._sampleRate)
        ≤ (f.delayLine.length : α)
      rcases jlimit_cases 1 (sizeMinusOne f : α) (delayMs * (1 / 1000) * f._sampleRate)
        with h | h | ⟨h, _, h2⟩
      · rw [h]; exact hone
      · rw [h]; exact hsm
      · rw [h]; linarith
  | setFeedback f g _ ih => exact ih hne
  | processSample f x _ ih =>
    by_cases hf : f.delayLine = []
    · have : (f.processSample x).2 = f := by simp [AllpassFilter.processSample, hf]
      rw [this] at hne
      exact absurd hf hne
    · rw [processSample_of_ne_nil f hf x]
      obtain ⟨_, h0, h1⟩ := ih hf
      refine ⟨?_, h0, ?_⟩
      · show (f.writeIndex + 1) % f.delayLine.length
          < (f.delayLine.set f.writeIndex (x + f.feedback * getInterpolatedSample f)).length
        rw [List.length_set]
        exact Nat.mod_lt _ (List.length_pos.mpr hf)
      · show f.delaySamples
          ≤ ((f.delayLine.set f.writeIndex (x + f.feedback * getInterpolatedSample f)).length : α)
        rw [List.length_set]
        exact h1
  | reset f _ _ =>
    have hlen : 0 < f.reset.delayLine.length := List.length_pos.mpr hne
    refine ⟨hlen, ?_, ?_⟩
    · show (0 : α) ≤ 1
      exact zero_le_one
    · show (1 : α) ≤ (f.reset.delayLine.length : α)
      exact_mod_cast hlen

/-- In a reachable state the wrapped read position is not negative. -/
theorem Reachable.readPosition_nonneg {f : AllpassFilter α} (h : Reachable f)
    (hne : f.delayLine ≠ []) : 0 ≤ readPosition f := by
  obtain ⟨_, _, h1⟩ := h.invariant hne
  have hw : (0 : α) ≤ (f.writeIndex : α) := Nat.cast_nonneg _
  unfold readPosition
  simp only []
  split
  · linarith
  · exact not_lt.mp ‹_›

/-- In a reachable state the interpolated read of the source is the one the specification
describes. -/
theorem Reachable.getInterpolatedSample_eq_spec {f : AllpassFilter α} (h : Reachable f)
    (hne : f.delayLine ≠ []) : getInterpolatedSample f = delayedSampleSpec f := by
  have hp := h.readPosition_nonneg hne
  have hidx : (Int.floor (readPosition f) % (f.delayLine.length : Int)).toNat
      = Nat.floor (readPosition f) % f.delayLine.length := by
    rw [← Int.natCast_floor_eq_floor hp, Int.ofNat_mod_ofNat, Int.toNat_ofNat]
  unfold getInterpolatedSample
  rw [isEmpty_eq_false_of_ne_nil hne]
  unfold delayedSampleSpec
  simp only [Bool.false_eq_true, if_false]
  change _ = (1 - (readPosition f - (Int.floor (readPosition f) : α)))
      * f.delayLine.getD (Int.floor (readPosition f) % (f.delayLine.length : Int)).toNat 0
    + (readPosition f - (Int.floor (readPosition f) : α))
      * f.delayLine.getD
          (((Int.floor (readPosition f) % (f.delayLine.length : Int)).toNat + 1)
            % f.delayLine.length) 0
  rw [hidx]

/-- The delay line built by `prepare` is never empty. -/
theorem prepare_delayLine_ne_nil (f : AllpassFilter α) (sampleRate maxDelayMs : α) :
    (f.prepare sampleRate maxDelayMs).delayLine ≠ [] := by
  intro h
  have hlen := congrArg List.length h
  simp only [prepare, reset, List.length_replicate, length_resize, List.length_nil] at hlen
  omega

end AllpassFilter

/-- C6: in every state with a non-empty delay line that the public members can reach,
`processSample (x)` reads the delayed sample `d` exactly as specified
(`AllpassFilter.delayedSampleSpec`), returns `-g * x + d`, stores `x + g * d` at
`line[writeIndex]` leaving every other cell and the capacity unchanged, advances `writeIndex`
to `(writeIndex + 1) mod capacity`, and leaves feedback and delay length unchanged. -/
theorem C6_allpass_processSample_contract {α : Type} [LinearOrderedField α] [FloorRing α]
    (f : AllpassFilter α) (hreach : AllpassFilter.Reachable f) (hne : f.delayLine ≠ []) (x : α) :
    (f.processSample x).1 = -f.feedback * x + AllpassFilter.delayedSampleSpec f
    ∧ (f.processSample x).2.delayLine
        = f.delayLine.set f.writeIndex (x + f.feedback * AllpassFilter.delayedSampleSpec f)
    ∧ (f.processSample x).2.delayLine.getD f.writeIndex 0
        = x + f.feedback * AllpassFilter.delayedSampleSpec f
    ∧ (∀ j : Nat, j ≠ f.writeIndex →
        (f.processSample x).2.delayLine.getD j 0 = f.delayLine.getD j 0)
    ∧ (f.processSample x).2.delayLine.length = f.delayLine.length
    ∧ (f.processSample x).2.writeIndex = (f.writeIndex + 1) % f.delayLine.length
    ∧ (f.processSample x).2.feedback = f.feedback
    ∧ (f.processSample x).2.delaySamples = f.delaySamples := by
  have hw : f.writeIndex < f.delayLine.length := (hreach.invariant hne).1
  rw [AllpassFilter.processSample_of_ne_nil f hne x, hreach.getInterpolatedSample_eq_spec hne]
  refine ⟨rfl, rfl, ?_, ?_, ?_, rfl, rfl, rfl⟩
  · show (f.delayLine.set f.writeIndex _).getD f.writeIndex 0 = _
    rw [List.getD_eq_getElem?_getD, List.getElem?_set_self hw]
    rfl
  · intro j hj
    show (f.delayLine.set f.writeIndex _).getD j 0 = _
    rw [List.getD_eq_getElem?_getD, List.getD_eq_getElem?_getD,
      List.getElem?_set_ne (Ne.symm hj)]
  · show (f.delayLine.set f.writeIndex _).length = _
    rw [List.length_set]

/-- Witness of C6: a filter prepared at 1000 Hz for 2 ms (capacity 3) obeys the contract on
the input 1; in particular its feedback is unchanged. -/
theorem C6_allpass_processSample_contract_witness :
    (((AllpassFilter.default : AllpassFilter ℚ).prepare 1000 2).processSample 1).2.feedback
      = ((AllpassFilter.default : AllpassFilter ℚ).prepare 1000 2).feedback :=
  (C6_allpass_processSample_contract ((AllpassFilter.default : AllpassFilter ℚ).prepare 1000 2)
    (AllpassFilter.Reachable.prepare _ _ _ AllpassFilter.Reachable.default)
    (AllpassFilter.prepare_delayLine_ne_nil _ _ _) 1).2.2.2.2.2.2.1

/-- Witness of C4: capacity 2, feedback 1/2, delay of one sample, unit impulse (so `M = 1`):
the second output is within `1 * (1/2 + 1 / (1 - 1/2))`. -/
theorem C4_allpass_output_bounded_witness :
    |AllpassFilter.output (⟨[0, 0], 0, 44100, 1, 1 / 2⟩ : AllpassFilter ℚ) (fun _ => 1)
        AllpassFilter.impulse 1| ≤ 1 * (|(1 / 2 : ℚ)| + 1 / (1 - |(1 / 2 : ℚ)|)) :=
  (C4_allpass_output_bounded (⟨[0, 0], 0, 44100, 1, 1 / 2⟩ : AllpassFilter ℚ) 2 (1 / 2) 1
    (fun _ => 1) AllpassFilter.impulse (by norm_num) rfl rfl rfl (by norm_num) (by norm_num)
    (fun _ => by norm_num)
    (fun n => by unfold AllpassFilter.impulse; split <;> norm_num) 1).2.1

/-- C5 (evaluation of the code): capacity 2, feedback `g = 1/2`, constant delay `D = 1`, unit
impulse input.  The source returns `y[0] = -1/2` and `y[1] = 1`, whereas the allpass
difference equation `y[1] = -g * x[1] + x[0] + g * y[0]` asks for `3/4`. -/
theorem C5_allpass_difference_equation_violated :
    AllpassFilter.output (⟨[0, 0], 0, 44100, 1, 1 / 2⟩ : AllpassFilter ℚ) (fun _ => 1)
        AllpassFilter.impulse 0 = -(1 / 2)
    ∧ AllpassFilter.output (⟨[0, 0], 0, 44100, 1, 1 / 2⟩ : AllpassFilter ℚ) (fun _ => 1)
        AllpassFilter.impulse 1 = 1
    ∧ -(1 / 2) * AllpassFilter.impulse 1 + AllpassFilter.impulse 0
        + (1 / 2) * AllpassFilter.output (⟨[0, 0], 0, 44100, 1, 1 / 2⟩ : AllpassFilter ℚ)
            (fun _ => 1) AllpassFilter.impulse 0 = 3 / 4
    ∧ AllpassFilter.output (⟨[0, 0], 0, 44100, 1, 1 / 2⟩ : AllpassFilter ℚ) (fun _ => 1)
        AllpassFilter.impulse 1
      ≠ -(1 / 2) * AllpassFilter.impulse 1 + AllpassFilter.impulse 0
        + (1 / 2) * AllpassFilter.output (⟨[0, 0], 0, 44100, 1, 1 / 2⟩ : AllpassFilter ℚ)
            (fun _ => 1) AllpassFilter.impulse 0 := by
  have h0 : AllpassFilter.output (⟨[0, 0], 0, 44100, 1, 1 / 2⟩ : AllpassFilter ℚ) (fun _ => 1)
      AllpassFilter.impulse 0 = -(1 / 2) := by
    norm_num [AllpassFilter.output, AllpassFilter.run, AllpassFilter.step,
      AllpassFilter.processSample, AllpassFilter.getInterpolatedSample,
      AllpassFilter.readPosition, AllpassFilter.impulse]
  have h1 : AllpassFilter.output (⟨[0, 0], 0, 44100, 1, 1 / 2⟩ : AllpassFilter ℚ) (fun _ => 1)
      AllpassFilter.impulse 1 = 1 := by
    norm_num [AllpassFilter.output, AllpassFilter.run, AllpassFilter.step,
      AllpassFilter.processSample, AllpassFilter.getInterpolatedSample,
      AllpassFilter.readPosition, AllpassFilter.impulse]
  refine ⟨h0, h1, ?_, ?_⟩
  · rw [h0]; norm_num [AllpassFilter.impulse]
  · rw [h0, h1]; norm_num [AllpassFilter.impulse]

/-! ## Loops and buffers -/

/-- A property kept by every iteration is kept by the loop. -/
theorem forLoop_invariant {σ : Type} (P : σ → Prop) (body : Nat → σ → σ)
    (hbody : ∀ i s, P s → P (body i s)) (n : Nat) (s : σ) (hs : P s) : P (forLoop n body s) := by
  induction n with
  | zero => exact hs
  | succ k ih => exact hbody k _ ih

/-- Two buffers with the same dimensions and samples are equal. -/
theorem AudioBuffer.ext_data {β : Type} {a b : AudioBuffer β}
    (hc : a.numChannels = b.numChannels) (hs : a.numSamples = b.numSamples)
    (hd : ∀ c j, a.data c j = b.data c j) : a = b := by
  cases a with
  | mk ac as ad =>
    cases b with
    | mk bc bs bd =>
      simp only at hc hs hd
      have : ad = bd := funext fun c => funext fun j => hd c j
      rw [hc, hs, this]

/-- The loop `for (channel < m) b[channel][i] = F (channel)` writes column `i` of the first
`m` channels and nothing else. -/
theorem forLoop_setSample {β : Type} (m i : Nat) (F : Nat → β) (b : AudioBuffer β) :
    (forLoop m (fun channel b1 => b1.setSample channel i (F channel)) b).numChannels
        = b.numChannels
    ∧ (forLoop m (fun channel b1 => b1.setSample channel i (F channel)) b).numSamples
        = b.numSamples
    ∧ ∀ c j, (forLoop m (fun channel b1 => b1.setSample channel i (F channel)) b).data c j
        = if j = i ∧ c < m then F c else b.data c j := by
  induction m with
  | zero => exact ⟨rfl, rfl, fun c j => by simp [forLoop]⟩
  | succ k ih =>
    obtain ⟨h1, h2, h3⟩ := ih
    refine ⟨h1, h2, fun c j => ?_⟩
    show (if c = k ∧ j = i then F k
        else (forLoop k (fun channel b1 => b1.setSample channel i (F channel)) b).data c j) = _
    rw [h3 c j]
    by_cases hj : j = i
    · by_cases hck : c = k
      · subst hck; simp [hj]
      · by_cases hlt : c < k
        · have : c < k + 1 := by omega
          simp [hj, hck, hlt, this]
        · have : ¬ c < k + 1 := by omega
          simp [hj, hck, hlt, this]
    · simp [hj]

/-! ## Stereo enhancer -/

namespace StereoEnhancer

variable {α : Type} [LinearOrderedField α]

/-- With the width smoother resting at 100 one iteration of the sample loop changes neither
the buffer nor the smoother's rest. -/
theorem processIndex_unity (i : Nat) (st : AudioBuffer α × StereoEnhancer α)
    (hc : st.2.widthSmoother.currentValue = 100) (ht : st.2.widthSmoother.targetValue = 100) :
    (processIndex i st).1 = st.1
    ∧ (processIndex i st).2.widthSmoother.currentValue = 100
    ∧ (processIndex i st).2.widthSmoother.targetValue = 100 := by
  have hw : (st.2.widthSmoother.getNextValue).1 = 100 := by
    simp [ParameterSmoother.getNextValue, hc, ht]
  have hg : (updateParameters st.2).currentWidthGain = 1 := by
    show (st.2.widthSmoother.getNextValue).1 / 100 = 1
    rw [hw]; norm_num
  refine ⟨?_, ?_, ht⟩
  · refine AudioBuffer.ext_data ?_ ?_ ?_
    · rfl
    · rfl
    intro c j
    show (if c = 1 ∧ j = i then _ else if c = 0 ∧ j = i then _ else st.1.data c j) = st.1.data c j
    rw [hg]
    by_cases h1 : c = 1 ∧ j = i
    · rw [if_pos h1, h1.1, h1.2]
      simp only [AudioBuffer.getSample]
      ring
    · rw [if_neg h1]
      by_cases h0 : c = 0 ∧ j = i
      · rw [if_pos h0, h0.1, h0.2]
        simp only [AudioBuffer.getSample]
        ring
      · rw [if_neg h0]
  · show (st.2.widthSmoother.getNextValue).1 = 100
    exact hw

end StereoEnhancer

/-- C10: while the width smoother's current and target values are both 100,
`StereoEnhancer::processBlock` is the identity: every sample pair `(L, R)` comes out as
`(L, R)`, and the whole buffer is unchanged. -/
theorem C10_stereo_enhancer_unity_width {α : Type} [LinearOrderedField α]
    (e : StereoEnhancer α) (buffer : AudioBuffer α)
    (hc : e.widthSmoother.currentValue = 100) (ht : e.widthSmoother.targetValue = 100) :
    (∀ i : Nat, i < buffer.numSamples →
        (e.processBlock buffer).1.getSample 0 i = buffer.getSample 0 i
        ∧ (e.processBlock buffer).1.getSample 1 i = buffer.getSample 1 i)
    ∧ (e.processBlock buffer).1 = buffer := by
  have hinv := forLoop_invariant
    (fun st : AudioBuffer α × StereoEnhancer α =>
      st.1 = buffer ∧ st.2.widthSmoother.currentValue = 100
        ∧ st.2.widthSmoother.targetValue = 100)
    StereoEnhancer.processIndex
    (fun i st h => by
      obtain ⟨h1, h2, h3⟩ := StereoEnhancer.processIndex_unity i st h.2.1 h.2.2
      exact ⟨h1.trans h.1, h2, h3⟩)
    buffer.numSamples (buffer, e) ⟨rfl, hc, ht⟩
  have hb : (e.processBlock buffer).1 = buffer := hinv.1
  exact ⟨fun i _ => by rw [hb]; exact ⟨rfl, rfl⟩, hb⟩

/-- Witness of C10: a reset enhancer (width 100) leaves the two-sample stereo buffer with
`L = (1, 2)` and `R = (3, 5)` untouched. -/
theorem C10_stereo_enhancer_unity_width_witness :
    ((StereoEnhancer.default : StereoEnhancer ℚ).reset.processBlock
        ⟨2, 2, fun c j => if c = 0 then (j : ℚ) + 1 else 2 * (j : ℚ) + 3⟩).1
      = ⟨2, 2, fun c j => if c = 0 then (j : ℚ) + 1 else 2 * (j : ℚ) + 3⟩ :=
  (C10_stereo_enhancer_unity_width (StereoEnhancer.default : StereoEnhancer ℚ).reset
    ⟨2, 2, fun c j => if c = 0 then (j : ℚ) + 1 else 2 * (j : ℚ) + 3⟩ rfl rfl).2

/-! ## Loudness stage -/

/-- C1 (evaluation of the code): `setCompressorMode (int)` disables the stage for mode 0, but
for every mode `>= 1` it computes `jlimit (0, 2, mode + 1) = 2` and so applies the Crunchy
tuple `(-8, 5, 100, 200)` to both compressors; modes 1 and 2 do not get the Clean tuple
`(-20, 4, 10, 80)` and the Further tuple `(-15, 6, 75, 50)`. -/
theorem C1_setCompressorMode_int_always_crunchy {α : Type} [LinearOrderedField α] {J : Juce α}
    (m : MakeItLoud α J) :
    (m.setCompressorModeInt 0)._enabled = false
    ∧ (m.setCompressorModeInt 0)._preCompressor = m._preCompressor
    ∧ (m.setCompressorModeInt 0)._postCompressor = m._postCompressor
    ∧ (∀ mode : Int, 1 ≤ mode →
        (m.setCompressorModeInt mode)._enabled = true
        ∧ (m.setCompressorModeInt mode)._preCompressor.settings = (-8, 5, 100, 200)
        ∧ (m.setCompressorModeInt mode)._postCompressor.settings = (-8, 5, 100, 200))
    ∧ (m.setCompressorModeInt 1)._preCompressor.settings ≠ (-20, 4, 10, 80)
    ∧ (m.setCompressorModeInt 2)._preCompressor.settings ≠ (-15, 6, 75, 50)
    ∧ (m.setCompressorModeInt 3)._preCompressor.settings = (-8, 5, 100, 200) := by
  have hmode : ∀ mode : Int, 1 ≤ mode →
      (m.setCompressorModeInt mode)._enabled = true
      ∧ (m.setCompressorModeInt mode)._preCompressor.settings = (-8, 5, 100, 200)
      ∧ (m.setCompressorModeInt mode)._postCompressor.settings = (-8, 5, 100, 200) := by
    intro mode hmode
    have hne : mode ≠ 0 := by omega
    have hlim : jlimit (0 : Int) 2 (mode + 1) = 2 := by
      unfold jlimit
      split_ifs <;> omega
    have hset : m.setCompressorModeInt mode
        = MakeItLoud.applyCompressorSettings { m with _enabled := true } (-8) 5 100 200 := by
      unfold MakeItLoud.setCompressorModeInt
      rw [if_neg hne]
      simp only [hlim]
      rfl
    rw [hset]
    exact ⟨rfl, rfl, rfl⟩
  refine ⟨rfl, rfl, rfl, hmode, ?_, ?_, (hmode 3 (by norm_num)).2.1⟩
  · rw [(hmode 1 (by norm_num)).2.1]
    intro h
    have h1 := congrArg Prod.fst h
    norm_num at h1
  · rw [(hmode 2 (by norm_num)).2.1]
    intro h
    have h1 := congrArg Prod.fst h
    norm_num at h1

/-! ## Processor: the dry/wet mix -/

namespace ChasmDSPProcessor

variable {α : Type} [LinearOrderedField α] [FloorRing α] {J : Juce α}

theorem updateLowCut_mixInputs (p : ChasmDSPProcessor α J) :
    (updateLowCut p).mixInputs = p.mixInputs := by
  unfold updateLowCut
  simp only []
  split <;> rfl

theorem updateHighCut_mixInputs (p : ChasmDSPProcessor α J) :
    (updateHighCut p).mixInputs = p.mixInputs := by
  unfold updateHighCut
  simp only []
  split <;> rfl

theorem lowCutStereo_mixInputs (p : ChasmDSPProcessor α J) (l r : α) :
    (lowCutStereo p l r).2.2.mixInputs = p.mixInputs := by
  unfold lowCutStereo
  split <;> rfl

theorem highCutStereo_mixInputs (p : ChasmDSPProcessor α J) (l r : α) :
    (highCutStereo p l r).2.2.mixInputs = p.mixInputs := by
  unfold highCutStereo
  split <;> rfl

theorem lowCutMono_mixInputs (p : ChasmDSPProcessor α J) (x : α) :
    (lowCutMono p x).2.mixInputs = p.mixInputs := by
  unfold lowCutMono
  split <;> rfl

theorem highCutMono_mixInputs (p : ChasmDSPProcessor α J) (x : α) :
    (highCutMono p x).2.mixInputs = p.mixInputs := by
  unfold highCutMono
  split <;> rfl

theorem processSingleSample_mixInputs (M : CMath α) (p : ChasmDSPProcessor α J)
    (buffer : AudioBuffer α) (i : Nat) (g : α) :
    (processSingleSample M p buffer i g).1.mixInputs = p.mixInputs := by
  unfold processSingleSample
  simp only []
  show (highCutStereo _ _ _).2.2.mixInputs = _
  rw [highCutStereo_mixInputs, lowCutStereo_mixInputs]
  rfl

theorem processSingleSampleMono_mixInputs (M : CMath α) (p : ChasmDSPProcessor α J)
    (buffer : AudioBuffer α) (i : Nat) (g : α) :
    (processSingleSampleMono M p buffer i g).1.mixInputs = p.mixInputs := by
  unfold processSingleSampleMono
  simp only []
  show (highCutMono _ _).2.mixInputs = _
  rw [highCutMono_mixInputs, lowCutMono_mixInputs]
  rfl

theorem applyInputGain_dims (buffer : AudioBuffer α) (i : Nat) (g : α) :
    (applyInputGain buffer i g).numChannels = buffer.numChannels
    ∧ (applyInputGain buffer i g).numSamples = buffer.numSamples := by
  unfold applyInputGain
  apply forLoop_invariant
    (fun b : AudioBuffer α =>
      b.numChannels = buffer.numChannels ∧ b.numSamples = buffer.numSamples)
  · intro _ _ h
    exact h
  · exact ⟨rfl, rfl⟩

theorem resizeScratch_mixSmoother (p : ChasmDSPProcessor α J) (n : Nat) :
    (resizeScratch p n).mixSmoother = p.mixSmoother
    ∧ (resizeScratch p n).outputGainSmoother = p.outputGainSmoother := by
  unfold resizeScratch
  split <;> exact ⟨rfl, rfl⟩

/-- One iteration of the first sample loop leaves the inputs of the mix loop and the
dimensions of the processed buffer alone. -/
theorem processIndex_frame (M : CMath α) (i : Nat) (st : ChasmDSPProcessor α J × AudioBuffer α) :
    (processIndex M i st).1.mixInputs = st.1.mixInputs
    ∧ (processIndex M i st).2.numChannels = st.2.numChannels
    ∧ (processIndex M i st).2.numSamples = st.2.numSamples := by
  have hp : ∀ q : ChasmDSPProcessor α J,
      (if i = 0 ∨ shouldUpdateDSPComponents i = true then
          updateDSPComponents q (advanceControls st.1).1.delay (advanceControls st.1).1.brightness
            (advanceControls st.1).1.character (advanceControls st.1).1.width
            (advanceControls st.1).1.haasAmount
        else q).mixInputs = q.mixInputs := by
    intro q
    split <;> rfl
  unfold processIndex
  simp only []
  split
  · refine ⟨?_, rfl, rfl⟩
    rw [processSingleSampleMono_mixInputs, hp, updateHighCut_mixInputs, updateLowCut_mixInputs]
    rfl
  · refine ⟨?_, (applyInputGain_dims _ _ _).1, (applyInputGain_dims _ _ _).2⟩
    rw [processSingleSample_mixInputs, hp, updateHighCut_mixInputs, updateLowCut_mixInputs]
    rfl

/-- The part of `processBlock` before the mix loop hands over the input block as dry buffer
and the two smoothers as they were on entry. -/
theorem wetPath_frame (M : CMath α) (p : ChasmDSPProcessor α J) (buffer : AudioBuffer α) :
    (wetPath M p buffer).1.dryBuffer = buffer
    ∧ (wetPath M p buffer).1.mixSmoother = p.mixSmoother
    ∧ (wetPath M p buffer).1.outputGainSmoother = p.outputGainSmoother
    ∧ (wetPath M p buffer).2.numChannels = buffer.numChannels
    ∧ (wetPath M p buffer).2.numSamples = buffer.numSamples := by
  have hloop := forLoop_invariant
    (fun st : ChasmDSPProcessor α J × AudioBuffer α =>
      st.1.mixInputs = (buffer, p.mixSmoother, p.outputGainSmoother)
        ∧ st.2.numChannels = buffer.numChannels ∧ st.2.numSamples = buffer.numSamples)
    (processIndex M)
    (fun i st h => by
      obtain ⟨h1, h2, h3⟩ := processIndex_frame M i st
      exact ⟨h1.trans h.1, h2.trans h.2.1, h3.trans h.2.2⟩)
    buffer.numSamples
  have h := hloop
    ({ resizeScratch p buffer.numSamples with dryBuffer := buffer }, buffer)
    ⟨by
      show (buffer, (resizeScratch p buffer.numSamples).mixSmoother,
        (resizeScratch p buffer.numSamples).outputGainSmoother) = _
      rw [(resizeScratch_mixSmoother p buffer.numSamples).1,
        (resizeScratch_mixSmoother p buffer.numSamples).2], rfl, rfl⟩
  have hm : (wetPath M p buffer).1.mixInputs = (buffer, p.mixSmoother, p.outputGainSmoother) :=
    h.1
  exact ⟨congrArg Prod.fst hm, congrArg (fun t => t.2.1) hm, congrArg (fun t => t.2.2) hm,
    h.2.1, h.2.2⟩

/-- The state after `k` iterations of the final sample loop. -/
theorem mixLoop_spec (p1 : ChasmDSPProcessor α J) (b1 : AudioBuffer α) (k : Nat) :
    (forLoop k mixIndex (p1, b1)).1.dryBuffer = p1.dryBuffer
    ∧ (forLoop k mixIndex (p1, b1)).1.wetBuffer = p1.wetBuffer
    ∧ (forLoop k mixIndex (p1, b1)).1.mixSmoother = ParameterSmoother.advance^[k] p1.mixSmoother
    ∧ (forLoop k mixIndex (p1, b1)).1.outputGainSmoother
        = ParameterSmoother.advance^[k] p1.outputGainSmoother
    ∧ (forLoop k mixIndex (p1, b1)).2.numChannels = b1.numChannels
    ∧ ∀ c j, (forLoop k mixIndex (p1, b1)).2.data c j
        = if j < k ∧ c < b1.numChannels then
            (p1.dryBuffer.data c j
                * (1 - (ParameterSmoother.advance^[j + 1] p1.mixSmoother).currentValue)
              + p1.wetBuffer.data c j
                * (ParameterSmoother.advance^[j + 1] p1.mixSmoother).currentValue)
              * (ParameterSmoother.advance^[j + 1] p1.outputGainSmoother).currentValue
          else b1.data c j := by
  induction k with
  | zero => exact ⟨rfl, rfl, rfl, rfl, rfl, fun c j => by simp [forLoop]⟩
  | succ k ih =>
    obtain ⟨hd, hwet, hm, ho, hn, hdata⟩ := ih
    have hcol := forLoop_setSample (forLoop k mixIndex (p1, b1)).2.numChannels k
      (fun channel =>
        ((forLoop k mixIndex (p1, b1)).1.dryBuffer.getSample channel k
            * (1 - ((forLoop k mixIndex (p1, b1)).1.mixSmoother.getNextValue).1)
          + (forLoop k mixIndex (p1, b1)).1.wetBuffer.getSample channel k
            * ((forLoop k mixIndex (p1, b1)).1.mixSmoother.getNextValue).1)
          * ((forLoop k mixIndex (p1, b1)).1.outputGainSmoother.getNextValue).1)
      (forLoop k mixIndex (p1, b1)).2
    refine ⟨hd, hwet, ?_, ?_, hcol.1.trans hn, fun c j => ?_⟩
    · show ParameterSmoother.advance (forLoop k mixIndex (p1, b1)).1.mixSmoother = _
      rw [hm, Function.iterate_succ_apply']
    · show ParameterSmoother.advance (forLoop k mixIndex (p1, b1)).1.outputGainSmoother = _
      rw [ho, Function.iterate_succ_apply']
    · refine (hcol.2.2 c j).trans ?_
      rw [hdata c j, hn]
      simp only [ParameterSmoother.getNextValue_fst, hm, ho, hd, hwet, AudioBuffer.getSample,
        ← Function.iterate_succ_apply' ParameterSmoother.advance]
      by_cases hj : j = k
      · subst hj
        by_cases hc : c < b1.numChannels
        · simp [hc]
        · simp [hc]
      · by_cases hlt : j < k
        · have : j < k + 1 := by omega
          simp [hj, hlt, this]
        · have : ¬ j < k + 1 := by omega
          simp [hj, hlt, this]

end ChasmDSPProcessor

/-- C3: every output sample of `processBlock` is
`(dry[ch][i] * (1 - mix_i) + wet[ch][i] * mix_i) * outGain_i`, where `dry` is the unmodified
input block, `wet` the wet buffer after the whole-block stages (it is still the processor's
wet buffer on return), and `mix_i`, `outGain_i` the `i`-th values of the two smoothers in the
final loop; with the mix smoother resting at 1 the output is `wet * outGain`. -/
theorem C3_processBlock_mix_formula {α : Type} [LinearOrderedField α] [FloorRing α]
    {J : Juce α} (M : CMath α) (p : ChasmDSPProcessor α J) (buffer : AudioBuffer α)
    (ch i : Nat) (hch : ch < buffer.numChannels) (hi : i < buffer.numSamples) :
    (p.processBlock M buffer).2.getSample ch i
        = (buffer.getSample ch i
              * (1 - (ParameterSmoother.advance^[i + 1] p.mixSmoother).currentValue)
            + (ChasmDSPProcessor.wetPath M p buffer).1.wetBuffer.getSample ch i
              * (ParameterSmoother.advance^[i + 1] p.mixSmoother).currentValue)
          * (ParameterSmoother.advance^[i + 1] p.outputGainSmoother).currentValue
    ∧ (p.processBlock M buffer).1.wetBuffer = (ChasmDSPProcessor.wetPath M p buffer).1.wetBuffer
    ∧ (p.processBlock M buffer).1.dryBuffer = buffer
    ∧ (p.mixSmoother.currentValue = 1 → p.mixSmoother.targetValue = 1 →
        (p.processBlock M buffer).2.getSample ch i
          = (ChasmDSPProcessor.wetPath M p buffer).1.wetBuffer.getSample ch i
            * (ParameterSmoother.advance^[i + 1] p.outputGainSmoother).currentValue) := by
  obtain ⟨hdry, hmix, hog, hnc, _⟩ := ChasmDSPProcessor.wetPath_frame M p buffer
  obtain ⟨hd, hwet, _, _, _, hdata⟩ := ChasmDSPProcessor.mixLoop_spec
    (ChasmDSPProcessor.wetPath M p buffer).1 (ChasmDSPProcessor.wetPath M p buffer).2
    buffer.numSamples
  have hout : (p.processBlock M buffer).2.getSample ch i
      = (buffer.getSample ch i
            * (1 - (ParameterSmoother.advance^[i + 1] p.mixSmoother).currentValue)
          + (ChasmDSPProcessor.wetPath M p buffer).1.wetBuffer.getSample ch i
            * (ParameterSmoother.advance^[i + 1] p.mixSmoother).currentValue)
        * (ParameterSmoother.advance^[i + 1] p.outputGainSmoother).currentValue := by
    have h := hdata ch i
    rw [if_pos ⟨hi, hnc.symm ▸ hch⟩, hdry, hmix, hog] at h
    exact h
  refine ⟨hout, hwet, hd.trans hdry, fun hc ht => ?_⟩
  rw [hout, ParameterSmoother.iterate_advance_of_snapped _ (hc.trans ht.symm), ht]
  ring

/-- Witness of C3: the default-constructed processor (with pass-through JUCE classes) on the
stereo test block, channel 0, sample 0. -/
theorem C3_processBlock_mix_formula_witness :
    ((ChasmDSPProcessor.default : ChasmDSPProcessor ℚ Juce.passThrough).processBlock
        CMath.rational AudioBuffer.stereoRamp).1.dryBuffer = AudioBuffer.stereoRamp :=
  (C3_processBlock_mix_formula CMath.rational
    (ChasmDSPProcessor.default : ChasmDSPProcessor ℚ Juce.passThrough) AudioBuffer.stereoRamp
    0 0 (by decide) (by decide)).2.2.1

namespace AllpassFilter

variable {α : Type} [LinearOrderedField α] [FloorRing α]

/-- With an integer delay of `D` samples the wrapped read position is the integer
`(writeIndex + capacity - D) mod capacity`. -/
theorem readPosition_natDelay (f : AllpassFilter α) (capacity D : Nat)
    (hlen : f.delayLine.length = capacity) (hw : f.writeIndex < capacity)
    (hd : f.delaySamples = (D : α)) (hD : D ≤ capacity) :
    readPosition f = (((f.writeIndex + capacity - D) % capacity : Nat) : α) := by
  unfold readPosition
  simp only [hlen, hd]
  by_cases h : f.writeIndex < D
  · have hlt : (f.writeIndex : α) - (D : α) < 0 := by
      have : (f.writeIndex : α) < (D : α) := by exact_mod_cast h
      linarith
    rw [if_pos hlt, Nat.mod_eq_of_lt (by omega), Nat.cast_sub (by omega), Nat.cast_add]
    ring
  · have hge : ¬ (f.writeIndex : α) - (D : α) < 0 := by
      have : (D : α) ≤ (f.writeIndex : α) := by exact_mod_cast not_lt.mp h
      linarith
    have hmod : (f.writeIndex + capacity - D) % capacity = f.writeIndex - D := by
      have : f.writeIndex + capacity - D = (f.writeIndex - D) + capacity := by omega
      rw [this, Nat.add_mod_right, Nat.mod_eq_of_lt (by omega)]
    rw [if_neg hge, hmod, Nat.cast_sub (by omega)]

/-- With an integer delay the interpolation reads exactly one cell. -/
theorem getInterpolatedSample_natDelay (f : AllpassFilter α) (capacity D : Nat)
    (hlen : f.delayLine.length = capacity) (hw : f.writeIndex < capacity)
    (hd : f.delaySamples = (D : α)) (hD : D ≤ capacity) :
    getInterpolatedSample f
      = f.delayLine.getD ((f.writeIndex + capacity - D) % capacity) 0 := by
  have hne : f.delayLine ≠ [] := by
    intro h
    rw [h] at hlen
    simp at hlen
    omega
  unfold getInterpolatedSample
  rw [isEmpty_eq_false_of_ne_nil hne, readPosition_natDelay f capacity D hlen hw hd hD]
  simp only [Bool.false_eq_true, if_false, Nat.floor_natCast, Int.floor_natCast,
    Int.cast_natCast, hlen, Nat.mod_mod, sub_self, sub_zero, one_mul, zero_mul, add_zero]

/-- The output of a run in terms of the delayed sample. -/
theorem output_eq_delayed (f0 : AllpassFilter α) (delay x : Nat → α) (n : Nat)
    (hne : (run f0 delay x n).delayLine ≠ []) :
    output f0 delay x n = -(run f0 delay x n).feedback * x n + delayed f0 delay x n := by
  unfold output step
  rw [processSample_of_ne_nil { run f0 delay x n with delaySamples := delay n } hne (x n)]
  rfl

/-- The circular-buffer invariant of a run from a cleared line: the cell `k mod capacity`
holds the value stored at step `k` for each of the last `capacity` steps, and the cells not
yet written are zero. -/
theorem run_cells (f0 : AllpassFilter α) (delay x : Nat → α) (capacity : Nat)
    (hcap : 0 < capacity) (hline : f0.delayLine = List.replicate capacity 0)
    (hw : f0.writeIndex = 0) (n : Nat) :
    (∀ k, k < n → n ≤ k + capacity →
        (run f0 delay x n).delayLine.getD (k % capacity) 0
          = x k + f0.feedback * delayed f0 delay x k)
    ∧ (∀ j, n ≤ j → (run f0 delay x n).delayLine.getD j 0 = 0) := by
  have hlen : f0.delayLine.length = capacity := by rw [hline, List.length_replicate]
  induction n with
  | zero =>
    refine ⟨fun k hk _ => absurd hk (Nat.not_lt_zero k), fun j _ => ?_⟩
    show f0.delayLine.getD j 0 = 0
    rw [hline]
    by_cases hj : j < capacity
    · rw [List.getD_eq_getElem _ 0 (by rw [List.length_replicate]; exact hj)]
      simp
    · rw [List.getD_eq_default _ 0 (by rw [List.length_replicate]; omega)]
  | succ m ih =>
    obtain ⟨ih1, ih2⟩ := ih
    obtain ⟨hs1, hs2, hs3⟩ := run_shape f0 delay x capacity hcap hlen hw m
    have hne : ({ run f0 delay x m with delaySamples := delay m } : AllpassFilter α).delayLine
        ≠ [] := by
      intro h
      have : (run f0 delay x m).delayLine.length = 0 := by
        show ({ run f0 delay x m with delaySamples := delay m } : AllpassFilter α).delayLine.length
          = 0
        rw [h]; rfl
      omega
    have hline' : (run f0 delay x (m + 1)).delayLine
        = (run f0 delay x m).delayLine.set (m % capacity)
            (x m + f0.feedback * delayed f0 delay x m) := by
      have hstep : run f0 delay x (m + 1)
          = (processSample { run f0 delay x m with delaySamples := delay m } (x m)).2 := rfl
      rw [hstep, processSample_of_ne_nil _ hne]
      show (run f0 delay x m).delayLine.set (run f0 delay x m).writeIndex
          (x m + (run f0 delay x m).feedback * delayed f0 delay x m) = _
      rw [hs2, hs3]
    have hmlt : m % capacity < (run f0 delay x m).delayLine.length := by
      rw [hs1]; exact Nat.mod_lt _ hcap
    constructor
    · intro k hk hk2
      rw [hline', List.getD_eq_getElem?_getD]
      by_cases hkm : k = m
      · subst hkm
        rw [List.getElem?_set_self hmlt]
        rfl
      · have hklt : k < m := by omega
        have hmod : m % capacity ≠ k % capacity := by
          intro h
          have h1 : (m - k) % capacity = 0 := Nat.sub_mod_eq_zero_of_mod_eq h
          have h2 : (m - k) % capacity = m - k := Nat.mod_eq_of_lt (by omega)
          omega
        rw [List.getElem?_set_ne hmod, ← List.getD_eq_getElem?_getD]
        exact ih1 k hklt (by omega)
    · intro j hj
      rw [hline', List.getD_eq_getElem?_getD]
      by_cases hjc : j < capacity
      · have hmod : m % capacity ≠ j := by
          rw [Nat.mod_eq_of_lt (by omega)]; omega
        rw [List.getElem?_set_ne hmod, ← List.getD_eq_getElem?_getD]
        exact ih2 j (by omega)
      · have hmod : m % capacity ≠ j := by
          have := Nat.mod_lt m hcap
          omega
        rw [List.getElem?_set_ne hmod, ← List.getD_eq_getElem?_getD]
        exact ih2 j (by omega)

/-- With a constant integer delay `D` the delayed sample is the value stored `D` steps
earlier, and zero during the first `D` steps. -/
theorem delayed_natDelay (f0 : AllpassFilter α) (x : Nat → α) (capacity D : Nat)
    (hline : f0.delayLine = List.replicate capacity 0) (hw : f0.writeIndex = 0)
    (hD1 : 1 ≤ D) (hD2 : D + 1 ≤ capacity) (n : Nat) :
    delayed f0 (fun _ => (D : α)) x n
      = if D ≤ n then x (n - D) + f0.feedback * delayed f0 (fun _ => (D : α)) x (n - D)
        else 0 := by
  have hcap : 0 < capacity := by omega
  have hlen : f0.delayLine.length = capacity := by rw [hline, List.length_replicate]
  obtain ⟨hs1, hs2, _⟩ := run_shape f0 (fun _ => (D : α)) x capacity hcap hlen hw n
  obtain ⟨hc1, hc2⟩ := run_cells f0 (fun _ => (D : α)) x capacity hcap hline hw n
  have hread : delayed f0 (fun _ => (D : α)) x n
      = (run f0 (fun _ => (D : α)) x n).delayLine.getD
          ((n % capacity + capacity - D) % capacity) 0 := by
    unfold delayed
    rw [getInterpolatedSample_natDelay
      { run f0 (fun _ => (D : α)) x n with delaySamples := (D : α) } capacity D hs1
      (by show (run f0 (fun _ => (D : α)) x n).writeIndex < capacity
          rw [hs2]; exact Nat.mod_lt _ hcap) rfl (by omega)]
    show (run f0 (fun _ => (D : α)) x n).delayLine.getD
      (((run f0 (fun _ => (D : α)) x n).writeIndex + capacity - D) % capacity) 0 = _
    rw [hs2]
  rw [hread]
  by_cases hDn : D ≤ n
  · rw [if_pos hDn]
    have hidx : (n % capacity + capacity - D) % capacity = (n - D) % capacity := by
      have h1 : n % capacity + capacity - D + D = n % capacity + capacity := by omega
      have h2 : (n % capacity + capacity - D + D) % capacity = n % capacity := by
        rw [h1, Nat.add_mod_right, Nat.mod_mod]
      have h3 : (n - D + D) % capacity = n % capacity := by
        rw [Nat.sub_add_cancel hDn]
      have h4 : (n % capacity + capacity - D + D) % capacity = (n - D + D) % capacity := by
        rw [h2, h3]
      exact Nat.ModEq.add_right_cancel' D h4
    rw [hidx]
    exact hc1 (n - D) (by omega) (by omega)
  · rw [if_neg hDn]
    have hn : n % capacity = n := Nat.mod_eq_of_lt (by omega)
    rw [hn, Nat.mod_eq_of_lt (by omega)]
    exact hc2 _ (by omega)

/-- The difference equation the source really implements for a constant integer delay `D`:
`y[n] = -g * x[n] + (1 + g^2) * x[n - D] + g * y[n - D]` (terms with a negative index are 0). -/
theorem output_natDelay (f0 : AllpassFilter α) (x : Nat → α) (capacity D : Nat)
    (hline : f0.delayLine = List.replicate capacity 0) (hw : f0.writeIndex = 0)
    (hD1 : 1 ≤ D) (hD2 : D + 1 ≤ capacity) (n : Nat) :
    output f0 (fun _ => (D : α)) x n
      = -f0.feedback * x n
        + (if D ≤ n then
            (1 + f0.feedback ^ 2) * x (n - D)
              + f0.feedback * output f0 (fun _ => (D : α)) x (n - D)
          else 0) := by
  have hcap : 0 < capacity := by omega
  have hlen : f0.delayLine.length = capacity := by rw [hline, List.length_replicate]
  have hne : ∀ k, (run f0 (fun _ => (D : α)) x k).delayLine ≠ [] := by
    intro k h
    have := (run_shape f0 (fun _ => (D : α)) x capacity hcap hlen hw k).1
    rw [h] at this
    simp at this
    omega
  have hfb : ∀ k, (run f0 (fun _ => (D : α)) x k).feedback = f0.feedback := fun k =>
    (run_shape f0 (fun _ => (D : α)) x capacity hcap hlen hw k).2.2
  rw [output_eq_delayed _ _ _ _ (hne n), hfb, delayed_natDelay f0 x capacity D hline hw hD1 hD2 n]
  by_cases hDn : D ≤ n
  · rw [if_pos hDn, if_pos hDn, output_eq_delayed _ _ _ _ (hne (n - D)), hfb]
    ring
  · rw [if_neg hDn, if_neg hDn]

end AllpassFilter

/-! ## Stereo enhancer: the sample loop in closed form -/

namespace StereoEnhancer

variable {α : Type} [LinearOrderedField α]

/-- The state after `k` iterations of the sample loop of `processBlock`: the width smoother
has advanced `k` times and the first `k` sample pairs are mid plus/minus the scaled side of
the original pairs. -/
theorem processLoop_spec (e : StereoEnhancer α) (buffer : AudioBuffer α) (k : Nat) :
    (forLoop k processIndex (buffer, e)).2.widthSmoother
        = ParameterSmoother.advance^[k] e.widthSmoother
    ∧ (forLoop k processIndex (buffer, e)).1.numChannels = buffer.numChannels
    ∧ (forLoop k processIndex (buffer, e)).1.numSamples = buffer.numSamples
    ∧ ∀ c j, (forLoop k processIndex (buffer, e)).1.data c j
        = if j < k ∧ c = 0 then
            (buffer.data 0 j + buffer.data 1 j) * (1 / 2)
              + (buffer.data 0 j - buffer.data 1 j) * (1 / 2)
                * ((ParameterSmoother.advance^[j + 1] e.widthSmoother).currentValue / 100)
          else if j < k ∧ c = 1 then
            (buffer.data 0 j + buffer.data 1 j) * (1 / 2)
              - (buffer.data 0 j - buffer.data 1 j) * (1 / 2)
                * ((ParameterSmoother.advance^[j + 1] e.widthSmoother).currentValue / 100)
          else buffer.data c j := by
  induction k with
  | zero => exact ⟨rfl, rfl, rfl, fun c j => by simp [forLoop]⟩
  | succ k ih =>
    obtain ⟨hw, hc, hs, hdata⟩ := ih
    have hL : (forLoop k processIndex (buffer, e)).1.getSample 0 k = buffer.data 0 k := by
      show (forLoop k processIndex (buffer, e)).1.data 0 k = _
      rw [hdata 0 k]; simp
    have hR : (forLoop k processIndex (buffer, e)).1.getSample 1 k = buffer.data 1 k := by
      show (forLoop k processIndex (buffer, e)).1.data 1 k = _
      rw [hdata 1 k]; simp
    have hg : (updateParameters (forLoop k processIndex (buffer, e)).2).currentWidthGain
        = (ParameterSmoother.advance^[k + 1] e.widthSmoother).currentValue / 100 := by
      show ((forLoop k processIndex (buffer, e)).2.widthSmoother.getNextValue).1 / 100 = _
      rw [ParameterSmoother.getNextValue_fst, hw, Function.iterate_succ_apply']
    refine ⟨?_, hc, hs, fun c j => ?_⟩
    · show ParameterSmoother.advance (forLoop k processIndex (buffer, e)).2.widthSmoother = _
      rw [hw, Function.iterate_succ_apply']
    · show (if c = 1 ∧ j = k then _ else if c = 0 ∧ j = k then _
          else (forLoop k processIndex (buffer, e)).1.data c j) = _
      rw [hL, hR, hg, hdata c j]
      by_cases hj : j = k
      · subst hj
        by_cases h1 : c = 1
        · subst h1; simp
        · by_cases h0 : c = 0
          · subst h0; simp
          · simp [h0, h1]
      · by_cases hlt : j < k
        · have : j < k + 1 := by omega
          simp [hj, hlt, this]
        · have : ¬ j < k + 1 := by omega
          simp [hj, hlt, this]

end StereoEnhancer

/-- C12: for every sample pair `(L, R)` of the block and the width value `w` the smoother
yields for that sample, `processBlock` outputs `L' = mid + (w/100) * side` and
`R' = mid - (w/100) * side` with `mid = (L+R)/2`, `side = (L-R)/2`; so the mid signal is
preserved, the side signal is scaled by exactly `w/100`, and `w = 200` doubles it. -/
theorem C12_stereo_enhancer_mid_side {α : Type} [LinearOrderedField α]
    (e : StereoEnhancer α) (buffer : AudioBuffer α) (i : Nat) (hi : i < buffer.numSamples) :
    (e.processBlock buffer).1.getSample 0 i
        = (buffer.getSample 0 i + buffer.getSample 1 i) / 2
          + ((ParameterSmoother.advance^[i + 1] e.widthSmoother).currentValue / 100)
            * ((buffer.getSample 0 i - buffer.getSample 1 i) / 2)
    ∧ (e.processBlock buffer).1.getSample 1 i
        = (buffer.getSample 0 i + buffer.getSample 1 i) / 2
          - ((ParameterSmoother.advance^[i + 1] e.widthSmoother).currentValue / 100)
            * ((buffer.getSample 0 i - buffer.getSample 1 i) / 2)
    ∧ ((e.processBlock buffer).1.getSample 0 i + (e.processBlock buffer).1.getSample 1 i) / 2
        = (buffer.getSample 0 i + buffer.getSample 1 i) / 2
    ∧ ((e.processBlock buffer).1.getSample 0 i - (e.processBlock buffer).1.getSample 1 i) / 2
        = ((ParameterSmoother.advance^[i + 1] e.widthSmoother).currentValue / 100)
          * ((buffer.getSample 0 i - buffer.getSample 1 i) / 2)
    ∧ ((ParameterSmoother.advance^[i + 1] e.widthSmoother).currentValue = 200 →
        ((e.processBlock buffer).1.getSample 0 i - (e.processBlock buffer).1.getSample 1 i) / 2
          = 2 * ((buffer.getSample 0 i - buffer.getSample 1 i) / 2)) := by
  obtain ⟨_, _, _, hdata⟩ := StereoEnhancer.processLoop_spec e buffer buffer.numSamples
  have hL : (e.processBlock buffer).1.getSample 0 i
      = (buffer.getSample 0 i + buffer.getSample 1 i) / 2
        + ((ParameterSmoother.advance^[i + 1] e.widthSmoother).currentValue / 100)
          * ((buffer.getSample 0 i - buffer.getSample 1 i) / 2) := by
    show (forLoop buffer.numSamples StereoEnhancer.processIndex (buffer, e)).1.data 0 i = _
    rw [hdata 0 i, if_pos ⟨hi, rfl⟩]
    simp only [AudioBuffer.getSample]
    ring
  have hR : (e.processBlock buffer).1.getSample 1 i
      = (buffer.getSample 0 i + buffer.getSample 1 i) / 2
        - ((ParameterSmoother.advance^[i + 1] e.widthSmoother).currentValue / 100)
          * ((buffer.getSample 0 i - buffer.getSample 1 i) / 2) := by
    show (forLoop buffer.numSamples StereoEnhancer.processIndex (buffer, e)).1.data 1 i = _
    rw [hdata 1 i, if_neg (by simp), if_pos ⟨hi, rfl⟩]
    simp only [AudioBuffer.getSample]
    ring
  refine ⟨hL, hR, ?_, ?_, ?_⟩
  · rw [hL, hR]; ring
  · rw [hL, hR]; ring
  · intro hw
    rw [hL, hR, hw]; ring

/-- Witness of C12: a reset enhancer on the stereo test block, sample 1. -/
theorem C12_stereo_enhancer_mid_side_witness :
    (((StereoEnhancer.default : StereoEnhancer ℚ).reset.processBlock
          AudioBuffer.stereoRamp).1.getSample 0 1
        + ((StereoEnhancer.default : StereoEnhancer ℚ).reset.processBlock
          AudioBuffer.stereoRamp).1.getSample 1 1) / 2
      = (AudioBuffer.stereoRamp.getSample 0 1 + AudioBuffer.stereoRamp.getSample 1 1) / 2 :=
  (C12_stereo_enhancer_mid_side (StereoEnhancer.default : StereoEnhancer ℚ).reset
    AudioBuffer.stereoRamp 1 (by decide)).2.2.1

/-- C11: while the width smoother's current and target values are both 0, both output
channels of `processBlock` carry the mono mid signal: `L' = R' = (L + R) / 2` for every
sample pair. -/
theorem C11_stereo_enhancer_zero_width_is_mono {α : Type} [LinearOrderedField α]
    (e : StereoEnhancer α) (buffer : AudioBuffer α)
    (hc : e.widthSmoother.currentValue = 0) (ht : e.widthSmoother.targetValue = 0)
    (i : Nat) (hi : i < buffer.numSamples) :
    (e.processBlock buffer).1.getSample 0 i = (buffer.getSample 0 i + buffer.getSample 1 i) / 2
    ∧ (e.processBlock buffer).1.getSample 1 i
        = (buffer.getSample 0 i + buffer.getSample 1 i) / 2 := by
  obtain ⟨_, _, _, hdata⟩ := StereoEnhancer.processLoop_spec e buffer buffer.numSamples
  have hw : (ParameterSmoother.advance^[i + 1] e.widthSmoother).currentValue = 0 := by
    rw [ParameterSmoother.iterate_advance_of_snapped _ (hc.trans ht.symm), ht]
  constructor
  · show (forLoop buffer.numSamples StereoEnhancer.processIndex (buffer, e)).1.data 0 i = _
    rw [hdata 0 i, if_pos ⟨hi, rfl⟩, hw]
    simp only [AudioBuffer.getSample]
    ring
  · show (forLoop buffer.numSamples StereoEnhancer.processIndex (buffer, e)).1.data 1 i = _
    rw [hdata 1 i, if_neg (by simp), if_pos ⟨hi, rfl⟩, hw]
    simp only [AudioBuffer.getSample]
    ring

/-- Witness of C11: a default-constructed enhancer (its width smoother rests at 0) turns the
first pair `(1, 3)` of the test block into `(2, 2)`. -/
theorem C11_stereo_enhancer_zero_width_is_mono_witness :
    ((StereoEnhancer.default : StereoEnhancer ℚ).processBlock
        AudioBuffer.stereoRamp).1.getSample 0 0
      = (AudioBuffer.stereoRamp.getSample 0 0 + AudioBuffer.stereoRamp.getSample 1 0) / 2 :=
  (C11_stereo_enhancer_zero_width_is_mono (StereoEnhancer.default : StereoEnhancer ℚ)
    AudioBuffer.stereoRamp rfl rfl 0 (by decide)).1

/-! ## Loudness stage: disabled state, presets, signal path -/

/-- C13: after `setCompressorMode (0)` the stage is disabled and `processBlock` and
`processSingleSample` are strict no-ops: buffer and sample come back unchanged and the whole
state of the stage (gains, compressor settings, compressor envelopes) is unchanged. -/
theorem C13_loudness_disabled_is_noop {α : Type} [LinearOrderedField α] {J : Juce α}
    (M : CMath α) (m : MakeItLoud α J) (buffer : AudioBuffer α) (sample : α) :
    (m.setCompressorModeInt 0)._enabled = false
    ∧ MakeItLoud.processBlock M (m.setCompressorModeInt 0) buffer
        = (buffer, m.setCompressorModeInt 0)
    ∧ MakeItLoud.processSingleSample M (m.setCompressorModeInt 0) sample
        = (sample, m.setCompressorModeInt 0) := by
  refine ⟨rfl, ?_, ?_⟩
  · simp [MakeItLoud.processBlock, MakeItLoud.setCompressorModeInt]
  · simp [MakeItLoud.processSingleSample, MakeItLoud.setCompressorModeInt]

/-- The clamp `jlimit (0, 2, mode + 1)` is 0 for negative modes and 2 for positive ones. -/
theorem jlimit_mode_offset (mode : Int) (h : mode ≠ 0) :
    (mode ≤ -1 ∧ jlimit (0 : Int) 2 (mode + 1) = 0)
    ∨ (1 ≤ mode ∧ jlimit (0 : Int) 2 (mode + 1) = 2) := by
  unfold jlimit
  rcases lt_or_gt_of_ne h with hneg | hpos
  · left
    refine ⟨by omega, ?_⟩
    split_ifs <;> omega
  · right
    refine ⟨by omega, ?_⟩
    split_ifs <;> omega

/-- C14: after `setCompressorMode` with a non-zero integer, or with any of the three
`CompressorMode` enumerators, both compressors hold the same (threshold, ratio, attack,
release) tuple, which is one of `(-20, 4, 10, 80)`, `(-15, 6, 75, 50)`, `(-8, 5, 100, 200)`;
after a non-zero integer the stage is enabled. -/
theorem C14_compressor_presets_shared {α : Type} [LinearOrderedField α] {J : Juce α}
    (m : MakeItLoud α J) :
    (∀ mode : Int, mode ≠ 0 →
        (m.setCompressorModeInt mode)._preCompressor.settings
          = (m.setCompressorModeInt mode)._postCompressor.settings
        ∧ ((m.setCompressorModeInt mode)._preCompressor.settings = (-20, 4, 10, 80)
          ∨ (m.setCompressorModeInt mode)._preCompressor.settings = (-15, 6, 75, 50)
          ∨ (m.setCompressorModeInt mode)._preCompressor.settings = (-8, 5, 100, 200))
        ∧ (m.setCompressorModeInt mode)._enabled = true)
    ∧ (∀ c : CompressorMode,
        (m.setCompressorMode (some c))._preCompressor.settings
          = (m.setCompressorMode (some c))._postCompressor.settings
        ∧ ((m.setCompressorMode (some c))._preCompressor.settings = (-20, 4, 10, 80)
          ∨ (m.setCompressorMode (some c))._preCompressor.settings = (-15, 6, 75, 50)
          ∨ (m.setCompressorMode (some c))._preCompressor.settings = (-8, 5, 100, 200))) := by
  constructor
  · intro mode hmode
    have hne : ¬ mode = 0 := hmode
    rcases jlimit_mode_offset mode hmode with ⟨_, hl⟩ | ⟨_, hl⟩
    · have hset : m.setCompressorModeInt mode
          = MakeItLoud.applyCompressorSettings { m with _enabled := true } (-20) 4 10 80 := by
        unfold MakeItLoud.setCompressorModeInt
        rw [if_neg hne]
        simp only [hl]
        rfl
      rw [hset]
      exact ⟨rfl, Or.inl rfl, rfl⟩
    · have hset : m.setCompressorModeInt mode
          = MakeItLoud.applyCompressorSettings { m with _enabled := true } (-8) 5 100 200 := by
        unfold MakeItLoud.setCompressorModeInt
        rw [if_neg hne]
        simp only [hl]
        rfl
      rw [hset]
      exact ⟨rfl, Or.inr (Or.inr rfl), rfl⟩
  · intro c
    cases c with
    | Clean => exact ⟨rfl, Or.inl rfl⟩
    | Further => exact ⟨rfl, Or.inr (Or.inl rfl)⟩
    | Crunchy => exact ⟨rfl, Or.inr (Or.inr rfl)⟩

/-! ### In-place maps over a buffer -/

/-- The loop `for (i < n) b[ch][i] = F (b[ch][i])` maps the first `n` samples of channel `ch`
and nothing else. -/
theorem forLoop_mapColumn {β : Type} (F : β → β) (ch n : Nat) (b : AudioBuffer β) :
    (forLoop n (fun i b1 => b1.setSample ch i (F (b1.getSample ch i))) b).numChannels
        = b.numChannels
    ∧ (forLoop n (fun i b1 => b1.setSample ch i (F (b1.getSample ch i))) b).numSamples
        = b.numSamples
    ∧ ∀ c j, (forLoop n (fun i b1 => b1.setSample ch i (F (b1.getSample ch i))) b).data c j
        = if c = ch ∧ j < n then F (b.data c j) else b.data c j := by
  induction n with
  | zero => exact ⟨rfl, rfl, fun c j => by simp [forLoop]⟩
  | succ k ih =>
    obtain ⟨h1, h2, h3⟩ := ih
    refine ⟨h1, h2, fun c j => ?_⟩
    show (if c = ch ∧ j = k then
          F ((forLoop k (fun i b1 => b1.setSample ch i (F (b1.getSample ch i))) b).data ch k)
        else (forLoop k (fun i b1 => b1.setSample ch i (F (b1.getSample ch i))) b).data c j) = _
    rw [h3 c j, h3 ch k]
    by_cases hc : c = ch
    · subst hc
      by_cases hj : j = k
      · subst hj; simp
      · by_cases hlt : j < k
        · have : j < k + 1 := by omega
          simp [hj, hlt, this]
        · have : ¬ j < k + 1 := by omega
          simp [hj, hlt, this]
    · simp [hc]

/-- The nested loop `for (channel < nc) for (i < numSamples) b[channel][i] = F (b[channel][i])`
maps every sample of the first `nc` channels and nothing else. -/
theorem forLoop_mapBlock {β : Type} (F : β → β) (nc : Nat) (b : AudioBuffer β) :
    (forLoop nc (fun channel b0 => forLoop b0.numSamples
        (fun i b1 => b1.setSample channel i (F (b1.getSample channel i))) b0) b).numChannels
        = b.numChannels
    ∧ (forLoop nc (fun channel b0 => forLoop b0.numSamples
        (fun i b1 => b1.setSample channel i (F (b1.getSample channel i))) b0) b).numSamples
        = b.numSamples
    ∧ ∀ c j, (forLoop nc (fun channel b0 => forLoop b0.numSamples
        (fun i b1 => b1.setSample channel i (F (b1.getSample channel i))) b0) b).data c j
        = if c < nc ∧ j < b.numSamples then F (b.data c j) else b.data c j := by
  induction nc with
  | zero => exact ⟨rfl, rfl, fun c j => by simp [forLoop]⟩
  | succ k ih =>
    obtain ⟨h1, h2, h3⟩ := ih
    obtain ⟨g1, g2, g3⟩ := forLoop_mapColumn F k
      (forLoop k (fun channel b0 => forLoop b0.numSamples
        (fun i b1 => b1.setSample channel i (F (b1.getSample channel i))) b0) b).numSamples
      (forLoop k (fun channel b0 => forLoop b0.numSamples
        (fun i b1 => b1.setSample channel i (F (b1.getSample channel i))) b0) b)
    refine ⟨g1.trans h1, g2.trans h2, fun c j => ?_⟩
    refine (g3 c j).trans ?_
    rw [h3 c j, h2]
    by_cases hc : c = k
    · subst hc
      by_cases hj : j < b.numSamples
      · simp [hj]
      · simp [hj]
    · by_cases hlt : c < k
      · have : c < k + 1 := by omega
        simp [hc, hlt, this]
      · have : ¬ c < k + 1 := by omega
        simp [hc, hlt, this]

/-- When enabled and given a non-empty buffer, `processBlock` is the post-compressor applied
to the result of `beforePostCompressor`. -/
theorem MakeItLoud.processBlock_of_enabled {α : Type} [LinearOrderedField α] {J : Juce α}
    (M : CMath α) (m : MakeItLoud α J) (buffer : AudioBuffer α) (hen : m._enabled = true)
    (hc : buffer.numChannels ≠ 0) (hs : buffer.numSamples ≠ 0) :
    MakeItLoud.processBlock M m buffer
      = (((MakeItLoud.beforePostCompressor M m buffer).2._postCompressor.process
            (MakeItLoud.beforePostCompressor M m buffer).1).1,
          { (MakeItLoud.beforePostCompressor M m buffer).2 with
            _postCompressor :=
              ((MakeItLoud.beforePostCompressor M m buffer).2._postCompressor.process
                (MakeItLoud.beforePostCompressor M m buffer).1).2 }) := by
  have h1 : ¬ ((!m._enabled) = true) := by simp [hen]
  have h2 : ¬ (buffer.numChannels = 0 ∨ buffer.numSamples = 0) := by simp [hc, hs]
  unfold MakeItLoud.processBlock
  rw [if_neg h1, if_neg h2]
  rfl

/-- C15: when the stage is enabled and the buffer is non-empty, `processBlock` runs, in this
order, the pre-compressor, the input gain, the boost gain, the waveshaper
`s -> tanh (s * boost)` and the post-compressor.  With JUCE's `Gain` multiplying by its
linear gain, its processors keeping the buffer dimensions and `tanh` never NaN or infinite,
the sample handed to the post-compressor is `tanh (boost * (boost * inputGain * pre x))`. -/
theorem C15_loudness_signal_path {α : Type} [LinearOrderedField α] {J : Juce α}
    (M : CMath α) (m : MakeItLoud α J) (buffer : AudioBuffer α)
    (hen : m._enabled = true) (hc : buffer.numChannels ≠ 0) (hs : buffer.numSamples ≠ 0)
    (hcomp : ∀ (t r a rl : α) (e : J.Envelope) (b : AudioBuffer α),
      (J.compressorProcess t r a rl e b).1.numChannels = b.numChannels
      ∧ (J.compressorProcess t r a rl e b).1.numSamples = b.numSamples)
    (hgain : ∀ (g : J.Gain) (v : α) (b : AudioBuffer α),
      (J.gainProcess (J.gainSetGainLinear g v) b).1.numChannels = b.numChannels
      ∧ (J.gainProcess (J.gainSetGainLinear g v) b).1.numSamples = b.numSamples
      ∧ ∀ c j, c < b.numChannels → j < b.numSamples →
          (J.gainProcess (J.gainSetGainLinear g v) b).1.data c j = b.data c j * v)
    (hfin : ∀ x : α, M.isnan (M.tanh x) = false ∧ M.isinf (M.tanh x) = false)
    (ch i : Nat) (hch : ch < buffer.numChannels) (hi : i < buffer.numSamples) :
    (MakeItLoud.processBlock M m buffer).1
        = (m._postCompressor.process (MakeItLoud.beforePostCompressor M m buffer).1).1
    ∧ (MakeItLoud.beforePostCompressor M m buffer).1.getSample ch i
        = M.tanh (m._boostValue
            * (m._boostValue * m._inputGainValue
              * (m._preCompressor.process buffer).1.getSample ch i)) := by
  constructor
  · rw [MakeItLoud.processBlock_of_enabled M m buffer hen hc hs]
    rfl
  · obtain ⟨p1, p2⟩ := hcomp m._preCompressor.thresholddB m._preCompressor.ratio
      m._preCompressor.attackTime m._preCompressor.releaseTime m._preCompressor.envelope buffer
    have q1 : (m._preCompressor.process buffer).1.numChannels = buffer.numChannels := p1
    have q2 : (m._preCompressor.process buffer).1.numSamples = buffer.numSamples := p2
    obtain ⟨a1, a2, a3⟩ := hgain m._inputGain m._inputGainValue (m._preCompressor.process buffer).1
    obtain ⟨b1, b2, b3⟩ := hgain m._boostGain m._boostValue
      (J.gainProcess (J.gainSetGainLinear m._inputGain m._inputGainValue)
        (m._preCompressor.process buffer).1).1
    have hshape : ∀ (m' : MakeItLoud α J) (s : α),
        MakeItLoud.waveshape M m' s = M.tanh (s * m'._boostValue) := by
      intro m' s
      unfold MakeItLoud.waveshape
      simp only [(hfin (s * m'._boostValue)).1, (hfin (s * m'._boostValue)).2, Bool.or_self,
        Bool.false_eq_true, if_false]
    obtain ⟨_, _, hmap⟩ := forLoop_mapBlock
      (MakeItLoud.waveshape M (MakeItLoud.beforePostCompressor M m buffer).2)
      (J.gainProcess (J.gainSetGainLinear m._boostGain m._boostValue)
        (J.gainProcess (J.gainSetGainLinear m._inputGain m._inputGainValue)
          (m._preCompressor.process buffer).1).1).1.numChannels
      (J.gainProcess (J.gainSetGainLinear m._boostGain m._boostValue)
        (J.gainProcess (J.gainSetGainLinear m._inputGain m._inputGainValue)
          (m._preCompressor.process buffer).1).1).1
    have hval := hmap ch i
    rw [if_pos ⟨by rw [b1, a1, q1]; exact hch, by rw [b2, a2, q2]; exact hi⟩, hshape,
      b3 ch i (by rw [a1, q1]; exact hch) (by rw [a2, q2]; exact hi),
      a3 ch i (by rw [q1]; exact hch) (by rw [q2]; exact hi)] at hval
    show (MakeItLoud.beforePostCompressor M m buffer).1.data ch i = _
    refine hval.trans ?_
    show M.tanh ((m._preCompressor.process buffer).1.data ch i * m._inputGainValue
        * m._boostValue * m._boostValue) = _
    congr 1
    simp only [AudioBuffer.getSample]
    ring

/-- Witness of C15: the default-constructed stage (enabled, both gains 1) with the scaling
JUCE instance on the stereo test block, channel 1, sample 0. -/
theorem C15_loudness_signal_path_witness :
    (MakeItLoud.beforePostCompressor CMath.rational
        (MakeItLoud.default : MakeItLoud ℚ (Juce.scaling fun a b => decide (a = b)))
        AudioBuffer.stereoRamp).1.getSample 1 0
      = CMath.rational.tanh
          ((MakeItLoud.default : MakeItLoud ℚ (Juce.scaling fun a b => decide (a = b)))._boostValue
            * ((MakeItLoud.default :
                  MakeItLoud ℚ (Juce.scaling fun a b => decide (a = b)))._boostValue
              * (MakeItLoud.default :
                  MakeItLoud ℚ (Juce.scaling fun a b => decide (a = b)))._inputGainValue
              * ((MakeItLoud.default :
                  MakeItLoud ℚ (Juce.scaling fun a b => decide (a = b)))._preCompressor.process
                    AudioBuffer.stereoRamp).1.getSample 1 0)) :=
  (C15_loudness_signal_path CMath.rational
    (MakeItLoud.default : MakeItLoud ℚ (Juce.scaling fun a b => decide (a = b)))
    AudioBuffer.stereoRamp rfl (by decide) (by decide)
    (fun _ _ _ _ _ _ => ⟨rfl, rfl⟩)
    (fun _ _ _ => ⟨rfl, rfl, fun _ _ _ _ => rfl⟩)
    (fun _ => ⟨rfl, rfl⟩) 1 0 (by decide) (by decide)).2

/-! ## Haas effect -/

/-- A smoother resting at its target is not changed by `getNextValue`. -/
theorem ParameterSmoother.advance_of_snapped {α : Type} [LinearOrderedField α]
    (s : ParameterSmoother α) (h : s.currentValue = s.targetValue) :
    ParameterSmoother.advance s = s := by
  cases s with
  | mk sr ms c cur tgt =>
    simp only at h
    subst h
    simp [ParameterSmoother.advance, ParameterSmoother.getNextValue]

/-- The sample rate of an allpass filter does not change along a run. -/
theorem AllpassFilter.run_sampleRate {α : Type} [LinearOrderedField α] [FloorRing α]
    (f0 : AllpassFilter α) (delay x : Nat → α) (n : Nat) :
    (AllpassFilter.run f0 delay x n)._sampleRate = f0._sampleRate := by
  induction n with
  | zero => rfl
  | succ k ih =>
    show (AllpassFilter.processSample
      { AllpassFilter.run f0 delay x k with delaySamples := delay k } (x k)).2._sampleRate = _
    unfold AllpassFilter.processSample
    split
    · exact ih
    · exact ih

/-- For a capacity that fits `size_t`, `delayLine.size() - 1` is the capacity minus one. -/
theorem AllpassFilter.sizeMinusOne_eq {β : Type} (f : AllpassFilter β) (capacity : Nat)
    (hlen : f.delayLine.length = capacity) (h1 : 1 ≤ capacity) (h2 : capacity ≤ 2 ^ 64) :
    AllpassFilter.sizeMinusOne f = capacity - 1 := by
  unfold AllpassFilter.sizeMinusOne
  rw [hlen]
  have h : capacity + (2 ^ 64 - 1) = (capacity - 1) + 2 ^ 64 := by omega
  rw [h, Nat.add_mod_right]
  exact Nat.mod_eq_of_lt (by omega)

namespace HaasEffect

variable {α : Type} [LinearOrderedField α] [FloorRing α]

/-- The sample loop of `processBlock` on a Haas effect whose smoother rests at `d` ms and
whose clamped delay `jlimit (1, capacity - 1, d * 0.001 * sampleRate)` is the integer `D`
runs the right channel through the delay filter with the constant delay `D`. -/
theorem haasLoop_spec (h : HaasEffect α) (buffer : AudioBuffer α) (capacity D : Nat)
    (hlen : h.rightDelay.delayLine.length = capacity) (hw : h.rightDelay.writeIndex = 0)
    (hc1 : 1 ≤ capacity) (hc2 : capacity ≤ 2 ^ 64)
    (hsnap : h.delaySmoother.currentValue = h.delaySmoother.targetValue)
    (hD : jlimit 1 (((capacity - 1 : Nat) : α))
        (h.delaySmoother.targetValue * (1 / 1000) * h.rightDelay._sampleRate) = (D : α))
    (k : Nat) :
    (forLoop k processIndex (buffer, h)).2.rightDelay
      = AllpassFilter.run h.rightDelay (fun _ => (D : α)) (fun j => buffer.data 1 j) k
    ∧ (forLoop k processIndex (buffer, h)).2.delaySmoother = h.delaySmoother
    ∧ ∀ c j, (forLoop k processIndex (buffer, h)).1.data c j
        = if c = 1 ∧ j < k then
            AllpassFilter.output h.rightDelay (fun _ => (D : α)) (fun j => buffer.data 1 j) j
          else buffer.data c j := by
  induction k with
  | zero => exact ⟨rfl, rfl, fun c j => by simp [forLoop]⟩
  | succ k ih =>
    obtain ⟨hr, hsm, hdata⟩ := ih
    generalize hst : forLoop k processIndex (buffer, h) = st at hr hsm hdata
    have hstep : forLoop (k + 1) processIndex (buffer, h) = processIndex k st := by
      show processIndex k (forLoop k processIndex (buffer, h)) = _
      rw [hst]
    rw [hstep]
    have hx : st.1.getSample 1 k = buffer.data 1 k := by
      show st.1.data 1 k = _
      rw [hdata 1 k]; simp
    have hshape := AllpassFilter.run_shape h.rightDelay (fun _ => (D : α))
      (fun j => buffer.data 1 j) capacity (by omega) hlen hw k
    have hsr := AllpassFilter.run_sampleRate h.rightDelay (fun _ => (D : α))
      (fun j => buffer.data 1 j) k
    have hupd : (updateParameters st.2).rightDelay
        = { AllpassFilter.run h.rightDelay (fun _ => (D : α)) (fun j => buffer.data 1 j) k with
            delaySamples := (D : α) } := by
      show AllpassFilter.setDelayTime st.2.rightDelay (st.2.delaySmoother.getNextValue).1 = _
      rw [hr, ParameterSmoother.getNextValue_fst, hsm,
        ParameterSmoother.advance_of_snapped _ hsnap, hsnap]
      unfold AllpassFilter.setDelayTime
      simp only []
      rw [AllpassFilter.sizeMinusOne_eq _ capacity hshape.1 hc1 hc2, hsr, hD]
    refine ⟨?_, ?_, fun c j => ?_⟩
    · show ((updateParameters st.2).rightDelay.processSample (st.1.getSample 1 k)).2 = _
      rw [hupd, hx]
      rfl
    · show (ParameterSmoother.advance st.2.delaySmoother) = _
      rw [hsm, ParameterSmoother.advance_of_snapped _ hsnap]
    · show (if c = 1 ∧ j = k then
            ((updateParameters st.2).rightDelay.processSample (st.1.getSample 1 k)).1
          else st.1.data c j) = _
      rw [hupd, hx, hdata c j]
      by_cases hc : c = 1
      · subst hc
        by_cases hj : j = k
        · subst hj
          simp only [true_and, if_true, Nat.lt_succ_self]
          rfl
        · by_cases hlt : j < k
          · have : j < k + 1 := by omega
            simp [hj, hlt, this]
          · have : ¬ j < k + 1 := by omega
            simp [hj, hlt, this]
      · simp [hc]

/-- The member `processBlock` is the loop over `processIndex`. -/
theorem processBlock_eq_forLoop (h : HaasEffect α) (buffer : AudioBuffer α) :
    h.processBlock buffer = forLoop buffer.numSamples processIndex (buffer, h) := rfl

/-- The right channel after `processBlock` when the clamped delay is the integer `D >= 1`, the
delay line is cleared and the feedback is 0: the input delayed by `D` samples. -/
theorem processBlock_right (h : HaasEffect α) (buffer : AudioBuffer α) (capacity D : Nat)
    (hline : h.rightDelay.delayLine = List.replicate capacity 0)
    (hw : h.rightDelay.writeIndex = 0) (hfb : h.rightDelay.feedback = 0)
    (hc2 : capacity ≤ 2 ^ 64)
    (hsnap : h.delaySmoother.currentValue = h.delaySmoother.targetValue)
    (hD : jlimit 1 (((capacity - 1 : Nat) : α))
        (h.delaySmoother.targetValue * (1 / 1000) * h.rightDelay._sampleRate) = (D : α))
    (hD1 : 1 ≤ D) (hD2 : D + 1 ≤ capacity) (n : Nat) (hn : n < buffer.numSamples) :
    (h.processBlock buffer).1.getSample 1 n
      = if D ≤ n then buffer.getSample 1 (n - D) else 0 := by
  have hlen : h.rightDelay.delayLine.length = capacity := by
    rw [hline, List.length_replicate]
  obtain ⟨_, _, hdata⟩ := haasLoop_spec h buffer capacity D hlen hw (by omega) hc2 hsnap hD
    buffer.numSamples
  have hne : (AllpassFilter.run h.rightDelay (fun _ => (D : α)) (fun j => buffer.data 1 j)
      n).delayLine ≠ [] := by
    intro hnil
    have := (AllpassFilter.run_shape h.rightDelay (fun _ => (D : α))
      (fun j => buffer.data 1 j) capacity (by omega) hlen hw n).1
    rw [hnil] at this
    simp at this
    omega
  have hfbn := (AllpassFilter.run_shape h.rightDelay (fun _ => (D : α))
      (fun j => buffer.data 1 j) capacity (by omega) hlen hw n).2.2
  rw [processBlock_eq_forLoop]
  show (forLoop buffer.numSamples processIndex (buffer, h)).1.data 1 n = _
  have hval := hdata 1 n
  rw [if_pos ⟨rfl, hn⟩, AllpassFilter.output_eq_delayed _ _ _ _ hne, hfbn, hfb,
    AllpassFilter.delayed_natDelay h.rightDelay (fun j => buffer.data 1 j) capacity D hline hw
      hD1 hD2 n, hfb] at hval
  rw [hval]
  by_cases hDn : D ≤ n
  · rw [if_pos hDn, if_pos hDn]
    simp only [AudioBuffer.getSample]
    ring
  · rw [if_neg hDn, if_neg hDn]
    ring

end HaasEffect

/-- The delay line, cursor, feedback and sample rate of `HaasEffect.preparedAt`. -/
theorem HaasEffect.preparedAt_state (d : ℚ) :
    (HaasEffect.preparedAt d).rightDelay.delayLine = List.replicate 51 0
    ∧ (HaasEffect.preparedAt d).rightDelay.writeIndex = 0
    ∧ (HaasEffect.preparedAt d).rightDelay.feedback = 0
    ∧ (HaasEffect.preparedAt d).rightDelay._sampleRate = 1000
    ∧ (HaasEffect.preparedAt d).delaySmoother.currentValue = d
    ∧ (HaasEffect.preparedAt d).delaySmoother.targetValue = d := by
  refine ⟨?_, rfl, rfl, rfl, rfl, rfl⟩
  simp only [HaasEffect.preparedAt, HaasEffect.prepare, HaasEffect.reset, AllpassFilter.prepare,
    AllpassFilter.reset, AllpassFilter.setFeedback, AllpassFilter.length_resize,
    List.length_replicate]
  norm_num

/-- C20 (as amended): for a Haas effect in cleared state (delay line of `capacity` zeros,
cursor 0, feedback 0) whose delay smoother rests at `d` ms, `processBlock` delays the right
channel by exactly `D = d * sampleRate / 1000` samples whenever that is an integer with
`1 <= D <= capacity - 1`: `right_out[n] = right_in[n - D]` for `n >= D` and 0 for `n < D`.
When `d * sampleRate / 1000 < 1`, in particular for `d = 0`, the delay is one sample. -/
theorem C20_haas_integer_delay {α : Type} [LinearOrderedField α] [FloorRing α]
    (h : HaasEffect α) (buffer : AudioBuffer α) (capacity : Nat) (d : α)
    (hline : h.rightDelay.delayLine = List.replicate capacity 0)
    (hw : h.rightDelay.writeIndex = 0) (hfb : h.rightDelay.feedback = 0)
    (hc1 : 2 ≤ capacity) (hc2 : capacity ≤ 2 ^ 64)
    (hcur : h.delaySmoother.currentValue = d) (htgt : h.delaySmoother.targetValue = d) :
    (∀ D : Nat, 1 ≤ D → D + 1 ≤ capacity → d * (1 / 1000) * h.rightDelay._sampleRate = (D : α) →
      ∀ n : Nat, n < buffer.numSamples →
        (h.processBlock buffer).1.getSample 1 n
          = if D ≤ n then buffer.getSample 1 (n - D) else 0)
    ∧ (d * (1 / 1000) * h.rightDelay._sampleRate < 1 →
      ∀ n : Nat, n < buffer.numSamples →
        (h.processBlock buffer).1.getSample 1 n
          = if 1 ≤ n then buffer.getSample 1 (n - 1) else 0) := by
  have hsnap : h.delaySmoother.currentValue = h.delaySmoother.targetValue := hcur.trans htgt.symm
  constructor
  · intro D hD1 hD2 hD n hn
    have hlim : jlimit 1 (((capacity - 1 : Nat) : α))
        (h.delaySmoother.targetValue * (1 / 1000) * h.rightDelay._sampleRate) = (D : α) := by
      rw [htgt, hD]
      apply jlimit_of_mem
      · exact_mod_cast hD1
      · exact_mod_cast (by omega : D ≤ capacity - 1)
    exact HaasEffect.processBlock_right h buffer capacity D hline hw hfb hc2 hsnap hlim hD1 hD2
      n hn
  · intro hlt n hn
    have hlim : jlimit 1 (((capacity - 1 : Nat) : α))
        (h.delaySmoother.targetValue * (1 / 1000) * h.rightDelay._sampleRate)
        = ((1 : Nat) : α) := by
      rw [htgt]
      unfold jlimit
      rw [if_pos hlt, Nat.cast_one]
    exact HaasEffect.processBlock_right h buffer capacity 1 hline hw hfb hc2 hsnap hlim
      (le_refl 1) (by omega) n hn

/-- Witness of C20: prepared at 1000 Hz with the smoother resting at 2 ms (`D = 2`), the
right channel of the test block is still silent at sample 1. -/
theorem C20_haas_integer_delay_witness :
    ((HaasEffect.preparedAt 2).processBlock AudioBuffer.stereoRamp).1.getSample 1 1
      = if 2 ≤ 1 then AudioBuffer.stereoRamp.getSample 1 (1 - 2) else 0 :=
  (C20_haas_integer_delay (HaasEffect.preparedAt 2) AudioBuffer.stereoRamp 51 2
    (HaasEffect.preparedAt_state 2).1 rfl rfl (by norm_num) (by norm_num) rfl rfl).1
    2 (by norm_num) (by norm_num)
    (by rw [(HaasEffect.preparedAt_state 2).2.2.2.1]; norm_num) 1 (by decide)

/-- C20 (counterexample): prepared at 1000 Hz with the smoother resting at `d = 0` ms, the
right channel is not left unchanged: the first right input sample is 3, the first right
output sample is 0, and the input reappears one sample later. -/
theorem C20_haas_zero_delay_counterexample :
    AudioBuffer.stereoRamp.getSample 1 0 = 3
    ∧ ((HaasEffect.preparedAt 0).processBlock AudioBuffer.stereoRamp).1.getSample 1 0 = 0
    ∧ ((HaasEffect.preparedAt 0).processBlock AudioBuffer.stereoRamp).1.getSample 1 1 = 3
    ∧ ((HaasEffect.preparedAt 0).processBlock AudioBuffer.stereoRamp).1.getSample 1 0
        ≠ AudioBuffer.stereoRamp.getSample 1 0 := by
  have hlim : jlimit 1 (((51 - 1 : Nat) : ℚ))
      ((HaasEffect.preparedAt 0).delaySmoother.targetValue * (1 / 1000)
        * (HaasEffect.preparedAt 0).rightDelay._sampleRate) = ((1 : Nat) : ℚ) := by
    rw [(HaasEffect.preparedAt_state 0).2.2.2.1, (HaasEffect.preparedAt_state 0).2.2.2.2.2]
    norm_num [jlimit]
  have h0 := HaasEffect.processBlock_right (HaasEffect.preparedAt 0) AudioBuffer.stereoRamp 51 1
    (HaasEffect.preparedAt_state 0).1 rfl rfl (by norm_num) rfl hlim (le_refl 1) (by norm_num)
    0 (by decide)
  have h1 := HaasEffect.processBlock_right (HaasEffect.preparedAt 0) AudioBuffer.stereoRamp 51 1
    (HaasEffect.preparedAt_state 0).1 rfl rfl (by norm_num) rfl hlim (le_refl 1) (by norm_num)
    1 (by decide)
  have hin : AudioBuffer.stereoRamp.getSample 1 0 = 3 := by
    norm_num [AudioBuffer.stereoRamp, AudioBuffer.getSample]
  rw [if_neg (by norm_num)] at h0
  rw [if_pos (le_refl 1)] at h1
  refine ⟨hin, h0, ?_, ?_⟩
  · rw [h1]; exact hin
  · rw [h0, hin]; norm_num

/-! ## Processor: what `reset` and `prepare` reach -/

/-- The integer overload of `setCompressorMode` touches neither the gains nor the envelopes
of the compressors. -/
theorem MakeItLoud.setCompressorModeInt_frame {α : Type} [LinearOrderedField α] {J : Juce α}
    (m : MakeItLoud α J) (mode : Int) :
    (m.setCompressorModeInt mode)._preCompressor.envelope = m._preCompressor.envelope
    ∧ (m.setCompressorModeInt mode)._postCompressor.envelope = m._postCompressor.envelope
    ∧ (m.setCompressorModeInt mode)._inputGain = m._inputGain
    ∧ (m.setCompressorModeInt mode)._boostGain = m._boostGain := by
  unfold MakeItLoud.setCompressorModeInt
  split
  · exact ⟨rfl, rfl, rfl, rfl⟩
  · unfold MakeItLoud.setCompressorMode
    split <;> exact ⟨rfl, rfl, rfl, rfl⟩

/-- The chain's `reset` leaves only zeros in the delay lines of its filters. -/
theorem SchroederAllpassChain.reset_delayLines {α : Type} [LinearOrderedField α] [FloorRing α]
    (c : SchroederAllpassChain α) (delayMs character : α) :
    ∀ f ∈ (c.reset delayMs character).allpassFilters, ∀ v ∈ f.delayLine, v = 0 := by
  intro f hf v hv
  have hf' : f ∈ c.allpassFilters.map AllpassFilter.reset := hf
  obtain ⟨g, _, rfl⟩ := List.mem_map.mp hf'
  exact List.eq_of_mem_replicate hv

/-- C18 (evaluation of the code): `ChasmDSPProcessor::reset` clears the delay lines of the
eight allpass filters of the two chains, but it returns the Haas effect (delay line
included), the low-cut and high-cut filter states, both compressor envelopes and both gains
exactly as they were; none of them is reset. -/
theorem C18_reset_skips_haas_filters_compressors {α : Type} [LinearOrderedField α]
    [FloorRing α] {J : Juce α} (p : ChasmDSPProcessor α J)
    (inputGain outputGain mix delayMs brightness character lowCut highCut width mil_InputGain
      mil_BoostValue : α) (mil_Mode : Int) (haasAmount : α) :
    (∀ f ∈ (p.reset inputGain outputGain mix delayMs brightness character lowCut highCut width
          mil_InputGain mil_BoostValue mil_Mode haasAmount).leftAllpassChain.allpassFilters,
        ∀ v ∈ f.delayLine, v = 0)
    ∧ (∀ f ∈ (p.reset inputGain outputGain mix delayMs brightness character lowCut highCut width
          mil_InputGain mil_BoostValue mil_Mode haasAmount).rightAllpassChain.allpassFilters,
        ∀ v ∈ f.delayLine, v = 0)
    ∧ (p.reset inputGain outputGain mix delayMs brightness character lowCut highCut width
          mil_InputGain mil_BoostValue mil_Mode haasAmount).haasEffect = p.haasEffect
    ∧ (p.reset inputGain outputGain mix delayMs brightness character lowCut highCut width
          mil_InputGain mil_BoostValue mil_Mode haasAmount).lowCutFilter = p.lowCutFilter
    ∧ (p.reset inputGain outputGain mix delayMs brightness character lowCut highCut width
          mil_InputGain mil_BoostValue mil_Mode haasAmount).highCutFilter = p.highCutFilter
    ∧ (p.reset inputGain outputGain mix delayMs brightness character lowCut highCut width
          mil_InputGain mil_BoostValue mil_Mode haasAmount).makeItLoud._preCompressor.envelope
        = p.makeItLoud._preCompressor.envelope
    ∧ (p.reset inputGain outputGain mix delayMs brightness character lowCut highCut width
          mil_InputGain mil_BoostValue mil_Mode haasAmount).makeItLoud._postCompressor.envelope
        = p.makeItLoud._postCompressor.envelope
    ∧ (p.reset inputGain outputGain mix delayMs brightness character lowCut highCut width
          mil_InputGain mil_BoostValue mil_Mode haasAmount).makeItLoud._inputGain
        = p.makeItLoud._inputGain
    ∧ (p.reset inputGain outputGain mix delayMs brightness character lowCut highCut width
          mil_InputGain mil_BoostValue mil_Mode haasAmount).makeItLoud._boostGain
        = p.makeItLoud._boostGain := by
  obtain ⟨h1, h2, h3, h4⟩ := MakeItLoud.setCompressorModeInt_frame p.makeItLoud mil_Mode
  exact ⟨SchroederAllpassChain.reset_delayLines p.leftAllpassChain delayMs character,
    SchroederAllpassChain.reset_delayLines p.rightAllpassChain delayMs character,
    rfl, rfl, rfl, h1, h2, h3, h4⟩

/-- C19 (evaluation of the code): after `prepare` the twelve smoothers of the processor and
the two smoothers of each chain rest at the supplied initial values, but the Haas effect's
delay smoother rests at its built-in 20 ms and the stereo enhancer's width smoother at its
built-in 100 %, whatever `haasAmount` and `width` are; `reset` does the same for the
processor, the chains and the enhancer and does not touch the Haas effect at all. -/
theorem C19_prepare_reset_smoothers {α : Type} [LinearOrderedField α] [FloorRing α]
    {J : Juce α} (M : CMath α) (p : ChasmDSPProcessor α J) (spec : ProcessSpec α)
    (inputGain outputGain mix delayMs brightness character lowCut highCut width mil_InputGain
      mil_BoostValue : α) (mil_Mode : Int) (haasAmount : α) :
    ((p.prepare M spec inputGain outputGain mix delayMs brightness character lowCut highCut
          width mil_InputGain mil_BoostValue mil_Mode haasAmount).haasEffect.delaySmoother.currentValue
        = 20
      ∧ (p.prepare M spec inputGain outputGain mix delayMs brightness character lowCut highCut
          width mil_InputGain mil_BoostValue mil_Mode haasAmount).haasEffect.delaySmoother.targetValue
        = 20
      ∧ (p.prepare M spec inputGain outputGain mix delayMs brightness character lowCut highCut
          width mil_InputGain mil_BoostValue mil_Mode
          haasAmount).stereoEnhancer.widthSmoother.currentValue = 100
      ∧ (p.prepare M spec inputGain outputGain mix delayMs brightness character lowCut highCut
          width mil_InputGain mil_BoostValue mil_Mode
          haasAmount).stereoEnhancer.widthSmoother.targetValue = 100)
    ∧ ((p.reset inputGain outputGain mix delayMs brightness character lowCut highCut width
          mil_InputGain mil_BoostValue mil_Mode haasAmount).haasEffect = p.haasEffect
      ∧ (p.reset inputGain outputGain mix delayMs brightness character lowCut highCut width
          mil_InputGain mil_BoostValue mil_Mode haasAmount).stereoEnhancer.widthSmoother.currentValue
        = 100
      ∧ (p.reset inputGain outputGain mix delayMs brightness character lowCut highCut width
          mil_InputGain mil_BoostValue mil_Mode haasAmount).stereoEnhancer.widthSmoother.targetValue
        = 100)
    ∧ (∀ q : ChasmDSPProcessor α J,
        q = p.prepare M spec inputGain outputGain mix delayMs brightness character lowCut highCut
              width mil_InputGain mil_BoostValue mil_Mode haasAmount
          ∨ q = p.reset inputGain outputGain mix delayMs brightness character lowCut highCut width
              mil_InputGain mil_BoostValue mil_Mode haasAmount →
        (q.inputGainSmoother.currentValue = inputGain ∧ q.inputGainSmoother.targetValue = inputGain)
        ∧ (q.outputGainSmoother.currentValue = outputGain
          ∧ q.outputGainSmoother.targetValue = outputGain)
        ∧ (q.mixSmoother.currentValue = mix ∧ q.mixSmoother.targetValue = mix)
        ∧ (q.delaySmoother.currentValue = delayMs ∧ q.delaySmoother.targetValue = delayMs)
        ∧ (q.brightnessSmoother.currentValue = brightness
          ∧ q.brightnessSmoother.targetValue = brightness)
        ∧ (q.characterSmoother.currentValue = character
          ∧ q.characterSmoother.targetValue = character)
        ∧ (q.lowCutSmoother.currentValue = lowCut ∧ q.lowCutSmoother.targetValue = lowCut)
        ∧ (q.highCutSmoother.currentValue = highCut ∧ q.highCutSmoother.targetValue = highCut)
        ∧ (q.widthSmoother.currentValue = width ∧ q.widthSmoother.targetValue = width)
        ∧ (q.haasSmoother.currentValue = haasAmount ∧ q.haasSmoother.targetValue = haasAmount)
        ∧ (q.mil_InputGainSmoother.currentValue = mil_InputGain
          ∧ q.mil_InputGainSmoother.targetValue = mil_InputGain)
        ∧ (q.mil_BoostSmoother.currentValue = mil_BoostValue
          ∧ q.mil_BoostSmoother.targetValue = mil_BoostValue)
        ∧ (q.leftAllpassChain.delayTimeSmoother.currentValue = delayMs
          ∧ q.leftAllpassChain.delayTimeSmoother.targetValue = delayMs)
        ∧ (q.leftAllpassChain.characterSmoother.currentValue = character
          ∧ q.leftAllpassChain.characterSmoother.targetValue = character)
        ∧ (q.rightAllpassChain.delayTimeSmoother.currentValue = delayMs
          ∧ q.rightAllpassChain.delayTimeSmoother.targetValue = delayMs)
        ∧ (q.rightAllpassChain.characterSmoother.currentValue = character
          ∧ q.rightAllpassChain.characterSmoother.targetValue = character)) := by
  refine ⟨⟨rfl, rfl, rfl, rfl⟩, ⟨rfl, rfl, rfl⟩, ?_⟩
  intro q hq
  rcases hq with hq | hq
  · subst hq
    exact ⟨⟨rfl, rfl⟩, ⟨rfl, rfl⟩, ⟨rfl, rfl⟩, ⟨rfl, rfl⟩, ⟨rfl, rfl⟩, ⟨rfl, rfl⟩, ⟨rfl, rfl⟩,
      ⟨rfl, rfl⟩, ⟨rfl, rfl⟩, ⟨rfl, rfl⟩, ⟨rfl, rfl⟩, ⟨rfl, rfl⟩, ⟨rfl, rfl⟩, ⟨rfl, rfl⟩,
      ⟨rfl, rfl⟩, ⟨rfl, rfl⟩⟩
  · subst hq
    exact ⟨⟨rfl, rfl⟩, ⟨rfl, rfl⟩, ⟨rfl, rfl⟩, ⟨rfl, rfl⟩, ⟨rfl, rfl⟩, ⟨rfl, rfl⟩, ⟨rfl, rfl⟩,
      ⟨rfl, rfl⟩, ⟨rfl, rfl⟩, ⟨rfl, rfl⟩, ⟨rfl, rfl⟩, ⟨rfl, rfl⟩, ⟨rfl, rfl⟩, ⟨rfl, rfl⟩,
      ⟨rfl, rfl⟩, ⟨rfl, rfl⟩⟩

/-! ## Processor: the cut-off flags -/

namespace ChasmDSPProcessor

variable {α : Type} [LinearOrderedField α] [FloorRing α] {J : Juce α}

theorem lowCutStereo_cutState (p : ChasmDSPProcessor α J) (l r : α) :
    (lowCutStereo p l r).2.2.cutState = p.cutState := by
  unfold lowCutStereo
  split <;> rfl

theorem highCutStereo_cutState (p : ChasmDSPProcessor α J) (l r : α) :
    (highCutStereo p l r).2.2.cutState = p.cutState := by
  unfold highCutStereo
  split <;> rfl

theorem lowCutMono_cutState (p : ChasmDSPProcessor α J) (x : α) :
    (lowCutMono p x).2.cutState = p.cutState := by
  unfold lowCutMono
  split <;> rfl

theorem highCutMono_cutState (p : ChasmDSPProcessor α J) (x : α) :
    (highCutMono p x).2.cutState = p.cutState := by
  unfold highCutMono
  split <;> rfl

theorem processSingleSample_cutState (M : CMath α) (p : ChasmDSPProcessor α J)
    (buffer : AudioBuffer α) (i : Nat) (g : α) :
    (processSingleSample M p buffer i g).1.cutState = p.cutState := by
  unfold processSingleSample
  simp only []
  show (highCutStereo _ _ _).2.2.cutState = _
  rw [highCutStereo_cutState, lowCutStereo_cutState]
  rfl

theorem processSingleSampleMono_cutState (M : CMath α) (p : ChasmDSPProcessor α J)
    (buffer : AudioBuffer α) (i : Nat) (g : α) :
    (processSingleSampleMono M p buffer i g).1.cutState = p.cutState := by
  unfold processSingleSampleMono
  simp only []
  show (highCutMono _ _).2.cutState = _
  rw [highCutMono_cutState, lowCutMono_cutState]
  rfl

theorem resizeScratch_cutState (p : ChasmDSPProcessor α J) (n : Nat) :
    (resizeScratch p n).cutState = p.cutState := by
  unfold resizeScratch
  split <;> rfl

/-- The cut-off bookkeeping after the low-cut update, as a function of the bookkeeping
before. -/
theorem updateLowCut_cutState (p : ChasmDSPProcessor α J) :
    (updateLowCut p).cutState
      = if (!J.approximatelyEqual (p.lowCutSmoother.getNextValue).1 p.lastLowCut) = true then
          ((p.lowCutSmoother.getNextValue).2, p.highCutSmoother,
            jlimit p.lowCutMin p.lowCutMax (p.lowCutSmoother.getNextValue).1, p.lastHighCut,
            decide (jlimit p.lowCutMin p.lowCutMax (p.lowCutSmoother.getNextValue).1 > 1),
            p.highCutActive, p.lowCutMin, p.lowCutMax, p.highCutMin, p.highCutMax)
        else
          ((p.lowCutSmoother.getNextValue).2, p.highCutSmoother, p.lastLowCut, p.lastHighCut,
            p.lowCutActive, p.highCutActive, p.lowCutMin, p.lowCutMax, p.highCutMin,
            p.highCutMax) := by
  unfold updateLowCut
  simp only []
  split <;> rfl

/-- The cut-off bookkeeping after the high-cut update, as a function of the bookkeeping
before. -/
theorem updateHighCut_cutState (p : ChasmDSPProcessor α J) :
    (updateHighCut p).cutState
      = if (!J.approximatelyEqual (p.highCutSmoother.getNextValue).1 p.lastHighCut) = true then
          (p.lowCutSmoother, (p.highCutSmoother.getNextValue).2, p.lastLowCut,
            jlimit p.highCutMin p.highCutMax (p.highCutSmoother.getNextValue).1,
            p.lowCutActive,
            decide (jlimit p.highCutMin p.highCutMax (p.highCutSmoother.getNextValue).1 < 19999),
            p.lowCutMin, p.lowCutMax, p.highCutMin, p.highCutMax)
        else
          (p.lowCutSmoother, (p.highCutSmoother.getNextValue).2, p.lastLowCut, p.lastHighCut,
            p.lowCutActive, p.highCutActive, p.lowCutMin, p.lowCutMax, p.highCutMin,
            p.highCutMax) := by
  unfold updateHighCut
  simp only []
  split <;> rfl

/-- The cut-off update reads nothing but the cut-off bookkeeping. -/
theorem cutStep_congr (p q : ChasmDSPProcessor α J) (h : p.cutState = q.cutState) :
    (cutStep p).cutState = (cutStep q).cutState := by
  have hl : (updateLowCut p).cutState = (updateLowCut q).cutState := by
    rw [updateLowCut_cutState, updateLowCut_cutState]
    simp only [cutState, Prod.mk.injEq] at h
    obtain ⟨h1, h2, h3, h4, h5, h6, h7, h8, h9, h10⟩ := h
    rw [h1, h2, h3, h4, h5, h6, h7, h8, h9, h10]
  unfold cutStep
  rw [updateHighCut_cutState, updateHighCut_cutState]
  simp only [cutState, Prod.mk.injEq] at hl
  obtain ⟨h1, h2, h3, h4, h5, h6, h7, h8, h9, h10⟩ := hl
  rw [h1, h2, h3, h4, h5, h6, h7, h8, h9, h10]

theorem iterate_cutStep_congr (p q : ChasmDSPProcessor α J) (h : p.cutState = q.cutState)
    (n : Nat) : (cutStep^[n] p).cutState = (cutStep^[n] q).cutState := by
  induction n with
  | zero => exact h
  | succ k ih =>
    rw [Function.iterate_succ_apply', Function.iterate_succ_apply']
    exact cutStep_congr _ _ ih

/-- The processor with which sample `i` is processed has the bookkeeping of one cut-off
update. -/
theorem atSample_cutState (i : Nat) (p : ChasmDSPProcessor α J) :
    (atSample i p).2.cutState = (cutStep p).cutState := by
  have hc : (advanceControls p).2.cutState = p.cutState := rfl
  have hstep := cutStep_congr _ _ hc
  unfold atSample
  simp only []
  split
  · exact hstep
  · exact hstep

/-- One iteration of the first sample loop is the member `processSingleSample` (or its mono
variant) run on the processor of `atSample`. -/
theorem processIndex_eq_atSample (M : CMath α) (i : Nat)
    (st : ChasmDSPProcessor α J × AudioBuffer α) :
    processIndex M i st
      = if st.2.numChannels = 1 then
          processSingleSampleMono M (atSample i st.1).2 st.2 i (atSample i st.1).1.inputGain
        else processSingleSample M (atSample i st.1).2 st.2 i (atSample i st.1).1.inputGain :=
  rfl

theorem processIndex_cutState (M : CMath α) (i : Nat)
    (st : ChasmDSPProcessor α J × AudioBuffer α) :
    (processIndex M i st).1.cutState = (cutStep st.1).cutState := by
  rw [processIndex_eq_atSample]
  split
  · rw [processSingleSampleMono_cutState, atSample_cutState]
  · rw [processSingleSample_cutState, atSample_cutState]

/-- The bookkeeping at the start of iteration `i` is that of `i` cut-off updates. -/
theorem beforeIndex_cutState (M : CMath α) (p : ChasmDSPProcessor α J) (buffer : AudioBuffer α)
    (i : Nat) : (beforeIndex M p buffer i).1.cutState = (cutStep^[i] p).cutState := by
  induction i with
  | zero =>
    show (resizeScratch p buffer.numSamples).cutState = _
    exact resizeScratch_cutState p _
  | succ k ih =>
    show (processIndex M k (beforeIndex M p buffer k)).1.cutState = _
    rw [processIndex_cutState, Function.iterate_succ_apply']
    exact cutStep_congr _ _ ih

/-- The bookkeeping after `processBlock` is that of one cut-off update per sample. -/
theorem processBlock_cutState (M : CMath α) (p : ChasmDSPProcessor α J) (buffer : AudioBuffer α) :
    (p.processBlock M buffer).1.cutState = (cutStep^[buffer.numSamples] p).cutState := by
  have hmix := forLoop_invariant
    (fun st : ChasmDSPProcessor α J × AudioBuffer α =>
      st.1.cutState = (wetPath M p buffer).1.cutState)
    mixIndex (fun _ st h => by exact (show (mixIndex _ st).1.cutState = st.1.cutState from rfl).trans h)
    buffer.numSamples (wetPath M p buffer) rfl
  have hwet : (wetPath M p buffer).1.cutState
      = (beforeIndex M p buffer buffer.numSamples).1.cutState := rfl
  exact (hmix.trans hwet).trans (beforeIndex_cutState M p buffer buffer.numSamples)

end ChasmDSPProcessor

namespace ChasmDSPProcessor

variable {α : Type} [LinearOrderedField α] [FloorRing α] {J : Juce α}

theorem CutInv_congr (p q : ChasmDSPProcessor α J) (h : p.cutState = q.cutState)
    (hp : CutInv p) : CutInv q := by
  simp only [cutState, Prod.mk.injEq] at h
  obtain ⟨_, _, h3, h4, h5, h6, h7, _, _, h10⟩ := h
  unfold CutInv at hp ⊢
  rw [← h3, ← h4, ← h5, ← h6, ← h7, ← h10]
  exact hp

theorem updateLowCut_CutInv (p : ChasmDSPProcessor α J) (h : CutInv p) :
    CutInv (updateLowCut p) := by
  unfold updateLowCut
  simp only []
  split
  · exact ⟨h.1, h.2.1, fun ha => of_decide_eq_true ha, h.2.2.2⟩
  · exact h

theorem updateHighCut_CutInv (p : ChasmDSPProcessor α J) (h : CutInv p) :
    CutInv (updateHighCut p) := by
  unfold updateHighCut
  simp only []
  split
  · exact ⟨h.1, h.2.1, h.2.2.1, fun ha => of_decide_eq_true ha⟩
  · exact h

theorem cutStep_CutInv (p : ChasmDSPProcessor α J) (h : CutInv p) : CutInv (cutStep p) :=
  updateHighCut_CutInv _ (updateLowCut_CutInv p h)

theorem iterate_cutStep_CutInv (p : ChasmDSPProcessor α J) (h : CutInv p) (n : Nat) :
    CutInv (cutStep^[n] p) := by
  induction n with
  | zero => exact h
  | succ k ih =>
    rw [Function.iterate_succ_apply']
    exact cutStep_CutInv _ ih

/-- Every processor a client can build satisfies the invariant of the cut-off bookkeeping. -/
theorem Reachable.cutInv {M : CMath α} {p : ChasmDSPProcessor α J} (h : Reachable M p) :
    CutInv p := by
  induction h with
  | default =>
    refine ⟨rfl, rfl, ?_, ?_⟩
    · intro ha; exact absurd ha (by simp [ChasmDSPProcessor.default])
    · intro ha; exact absurd ha (by simp [ChasmDSPProcessor.default])
  | prepare p spec a1 a2 a3 a4 a5 a6 a7 a8 a9 a10 a11 mode a13 _ ih => exact ih
  | reset p a1 a2 a3 a4 a5 a6 a7 a8 a9 a10 a11 mode a13 _ ih => exact ih
  | updateParameters p a1 a2 a3 a4 a5 a6 a7 a8 a9 a10 a11 mode a13 _ ih => exact ih
  | processBlock p buffer _ ih =>
    exact CutInv_congr _ _ (processBlock_cutState M p buffer).symm
      (iterate_cutStep_CutInv p ih _)

/-- The high-cut update leaves the low-cut flag and cache alone; the low-cut update leaves the
high-cut flag, cache, limits and smoother alone. -/
theorem cutStep_fields (p : ChasmDSPProcessor α J) :
    (updateHighCut p).lowCutActive = p.lowCutActive
    ∧ (updateHighCut p).lastLowCut = p.lastLowCut
    ∧ (updateLowCut p).highCutActive = p.highCutActive
    ∧ (updateLowCut p).lastHighCut = p.lastHighCut
    ∧ (updateLowCut p).highCutMin = p.highCutMin
    ∧ (updateLowCut p).highCutMax = p.highCutMax
    ∧ (updateLowCut p).highCutSmoother = p.highCutSmoother := by
  refine ⟨?_, ?_, ?_, ?_, ?_, ?_, ?_⟩
  · unfold updateHighCut; simp only []; split <;> rfl
  · unfold updateHighCut; simp only []; split <;> rfl
  · unfold updateLowCut; simp only []; split <;> rfl
  · unfold updateLowCut; simp only []; split <;> rfl
  · unfold updateLowCut; simp only []; split <;> rfl
  · unfold updateLowCut; simp only []; split <;> rfl
  · unfold updateLowCut; simp only []; split <;> rfl

/-- The low-cut flag and cache after one cut-off update. -/
theorem cutStep_lowCut (p : ChasmDSPProcessor α J) :
    (J.approximatelyEqual (p.lowCutSmoother.getNextValue).1 p.lastLowCut = false →
      (cutStep p).lowCutActive
          = decide (jlimit p.lowCutMin p.lowCutMax (p.lowCutSmoother.getNextValue).1 > 1)
        ∧ (cutStep p).lastLowCut
          = jlimit p.lowCutMin p.lowCutMax (p.lowCutSmoother.getNextValue).1)
    ∧ (J.approximatelyEqual (p.lowCutSmoother.getNextValue).1 p.lastLowCut = true →
      (cutStep p).lowCutActive = p.lowCutActive ∧ (cutStep p).lastLowCut = p.lastLowCut) := by
  obtain ⟨h1, h2, _⟩ := cutStep_fields (updateLowCut p)
  unfold cutStep
  rw [h1, h2]
  constructor
  · intro ha
    unfold updateLowCut
    simp only [ha, Bool.not_false, if_true]
    exact ⟨trivial, trivial⟩
  · intro ha
    unfold updateLowCut
    simp only [ha, Bool.not_true, Bool.false_eq_true, if_false]
    exact ⟨trivial, trivial⟩

/-- The high-cut flag and cache after one cut-off update. -/
theorem cutStep_highCut (p : ChasmDSPProcessor α J) :
    (J.approximatelyEqual (p.highCutSmoother.getNextValue).1 p.lastHighCut = false →
      (cutStep p).highCutActive
          = decide (jlimit p.highCutMin p.highCutMax (p.highCutSmoother.getNextValue).1 < 19999)
        ∧ (cutStep p).lastHighCut
          = jlimit p.highCutMin p.highCutMax (p.highCutSmoother.getNextValue).1)
    ∧ (J.approximatelyEqual (p.highCutSmoother.getNextValue).1 p.lastHighCut = true →
      (cutStep p).highCutActive = p.highCutActive
        ∧ (cutStep p).lastHighCut = p.lastHighCut) := by
  obtain ⟨_, _, h3, h4, h5, h6, h7⟩ := cutStep_fields p
  unfold cutStep
  constructor
  · intro ha
    rw [← h7, ← h4] at ha
    unfold updateHighCut
    simp only [ha, Bool.not_false, if_true]
    rw [h5, h6, h7]
    exact ⟨rfl, rfl⟩
  · intro ha
    rw [← h7, ← h4] at ha
    unfold updateHighCut
    simp only [ha, Bool.not_true, Bool.false_eq_true, if_false]
    exact ⟨h3, h4⟩

end ChasmDSPProcessor

namespace ChasmDSPProcessor

variable {α : Type} [LinearOrderedField α] [FloorRing α] {J : Juce α}

/-- Equal bookkeeping means equal flags, caches and smoothers. -/
theorem cutState_fields (p q : ChasmDSPProcessor α J) (h : p.cutState = q.cutState) :
    p.lowCutActive = q.lowCutActive ∧ p.highCutActive = q.highCutActive
    ∧ p.lastLowCut = q.lastLowCut ∧ p.lastHighCut = q.lastHighCut
    ∧ p.lowCutSmoother = q.lowCutSmoother ∧ p.highCutSmoother = q.highCutSmoother := by
  simp only [cutState, Prod.mk.injEq] at h
  obtain ⟨h1, h2, h3, h4, h5, h6, _⟩ := h
  exact ⟨h5, h6, h3, h4, h1, h2⟩

theorem lowCutStereo_inactive (p : ChasmDSPProcessor α J) (l r : α)
    (h : p.lowCutActive = false) : lowCutStereo p l r = (l, r, p) := by
  unfold lowCutStereo
  rw [if_neg (by rw [h]; exact Bool.false_ne_true)]

theorem highCutStereo_inactive (p : ChasmDSPProcessor α J) (l r : α)
    (h : p.highCutActive = false) : highCutStereo p l r = (l, r, p) := by
  unfold highCutStereo
  rw [if_neg (by rw [h]; exact Bool.false_ne_true)]

theorem lowCutMono_inactive (p : ChasmDSPProcessor α J) (x : α)
    (h : p.lowCutActive = false) : lowCutMono p x = (x, p) := by
  unfold lowCutMono
  rw [if_neg (by rw [h]; exact Bool.false_ne_true)]

theorem highCutMono_inactive (p : ChasmDSPProcessor α J) (x : α)
    (h : p.highCutActive = false) : highCutMono p x = (x, p) := by
  unfold highCutMono
  rw [if_neg (by rw [h]; exact Bool.false_ne_true)]

/-- The cut filters keep each other's state. -/
theorem cutFilters_frame (p : ChasmDSPProcessor α J) (l r : α) :
    (lowCutStereo p l r).2.2.highCutFilter = p.highCutFilter
    ∧ (lowCutStereo p l r).2.2.highCutActive = p.highCutActive
    ∧ (highCutStereo p l r).2.2.lowCutFilter = p.lowCutFilter
    ∧ (lowCutMono p l).2.highCutFilter = p.highCutFilter
    ∧ (lowCutMono p l).2.highCutActive = p.highCutActive
    ∧ (highCutMono p l).2.lowCutFilter = p.lowCutFilter := by
  refine ⟨?_, ?_, ?_, ?_, ?_, ?_⟩
  · unfold lowCutStereo; split <;> rfl
  · unfold lowCutStereo; split <;> rfl
  · unfold highCutStereo; split <;> rfl
  · unfold lowCutMono; split <;> rfl
  · unfold lowCutMono; split <;> rfl
  · unfold highCutMono; split <;> rfl

/-- With the low-cut flag off the sample stage does not run the low-cut filter. -/
theorem sampleStage_lowCutFilter (M : CMath α) (q : ChasmDSPProcessor α J)
    (b : AudioBuffer α) (i : Nat) (g : α) (hl : q.lowCutActive = false) :
    (processSingleSample M q b i g).1.lowCutFilter = q.lowCutFilter
    ∧ (processSingleSampleMono M q b i g).1.lowCutFilter = q.lowCutFilter := by
  constructor
  · unfold processSingleSample
    simp only []
    show (highCutStereo _ _ _).2.2.lowCutFilter = _
    rw [(cutFilters_frame _ _ _).2.2.1, lowCutStereo_inactive]
    exact hl
  · unfold processSingleSampleMono
    simp only []
    show (highCutMono _ _).2.lowCutFilter = _
    rw [(cutFilters_frame _ _ 0).2.2.2.2.2, lowCutMono_inactive]
    exact hl

/-- With the high-cut flag off the sample stage does not run the high-cut filter. -/
theorem sampleStage_highCutFilter (M : CMath α) (q : ChasmDSPProcessor α J)
    (b : AudioBuffer α) (i : Nat) (g : α) (hh : q.highCutActive = false) :
    (processSingleSample M q b i g).1.highCutFilter = q.highCutFilter
    ∧ (processSingleSampleMono M q b i g).1.highCutFilter = q.highCutFilter := by
  constructor
  · unfold processSingleSample
    simp only []
    show (highCutStereo _ _ _).2.2.highCutFilter = _
    rw [highCutStereo_inactive, (cutFilters_frame _ _ _).1]
    exact ((cutFilters_frame _ _ _).2.1).trans hh
  · unfold processSingleSampleMono
    simp only []
    show (highCutMono _ _).2.highCutFilter = _
    rw [highCutMono_inactive, (cutFilters_frame _ _ 0).2.2.2.1]
    exact ((cutFilters_frame _ _ 0).2.2.2.2.1).trans hh

/-- With both flags off the stereo sample stage writes the outputs of the two allpass chains
into the wet buffer. -/
theorem processSingleSample_wet_of_inactive (M : CMath α) (q : ChasmDSPProcessor α J)
    (b : AudioBuffer α) (i : Nat) (g : α) (hl : q.lowCutActive = false)
    (hh : q.highCutActive = false) :
    (processSingleSample M q b i g).1.wetBuffer.getSample 0 i
        = (q.leftAllpassChain.processSample M
            ((copyToWet q.wetBuffer (applyInputGain b i g) i).getSample 0 i)).1
    ∧ (processSingleSample M q b i g).1.wetBuffer.getSample 1 i
        = (q.rightAllpassChain.processSample M
            ((copyToWet q.wetBuffer (applyInputGain b i g) i).getSample 1 i)).1 := by
  unfold processSingleSample
  simp only []
  rw [lowCutStereo_inactive _ _ _ (by exact hl)]
  rw [highCutStereo_inactive _ _ _ (by exact hh)]
  constructor
  · simp [AudioBuffer.getSample, AudioBuffer.setSample]
  · simp [AudioBuffer.getSample, AudioBuffer.setSample]

/-- With both flags off the mono sample stage writes the output of the left allpass chain
into the wet buffer. -/
theorem processSingleSampleMono_wet_of_inactive (M : CMath α) (q : ChasmDSPProcessor α J)
    (b : AudioBuffer α) (i : Nat) (g : α) (hl : q.lowCutActive = false)
    (hh : q.highCutActive = false) :
    (processSingleSampleMono M q b i g).1.wetBuffer.getSample 0 i
        = (q.leftAllpassChain.processSample M (b.getSample 0 i * g)).1 := by
  unfold processSingleSampleMono
  simp only []
  rw [lowCutMono_inactive _ _ (by exact hl)]
  rw [highCutMono_inactive _ _ (by exact hh)]
  simp [AudioBuffer.getSample, AudioBuffer.setSample]

/-- The buffer keeps its dimensions during the first sample loop. -/
theorem beforeIndex_dims (M : CMath α) (p : ChasmDSPProcessor α J) (buffer : AudioBuffer α)
    (i : Nat) :
    (beforeIndex M p buffer i).2.numChannels = buffer.numChannels
    ∧ (beforeIndex M p buffer i).2.numSamples = buffer.numSamples := by
  unfold beforeIndex
  apply forLoop_invariant
    (fun st : ChasmDSPProcessor α J × AudioBuffer α =>
      st.2.numChannels = buffer.numChannels ∧ st.2.numSamples = buffer.numSamples)
  · intro k st h
    obtain ⟨_, h2, h3⟩ := processIndex_frame M k st
    exact ⟨h2.trans h.1, h3.trans h.2⟩
  · exact ⟨rfl, rfl⟩

/-- A cut-off at or below 1 Hz is still at or below 1 Hz after the clamp, a cut-off at or above
19999 Hz is still at or above it. -/
theorem jlimit_cut_bounds (lo hi v : α) :
    (lo ≤ 1 → v ≤ 1 → jlimit lo hi v ≤ 1)
    ∧ (19999 ≤ hi → 19999 ≤ v → 19999 ≤ jlimit lo hi v) := by
  constructor
  · intro hlo hv
    rcases jlimit_cases lo hi v with h | h | ⟨h, _, _⟩
    · rw [h]; exact hlo
    · unfold jlimit at h ⊢
      split
      · exact hlo
      · split
        · have : hi < v := ‹_›
          linarith
        · exact hv
    · rw [h]; exact hv
  · intro hhi hv
    unfold jlimit
    split
    · have : v < lo := ‹_›
      linarith
    · split
      · exact hhi
      · exact hv

end ChasmDSPProcessor

open ChasmDSPProcessor

/-- C17 (as amended): at every iteration `i` of the sample loop of `processBlock`, on a processor built from
construction by `prepare`, `reset`, `updateParameters` and `processBlock`: an active flag is
set only while the cached cut-off is above 1 Hz (low) or below 19999 Hz (high); a smoothed
low-cut cut-off at or below 1 Hz that is not `approximatelyEqual` to the cached one clears
`lowCutActive`, a smoothed high-cut cut-off at or above 19999 Hz that is not
`approximatelyEqual` to the cached one clears `highCutActive`, and a cut-off that is
`approximatelyEqual` to the cached one leaves the flag as it was; while a flag is false its
filter is not run on that sample; with both flags false the per-sample stage writes exactly
the outputs of the allpass chains into the wet buffer. -/
theorem C17_cut_flags_follow_cached_cutoff {α : Type} [LinearOrderedField α] [FloorRing α]
    {J : Juce α} (M : CMath α) (p : ChasmDSPProcessor α J) (hp : ChasmDSPProcessor.Reachable M p)
    (buffer : AudioBuffer α) (i : Nat) :
    ((processorAt M p buffer i).lowCutActive = true → 1 < (processorAt M p buffer i).lastLowCut)
    ∧ ((processorAt M p buffer i).highCutActive = true →
        (processorAt M p buffer i).lastHighCut < 19999)
    ∧ (lowCutAt M p buffer i ≤ 1 →
        J.approximatelyEqual (lowCutAt M p buffer i) (beforeIndex M p buffer i).1.lastLowCut
          = false →
        (processorAt M p buffer i).lowCutActive = false)
    ∧ (19999 ≤ highCutAt M p buffer i →
        J.approximatelyEqual (highCutAt M p buffer i) (beforeIndex M p buffer i).1.lastHighCut
          = false →
        (processorAt M p buffer i).highCutActive = false)
    ∧ (J.approximatelyEqual (lowCutAt M p buffer i) (beforeIndex M p buffer i).1.lastLowCut
          = true →
        (processorAt M p buffer i).lowCutActive = (beforeIndex M p buffer i).1.lowCutActive)
    ∧ (J.approximatelyEqual (highCutAt M p buffer i) (beforeIndex M p buffer i).1.lastHighCut
          = true →
        (processorAt M p buffer i).highCutActive = (beforeIndex M p buffer i).1.highCutActive)
    ∧ ((processorAt M p buffer i).lowCutActive = false →
        (afterIndex M p buffer i).1.lowCutFilter = (processorAt M p buffer i).lowCutFilter)
    ∧ ((processorAt M p buffer i).highCutActive = false →
        (afterIndex M p buffer i).1.highCutFilter = (processorAt M p buffer i).highCutFilter)
    ∧ ((processorAt M p buffer i).lowCutActive = false →
        (processorAt M p buffer i).highCutActive = false →
        (buffer.numChannels ≠ 1 →
          (afterIndex M p buffer i).1.wetBuffer.getSample 0 i
              = ((processorAt M p buffer i).leftAllpassChain.processSample M
                  ((chainInputAt M p buffer i).getSample 0 i)).1
          ∧ (afterIndex M p buffer i).1.wetBuffer.getSample 1 i
              = ((processorAt M p buffer i).rightAllpassChain.processSample M
                  ((chainInputAt M p buffer i).getSample 1 i)).1)
        ∧ (buffer.numChannels = 1 →
          (afterIndex M p buffer i).1.wetBuffer.getSample 0 i
              = ((processorAt M p buffer i).leftAllpassChain.processSample M
                  ((beforeIndex M p buffer i).2.getSample 0 i * inputGainAt M p buffer i)).1)) := by
  have hinv0 : CutInv (beforeIndex M p buffer i).1 :=
    CutInv_congr _ _ (beforeIndex_cutState M p buffer i).symm
      (iterate_cutStep_CutInv p hp.cutInv i)
  have hcs : (processorAt M p buffer i).cutState
      = (cutStep (beforeIndex M p buffer i).1).cutState :=
    atSample_cutState i (beforeIndex M p buffer i).1
  have hinv : CutInv (processorAt M p buffer i) :=
    CutInv_congr _ _ hcs.symm (cutStep_CutInv _ hinv0)
  obtain ⟨hfl, hfh, _⟩ := cutState_fields _ _ hcs
  have hnc : (beforeIndex M p buffer i).2.numChannels = buffer.numChannels :=
    (beforeIndex_dims M p buffer i).1
  have hafter : afterIndex M p buffer i
      = if (beforeIndex M p buffer i).2.numChannels = 1 then
          processSingleSampleMono M (processorAt M p buffer i) (beforeIndex M p buffer i).2 i
            (inputGainAt M p buffer i)
        else processSingleSample M (processorAt M p buffer i) (beforeIndex M p buffer i).2 i
            (inputGainAt M p buffer i) :=
    processIndex_eq_atSample M i (beforeIndex M p buffer i)
  refine ⟨hinv.2.2.1, hinv.2.2.2, ?_, ?_, ?_, ?_, ?_, ?_, ?_⟩
  · intro hle ha
    have h := ((cutStep_lowCut (beforeIndex M p buffer i).1).1 ha).1
    rw [hfl, h]
    apply decide_eq_false
    have hb := (jlimit_cut_bounds (beforeIndex M p buffer i).1.lowCutMin
      (beforeIndex M p buffer i).1.lowCutMax
      ((beforeIndex M p buffer i).1.lowCutSmoother.getNextValue).1).1
      (by rw [hinv0.1]; exact zero_le_one) hle
    exact not_lt.mpr hb
  · intro hle ha
    have h := ((cutStep_highCut (beforeIndex M p buffer i).1).1 ha).1
    rw [hfh, h]
    apply decide_eq_false
    have hb := (jlimit_cut_bounds (beforeIndex M p buffer i).1.highCutMin
      (beforeIndex M p buffer i).1.highCutMax
      ((beforeIndex M p buffer i).1.highCutSmoother.getNextValue).1).2
      (by rw [hinv0.2.1]; norm_num) hle
    exact not_lt.mpr hb
  · intro ha
    rw [hfl]
    exact ((cutStep_lowCut (beforeIndex M p buffer i).1).2 ha).1
  · intro ha
    rw [hfh]
    exact ((cutStep_highCut (beforeIndex M p buffer i).1).2 ha).1
  · intro hl
    rw [hafter]
    split
    · exact (sampleStage_lowCutFilter M _ _ i _ hl).2
    · exact (sampleStage_lowCutFilter M _ _ i _ hl).1
  · intro hh
    rw [hafter]
    split
    · exact (sampleStage_highCutFilter M _ _ i _ hh).2
    · exact (sampleStage_highCutFilter M _ _ i _ hh).1
  · intro hl hh
    constructor
    · intro hne
      rw [hafter, if_neg (by rw [hnc]; exact hne)]
      exact processSingleSample_wet_of_inactive M _ _ i _ hl hh
    · intro heq
      rw [hafter, if_pos (by rw [hnc]; exact heq)]
      exact processSingleSampleMono_wet_of_inactive M _ _ i _ hl hh

/-- Witness of C17: the default-constructed processor on the stereo test block, sample 0. -/
theorem C17_cut_flags_follow_cached_cutoff_witness :
    ChasmDSPProcessor.Reachable CMath.rational
        (ChasmDSPProcessor.default : ChasmDSPProcessor ℚ Juce.passThrough)
    ∧ ((processorAt CMath.rational
          (ChasmDSPProcessor.default : ChasmDSPProcessor ℚ Juce.passThrough)
          AudioBuffer.stereoRamp 0).lowCutActive = true →
        1 < (processorAt CMath.rational
          (ChasmDSPProcessor.default : ChasmDSPProcessor ℚ Juce.passThrough)
          AudioBuffer.stereoRamp 0).lastLowCut) :=
  ⟨ChasmDSPProcessor.Reachable.default,
    (C17_cut_flags_follow_cached_cutoff CMath.rational
      (ChasmDSPProcessor.default : ChasmDSPProcessor ℚ Juce.passThrough)
      ChasmDSPProcessor.Reachable.default AudioBuffer.stereoRamp 0).1⟩

namespace ChasmDSPProcessor

variable {α : Type} [LinearOrderedField α] [FloorRing α] {J : Juce α}

/-- The members `prepare` and `reset` snap the low-cut smoother to the supplied cut-off and
leave the cached cut-off, the flag and the clamp limits as they were. -/
theorem prepare_reset_lowCut (M : CMath α) (p : ChasmDSPProcessor α J) (spec : ProcessSpec α)
    (a1 a2 a3 a4 a5 a6 lowCut a8 a9 a10 a11 : α) (mode : Int) (a13 : α) :
    ((p.prepare M spec a1 a2 a3 a4 a5 a6 lowCut a8 a9 a10 a11 mode a13).lowCutSmoother.currentValue
        = lowCut
      ∧ (p.prepare M spec a1 a2 a3 a4 a5 a6 lowCut a8 a9 a10 a11 mode a13).lowCutSmoother.targetValue
        = lowCut
      ∧ (p.prepare M spec a1 a2 a3 a4 a5 a6 lowCut a8 a9 a10 a11 mode a13).lastLowCut
        = p.lastLowCut
      ∧ (p.prepare M spec a1 a2 a3 a4 a5 a6 lowCut a8 a9 a10 a11 mode a13).lowCutActive
        = p.lowCutActive
      ∧ (p.prepare M spec a1 a2 a3 a4 a5 a6 lowCut a8 a9 a10 a11 mode a13).lowCutMin
        = p.lowCutMin
      ∧ (p.prepare M spec a1 a2 a3 a4 a5 a6 lowCut a8 a9 a10 a11 mode a13).lowCutMax
        = p.lowCutMax)
    ∧ ((p.reset a1 a2 a3 a4 a5 a6 lowCut a8 a9 a10 a11 mode a13).lowCutSmoother.currentValue
        = lowCut
      ∧ (p.reset a1 a2 a3 a4 a5 a6 lowCut a8 a9 a10 a11 mode a13).lowCutSmoother.targetValue
        = lowCut
      ∧ (p.reset a1 a2 a3 a4 a5 a6 lowCut a8 a9 a10 a11 mode a13).lastLowCut = p.lastLowCut
      ∧ (p.reset a1 a2 a3 a4 a5 a6 lowCut a8 a9 a10 a11 mode a13).lowCutActive
        = p.lowCutActive) :=
  ⟨⟨rfl, rfl, rfl, rfl, rfl, rfl⟩, ⟨rfl, rfl, rfl, rfl⟩⟩

/-- A smoother that rests at its target returns that value. -/
theorem getNextValue_of_rest (s : ParameterSmoother α) (v : α) (hc : s.currentValue = v)
    (ht : s.targetValue = v) : (s.getNextValue).1 = v := by
  rw [ParameterSmoother.getNextValue_fst, ParameterSmoother.advance_currentValue, hc, ht]
  ring

/-- The cut-off bookkeeping of the processor `preparedAboveThreshold` after one cut-off
update: the cached low-cut cut-off is `1 + 2^-23` Hz and the flag is set. -/
theorem preparedAboveThreshold_step :
    (cutStep preparedAboveThreshold).lastLowCut = 1 + 1 / 2 ^ 23
    ∧ (cutStep preparedAboveThreshold).lowCutActive = true := by
  obtain ⟨hc, ht, hl, _, hmin, hmax⟩ := (prepare_reset_lowCut CMath.rational
    (ChasmDSPProcessor.default : ChasmDSPProcessor ℚ (Juce.scaling floatApproximatelyEqual))
    ⟨44100, 1, 2⟩ 1 1 (1 / 2) 30 0 1 (1 + 1 / 2 ^ 23) 20000 100 1 0 0 0).1
  have hnext : (preparedAboveThreshold.lowCutSmoother.getNextValue).1 = 1 + 1 / 2 ^ 23 :=
    getNextValue_of_rest _ _ hc ht
  have hlast : preparedAboveThreshold.lastLowCut = 0 := hl
  have hlo : preparedAboveThreshold.lowCutMin = 0 := hmin
  have hhi : preparedAboveThreshold.lowCutMax = 44100 * (1 / 2) - 1 := hmax
  have hap : (Juce.scaling floatApproximatelyEqual).approximatelyEqual
      (preparedAboveThreshold.lowCutSmoother.getNextValue).1
      preparedAboveThreshold.lastLowCut = false := by
    rw [hnext, hlast]
    show floatApproximatelyEqual (1 + 1 / 2 ^ 23) 0 = false
    unfold floatApproximatelyEqual
    apply decide_eq_false
    norm_num [abs_of_pos]
  obtain ⟨h1, h2⟩ := (cutStep_lowCut preparedAboveThreshold).1 hap
  rw [hnext, hlo, hhi] at h1 h2
  have hj : jlimit (0 : ℚ) (44100 * (1 / 2) - 1) (1 + 1 / 2 ^ 23) = 1 + 1 / 2 ^ 23 := by
    unfold jlimit
    norm_num
  rw [hj] at h1 h2
  refine ⟨h2, h1.trans ?_⟩
  apply decide_eq_true
  norm_num

/-- The cut-off bookkeeping of the processor `resetAtThreshold`: the low-cut smoother rests at
exactly 1 Hz while the cached cut-off is still `1 + 2^-23` Hz with the flag set. -/
theorem resetAtThreshold_state :
    (resetAtThreshold.lowCutSmoother.getNextValue).1 = 1
    ∧ resetAtThreshold.lastLowCut = 1 + 1 / 2 ^ 23
    ∧ resetAtThreshold.lowCutActive = true := by
  obtain ⟨hc, ht, hl, ha⟩ := (prepare_reset_lowCut CMath.rational
    (preparedAboveThreshold.processBlock CMath.rational AudioBuffer.stereoOne).1
    ⟨44100, 1, 2⟩ 1 1 (1 / 2) 30 0 1 1 20000 100 1 0 0 0).2
  have hcs : (preparedAboveThreshold.processBlock CMath.rational AudioBuffer.stereoOne).1.cutState
      = (cutStep preparedAboveThreshold).cutState :=
    processBlock_cutState CMath.rational preparedAboveThreshold AudioBuffer.stereoOne
  obtain ⟨hfl, _, hll, _⟩ := cutState_fields _ _ hcs
  obtain ⟨h1, h2⟩ := preparedAboveThreshold_step
  exact ⟨getNextValue_of_rest _ _ hc ht, (hl.trans hll).trans h1, (ha.trans hfl).trans h2⟩

end ChasmDSPProcessor

open ChasmDSPProcessor

/-- C17 (counterexample to the claim as worded): with `juce::approximatelyEqual` at `float`
tolerance, on the processor `resetAtThreshold` the smoothed low-cut cut-off of sample 0 is
exactly 1 Hz, yet `lowCutActive` is true for that sample: the cut-off is approximately equal
to the cached `1 + 2^-23` Hz, so the flag is not recomputed. -/
theorem C17_low_cut_flag_stale_counterexample :
    lowCutAt CMath.rational ChasmDSPProcessor.resetAtThreshold AudioBuffer.stereoOne 0 = 1
    ∧ (processorAt CMath.rational ChasmDSPProcessor.resetAtThreshold
        AudioBuffer.stereoOne 0).lowCutActive = true
    ∧ ¬ (lowCutAt CMath.rational ChasmDSPProcessor.resetAtThreshold AudioBuffer.stereoOne 0 ≤ 1 →
        (processorAt CMath.rational ChasmDSPProcessor.resetAtThreshold
          AudioBuffer.stereoOne 0).lowCutActive = false) := by
  obtain ⟨h1, h2, h3⟩ := resetAtThreshold_state
  have hb := beforeIndex_cutState CMath.rational ChasmDSPProcessor.resetAtThreshold
    AudioBuffer.stereoOne 0
  have hcs : (processorAt CMath.rational ChasmDSPProcessor.resetAtThreshold
      AudioBuffer.stereoOne 0).cutState = (cutStep ChasmDSPProcessor.resetAtThreshold).cutState :=
    (atSample_cutState 0 _).trans (cutStep_congr _ _ hb)
  obtain ⟨hfl, _, _, _⟩ := cutState_fields _ _ hcs
  obtain ⟨_, _, _, _, hsm, _⟩ := cutState_fields _ _ hb
  have hap : (Juce.scaling floatApproximatelyEqual).approximatelyEqual
      (ChasmDSPProcessor.resetAtThreshold.lowCutSmoother.getNextValue).1
      ChasmDSPProcessor.resetAtThreshold.lastLowCut = true := by
    rw [h1, h2]
    show floatApproximatelyEqual 1 (1 + 1 / 2 ^ 23) = true
    unfold floatApproximatelyEqual
    apply decide_eq_true
    right
    norm_num [abs_of_pos, abs_of_neg]
  have hflag : (processorAt CMath.rational ChasmDSPProcessor.resetAtThreshold
      AudioBuffer.stereoOne 0).lowCutActive = true := by
    rw [hfl, ((cutStep_lowCut ChasmDSPProcessor.resetAtThreshold).2 hap).1]
    exact h3
  have hcut : lowCutAt CMath.rational ChasmDSPProcessor.resetAtThreshold AudioBuffer.stereoOne 0
      = 1 := by
    unfold lowCutAt
    rw [hsm]
    exact h1
  refine ⟨hcut, hflag, ?_⟩
  intro h
  have := h (le_of_eq hcut)
  rw [hflag] at this
  exact Bool.noConfusion this

/-! ## Silence in, silence out -/

/-- A property indexed by the iteration count, established step by step, holds after the
loop. -/
theorem forLoop_indexed {σ : Type} (P : Nat → σ → Prop) (body : Nat → σ → σ) (n : Nat) (s : σ)
    (h0 : P 0 s) (hstep : ∀ i, i < n → ∀ t, P i t → P (i + 1) (body i t)) :
    P n (forLoop n body s) := by
  induction n with
  | zero => exact h0
  | succ k ih =>
    exact hstep k (Nat.lt_succ_self k) _
      (ih (fun i hi t ht => hstep i (Nat.lt_succ_of_lt hi) t ht))

/-- Writing a zero keeps a block silent. -/
theorem AudioBuffer.Silent.setSample_zero {α : Type} [LinearOrderedField α]
    {b : AudioBuffer α} (hb : b.Silent) (channel i : Nat) :
    (b.setSample channel i 0).Silent := by
  intro c j hc hj
  show (if c = channel ∧ j = i then (0 : α) else b.data c j) = 0
  split
  · rfl
  · exact hb c j hc hj

/-- Scaling a sample keeps a block silent. -/
theorem AudioBuffer.Silent.setSample_scaled {α : Type} [LinearOrderedField α]
    {b : AudioBuffer α} (hb : b.Silent) (channel i : Nat) (g : α) :
    (b.setSample channel i (b.getSample channel i * g)).Silent := by
  intro c j hc hj
  show (if c = channel ∧ j = i then b.data channel i * g else b.data c j) = 0
  split
  · rename_i h
    obtain ⟨h1, h2⟩ := h
    subst h1
    subst h2
    rw [hb c j hc hj, zero_mul]
  · exact hb c j hc hj

/-- Membership in a `zipWith` of a property that the combining function establishes. -/
theorem mem_zipWith_of {β γ δ : Type} (g : β → γ → δ) (P : δ → Prop) (Q : β → Prop)
    (hg : ∀ b c, Q b → P (g b c)) :
    ∀ (l : List β) (m : List γ), (∀ b ∈ l, Q b) → ∀ d ∈ List.zipWith g l m, P d := by
  intro l
  induction l with
  | nil => intro m _ d hd; simp at hd
  | cons b bs ih =>
    intro m hl d hd
    cases m with
    | nil => simp at hd
    | cons c cs =>
      rw [List.zipWith_cons_cons, List.mem_cons] at hd
      rcases hd with hd | hd
      · rw [hd]
        exact hg b c (hl b (List.mem_cons_self b bs))
      · exact ih cs (fun x hx => hl x (List.mem_cons_of_mem b hx)) d hd

theorem getD_of_zeros {β : Type} [LinearOrderedField β] {l : List β} (h : ∀ v ∈ l, v = 0)
    (i : Nat) : l.getD i 0 = 0 := by
  by_cases hi : i < l.length
  · rw [List.getD_eq_getElem l 0 hi]
    exact h _ (List.getElem_mem hi)
  · rw [List.getD_eq_default l 0 (not_lt.mp hi)]

namespace AllpassFilter

variable {α : Type} [LinearOrderedField α] [FloorRing α]

/-- A filter whose delay line holds only zeros answers a zero with a zero and keeps a delay
line of zeros. -/
theorem allpass_processSample_zero (f : AllpassFilter α) (h : ∀ v ∈ f.delayLine, v = 0) :
    (f.processSample 0).1 = 0 ∧ ∀ v ∈ (f.processSample 0).2.delayLine, v = 0 := by
  have hd : getInterpolatedSample f = 0 := by
    unfold getInterpolatedSample
    split
    · rfl
    · simp only [getD_of_zeros h]
      ring
  unfold AllpassFilter.processSample
  split
  · exact ⟨rfl, h⟩
  · simp only [hd]
    refine ⟨by ring, ?_⟩
    intro v hv
    rcases List.mem_or_eq_of_mem_set hv with h1 | h1
    · exact h _ h1
    · rw [h1]
      ring

end AllpassFilter

namespace SchroederAllpassChain

variable {α : Type} [LinearOrderedField α] [FloorRing α]

theorem processSeries_zero :
    ∀ (l : List (AllpassFilter α)), (∀ f ∈ l, ∀ v ∈ f.delayLine, v = 0) →
      (processSeries l 0).1 = 0 ∧ ∀ f ∈ (processSeries l 0).2, ∀ v ∈ f.delayLine, v = 0 := by
  intro l
  induction l with
  | nil => intro _; exact ⟨rfl, fun f hf => by simp [processSeries] at hf⟩
  | cons f fs ih =>
    intro h
    obtain ⟨h1, h2⟩ := AllpassFilter.allpass_processSample_zero f (h f (List.mem_cons_self f fs))
    obtain ⟨h3, h4⟩ := ih (fun x hx => h x (List.mem_cons_of_mem f hx))
    have hs : processSeries (f :: fs) 0
        = ((processSeries fs (f.processSample 0).1).1,
            (f.processSample 0).2 :: (processSeries fs (f.processSample 0).1).2) := rfl
    rw [hs, h1]
    refine ⟨h3, ?_⟩
    intro x hx
    rcases List.mem_cons.mp hx with hx | hx
    · rw [hx]; exact h2
    · exact h4 x hx

/-- The per-sample parameter update keeps the delay lines. -/
theorem updateParameters_silent (M : CMath α) (c : SchroederAllpassChain α)
    (h : ∀ f ∈ c.allpassFilters, ∀ v ∈ f.delayLine, v = 0) :
    ∀ f ∈ (updateParameters M c).allpassFilters, ∀ v ∈ f.delayLine, v = 0 := by
  unfold updateParameters
  simp only []
  refine mem_zipWith_of _ (fun f : AllpassFilter α => ∀ v ∈ f.delayLine, v = 0)
    (fun f : AllpassFilter α => ∀ v ∈ f.delayLine, v = 0) ?_ _ _ h
  intro b _ hb
  exact hb

/-- A chain whose delay lines hold only zeros answers a zero with a zero and keeps delay
lines of zeros. -/
theorem chain_processSample_zero (M : CMath α) (c : SchroederAllpassChain α)
    (h : ∀ f ∈ c.allpassFilters, ∀ v ∈ f.delayLine, v = 0) :
    (c.processSample M 0).1 = 0
    ∧ ∀ f ∈ (c.processSample M 0).2.allpassFilters, ∀ v ∈ f.delayLine, v = 0 :=
  processSeries_zero _ (updateParameters_silent M c h)

end SchroederAllpassChain

namespace HaasEffect

variable {α : Type} [LinearOrderedField α] [FloorRing α]

/-- A Haas effect whose delay line holds only zeros maps a silent block with a right channel
to a silent block of the same dimensions. -/
theorem haas_processBlock_silent (h : HaasEffect α) (buffer : AudioBuffer α)
    (hline : ∀ v ∈ h.rightDelay.delayLine, v = 0) (hb : buffer.Silent)
    (hnc : 1 < buffer.numChannels) :
    (h.processBlock buffer).1.Silent
    ∧ (h.processBlock buffer).1.numChannels = buffer.numChannels
    ∧ (h.processBlock buffer).1.numSamples = buffer.numSamples := by
  rw [HaasEffect.processBlock_eq_forLoop]
  have key := forLoop_indexed
    (fun (_ : Nat) (st : AudioBuffer α × HaasEffect α) =>
      st.1.Silent ∧ st.1.numChannels = buffer.numChannels
      ∧ st.1.numSamples = buffer.numSamples ∧ ∀ v ∈ st.2.rightDelay.delayLine, v = 0)
    HaasEffect.processIndex buffer.numSamples (buffer, h) ⟨hb, rfl, rfl, hline⟩
    (by
      intro i hi st hst
      obtain ⟨h1, h2, h3, h4⟩ := hst
      have hin : st.1.getSample 1 i = 0 := h1 1 i (by rw [h2]; exact hnc) (by rw [h3]; exact hi)
      have hline1 : ∀ v ∈ (HaasEffect.updateParameters st.2).rightDelay.delayLine, v = 0 := h4
      obtain ⟨hz, hl⟩ := AllpassFilter.allpass_processSample_zero _ hline1
      unfold HaasEffect.processIndex
      simp only []
      rw [hin, hz]
      exact ⟨h1.setSample_zero 1 i, h2, h3, hl⟩)
  exact ⟨key.1, key.2.1, key.2.2.1⟩

end HaasEffect

namespace StereoEnhancer

variable {α : Type} [LinearOrderedField α]

/-- The stereo enhancer maps a silent stereo block to a silent block of the same
dimensions. -/
theorem enhancer_processBlock_silent (e : StereoEnhancer α) (buffer : AudioBuffer α)
    (hb : buffer.Silent) (hnc : 1 < buffer.numChannels) :
    (e.processBlock buffer).1.Silent
    ∧ (e.processBlock buffer).1.numChannels = buffer.numChannels
    ∧ (e.processBlock buffer).1.numSamples = buffer.numSamples := by
  obtain ⟨_, h2, h3, h4⟩ := processLoop_spec e buffer buffer.numSamples
  refine ⟨?_, h2, h3⟩
  intro c j hc hj
  have hc' : c < buffer.numChannels := h2 ▸ hc
  have hj' : j < buffer.numSamples := h3 ▸ hj
  have h0 : buffer.data 0 j = 0 := hb 0 j (by omega) hj'
  have h1 : buffer.data 1 j = 0 := hb 1 j hnc hj'
  show (forLoop buffer.numSamples processIndex (buffer, e)).1.data c j = 0
  rw [h4 c j, h0, h1]
  split
  · ring
  · split
    · ring
    · exact hb c j hc' hj'

end StereoEnhancer

namespace MakeItLoud

variable {α : Type} [LinearOrderedField α] {J : Juce α}

/-- With `tanh 0 = 0` the waveshaper maps zero to zero. -/
theorem waveshape_zero (M : CMath α) (m : MakeItLoud α J) (htanh : M.tanh 0 = 0) :
    waveshape M m 0 = 0 := by
  unfold waveshape
  simp only [zero_mul, htanh]
  split <;> rfl

/-- The loudness stage with cleared compressors maps a silent block to a silent block of the
same dimensions, enabled or not. -/
theorem loudness_processBlock_silent {svfRest : J.SVF → Prop} {iirRest : J.IIR → Prop}
    {envRest : J.Envelope → Prop} (hJ : J.SilenceLaws svfRest iirRest envRest)
    (M : CMath α) (htanh : M.tanh 0 = 0) (m : MakeItLoud α J) (buffer : AudioBuffer α)
    (hpre : envRest m._preCompressor.envelope) (hpost : envRest m._postCompressor.envelope)
    (hb : buffer.Silent) :
    (m.processBlock M buffer).1.Silent
    ∧ (m.processBlock M buffer).1.numChannels = buffer.numChannels
    ∧ (m.processBlock M buffer).1.numSamples = buffer.numSamples := by
  by_cases hen : m._enabled = true
  · by_cases hc : buffer.numChannels = 0 ∨ buffer.numSamples = 0
    · have h1 : ¬ ((!m._enabled) = true) := by simp [hen]
      unfold MakeItLoud.processBlock
      rw [if_neg h1, if_pos hc]
      exact ⟨hb, rfl, rfl⟩
    · have hc1 : buffer.numChannels ≠ 0 := fun h => hc (Or.inl h)
      have hc2 : buffer.numSamples ≠ 0 := fun h => hc (Or.inr h)
      rw [MakeItLoud.processBlock_of_enabled M m buffer hen hc1 hc2]
      obtain ⟨a1, a2, a3, _⟩ := hJ.compressorProcess_silent m._preCompressor.thresholddB
        m._preCompressor.ratio m._preCompressor.attackTime m._preCompressor.releaseTime
        m._preCompressor.envelope buffer hpre hb
      obtain ⟨b1, b2, b3⟩ := hJ.gainProcess_silent
        (J.gainSetGainLinear m._inputGain m._inputGainValue) _ a1
      obtain ⟨c1, c2, c3⟩ := hJ.gainProcess_silent
        (J.gainSetGainLinear m._boostGain m._boostValue) _ b1
      obtain ⟨d1, d2, d3⟩ := forLoop_mapBlock
        (waveshape M (MakeItLoud.beforePostCompressor M m buffer).2)
        (J.gainProcess (J.gainSetGainLinear m._boostGain m._boostValue)
          (J.gainProcess (J.gainSetGainLinear m._inputGain m._inputGainValue)
            (J.compressorProcess m._preCompressor.thresholddB m._preCompressor.ratio
              m._preCompressor.attackTime m._preCompressor.releaseTime
              m._preCompressor.envelope buffer).1).1).1.numChannels
        (J.gainProcess (J.gainSetGainLinear m._boostGain m._boostValue)
          (J.gainProcess (J.gainSetGainLinear m._inputGain m._inputGainValue)
            (J.compressorProcess m._preCompressor.thresholddB m._preCompressor.ratio
              m._preCompressor.attackTime m._preCompressor.releaseTime
              m._preCompressor.envelope buffer).1).1).1
      have hshape : (MakeItLoud.beforePostCompressor M m buffer).1.Silent
          ∧ (MakeItLoud.beforePostCompressor M m buffer).1.numChannels = buffer.numChannels
          ∧ (MakeItLoud.beforePostCompressor M m buffer).1.numSamples = buffer.numSamples := by
        refine ⟨?_, d1.trans (c2.trans (b2.trans a2)), d2.trans (c3.trans (b3.trans a3))⟩
        intro c j hcc hjj
        have hcc' := (show _ = _ from d1) ▸ hcc
        have hjj' := (show _ = _ from d2) ▸ hjj
        have hd := d3 c j
        have hz := c1 c j hcc' hjj'
        show (MakeItLoud.beforePostCompressor M m buffer).1.data c j = 0
        refine (show (MakeItLoud.beforePostCompressor M m buffer).1.data c j = _ from hd).trans ?_
        rw [if_pos ⟨hcc', hjj'⟩, hz]
        exact waveshape_zero M _ htanh
      obtain ⟨e1, e2, e3, _⟩ := hJ.compressorProcess_silent m._postCompressor.thresholddB
        m._postCompressor.ratio m._postCompressor.attackTime m._postCompressor.releaseTime
        m._postCompressor.envelope _ hpost hshape.1
      exact ⟨e1, e2.trans hshape.2.1, e3.trans hshape.2.2⟩
  · have h1 : (!m._enabled) = true := by simpa using hen
    unfold MakeItLoud.processBlock
    rw [if_pos h1]
    exact ⟨hb, rfl, rfl⟩

end MakeItLoud

namespace ChasmDSPProcessor

variable {α : Type} [LinearOrderedField α] [FloorRing α] {J : Juce α}
  {svfRest : J.SVF → Prop} {iirRest : J.IIR → Prop} {envRest : J.Envelope → Prop}

/-- Being cleared depends on the cut filters and on `quietState` only. -/
theorem Cleared_of_quietState (p q : ChasmDSPProcessor α J) (h : q.quietState = p.quietState)
    (h1 : svfRest q.lowCutFilter) (h2 : svfRest q.highCutFilter)
    (hp : Cleared svfRest iirRest envRest p) : Cleared svfRest iirRest envRest q := by
  simp only [quietState, Prod.mk.injEq] at h
  obtain ⟨e1, e2, e3, e4, e5, e6, e7⟩ := h
  obtain ⟨a1, a2, a3, _, _, a6, a7, a8, a9, a10⟩ := hp
  unfold Cleared
  rw [e1, e2, e3, e4, e5, e6, e7]
  exact ⟨a1, a2, a3, h1, h2, a6, a7, a8, a9, a10⟩

theorem cutStereo_quietState (p : ChasmDSPProcessor α J) (l r : α) :
    (lowCutStereo p l r).2.2.quietState = p.quietState
    ∧ (highCutStereo p l r).2.2.quietState = p.quietState := by
  constructor
  · unfold lowCutStereo; split <;> rfl
  · unfold highCutStereo; split <;> rfl

theorem lowCutStereo_zero (hJ : J.SilenceLaws svfRest iirRest envRest)
    (p : ChasmDSPProcessor α J) (l r : α) (hl : l = 0) (hr : r = 0)
    (h : svfRest p.lowCutFilter) :
    (lowCutStereo p l r).1 = 0 ∧ (lowCutStereo p l r).2.1 = 0
    ∧ svfRest (lowCutStereo p l r).2.2.lowCutFilter := by
  subst hl
  subst hr
  obtain ⟨a1, a2⟩ := hJ.svfProcessSample_zero p.lowCutFilter 0 h
  obtain ⟨b1, b2⟩ := hJ.svfProcessSample_zero _ 1 a2
  unfold lowCutStereo
  split
  · exact ⟨a1, b1, b2⟩
  · exact ⟨rfl, rfl, h⟩

theorem highCutStereo_zero (hJ : J.SilenceLaws svfRest iirRest envRest)
    (p : ChasmDSPProcessor α J) (l r : α) (hl : l = 0) (hr : r = 0)
    (h : svfRest p.highCutFilter) :
    (highCutStereo p l r).1 = 0 ∧ (highCutStereo p l r).2.1 = 0
    ∧ svfRest (highCutStereo p l r).2.2.highCutFilter := by
  subst hl
  subst hr
  obtain ⟨a1, a2⟩ := hJ.svfProcessSample_zero p.highCutFilter 0 h
  obtain ⟨b1, b2⟩ := hJ.svfProcessSample_zero _ 1 a2
  unfold highCutStereo
  split
  · exact ⟨a1, b1, b2⟩
  · exact ⟨rfl, rfl, h⟩

/-- The two cut filters of the stereo sample stage, fed with zeros while cleared, return
zeros, stay cleared and leave the rest of the processor alone. -/
theorem cutTail_zero (hJ : J.SilenceLaws svfRest iirRest envRest)
    (p : ChasmDSPProcessor α J) (l r : α) (hl : l = 0) (hr : r = 0)
    (h1 : svfRest p.lowCutFilter) (h2 : svfRest p.highCutFilter) :
    (highCutStereo (lowCutStereo p l r).2.2 (lowCutStereo p l r).1 (lowCutStereo p l r).2.1).1 = 0
    ∧ (highCutStereo (lowCutStereo p l r).2.2 (lowCutStereo p l r).1
        (lowCutStereo p l r).2.1).2.1 = 0
    ∧ svfRest (highCutStereo (lowCutStereo p l r).2.2 (lowCutStereo p l r).1
        (lowCutStereo p l r).2.1).2.2.lowCutFilter
    ∧ svfRest (highCutStereo (lowCutStereo p l r).2.2 (lowCutStereo p l r).1
        (lowCutStereo p l r).2.1).2.2.highCutFilter
    ∧ (highCutStereo (lowCutStereo p l r).2.2 (lowCutStereo p l r).1
        (lowCutStereo p l r).2.1).2.2.quietState = p.quietState := by
  obtain ⟨a1, a2, a3⟩ := lowCutStereo_zero hJ p l r hl hr h1
  have a4 : svfRest (lowCutStereo p l r).2.2.highCutFilter := by
    rw [(cutFilters_frame p l r).1]
    exact h2
  obtain ⟨b1, b2, b3⟩ := highCutStereo_zero hJ (lowCutStereo p l r).2.2 _ _ a1 a2 a4
  refine ⟨b1, b2, ?_, b3, ?_⟩
  · rw [(cutFilters_frame _ _ _).2.2.1]
    exact a3
  · rw [(cutStereo_quietState _ _ _).2, (cutStereo_quietState _ _ _).1]

/-- The scaling of the input sample keeps a silent block silent. -/
theorem applyInputGain_silent (buffer : AudioBuffer α) (i : Nat) (g : α) (hb : buffer.Silent) :
    (applyInputGain buffer i g).Silent := by
  unfold applyInputGain
  exact forLoop_invariant (fun b : AudioBuffer α => b.Silent) _
    (fun channel b h => h.setSample_scaled channel i g) _ _ hb

/-- Copying a silent stereo sample into a stereo wet buffer writes two zeros. -/
theorem copyToWet_silent (wet buffer : AudioBuffer α) (i : Nat) (hw : wet.numChannels = 2)
    (hbn : buffer.numChannels = 2) (hb : buffer.Silent) (hi : i < buffer.numSamples) :
    (copyToWet wet buffer i).numChannels = wet.numChannels
    ∧ (copyToWet wet buffer i).numSamples = wet.numSamples
    ∧ ∀ c j, (copyToWet wet buffer i).data c j
        = if j = i ∧ c < 2 then 0 else wet.data c j := by
  obtain ⟨h1, h2, h3⟩ := forLoop_setSample (min wet.numChannels buffer.numChannels) i
    (fun channel => buffer.getSample channel i) wet
  refine ⟨h1, h2, ?_⟩
  intro c j
  refine (show (copyToWet wet buffer i).data c j = _ from h3 c j).trans ?_
  rw [hw, hbn, min_self]
  split
  · rename_i hc
    exact hb c i (by rw [hbn]; exact hc.2) hi
  · rfl

/-- The stereo sample stage on a cleared processor and a silent stereo block: the processor
stays cleared, the block stays silent, and the wet buffer receives two zeros at index `i`. -/
theorem processSingleSample_silent (hJ : J.SilenceLaws svfRest iirRest envRest) (M : CMath α)
    (q : ChasmDSPProcessor α J) (b : AudioBuffer α) (i : Nat) (g : α)
    (hq : Cleared svfRest iirRest envRest q) (hb : b.Silent) (hbn : b.numChannels = 2)
    (hi : i < b.numSamples) :
    Cleared svfRest iirRest envRest (processSingleSample M q b i g).1
    ∧ (processSingleSample M q b i g).2.Silent
    ∧ (processSingleSample M q b i g).2.numChannels = 2
    ∧ (processSingleSample M q b i g).2.numSamples = b.numSamples
    ∧ (processSingleSample M q b i g).1.wetBuffer.numSamples = q.wetBuffer.numSamples
    ∧ ∀ c j, (processSingleSample M q b i g).1.wetBuffer.data c j
        = if j = i ∧ c < 2 then 0 else q.wetBuffer.data c j := by
  obtain ⟨a1, a2, a3, a4, a5, a6, a7, a8, a9, a10⟩ := hq
  obtain ⟨d1, d2⟩ := applyInputGain_dims b i g
  have hb1 : (applyInputGain b i g).Silent := applyInputGain_silent b i g hb
  obtain ⟨w1, w2, w3⟩ := copyToWet_silent q.wetBuffer (applyInputGain b i g) i a10
    (d1.trans hbn) hb1 (by rw [d2]; exact hi)
  have hl0 : (copyToWet q.wetBuffer (applyInputGain b i g) i).getSample 0 i = 0 := by
    show (copyToWet q.wetBuffer (applyInputGain b i g) i).data 0 i = 0
    rw [w3 0 i, if_pos ⟨rfl, by norm_num⟩]
  have hr0 : (copyToWet q.wetBuffer (applyInputGain b i g) i).getSample 1 i = 0 := by
    show (copyToWet q.wetBuffer (applyInputGain b i g) i).data 1 i = 0
    rw [w3 1 i, if_pos ⟨rfl, by norm_num⟩]
  have hL : (q.leftAllpassChain.processSample M
        ((copyToWet q.wetBuffer (applyInputGain b i g) i).getSample 0 i)).1 = 0
      ∧ ∀ f ∈ (q.leftAllpassChain.processSample M
          ((copyToWet q.wetBuffer (applyInputGain b i g) i).getSample 0 i)).2.allpassFilters,
        ∀ v ∈ f.delayLine, v = 0 := by
    rw [hl0]
    exact SchroederAllpassChain.chain_processSample_zero M q.leftAllpassChain a1
  have hR : (q.rightAllpassChain.processSample M
        ((copyToWet q.wetBuffer (applyInputGain b i g) i).getSample 1 i)).1 = 0
      ∧ ∀ f ∈ (q.rightAllpassChain.processSample M
          ((copyToWet q.wetBuffer (applyInputGain b i g) i).getSample 1 i)).2.allpassFilters,
        ∀ v ∈ f.delayLine, v = 0 := by
    rw [hr0]
    exact SchroederAllpassChain.chain_processSample_zero M q.rightAllpassChain a2
  obtain ⟨t1, t2, t3, t4, t5⟩ := cutTail_zero hJ
    ({ q with
        wetBuffer := copyToWet q.wetBuffer (applyInputGain b i g) i,
        leftAllpassChain := (q.leftAllpassChain.processSample M
          ((copyToWet q.wetBuffer (applyInputGain b i g) i).getSample 0 i)).2,
        rightAllpassChain := (q.rightAllpassChain.processSample M
          ((copyToWet q.wetBuffer (applyInputGain b i g) i).getSample 1 i)).2 } :
      ChasmDSPProcessor α J)
    _ _ hL.1 hR.1 a4 a5
  simp only [quietState, Prod.mk.injEq] at t5
  obtain ⟨e1, e2, e3, e4, e5, e6, e7⟩ := t5
  refine ⟨⟨?_, ?_, ?_, t3, t4, ?_, ?_, ?_, ?_, ?_⟩, hb1, d1.trans hbn, d2, ?_, ?_⟩
  · show ∀ f ∈ (highCutStereo _ _ _).2.2.leftAllpassChain.allpassFilters, _
    rw [e1]
    exact hL.2
  · show ∀ f ∈ (highCutStereo _ _ _).2.2.rightAllpassChain.allpassFilters, _
    rw [e2]
    exact hR.2
  · show ∀ v ∈ (highCutStereo _ _ _).2.2.haasEffect.rightDelay.delayLine, _
    rw [e3]
    exact a3
  · show iirRest (highCutStereo _ _ _).2.2.brightnessEQ.highShelfFilterDuplicator
    rw [e4]
    exact a6
  · show envRest (highCutStereo _ _ _).2.2.makeItLoud._preCompressor.envelope
    rw [e5]
    exact a7
  · show envRest (highCutStereo _ _ _).2.2.makeItLoud._postCompressor.envelope
    rw [e5]
    exact a8
  · show (highCutStereo _ _ _).2.2.numChannels = 2
    rw [e6]
    exact a9
  · show (highCutStereo _ _ _).2.2.wetBuffer.numChannels = 2
    rw [e7]
    exact w1.trans a10
  · show (highCutStereo _ _ _).2.2.wetBuffer.numSamples = _
    rw [e7]
    exact w2
  · intro c j
    show (if c = 1 ∧ j = i then (highCutStereo _ _ _).2.1
      else if c = 0 ∧ j = i then (highCutStereo _ _ _).1
      else (highCutStereo _ _ _).2.2.wetBuffer.data c j) = _
    rw [e7, t1, t2]
    show (if c = 1 ∧ j = i then (0 : α) else if c = 0 ∧ j = i then 0
      else (copyToWet q.wetBuffer (applyInputGain b i g) i).data c j) = _
    rw [w3 c j]
    by_cases h1 : c = 1 ∧ j = i
    · rw [if_pos h1, if_pos ⟨h1.2, by omega⟩]
    · rw [if_neg h1]
      by_cases h0 : c = 0 ∧ j = i
      · rw [if_pos h0, if_pos ⟨h0.2, by omega⟩]
      · rw [if_neg h0]

end ChasmDSPProcessor

namespace ChasmDSPProcessor

variable {α : Type} [LinearOrderedField α] [FloorRing α] {J : Juce α}
  {svfRest : J.SVF → Prop} {iirRest : J.IIR → Prop} {envRest : J.Envelope → Prop}

theorem quietState_wetBuffer (p q : ChasmDSPProcessor α J) (h : q.quietState = p.quietState) :
    q.wetBuffer = p.wetBuffer :=
  congrArg (fun t => t.2.2.2.2.2.2) h

/-- The low-cut update keeps a cleared low-cut filter cleared and touches nothing else the
passage of silence reads. -/
theorem updateLowCut_quiet (hJ : J.SilenceLaws svfRest iirRest envRest)
    (p : ChasmDSPProcessor α J) (h : svfRest p.lowCutFilter) :
    (updateLowCut p).quietState = p.quietState
    ∧ svfRest (updateLowCut p).lowCutFilter
    ∧ (updateLowCut p).highCutFilter = p.highCutFilter := by
  refine ⟨?_, ?_, ?_⟩
  · unfold updateLowCut; simp only []; split <;> rfl
  · unfold updateLowCut
    simp only []
    split
    · exact hJ.svfSetCutoffFrequency_rest _ _ h
    · exact h
  · unfold updateLowCut; simp only []; split <;> rfl

/-- The high-cut update keeps a cleared high-cut filter cleared and touches nothing else the
passage of silence reads. -/
theorem updateHighCut_quiet (hJ : J.SilenceLaws svfRest iirRest envRest)
    (p : ChasmDSPProcessor α J) (h : svfRest p.highCutFilter) :
    (updateHighCut p).quietState = p.quietState
    ∧ svfRest (updateHighCut p).highCutFilter
    ∧ (updateHighCut p).lowCutFilter = p.lowCutFilter := by
  refine ⟨?_, ?_, ?_⟩
  · unfold updateHighCut; simp only []; split <;> rfl
  · unfold updateHighCut
    simp only []
    split
    · exact hJ.svfSetCutoffFrequency_rest _ _ h
    · exact h
  · unfold updateHighCut; simp only []; split <;> rfl

/-- The refresh of the components keeps a cleared processor cleared. -/
theorem updateDSPComponents_Cleared (hJ : J.SilenceLaws svfRest iirRest envRest)
    (p : ChasmDSPProcessor α J) (delay brightness character width haasAmount : α)
    (hp : Cleared svfRest iirRest envRest p) :
    Cleared svfRest iirRest envRest
        (updateDSPComponents p delay brightness character width haasAmount)
    ∧ (updateDSPComponents p delay brightness character width haasAmount).wetBuffer
        = p.wetBuffer := by
  obtain ⟨a1, a2, a3, a4, a5, a6, a7, a8, a9, a10⟩ := hp
  exact ⟨⟨a1, a2, a3, a4, a5, hJ.iirSetHighShelf_rest _ _ _ _ _ a6, a7, a8, a9, a10⟩, rfl⟩

/-- The processor with which a sample is processed is cleared when the processor at the
start of the iteration is, and has the same wet buffer. -/
theorem atSample_Cleared (hJ : J.SilenceLaws svfRest iirRest envRest) (i : Nat)
    (p : ChasmDSPProcessor α J) (hp : Cleared svfRest iirRest envRest p) :
    Cleared svfRest iirRest envRest (atSample i p).2
    ∧ (atSample i p).2.wetBuffer = p.wetBuffer := by
  have h0 : Cleared svfRest iirRest envRest (advanceControls p).2 := hp
  have hlow : svfRest (advanceControls p).2.lowCutFilter := h0.2.2.2.1
  have hhigh : svfRest (advanceControls p).2.highCutFilter := h0.2.2.2.2.1
  obtain ⟨q1, r1, f1⟩ := updateLowCut_quiet hJ (advanceControls p).2 hlow
  have h1 : Cleared svfRest iirRest envRest (updateLowCut (advanceControls p).2) :=
    Cleared_of_quietState _ _ q1 r1 (by rw [f1]; exact hhigh) h0
  obtain ⟨q2, r2, f2⟩ := updateHighCut_quiet hJ (updateLowCut (advanceControls p).2)
    (by rw [f1]; exact hhigh)
  have h2 : Cleared svfRest iirRest envRest
      (updateHighCut (updateLowCut (advanceControls p).2)) :=
    Cleared_of_quietState _ _ q2 (by rw [f2]; exact r1) r2 h1
  have hw : (updateHighCut (updateLowCut (advanceControls p).2)).wetBuffer = p.wetBuffer :=
    (quietState_wetBuffer _ _ q2).trans (quietState_wetBuffer _ _ q1)
  unfold atSample
  simp only []
  split
  · obtain ⟨c1, c2⟩ := updateDSPComponents_Cleared hJ
      (updateHighCut (updateLowCut (advanceControls p).2))
      (advanceControls p).1.delay (advanceControls p).1.brightness
      (advanceControls p).1.character (advanceControls p).1.width
      (advanceControls p).1.haasAmount h2
    exact ⟨c1, c2.trans hw⟩
  · exact ⟨h2, hw⟩

/-- One iteration of the first sample loop on a cleared processor and a silent stereo block. -/
theorem processIndex_silent (hJ : J.SilenceLaws svfRest iirRest envRest) (M : CMath α)
    (i : Nat) (st : ChasmDSPProcessor α J × AudioBuffer α)
    (hq : Cleared svfRest iirRest envRest st.1) (hb : st.2.Silent)
    (hbn : st.2.numChannels = 2) (hi : i < st.2.numSamples) :
    Cleared svfRest iirRest envRest (processIndex M i st).1
    ∧ (processIndex M i st).2.Silent
    ∧ (processIndex M i st).2.numChannels = 2
    ∧ (processIndex M i st).2.numSamples = st.2.numSamples
    ∧ (processIndex M i st).1.wetBuffer.numSamples = st.1.wetBuffer.numSamples
    ∧ ∀ c j, (processIndex M i st).1.wetBuffer.data c j
        = if j = i ∧ c < 2 then 0 else st.1.wetBuffer.data c j := by
  obtain ⟨h1, h2⟩ := atSample_Cleared hJ i st.1 hq
  have hne : ¬ st.2.numChannels = 1 := by rw [hbn]; norm_num
  rw [processIndex_eq_atSample, if_neg hne]
  have h := processSingleSample_silent hJ M (atSample i st.1).2 st.2 i
    (atSample i st.1).1.inputGain h1 hb hbn hi
  rw [h2] at h
  exact h

/-- Sizing the scratch buffers keeps a cleared processor cleared and gives the wet buffer the
length of the block. -/
theorem resizeScratch_Cleared (p : ChasmDSPProcessor α J) (n : Nat)
    (hp : Cleared svfRest iirRest envRest p) :
    Cleared svfRest iirRest envRest (resizeScratch p n)
    ∧ (resizeScratch p n).wetBuffer.numSamples = n := by
  obtain ⟨a1, a2, a3, a4, a5, a6, a7, a8, a9, a10⟩ := hp
  unfold resizeScratch
  split
  · exact ⟨⟨a1, a2, a3, a4, a5, a6, a7, a8, a9, a9⟩, rfl⟩
  · rename_i h
    exact ⟨⟨a1, a2, a3, a4, a5, a6, a7, a8, a9, a10⟩, not_not.mp h⟩

/-- The first sample loop of `processBlock` on a cleared processor and a silent stereo
block: the processor stays cleared and the wet buffer ends up silent, with two channels and
the length of the block. -/
theorem firstLoop_silent (hJ : J.SilenceLaws svfRest iirRest envRest) (M : CMath α)
    (p : ChasmDSPProcessor α J) (buffer : AudioBuffer α)
    (hp : Cleared svfRest iirRest envRest p) (hb : buffer.Silent)
    (hbn : buffer.numChannels = 2) :
    Cleared svfRest iirRest envRest (beforeIndex M p buffer buffer.numSamples).1
    ∧ (beforeIndex M p buffer buffer.numSamples).1.wetBuffer.Silent
    ∧ (beforeIndex M p buffer buffer.numSamples).1.wetBuffer.numSamples = buffer.numSamples := by
  obtain ⟨r1, r2⟩ := resizeScratch_Cleared p buffer.numSamples hp
  have key := forLoop_indexed
    (fun (k : Nat) (st : ChasmDSPProcessor α J × AudioBuffer α) =>
      Cleared svfRest iirRest envRest st.1 ∧ st.2.Silent ∧ st.2.numChannels = 2
      ∧ st.2.numSamples = buffer.numSamples
      ∧ st.1.wetBuffer.numSamples = buffer.numSamples
      ∧ ∀ c j, c < 2 → j < k → st.1.wetBuffer.data c j = 0)
    (processIndex M) buffer.numSamples
    ({ resizeScratch p buffer.numSamples with
        dryBuffer := (resizeScratch p buffer.numSamples).dryBuffer.makeCopyOf buffer }, buffer)
    ⟨r1, hb, hbn, rfl, r2, fun c j _ hj => absurd hj (Nat.not_lt_zero j)⟩
    (by
      intro i hi st hst
      obtain ⟨h1, h2, h3, h4, h5, h6⟩ := hst
      obtain ⟨g1, g2, g3, g4, g5, g6⟩ := processIndex_silent hJ M i st h1 h2 h3
        (by rw [h4]; exact hi)
      refine ⟨g1, g2, g3, g4.trans h4, g5.trans h5, ?_⟩
      intro c j hc hj
      rw [g6 c j]
      by_cases hji : j = i
      · rw [if_pos ⟨hji, hc⟩]
      · rw [if_neg (fun h => hji h.1)]
        exact h6 c j hc (by omega))
  obtain ⟨k1, _, _, _, k5, k6⟩ := key
  refine ⟨k1, ?_, k5⟩
  intro c j hc hj
  have hc2 : (beforeIndex M p buffer buffer.numSamples).1.wetBuffer.numChannels = 2 :=
    k1.2.2.2.2.2.2.2.2.2
  exact k6 c j (by rw [← hc2]; exact hc)
    (by
      have : (beforeIndex M p buffer buffer.numSamples).1.wetBuffer.numSamples
          = buffer.numSamples := k5
      rw [← this]
      exact hj)

/-- The whole-block stages on a cleared processor with a silent stereo wet buffer leave the
wet buffer silent, with the same dimensions. -/
theorem postStages_silent (hJ : J.SilenceLaws svfRest iirRest envRest) (M : CMath α)
    (htanh : M.tanh 0 = 0) (p : ChasmDSPProcessor α J)
    (hp : Cleared svfRest iirRest envRest p) (hw : p.wetBuffer.Silent) :
    (postStages M p).wetBuffer.Silent
    ∧ (postStages M p).wetBuffer.numChannels = 2
    ∧ (postStages M p).wetBuffer.numSamples = p.wetBuffer.numSamples := by
  obtain ⟨_, _, a3, _, _, a6, a7, a8, _, a10⟩ := hp
  obtain ⟨b1, b2, b3, _⟩ := hJ.iirProcess_silent p.brightnessEQ.highShelfFilterDuplicator
    p.wetBuffer a6 hw
  obtain ⟨c1, c2, c3⟩ := HaasEffect.haas_processBlock_silent p.haasEffect
    (J.iirProcess p.brightnessEQ.highShelfFilterDuplicator p.wetBuffer).1 a3 b1
    (by rw [b2, a10]; norm_num)
  obtain ⟨d1, d2, d3⟩ := StereoEnhancer.enhancer_processBlock_silent p.stereoEnhancer
    (p.haasEffect.processBlock
      (J.iirProcess p.brightnessEQ.highShelfFilterDuplicator p.wetBuffer).1).1 c1
    (by rw [c2, b2, a10]; norm_num)
  obtain ⟨e1, e2, e3⟩ := MakeItLoud.loudness_processBlock_silent hJ M htanh
    ((p.makeItLoud.setInputGain (p.mil_InputGainSmoother.getNextValue).1).setBoost
      (p.mil_BoostSmoother.getNextValue).1)
    (p.stereoEnhancer.processBlock
      (p.haasEffect.processBlock
        (J.iirProcess p.brightnessEQ.highShelfFilterDuplicator p.wetBuffer).1).1).1
    a7 a8 d1
  exact ⟨e1, e2.trans (d2.trans (c2.trans (b2.trans a10))),
    e3.trans (d3.trans (c3.trans b3))⟩

/-- A cleared stereo processor answers a silent stereo block with silence. -/
theorem processBlock_silent (hJ : J.SilenceLaws svfRest iirRest envRest) (M : CMath α)
    (htanh : M.tanh 0 = 0) (p : ChasmDSPProcessor α J)
    (hp : Cleared svfRest iirRest envRest p) (buffer : AudioBuffer α)
    (hbn : buffer.numChannels = 2) (hb : buffer.Silent) (ch i : Nat) (hch : ch < 2)
    (hi : i < buffer.numSamples) :
    (p.processBlock M buffer).2.getSample ch i = 0 := by
  obtain ⟨f1, f2, f3⟩ := firstLoop_silent hJ M p buffer hp hb hbn
  obtain ⟨g1, g2, g3⟩ := postStages_silent hJ M htanh _ f1 f2
  obtain ⟨hdry, _, _, hnc, _⟩ := wetPath_frame M p buffer
  obtain ⟨_, _, _, _, _, hdata⟩ := mixLoop_spec (wetPath M p buffer).1 (wetPath M p buffer).2
    buffer.numSamples
  have hwet : (wetPath M p buffer).1.wetBuffer.data ch i = 0 :=
    g1 ch i (by rw [g2]; exact hch) (by rw [g3, f3]; exact hi)
  have h := hdata ch i
  rw [if_pos ⟨hi, by rw [hnc, hbn]; exact hch⟩, hdry, hwet,
    hb ch i (by rw [hbn]; exact hch) hi] at h
  refine (show (p.processBlock M buffer).2.getSample ch i = _ from h).trans ?_
  ring

/-- The member `prepare` with two channels yields a cleared processor. -/
theorem prepare_Cleared (hJ : J.SilenceLaws svfRest iirRest envRest) (M : CMath α)
    (p : ChasmDSPProcessor α J) (spec : ProcessSpec α) (hspec : spec.numChannels = 2)
    (a1 a2 a3 a4 a5 a6 a7 a8 a9 a10 a11 : α) (mode : Int) (a13 : α) :
    Cleared svfRest iirRest envRest
      (p.prepare M spec a1 a2 a3 a4 a5 a6 a7 a8 a9 a10 a11 mode a13) := by
  refine ⟨SchroederAllpassChain.reset_delayLines _ _ _,
    SchroederAllpassChain.reset_delayLines _ _ _, ?_, hJ.svfReset_rest _, hJ.svfReset_rest _,
    hJ.iirReset_rest _, ?_, ?_, hspec, hspec⟩
  · intro v hv
    exact List.eq_of_mem_replicate hv
  · show envRest (MakeItLoud.setCompressorModeInt _ mode)._preCompressor.envelope
    rw [(MakeItLoud.setCompressorModeInt_frame _ mode).1]
    exact hJ.envelopeReset_rest _
  · show envRest (MakeItLoud.setCompressorModeInt _ mode)._postCompressor.envelope
    rw [(MakeItLoud.setCompressorModeInt_frame _ mode).2.1]
    exact hJ.envelopeReset_rest _

/-- The member `updateParameters` keeps a cleared processor cleared. -/
theorem updateParameters_Cleared (M : CMath α) (p : ChasmDSPProcessor α J)
    (hp : Cleared svfRest iirRest envRest p)
    (a1 a2 a3 a4 a5 a6 a7 a8 a9 a10 a11 : α) (mode : Int) (a13 : α) :
    Cleared svfRest iirRest envRest
      (p.updateParameters M a1 a2 a3 a4 a5 a6 a7 a8 a9 a10 a11 mode a13) := by
  obtain ⟨h1, h2, h3, h4, h5, h6, h7, h8, h9, h10⟩ := hp
  refine ⟨h1, h2, h3, h4, h5, h6, ?_, ?_, h9, h10⟩
  · show envRest (MakeItLoud.setCompressorModeInt _ mode)._preCompressor.envelope
    rw [(MakeItLoud.setCompressorModeInt_frame _ mode).1]
    exact h7
  · show envRest (MakeItLoud.setCompressorModeInt _ mode)._postCompressor.envelope
    rw [(MakeItLoud.setCompressorModeInt_frame _ mode).2.1]
    exact h8

end ChasmDSPProcessor

/-! ## Haas effect: the left channel -/

namespace HaasEffect

variable {α : Type} [LinearOrderedField α] [FloorRing α]

/-- The sample loop of the Haas effect keeps the dimensions of the block and every sample
outside channel 1. -/
theorem haasLoop_frame (h : HaasEffect α) (buffer : AudioBuffer α) (k : Nat) :
    (forLoop k HaasEffect.processIndex (buffer, h)).1.numChannels = buffer.numChannels
    ∧ (forLoop k HaasEffect.processIndex (buffer, h)).1.numSamples = buffer.numSamples
    ∧ ∀ c j, c ≠ 1 →
        (forLoop k HaasEffect.processIndex (buffer, h)).1.data c j = buffer.data c j := by
  apply forLoop_invariant
    (fun st : AudioBuffer α × HaasEffect α =>
      st.1.numChannels = buffer.numChannels ∧ st.1.numSamples = buffer.numSamples
      ∧ ∀ c j, c ≠ 1 → st.1.data c j = buffer.data c j)
  · intro i st hst
    obtain ⟨h1, h2, h3⟩ := hst
    refine ⟨h1, h2, ?_⟩
    intro c j hc
    show (if c = 1 ∧ j = i then _ else st.1.data c j) = _
    rw [if_neg (fun hh => hc hh.1)]
    exact h3 c j hc
  · exact ⟨rfl, rfl, fun _ _ _ => rfl⟩

end HaasEffect

/-- C21: `HaasEffect::processBlock` leaves every sample of channel 0 unchanged, whatever the
delay setting and the internal state of the effect are; it writes channel 1 only (every
sample of any other channel is unchanged) and keeps the dimensions of the block. -/
theorem C21_haas_left_channel_untouched {α : Type} [LinearOrderedField α] [FloorRing α]
    (h : HaasEffect α) (buffer : AudioBuffer α) :
    (∀ j, (h.processBlock buffer).1.getSample 0 j = buffer.getSample 0 j)
    ∧ (∀ c j, c ≠ 1 → (h.processBlock buffer).1.getSample c j = buffer.getSample c j)
    ∧ (∀ (d : α) (j : Nat),
        ((h.setDelayMs d).processBlock buffer).1.getSample 0 j = buffer.getSample 0 j)
    ∧ (h.processBlock buffer).1.numChannels = buffer.numChannels
    ∧ (h.processBlock buffer).1.numSamples = buffer.numSamples := by
  obtain ⟨h1, h2, h3⟩ := HaasEffect.haasLoop_frame h buffer buffer.numSamples
  refine ⟨fun j => ?_, fun c j hc => ?_, fun d j => ?_, ?_, ?_⟩
  · rw [HaasEffect.processBlock_eq_forLoop]
    exact h3 0 j (by decide)
  · rw [HaasEffect.processBlock_eq_forLoop]
    exact h3 c j hc
  · rw [HaasEffect.processBlock_eq_forLoop]
    exact (HaasEffect.haasLoop_frame (h.setDelayMs d) buffer buffer.numSamples).2.2 0 j
      (by decide)
  · rw [HaasEffect.processBlock_eq_forLoop]
    exact h1
  · rw [HaasEffect.processBlock_eq_forLoop]
    exact h2

/-! ## Allpass filter: clamped parameters and indices -/

namespace AllpassFilter

variable {α : Type} [LinearOrderedField α] [FloorRing α]

/-- The clamp returns a value between its limits when they are ordered. -/
theorem jlimit_mem {β : Type} [LinearOrder β] (lo hi v : β) (h : lo ≤ hi) :
    lo ≤ jlimit lo hi v ∧ jlimit lo hi v ≤ hi := by
  unfold jlimit
  split
  · exact ⟨le_refl _, h⟩
  · split
    · exact ⟨h, le_refl _⟩
    · exact ⟨not_lt.mp ‹_›, not_lt.mp ‹_›⟩

/-- The member `processSample` keeps the capacity, the delay length, the feedback and the
sample rate. -/
theorem processSample_settings (f : AllpassFilter α) (x : α) :
    (f.processSample x).2.delayLine.length = f.delayLine.length
    ∧ (f.processSample x).2.delaySamples = f.delaySamples
    ∧ (f.processSample x).2.feedback = f.feedback
    ∧ (f.processSample x).2._sampleRate = f._sampleRate := by
  unfold AllpassFilter.processSample
  split
  · exact ⟨rfl, rfl, rfl, rfl⟩
  · exact ⟨List.length_set _ _ _, rfl, rfl, rfl⟩

/-- On a line of `capacity >= 1` cells that fits `size_t`, `setDelayTime (ms)` stores
`clamp (ms * 0.001 * sampleRate, 1, capacity - 1)`. -/
theorem setDelayTime_delaySamples (f : AllpassFilter α) (capacity : Nat)
    (hlen : f.delayLine.length = capacity) (h1 : 1 ≤ capacity) (h2 : capacity ≤ 2 ^ 64)
    (ms : α) :
    (f.setDelayTime ms).delaySamples
      = jlimit 1 ((capacity : α) - 1) (ms * (1 / 1000) * f._sampleRate) := by
  show jlimit 1 ((sizeMinusOne f : Nat) : α) (ms * (1 / 1000) * f._sampleRate) = _
  rw [AllpassFilter.sizeMinusOne_eq f capacity hlen h1 h2, Nat.cast_sub h1, Nat.cast_one]

/-- In every state a client can build, a delay line of 2 to `2^64` cells comes with a
feedback in `[-0.99, 0.99]` and a delay length in `[1, capacity - 1]`. -/
theorem Reachable.settings_range {f : AllpassFilter α} (h : Reachable f) :
    (-(99 / 100) ≤ f.feedback ∧ f.feedback ≤ 99 / 100)
    ∧ (2 ≤ f.delayLine.length → f.delayLine.length ≤ 2 ^ 64 →
        1 ≤ f.delaySamples ∧ f.delaySamples ≤ (f.delayLine.length : α) - 1) := by
  have hone : ∀ n : Nat, 2 ≤ n → (1 : α) ≤ (n : α) - 1 := by
    intro n hn
    have : (2 : α) ≤ (n : α) := by exact_mod_cast hn
    linarith
  induction h with
  | default =>
    refine ⟨⟨by show -(99 / 100 : α) ≤ 0; norm_num, by show (0 : α) ≤ 99 / 100; norm_num⟩, ?_⟩
    intro h2 _
    exact absurd h2 (by simp [AllpassFilter.default])
  | prepare f sampleRate maxDelayMs _ _ =>
    refine ⟨⟨by show -(99 / 100 : α) ≤ 0; norm_num, by show (0 : α) ≤ 99 / 100; norm_num⟩, ?_⟩
    intro h2 _
    exact ⟨le_refl _, hone _ h2⟩
  | setDelayTime f delayMs _ ih =>
    refine ⟨ih.1, ?_⟩
    intro h2 h3
    have hlen : (f.setDelayTime delayMs).delayLine.length = f.delayLine.length := rfl
    rw [hlen] at h2 h3 ⊢
    rw [setDelayTime_delaySamples f f.delayLine.length rfl (by omega) h3]
    exact jlimit_mem _ _ _ (hone _ h2)
  | setFeedback f g _ ih =>
    exact ⟨jlimit_mem _ _ _ (by norm_num), ih.2⟩
  | processSample f x _ ih =>
    obtain ⟨e1, e2, e3, _⟩ := processSample_settings f x
    rw [e1, e2, e3]
    exact ih
  | reset f _ _ =>
    refine ⟨⟨by show -(99 / 100 : α) ≤ 0; norm_num, by show (0 : α) ≤ 99 / 100; norm_num⟩, ?_⟩
    intro h2 _
    exact ⟨le_refl _, hone _ h2⟩

end AllpassFilter

/-- C24: in every state of an allpass filter that a client can build, a delay line of
`capacity >= 2` cells (as `prepare` sizes it, within `size_t`) comes with a feedback in
`[-0.99, 0.99]` and a delay length in `[1, capacity - 1]`; `prepare` sizes the line to
`floor (maxDelayMs * 0.001 * sampleRate) + 1` cells and `reset` leaves feedback 0 and delay 1;
`setFeedback (g)` stores `clamp (g, -0.99, 0.99)`, `setDelayTime (ms)` stores
`clamp (ms * 0.001 * sampleRate, 1, capacity - 1)`, and `processSample` changes neither. -/
theorem C24_allpass_parameters_clamped {α : Type} [LinearOrderedField α] [FloorRing α]
    (f : AllpassFilter α) (hf : AllpassFilter.Reachable f) (capacity : Nat)
    (hlen : f.delayLine.length = capacity) (hcap : 2 ≤ capacity) (hsize : capacity ≤ 2 ^ 64) :
    (-(99 / 100) ≤ f.feedback ∧ f.feedback ≤ 99 / 100)
    ∧ (1 ≤ f.delaySamples ∧ f.delaySamples ≤ (capacity : α) - 1)
    ∧ (∀ g : α, (f.setFeedback g).feedback = jlimit (-(99 / 100)) (99 / 100) g
        ∧ -(99 / 100) ≤ (f.setFeedback g).feedback ∧ (f.setFeedback g).feedback ≤ 99 / 100)
    ∧ (∀ ms : α, (f.setDelayTime ms).delaySamples
          = jlimit 1 ((capacity : α) - 1) (ms * (1 / 1000) * f._sampleRate)
        ∧ 1 ≤ (f.setDelayTime ms).delaySamples
        ∧ (f.setDelayTime ms).delaySamples ≤ (capacity : α) - 1)
    ∧ (∀ x : α, (f.processSample x).2.feedback = f.feedback
        ∧ (f.processSample x).2.delaySamples = f.delaySamples
        ∧ (f.processSample x).2.delayLine.length = capacity)
    ∧ (f.reset.feedback = 0 ∧ f.reset.delaySamples = 1 ∧ f.reset.delayLine.length = capacity)
    ∧ (∀ sampleRate maxDelayMs : α,
        (f.prepare sampleRate maxDelayMs).delayLine.length
          = Nat.floor (maxDelayMs * (1 / 1000) * sampleRate) + 1) := by
  have hr := AllpassFilter.Reachable.settings_range hf
  have hd := hr.2 (by rw [hlen]; exact hcap) (by rw [hlen]; exact hsize)
  rw [hlen] at hd
  have hone : (1 : α) ≤ (capacity : α) - 1 := by
    have : (2 : α) ≤ (capacity : α) := by exact_mod_cast hcap
    linarith
  refine ⟨hr.1, hd, fun g => ?_, fun ms => ?_, fun x => ?_, ?_, fun sampleRate maxDelayMs => ?_⟩
  · exact ⟨rfl, AllpassFilter.jlimit_mem _ _ _ (by norm_num)⟩
  · have he := AllpassFilter.setDelayTime_delaySamples f capacity hlen (by omega) hsize ms
    rw [he]
    exact ⟨rfl, AllpassFilter.jlimit_mem _ _ _ hone⟩
  · obtain ⟨e1, e2, e3, _⟩ := AllpassFilter.processSample_settings f x
    exact ⟨e3, e2, e1.trans hlen⟩
  · refine ⟨rfl, rfl, ?_⟩
    show (List.replicate f.delayLine.length (0 : α)).length = capacity
    rw [List.length_replicate, hlen]
  · show (List.replicate (AllpassFilter.resize f.delayLine _).length (0 : α)).length = _
    rw [List.length_replicate, AllpassFilter.length_resize]

/-- Witness of C24: the default filter prepared at 1000 Hz for 50 ms has 51 cells. -/
theorem C24_allpass_parameters_clamped_witness :
    ((AllpassFilter.default : AllpassFilter ℚ).prepare 1000 50).delayLine.length = 51
    ∧ (((AllpassFilter.default : AllpassFilter ℚ).prepare 1000 50).setDelayTime 70).delaySamples
        = 50 := by
  have hlen : ((AllpassFilter.default : AllpassFilter ℚ).prepare 1000 50).delayLine.length
      = 51 := by
    simp only [AllpassFilter.prepare, AllpassFilter.reset, AllpassFilter.length_resize,
      List.length_replicate]
    norm_num
  have h := (C24_allpass_parameters_clamped
    ((AllpassFilter.default : AllpassFilter ℚ).prepare 1000 50)
    (AllpassFilter.Reachable.prepare _ _ _ AllpassFilter.Reachable.default) 51 hlen
    (by norm_num) (by norm_num)).2.2.2.1 70
  refine ⟨hlen, h.1.trans ?_⟩
  norm_num [jlimit, AllpassFilter.prepare, AllpassFilter.reset]

namespace AllpassFilter

variable {α : Type} [LinearOrderedField α] [FloorRing α]

/-- After `processSample` the write cursor is inside a non-empty line. -/
theorem processSample_writeIndex (f : AllpassFilter α) (x : α) (hne : f.delayLine ≠ [])
    : (f.processSample x).2.writeIndex < f.delayLine.length := by
  rw [processSample_of_ne_nil f hne x]
  exact Nat.mod_lt _ (List.length_pos.mpr hne)

end AllpassFilter

/-- C25: for an allpass filter with `capacity >= 2` cells and a delay length in
`[1, capacity - 1]`: the write cursor is 0 after `reset` and inside `[0, capacity)` after
every `processSample`, which keeps capacity and delay length; with the cursor inside the
line the wrapped read position lies in `[0, capacity)`, its truncation is its floor and is
itself an index below the capacity, and both interpolation read indices are below the
capacity.  The cursor is inside the line in every state a client can build. -/
theorem C25_allpass_indices_in_bounds {α : Type} [LinearOrderedField α] [FloorRing α]
    (f : AllpassFilter α) (capacity : Nat) (hlen : f.delayLine.length = capacity)
    (hcap : 2 ≤ capacity) (h1 : 1 ≤ f.delaySamples)
    (h2 : f.delaySamples ≤ (capacity : α) - 1) :
    (f.reset.writeIndex = 0 ∧ f.reset.delayLine.length = capacity)
    ∧ (∀ x : α, (f.processSample x).2.writeIndex < capacity
        ∧ (f.processSample x).2.delayLine.length = capacity
        ∧ (f.processSample x).2.delaySamples = f.delaySamples)
    ∧ (f.writeIndex < capacity →
        (0 ≤ AllpassFilter.readPosition f ∧ AllpassFilter.readPosition f < (capacity : α))
        ∧ Nat.floor (AllpassFilter.readPosition f) < capacity
        ∧ Nat.floor (AllpassFilter.readPosition f) % f.delayLine.length
            = Nat.floor (AllpassFilter.readPosition f)
        ∧ Nat.floor (AllpassFilter.readPosition f) % f.delayLine.length < capacity
        ∧ (Nat.floor (AllpassFilter.readPosition f) % f.delayLine.length + 1)
            % f.delayLine.length < capacity)
    ∧ (AllpassFilter.Reachable f → f.writeIndex < capacity) := by
  have hne : f.delayLine ≠ [] := by
    intro h
    rw [h] at hlen
    simp at hlen
    omega
  have hpos : 0 < f.delayLine.length := by omega
  refine ⟨⟨rfl, ?_⟩, fun x => ?_, fun hw => ?_, fun hr => ?_⟩
  · show (List.replicate f.delayLine.length (0 : α)).length = capacity
    rw [List.length_replicate, hlen]
  · obtain ⟨e1, e2, _, _⟩ := AllpassFilter.processSample_settings f x
    exact ⟨hlen ▸ AllpassFilter.processSample_writeIndex f x hne, e1.trans hlen, e2⟩
  · obtain ⟨p1, p2⟩ := AllpassFilter.readPosition_mem f capacity hlen hw h1 h2
    have hfl : Nat.floor (AllpassFilter.readPosition f) < capacity :=
      (Nat.floor_lt p1).mpr p2
    refine ⟨⟨p1, p2⟩, hfl, ?_, ?_, ?_⟩
    · rw [hlen]; exact Nat.mod_eq_of_lt hfl
    · rw [hlen]; exact Nat.mod_lt _ (by omega)
    · rw [hlen]; exact Nat.mod_lt _ (by omega)
  · exact hlen ▸ (AllpassFilter.Reachable.invariant hr hne).1

/-- Witness of C25: the default filter prepared at 1000 Hz for 50 ms (51 cells, delay 1). -/
theorem C25_allpass_indices_in_bounds_witness :
    (((AllpassFilter.default : AllpassFilter ℚ).prepare 1000 50).processSample
      1).2.writeIndex < 51 :=
  ((C25_allpass_indices_in_bounds
    ((AllpassFilter.default : AllpassFilter ℚ).prepare 1000 50) 51
    (by
      simp only [AllpassFilter.prepare, AllpassFilter.reset, AllpassFilter.length_resize,
        List.length_replicate]
      norm_num)
    (by norm_num)
    (by show (1 : ℚ) ≤ 1; norm_num)
    (by show (1 : ℚ) ≤ ((51 : Nat) : ℚ) - 1; norm_num)).2.1 1).1

/-- C27: `updateParameters` hands the input-gain, output-gain, loudness-input-gain and
loudness-boost smoothers the target `pow (10, dB / 20)` of the given dB value, the mix
smoother the target `clamp (mixPercent / 100, 0, 1)`, and the delay, brightness, character,
low-cut, high-cut, width and Haas smoothers the given value; it changes no smoother's
current value and no smoother of a sub-component. -/
theorem C27_updateParameters_unit_conversion {α : Type} [LinearOrderedField α] [FloorRing α]
    {J : Juce α} (M : CMath α) (p : ChasmDSPProcessor α J)
    (inputGainDb outputGainDb mixPercent delayMs brightnessDb characterQ lowCutPercent
      highCutPercent widthPercent mil_InputGain mil_BoostValue : α) (mil_Mode : Int)
    (haasAmount : α) :
    ((p.updateParameters M inputGainDb outputGainDb mixPercent delayMs brightnessDb characterQ
        lowCutPercent highCutPercent widthPercent mil_InputGain mil_BoostValue mil_Mode
        haasAmount).inputGainSmoother.targetValue = M.pow 10 (inputGainDb / 20)
      ∧ (p.updateParameters M inputGainDb outputGainDb mixPercent delayMs brightnessDb
        characterQ lowCutPercent highCutPercent widthPercent mil_InputGain mil_BoostValue
        mil_Mode haasAmount).outputGainSmoother.targetValue = M.pow 10 (outputGainDb / 20)
      ∧ (p.updateParameters M inputGainDb outputGainDb mixPercent delayMs brightnessDb
        characterQ lowCutPercent highCutPercent widthPercent mil_InputGain mil_BoostValue
        mil_Mode haasAmount).mil_InputGainSmoother.targetValue = M.pow 10 (mil_InputGain / 20)
      ∧ (p.updateParameters M inputGainDb outputGainDb mixPercent delayMs brightnessDb
        characterQ lowCutPercent highCutPercent widthPercent mil_InputGain mil_BoostValue
        mil_Mode haasAmount).mil_BoostSmoother.targetValue = M.pow 10 (mil_BoostValue / 20)
      ∧ (p.updateParameters M inputGainDb outputGainDb mixPercent delayMs brightnessDb
        characterQ lowCutPercent highCutPercent widthPercent mil_InputGain mil_BoostValue
        mil_Mode haasAmount).mixSmoother.targetValue = jlimit 0 1 (mixPercent / 100))
    ∧ ((p.updateParameters M inputGainDb outputGainDb mixPercent delayMs brightnessDb
        characterQ lowCutPercent highCutPercent widthPercent mil_InputGain mil_BoostValue
        mil_Mode haasAmount).delaySmoother.targetValue = delayMs
      ∧ (p.updateParameters M inputGainDb outputGainDb mixPercent delayMs brightnessDb
        characterQ lowCutPercent highCutPercent widthPercent mil_InputGain mil_BoostValue
        mil_Mode haasAmount).brightnessSmoother.targetValue = brightnessDb
      ∧ (p.updateParameters M inputGainDb outputGainDb mixPercent delayMs brightnessDb
        characterQ lowCutPercent highCutPercent widthPercent mil_InputGain mil_BoostValue
        mil_Mode haasAmount).characterSmoother.targetValue = characterQ
      ∧ (p.updateParameters M inputGainDb outputGainDb mixPercent delayMs brightnessDb
        characterQ lowCutPercent highCutPercent widthPercent mil_InputGain mil_BoostValue
        mil_Mode haasAmount).lowCutSmoother.targetValue = lowCutPercent
      ∧ (p.updateParameters M inputGainDb outputGainDb mixPercent delayMs brightnessDb
        characterQ lowCutPercent highCutPercent widthPercent mil_InputGain mil_BoostValue
        mil_Mode haasAmount).highCutSmoother.targetValue = highCutPercent
      ∧ (p.updateParameters M inputGainDb outputGainDb mixPercent delayMs brightnessDb
        characterQ lowCutPercent highCutPercent widthPercent mil_InputGain mil_BoostValue
        mil_Mode haasAmount).widthSmoother.targetValue = widthPercent
      ∧ (p.updateParameters M inputGainDb outputGainDb mixPercent delayMs brightnessDb
        characterQ lowCutPercent highCutPercent widthPercent mil_InputGain mil_BoostValue
        mil_Mode haasAmount).haasSmoother.targetValue = haasAmount)
    ∧ (∀ q : ChasmDSPProcessor α J,
        q = p.updateParameters M inputGainDb outputGainDb mixPercent delayMs brightnessDb
          characterQ lowCutPercent highCutPercent widthPercent mil_InputGain mil_BoostValue
          mil_Mode haasAmount →
        q.inputGainSmoother.currentValue = p.inputGainSmoother.currentValue
        ∧ q.outputGainSmoother.currentValue = p.outputGainSmoother.currentValue
        ∧ q.mixSmoother.currentValue = p.mixSmoother.currentValue
        ∧ q.delaySmoother.currentValue = p.delaySmoother.currentValue
        ∧ q.brightnessSmoother.currentValue = p.brightnessSmoother.currentValue
        ∧ q.characterSmoother.currentValue = p.characterSmoother.currentValue
        ∧ q.lowCutSmoother.currentValue = p.lowCutSmoother.currentValue
        ∧ q.highCutSmoother.currentValue = p.highCutSmoother.currentValue
        ∧ q.widthSmoother.currentValue = p.widthSmoother.currentValue
        ∧ q.haasSmoother.currentValue = p.haasSmoother.currentValue
        ∧ q.mil_InputGainSmoother.currentValue = p.mil_InputGainSmoother.currentValue
        ∧ q.mil_BoostSmoother.currentValue = p.mil_BoostSmoother.currentValue
        ∧ q.leftAllpassChain = p.leftAllpassChain
        ∧ q.rightAllpassChain = p.rightAllpassChain
        ∧ q.haasEffect = p.haasEffect
        ∧ q.stereoEnhancer = p.stereoEnhancer) := by
  have hdb : ∀ db : α, DSPUtils.dbToGain M db = M.pow 10 (db / 20) := by
    intro db
    unfold DSPUtils.dbToGain
    congr 1
    ring
  have hpc : DSPUtils.percentageToNormalized mixPercent = jlimit 0 1 (mixPercent / 100) := by
    unfold DSPUtils.percentageToNormalized
    congr 1
    ring
  refine ⟨⟨hdb inputGainDb, hdb outputGainDb, hdb mil_InputGain, hdb mil_BoostValue, hpc⟩,
    ⟨rfl, rfl, rfl, rfl, rfl, rfl, rfl⟩, ?_⟩
  intro q hq
  subst hq
  exact ⟨rfl, rfl, rfl, rfl, rfl, rfl, rfl, rfl, rfl, rfl, rfl, rfl, rfl, rfl, rfl, rfl⟩

/-- C29: when the loudness stage runs (enabled, non-empty block), every sample it hands to
the post-compressor is `waveshape` of the sample after the two gains: it is `tanh (s * boost)`
when that is neither NaN nor infinite and 0 otherwise, so, 0 being finite, it is never NaN
and never infinite, for every input sample and every boost value. -/
theorem C29_waveshaper_output_finite {α : Type} [LinearOrderedField α] {J : Juce α}
    (M : CMath α) (hnan : M.isnan 0 = false) (hinf : M.isinf 0 = false)
    (m : MakeItLoud α J) (buffer : AudioBuffer α) :
    (∀ s : α, (MakeItLoud.waveshape M m s
          = if M.isnan (M.tanh (s * m._boostValue)) = true
              ∨ M.isinf (M.tanh (s * m._boostValue)) = true then 0
            else M.tanh (s * m._boostValue))
        ∧ M.isnan (MakeItLoud.waveshape M m s) = false
        ∧ M.isinf (MakeItLoud.waveshape M m s) = false)
    ∧ (∀ c j, c < (MakeItLoud.beforePostCompressor M m buffer).1.numChannels →
        j < (MakeItLoud.beforePostCompressor M m buffer).1.numSamples →
        M.isnan ((MakeItLoud.beforePostCompressor M m buffer).1.getSample c j) = false
        ∧ M.isinf ((MakeItLoud.beforePostCompressor M m buffer).1.getSample c j) = false)
    ∧ (m._enabled = true → buffer.numChannels ≠ 0 → buffer.numSamples ≠ 0 →
        (m.processBlock M buffer).1
          = ((MakeItLoud.beforePostCompressor M m buffer).2._postCompressor.process
              (MakeItLoud.beforePostCompressor M m buffer).1).1) := by
  have hw : ∀ (m1 : MakeItLoud α J) (s : α),
      (MakeItLoud.waveshape M m1 s
          = if M.isnan (M.tanh (s * m1._boostValue)) = true
              ∨ M.isinf (M.tanh (s * m1._boostValue)) = true then 0
            else M.tanh (s * m1._boostValue))
        ∧ M.isnan (MakeItLoud.waveshape M m1 s) = false
        ∧ M.isinf (MakeItLoud.waveshape M m1 s) = false := by
    intro m1 s
    have hdef : MakeItLoud.waveshape M m1 s
        = if (M.isnan (M.tanh (s * m1._boostValue))
              || M.isinf (M.tanh (s * m1._boostValue))) = true then 0
          else M.tanh (s * m1._boostValue) := rfl
    by_cases h : M.isnan (M.tanh (s * m1._boostValue)) = true
        ∨ M.isinf (M.tanh (s * m1._boostValue)) = true
    · have hb : (M.isnan (M.tanh (s * m1._boostValue))
          || M.isinf (M.tanh (s * m1._boostValue))) = true := by simpa using h
      rw [hdef, if_pos hb, if_pos h]
      exact ⟨rfl, hnan, hinf⟩
    · have hb : ¬ (M.isnan (M.tanh (s * m1._boostValue))
          || M.isinf (M.tanh (s * m1._boostValue))) = true := by simpa using h
      rw [hdef, if_neg hb, if_neg h]
      have h' := not_or.mp h
      exact ⟨rfl, by simpa using h'.1, by simpa using h'.2⟩
  refine ⟨hw m, ?_, fun hen hc hs => ?_⟩
  · intro c j hc hj
    obtain ⟨d1, d2, d3⟩ := forLoop_mapBlock
      (MakeItLoud.waveshape M (MakeItLoud.beforePostCompressor M m buffer).2)
      (J.gainProcess (J.gainSetGainLinear m._boostGain m._boostValue)
        (J.gainProcess (J.gainSetGainLinear m._inputGain m._inputGainValue)
          (m._preCompressor.process buffer).1).1).1.numChannels
      (J.gainProcess (J.gainSetGainLinear m._boostGain m._boostValue)
        (J.gainProcess (J.gainSetGainLinear m._inputGain m._inputGainValue)
          (m._preCompressor.process buffer).1).1).1
    have hc' := (show _ = _ from d1) ▸ hc
    have hj' := (show _ = _ from d2) ▸ hj
    have hd : (MakeItLoud.beforePostCompressor M m buffer).1.getSample c j = _ := d3 c j
    rw [hd, if_pos ⟨hc', hj'⟩]
    exact (hw _ _).2
  · rw [MakeItLoud.processBlock_of_enabled M m buffer hen hc hs]

/-- Witness of C29: the rational stand-in for `<cmath>` (no NaN, no infinity) and the default
stage on the stereo test block. -/
theorem C29_waveshaper_output_finite_witness :
    CMath.rational.isnan (MakeItLoud.waveshape CMath.rational
      (MakeItLoud.default : MakeItLoud ℚ Juce.passThrough) 3) = false :=
  ((C29_waveshaper_output_finite CMath.rational rfl rfl
    (MakeItLoud.default : MakeItLoud ℚ Juce.passThrough) AudioBuffer.stereoRamp).1 3).2.1

/-! ## Allpass chain: shared feedback and scaled delays -/

theorem jlimit_mono {β : Type} [LinearOrderedField β] (lo hi v w : β) (h : lo ≤ hi)
    (hvw : v ≤ w) : jlimit lo hi v ≤ jlimit lo hi w := by
  unfold jlimit
  split_ifs <;> linarith

theorem list_of_length_four {β : Type} (l : List β) (h : l.length = 4) :
    ∃ a b c d, l = [a, b, c, d] := by
  rcases l with _ | ⟨a, _ | ⟨b, _ | ⟨c, _ | ⟨d, _ | ⟨e, t⟩⟩⟩⟩⟩
  · simp at h
  · simp at h
  · simp at h
  · simp at h
  · exact ⟨a, b, c, d, rfl⟩
  · simp at h

namespace SchroederAllpassChain

variable {α : Type} [LinearOrderedField α] [FloorRing α]

/-- The series of `processSample` calls keeps, filter by filter, every quantity that a single
`processSample` keeps. -/
theorem processSeries_map {β : Type} (g : AllpassFilter α → β)
    (hg : ∀ f x, g (f.processSample x).2 = g f) :
    ∀ (l : List (AllpassFilter α)) (x : α), (processSeries l x).2.map g = l.map g := by
  intro l
  induction l with
  | nil => intro x; rfl
  | cons f fs ih =>
    intro x
    show g (f.processSample x).2 :: (processSeries fs (f.processSample x).1).2.map g
      = g f :: fs.map g
    rw [hg, ih]

/-- The filters of the chain after `processSample` are those after `updateParameters`, as far
as a quantity kept by the filters' `processSample` is concerned. -/
theorem processSample_map {β : Type} (g : AllpassFilter α → β)
    (hg : ∀ f x, g (f.processSample x).2 = g f) (M : CMath α) (c : SchroederAllpassChain α)
    (x : α) :
    (c.processSample M x).2.allpassFilters.map g = (updateParameters M c).allpassFilters.map g :=
  processSeries_map g hg _ _

/-- The filters after `updateParameters`, for a chain of four filters. -/
theorem updateParameters_filters (M : CMath α) (c : SchroederAllpassChain α)
    (a b d e : AllpassFilter α) (hl : c.allpassFilters = [a, b, d, e]) :
    (updateParameters M c).allpassFilters
      = [(a.setDelayTime ((c.delayTimeSmoother.getNextValue).1 * (41 / 100))).setFeedback
            (feedbackOf M (c.characterSmoother.getNextValue).1),
         (b.setDelayTime ((c.delayTimeSmoother.getNextValue).1 * (66 / 100))).setFeedback
            (feedbackOf M (c.characterSmoother.getNextValue).1),
         (d.setDelayTime ((c.delayTimeSmoother.getNextValue).1 * (97 / 100))).setFeedback
            (feedbackOf M (c.characterSmoother.getNextValue).1),
         (e.setDelayTime ((c.delayTimeSmoother.getNextValue).1 * (125 / 100))).setFeedback
            (feedbackOf M (c.characterSmoother.getNextValue).1)] := by
  unfold updateParameters
  simp only []
  rw [hl]
  rfl

/-- Every filter of the chain holds the feedback `feedbackOf (character)` after
`processSample`. -/
theorem processSample_feedback (M : CMath α) (c : SchroederAllpassChain α) (x : α) :
    ∀ f ∈ (c.processSample M x).2.allpassFilters,
      f.feedback = feedbackOf M (c.characterSmoother.getNextValue).1 := by
  intro f hf
  have hmap := processSample_map (fun f : AllpassFilter α => f.feedback)
    (fun f x => (AllpassFilter.processSample_settings f x).2.2.1) M c x
  have hmem : f.feedback ∈ (c.processSample M x).2.allpassFilters.map
      (fun f : AllpassFilter α => f.feedback) := List.mem_map_of_mem _ hf
  rw [hmap] at hmem
  obtain ⟨g, hg, hgf⟩ := List.mem_map.mp hmem
  have hall : ∀ g ∈ (updateParameters M c).allpassFilters,
      g.feedback = feedbackOf M (c.characterSmoother.getNextValue).1 := by
    unfold updateParameters
    simp only []
    refine mem_zipWith_of _ (fun g : AllpassFilter α =>
      g.feedback = feedbackOf M (c.characterSmoother.getNextValue).1)
      (fun _ => True) ?_ _ _ (fun _ _ => trivial)
    intro b s _
    have h1 : (1 / 10 : α) ≤ feedbackOf M (c.characterSmoother.getNextValue).1
        ∧ feedbackOf M (c.characterSmoother.getNextValue).1 ≤ 9 / 10 :=
      AllpassFilter.jlimit_mem _ _ _ (by norm_num)
    show jlimit (-(99 / 100)) (99 / 100) (feedbackOf M (c.characterSmoother.getNextValue).1)
      = _
    exact jlimit_of_mem (by linarith [h1.1]) (by linarith [h1.2])
  rw [← hgf]
  exact hall g hg

/-- The member `processSample` keeps the number of filters of a chain of four. -/
theorem processSample_length (M : CMath α) (c : SchroederAllpassChain α) (x : α)
    (h : c.allpassFilters.length = 4) : (c.processSample M x).2.allpassFilters.length = 4 := by
  obtain ⟨a, b, d, e, hl⟩ := list_of_length_four _ h
  have hmap := processSample_map (fun _ : AllpassFilter α => ()) (fun _ _ => rfl) M c x
  have := congrArg List.length hmap
  rw [List.length_map, List.length_map, updateParameters_filters M c a b d e hl] at this
  exact this

/-- The delays of the four filters after `processSample`, for a chain prepared at
`sampleRate` whose delay lines fit `size_t`: the scaled base delay, clamped to
`[1, capacity - 1]`. -/
theorem processSample_delays (M : CMath α) (c : SchroederAllpassChain α) (sampleRate : α)
    (hc : PreparedAt sampleRate c)
    (hsize : Nat.floor (100 * (1 / 1000) * sampleRate) + 1 ≤ 2 ^ 64) (x : α) :
    (c.processSample M x).2.allpassFilters.map (fun f : AllpassFilter α => f.delaySamples)
      = delayScales.map (fun r : α =>
          jlimit 1 ((Nat.floor (100 * (1 / 1000) * sampleRate) : Nat) : α)
            ((c.delayTimeSmoother.getNextValue).1 * r * (1 / 1000) * sampleRate)) := by
  obtain ⟨h4, hall⟩ := hc
  obtain ⟨a, b, d, e, hl⟩ := list_of_length_four _ h4
  have hmap := processSample_map (fun f : AllpassFilter α => f.delaySamples)
    (fun f x => (AllpassFilter.processSample_settings f x).2.1) M c x
  rw [hmap, updateParameters_filters M c a b d e hl]
  have hset : ∀ f ∈ c.allpassFilters, ∀ ms fb : α,
      ((f.setDelayTime ms).setFeedback fb).delaySamples
        = jlimit 1 ((Nat.floor (100 * (1 / 1000) * sampleRate) : Nat) : α)
            (ms * (1 / 1000) * sampleRate) := by
    intro f hf ms fb
    obtain ⟨h1, h2⟩ := hall f hf
    show (f.setDelayTime ms).delaySamples = _
    rw [AllpassFilter.setDelayTime_delaySamples f _ h2 (by omega) hsize ms, h1]
    congr 1
    push_cast
    ring
  have ha := hset a (by rw [hl]; simp)
  have hb := hset b (by rw [hl]; simp)
  have hd := hset d (by rw [hl]; simp)
  have he := hset e (by rw [hl]; simp)
  simp only [List.map_cons, List.map_nil, delayScales, ha, hb, hd, he]

/-- The member `processSample` keeps a prepared chain prepared. -/
theorem processSample_PreparedAt (M : CMath α) (c : SchroederAllpassChain α) (sampleRate : α)
    (hc : PreparedAt sampleRate c) (x : α) :
    PreparedAt sampleRate (c.processSample M x).2 := by
  obtain ⟨h4, hall⟩ := hc
  refine ⟨processSample_length M c x h4, ?_⟩
  intro f hf
  have hmap := processSample_map
    (fun f : AllpassFilter α => (f._sampleRate, f.delayLine.length))
    (fun f x => by
      obtain ⟨e1, _, _, e4⟩ := AllpassFilter.processSample_settings f x
      show ((f.processSample x).2._sampleRate, (f.processSample x).2.delayLine.length) = _
      rw [e1, e4]) M c x
  have hmem : (f._sampleRate, f.delayLine.length)
      ∈ (c.processSample M x).2.allpassFilters.map
        (fun f : AllpassFilter α => (f._sampleRate, f.delayLine.length)) :=
    List.mem_map_of_mem _ hf
  rw [hmap] at hmem
  obtain ⟨g, hg, hgf⟩ := List.mem_map.mp hmem
  have hup : ∀ g ∈ (updateParameters M c).allpassFilters,
      g._sampleRate = sampleRate
      ∧ g.delayLine.length = Nat.floor (100 * (1 / 1000) * sampleRate) + 1 := by
    unfold updateParameters
    simp only []
    refine mem_zipWith_of _ (fun g : AllpassFilter α =>
      g._sampleRate = sampleRate
      ∧ g.delayLine.length = Nat.floor (100 * (1 / 1000) * sampleRate) + 1)
      (fun g : AllpassFilter α =>
      g._sampleRate = sampleRate
      ∧ g.delayLine.length = Nat.floor (100 * (1 / 1000) * sampleRate) + 1) ?_ _ _ hall
    intro b s hb
    exact hb
  have hgp := hup g hg
  simp only [Prod.mk.injEq] at hgf
  rw [← hgf.1, ← hgf.2]
  exact hgp

/-- The member `prepare` leaves a chain of four filters prepared. -/
theorem prepare_PreparedAt (M : CMath α) (c : SchroederAllpassChain α)
    (h4 : c.allpassFilters.length = 4) (sampleRate initialDelayMs initialCharacter : α) :
    PreparedAt sampleRate (c.prepare M sampleRate initialDelayMs initialCharacter) := by
  obtain ⟨a, b, d, e, hl⟩ := list_of_length_four _ h4
  have hf : (c.prepare M sampleRate initialDelayMs initialCharacter).allpassFilters
      = [((a.prepare sampleRate 100).setDelayTime (123 / 10)).setFeedback (7 / 10),
         ((b.prepare sampleRate 100).setDelayTime (197 / 10)).setFeedback (7 / 10),
         ((d.prepare sampleRate 100).setDelayTime (291 / 10)).setFeedback (7 / 10),
         ((e.prepare sampleRate 100).setDelayTime (374 / 10)).setFeedback (7 / 10)] := by
    unfold SchroederAllpassChain.prepare
    simp only []
    rw [hl]
    rfl
  have hp : ∀ f : AllpassFilter α,
      (((f.prepare sampleRate 100).setDelayTime (123 / 10)).setFeedback (7 / 10))._sampleRate
        = sampleRate
      ∧ ∀ ms fb : α, (((f.prepare sampleRate 100).setDelayTime ms).setFeedback fb).delayLine.length
        = Nat.floor (100 * (1 / 1000) * sampleRate) + 1 := by
    intro f
    refine ⟨rfl, fun ms fb => ?_⟩
    show (List.replicate (AllpassFilter.resize f.delayLine _).length (0 : α)).length = _
    rw [List.length_replicate, AllpassFilter.length_resize]
  refine ⟨by rw [hf]; rfl, ?_⟩
  intro f hfm
  rw [hf] at hfm
  simp only [List.mem_cons, List.mem_singleton, List.not_mem_nil, or_false] at hfm
  rcases hfm with h | h | h | h
  · rw [h]; exact ⟨rfl, (hp a).2 _ _⟩
  · rw [h]; exact ⟨rfl, (hp b).2 _ _⟩
  · rw [h]; exact ⟨rfl, (hp d).2 _ _⟩
  · rw [h]; exact ⟨rfl, (hp e).2 _ _⟩

end SchroederAllpassChain

/-- C22: over the reals with `std::log` the natural logarithm, after every `processSample` of
the chain all its filters hold the same feedback, `clamp (0.3 + 0.6 * log10 (c), 0.1, 0.9)`
for the character smoother's value `c` of that sample (a chain of four filters stays a chain
of four); this value lies in `[0.1, 0.9]`, is non-decreasing in `c > 0`, is 0.3 at `c = 1`
and 0.9 at `c = 10`. -/
theorem C22_chain_shared_feedback (M : CMath ℝ) (hlog : M.log = Real.log)
    (c : SchroederAllpassChain ℝ) (x : ℝ) :
    (∀ f ∈ (c.processSample M x).2.allpassFilters,
        f.feedback
          = jlimit (1 / 10) (9 / 10)
              (3 / 10 + 6 / 10 * Real.logb 10 (c.characterSmoother.getNextValue).1))
    ∧ (c.allpassFilters.length = 4 → (c.processSample M x).2.allpassFilters.length = 4)
    ∧ (∀ ch : ℝ,
        SchroederAllpassChain.feedbackOf M ch
            = jlimit (1 / 10) (9 / 10) (3 / 10 + 6 / 10 * Real.logb 10 ch)
        ∧ 1 / 10 ≤ SchroederAllpassChain.feedbackOf M ch
        ∧ SchroederAllpassChain.feedbackOf M ch ≤ 9 / 10)
    ∧ (∀ a b : ℝ, 0 < a → a ≤ b →
        SchroederAllpassChain.feedbackOf M a ≤ SchroederAllpassChain.feedbackOf M b)
    ∧ SchroederAllpassChain.feedbackOf M 1 = 3 / 10
    ∧ SchroederAllpassChain.feedbackOf M 10 = 9 / 10 := by
  have hfo : ∀ ch : ℝ, SchroederAllpassChain.feedbackOf M ch
      = jlimit (1 / 10) (9 / 10) (3 / 10 + 6 / 10 * Real.logb 10 ch) := by
    intro ch
    unfold SchroederAllpassChain.feedbackOf
    rw [hlog]
    rfl
  have hlog10 : 0 < Real.log 10 := Real.log_pos (by norm_num)
  refine ⟨?_, SchroederAllpassChain.processSample_length M c x, ?_, ?_, ?_, ?_⟩
  · intro f hf
    rw [SchroederAllpassChain.processSample_feedback M c x f hf, hfo]
  · intro ch
    have h := AllpassFilter.jlimit_mem (1 / 10 : ℝ) (9 / 10)
      (3 / 10 + 6 / 10 * Real.logb 10 ch) (by norm_num)
    rw [hfo]
    exact ⟨rfl, h⟩
  · intro a b ha hab
    rw [hfo, hfo]
    apply jlimit_mono _ _ _ _ (by norm_num)
    have h1 : Real.log a ≤ Real.log b := Real.log_le_log ha hab
    have h2 : Real.logb 10 a ≤ Real.logb 10 b := by
      unfold Real.logb
      exact div_le_div_of_nonneg_right h1 (le_of_lt hlog10)
    linarith
  · rw [hfo]
    have : Real.logb 10 1 = 0 := by simp [Real.logb]
    rw [this, show (3 / 10 + 6 / 10 * (0 : ℝ)) = 3 / 10 by norm_num]
    exact jlimit_of_mem (by norm_num) (by norm_num)
  · rw [hfo]
    have : Real.logb 10 10 = 1 := by
      unfold Real.logb
      exact div_self (ne_of_gt hlog10)
    rw [this, show (3 / 10 + 6 / 10 * (1 : ℝ)) = 9 / 10 by norm_num]
    exact jlimit_of_mem (by norm_num) (by norm_num)

/-- Witness of C22: with the real logarithm the feedback at character 1 is 0.3. -/
theorem C22_chain_shared_feedback_witness :
    SchroederAllpassChain.feedbackOf
      (⟨Real.exp, Real.log, Real.tanh, fun x y => x ^ y, fun _ => false, fun _ => false⟩ :
        CMath ℝ) 1 = 3 / 10 :=
  (C22_chain_shared_feedback
    ⟨Real.exp, Real.log, Real.tanh, fun x y => x ^ y, fun _ => false, fun _ => false⟩ rfl
    SchroederAllpassChain.default 0).2.2.2.2.1

/-- C23 (as amended): for a chain prepared at a sample rate of at least 8000 Hz (its four
delay lines of `floor (0.1 * sampleRate) + 1` cells fitting `size_t`) and a smoothed base
delay `b` in `[1, 100]` ms, after `processSample` the first three filters have the delay
`b * r * 0.001 * sampleRate` samples for `r = 0.41, 0.66, 0.97`, and the fourth has
`b * 1.25 * 0.001 * sampleRate` samples clamped to `[1, floor (0.1 * sampleRate)]`: the
unclamped value for `b <= 79.9`, and `floor (0.1 * sampleRate)` samples, the 100 ms the
filters were prepared for, for every `b > 80`.  The chain stays prepared. -/
theorem C23_chain_scaled_delays {α : Type} [LinearOrderedField α] [FloorRing α]
    (M : CMath α) (c : SchroederAllpassChain α) (sampleRate : α)
    (hc : SchroederAllpassChain.PreparedAt sampleRate c) (hsr : 8000 ≤ sampleRate)
    (hsize : Nat.floor (100 * (1 / 1000) * sampleRate) + 1 ≤ 2 ^ 64) (x : α)
    (hb1 : 1 ≤ (c.delayTimeSmoother.getNextValue).1)
    (hb2 : (c.delayTimeSmoother.getNextValue).1 ≤ 100) :
    (c.processSample M x).2.allpassFilters.map (fun f : AllpassFilter α => f.delaySamples)
      = [(c.delayTimeSmoother.getNextValue).1 * (41 / 100) * (1 / 1000) * sampleRate,
         (c.delayTimeSmoother.getNextValue).1 * (66 / 100) * (1 / 1000) * sampleRate,
         (c.delayTimeSmoother.getNextValue).1 * (97 / 100) * (1 / 1000) * sampleRate,
         jlimit 1 ((Nat.floor (100 * (1 / 1000) * sampleRate) : Nat) : α)
           ((c.delayTimeSmoother.getNextValue).1 * (125 / 100) * (1 / 1000) * sampleRate)]
    ∧ ((c.delayTimeSmoother.getNextValue).1 ≤ 799 / 10 →
        jlimit 1 ((Nat.floor (100 * (1 / 1000) * sampleRate) : Nat) : α)
            ((c.delayTimeSmoother.getNextValue).1 * (125 / 100) * (1 / 1000) * sampleRate)
          = (c.delayTimeSmoother.getNextValue).1 * (125 / 100) * (1 / 1000) * sampleRate)
    ∧ (80 < (c.delayTimeSmoother.getNextValue).1 →
        jlimit 1 ((Nat.floor (100 * (1 / 1000) * sampleRate) : Nat) : α)
            ((c.delayTimeSmoother.getNextValue).1 * (125 / 100) * (1 / 1000) * sampleRate)
          = ((Nat.floor (100 * (1 / 1000) * sampleRate) : Nat) : α))
    ∧ SchroederAllpassChain.PreparedAt sampleRate (c.processSample M x).2 := by
  have hsr0 : (0 : α) < sampleRate := by linarith
  have hfl1 : 100 * (1 / 1000) * sampleRate
      < ((Nat.floor (100 * (1 / 1000) * sampleRate) : Nat) : α) + 1 := Nat.lt_floor_add_one _
  have hfl2 : ((Nat.floor (100 * (1 / 1000) * sampleRate) : Nat) : α)
      ≤ 100 * (1 / 1000) * sampleRate := Nat.floor_le (by linarith)
  have hlow : 8000 ≤ (c.delayTimeSmoother.getNextValue).1 * sampleRate := by
    have h := mul_le_mul hb1 hsr (by norm_num : (0 : α) ≤ 8000) (by linarith)
    linarith
  have hup : (c.delayTimeSmoother.getNextValue).1 * sampleRate ≤ 100 * sampleRate :=
    mul_le_mul_of_nonneg_right hb2 (le_of_lt hsr0)
  have e4 : (c.delayTimeSmoother.getNextValue).1 * (125 / 100) * (1 / 1000) * sampleRate
      = ((c.delayTimeSmoother.getNextValue).1 * sampleRate) * (125 / 100000) := by ring
  have hd := SchroederAllpassChain.processSample_delays M c sampleRate hc hsize x
  have hin : ∀ r : α, 41 / 100 ≤ r → r ≤ 97 / 100 →
      jlimit 1 ((Nat.floor (100 * (1 / 1000) * sampleRate) : Nat) : α)
          ((c.delayTimeSmoother.getNextValue).1 * r * (1 / 1000) * sampleRate)
        = (c.delayTimeSmoother.getNextValue).1 * r * (1 / 1000) * sampleRate := by
    intro r hr1 hr2
    have e : (c.delayTimeSmoother.getNextValue).1 * r * (1 / 1000) * sampleRate
        = ((c.delayTimeSmoother.getNextValue).1 * sampleRate) * r * (1 / 1000) := by ring
    have hr0 : (0 : α) ≤ r := by linarith
    have hP0 : (0 : α) ≤ (c.delayTimeSmoother.getNextValue).1 * sampleRate := by linarith
    have g1 : 8000 * (41 / 100) ≤ (c.delayTimeSmoother.getNextValue).1 * sampleRate * r :=
      mul_le_mul hlow hr1 (by norm_num) hP0
    have g2 : (c.delayTimeSmoother.getNextValue).1 * sampleRate * r
        ≤ 100 * sampleRate * (97 / 100) :=
      mul_le_mul hup hr2 hr0 (by linarith)
    apply jlimit_of_mem
    · rw [e]; linarith
    · rw [e]; linarith
  refine ⟨?_, ?_, ?_, SchroederAllpassChain.processSample_PreparedAt M c sampleRate hc x⟩
  · rw [hd]
    simp only [SchroederAllpassChain.delayScales, List.map_cons, List.map_nil]
    rw [hin (41 / 100) (by norm_num) (by norm_num), hin (66 / 100) (by norm_num) (by norm_num),
      hin (97 / 100) (by norm_num) (by norm_num)]
  · intro hb
    have hP : (c.delayTimeSmoother.getNextValue).1 * sampleRate ≤ 799 / 10 * sampleRate :=
      mul_le_mul_of_nonneg_right hb (le_of_lt hsr0)
    apply jlimit_of_mem
    · rw [e4]; linarith
    · rw [e4]; linarith
  · intro hb
    have hP : 80 * sampleRate < (c.delayTimeSmoother.getNextValue).1 * sampleRate :=
      mul_lt_mul_of_pos_right hb hsr0
    unfold jlimit
    have h1 : ¬ (c.delayTimeSmoother.getNextValue).1 * (125 / 100) * (1 / 1000) * sampleRate
        < 1 := by
      rw [not_lt, e4]
      linarith
    have h2 : ((Nat.floor (100 * (1 / 1000) * sampleRate) : Nat) : α)
        < (c.delayTimeSmoother.getNextValue).1 * (125 / 100) * (1 / 1000) * sampleRate := by
      rw [e4]
      linarith
    rw [if_neg h1, if_pos h2]

/-- The chain `preparedAtMaxDelay` is prepared at 8000 Hz and its base-delay smoother rests
at 100 ms. -/
theorem SchroederAllpassChain.preparedAtMaxDelay_state :
    SchroederAllpassChain.PreparedAt 8000 SchroederAllpassChain.preparedAtMaxDelay
    ∧ (SchroederAllpassChain.preparedAtMaxDelay.delayTimeSmoother.getNextValue).1 = 100
    ∧ Nat.floor (100 * (1 / 1000) * 8000 : ℚ) = 800 := by
  refine ⟨SchroederAllpassChain.prepare_PreparedAt CMath.rational
      (SchroederAllpassChain.default : SchroederAllpassChain ℚ) rfl 8000 100 1,
    ChasmDSPProcessor.getNextValue_of_rest _ _ rfl rfl, ?_⟩
  norm_num

/-- Witness of C23: the default chain prepared at 8000 Hz with a base delay of 100 ms; its
first filter has a delay of 328 samples (41 ms). -/
theorem C23_chain_scaled_delays_witness :
    (SchroederAllpassChain.preparedAtMaxDelay.delayTimeSmoother.getNextValue).1 ≤ 100
    ∧ ((SchroederAllpassChain.preparedAtMaxDelay.processSample CMath.rational 0).2.allpassFilters.map
        (fun f : AllpassFilter ℚ => f.delaySamples)).head? = some 328 := by
  obtain ⟨h1, h2, h3⟩ := SchroederAllpassChain.preparedAtMaxDelay_state
  have h := (C23_chain_scaled_delays CMath.rational SchroederAllpassChain.preparedAtMaxDelay
    8000 h1 (by norm_num) (by rw [h3]; norm_num) 0 (by rw [h2]; norm_num)
    (by rw [h2])).1
  refine ⟨by rw [h2], ?_⟩
  rw [h, h2]
  norm_num

/-- C23 (counterexample to the claim as worded): on the default chain prepared at 8000 Hz
with a smoothed base delay of 100 ms, the delays after `processSample` are 328, 528, 776 and
800 samples; the fourth is 100 ms, not `100 * 1.25 = 125` ms (1000 samples). -/
theorem C23_fourth_delay_clamped_counterexample :
    (SchroederAllpassChain.preparedAtMaxDelay.delayTimeSmoother.getNextValue).1 = 100
    ∧ (SchroederAllpassChain.preparedAtMaxDelay.processSample CMath.rational 0).2.allpassFilters.map
        (fun f : AllpassFilter ℚ => f.delaySamples) = [328, 528, 776, 800]
    ∧ (100 : ℚ) * (125 / 100) * (1 / 1000) * 8000 = 1000
    ∧ (800 : ℚ) ≠ 100 * (125 / 100) * (1 / 1000) * 8000 := by
  obtain ⟨h1, h2, h3⟩ := SchroederAllpassChain.preparedAtMaxDelay_state
  have hd := SchroederAllpassChain.processSample_delays CMath.rational
    SchroederAllpassChain.preparedAtMaxDelay 8000 h1 (by rw [h3]; norm_num) 0
  refine ⟨h2, ?_, by norm_num, by norm_num⟩
  rw [hd, h2, h3]
  norm_num [SchroederAllpassChain.delayScales, jlimit]

/-! ## Stereo enhancer: the width gain stays in `[0, 2]` -/

namespace StereoEnhancer

/-- The per-sample update keeps the invariant of the width smoother. -/
theorem updateParameters_WidthInv {α : Type} [LinearOrderedField α] (e : StereoEnhancer α)
    (h : WidthInv e) : WidthInv (updateParameters e) := by
  obtain ⟨⟨c0, c1⟩, ⟨v0, v1⟩, ⟨t0, t1⟩, _⟩ := h
  have hv : (e.widthSmoother.getNextValue).1
      = (1 - e.widthSmoother.smoothingCoeff) * e.widthSmoother.currentValue
        + e.widthSmoother.smoothingCoeff * e.widthSmoother.targetValue := by
    show e.widthSmoother.currentValue
        + e.widthSmoother.smoothingCoeff
          * (e.widthSmoother.targetValue - e.widthSmoother.currentValue) = _
    ring
  have hc : (0 : α) ≤ 1 - e.widthSmoother.smoothingCoeff := by linarith
  have hlo : 0 ≤ (e.widthSmoother.getNextValue).1 := by
    rw [hv]
    exact add_nonneg (mul_nonneg hc v0) (mul_nonneg (le_of_lt c0) t0)
  have hhi : (e.widthSmoother.getNextValue).1 ≤ 200 := by
    rw [hv]
    have a1 := mul_le_mul_of_nonneg_left v1 hc
    have a2 := mul_le_mul_of_nonneg_left t1 (le_of_lt c0)
    linarith
  refine ⟨⟨c0, c1⟩, ⟨hlo, hhi⟩, ⟨t0, t1⟩, ?_, ?_⟩
  · show 0 ≤ (e.widthSmoother.getNextValue).1 / 100
    exact div_nonneg hlo (by norm_num)
  · show (e.widthSmoother.getNextValue).1 / 100 ≤ 2
    rw [div_le_iff₀ (by norm_num : (0 : α) < 100)]
    linarith

/-- The sample loop keeps the invariant of the width smoother. -/
theorem processLoop_WidthInv {α : Type} [LinearOrderedField α] (e : StereoEnhancer α)
    (buffer : AudioBuffer α) (k : Nat) (h : WidthInv e) :
    WidthInv (forLoop k processIndex (buffer, e)).2 :=
  forLoop_invariant (fun st : AudioBuffer α × StereoEnhancer α => WidthInv st.2) processIndex
    (fun _ st hst => updateParameters_WidthInv st.2 hst) k (buffer, e) h

/-- Over the reals, every enhancer a client can build satisfies the invariant of the width
smoother. -/
theorem Reachable.widthInv (M : CMath ℝ) (hexp : M.exp = Real.exp) {e : StereoEnhancer ℝ}
    (h : Reachable M e) : WidthInv e := by
  induction h with
  | default =>
    refine ⟨⟨?_, ?_⟩, ⟨?_, ?_⟩, ⟨?_, ?_⟩, ?_, ?_⟩ <;>
      norm_num [StereoEnhancer.default, ParameterSmoother.default]
  | prepare e sampleRate _ hsr _ =>
    have hval : (e.prepare M sampleRate).widthSmoother.smoothingCoeff
        = 1 - Real.exp (-1 / (20 * (1 / 1000) * sampleRate)) := by
      show (ParameterSmoother.prepare M e.widthSmoother sampleRate 20).smoothingCoeff = _
      simp only [ParameterSmoother.prepare, gt_iff_lt, if_pos (by norm_num : (0 : ℝ) < 20),
        hexp]
    have hx : 0 < 20 * (1 / 1000) * sampleRate := by positivity
    have hneg : -1 / (20 * (1 / 1000) * sampleRate) < 0 :=
      div_neg_of_neg_of_pos (by norm_num) hx
    have h1 : Real.exp (-1 / (20 * (1 / 1000) * sampleRate)) < 1 :=
      Real.exp_lt_one_iff.mpr hneg
    have h0 : 0 < Real.exp (-1 / (20 * (1 / 1000) * sampleRate)) := Real.exp_pos _
    refine ⟨⟨by rw [hval]; linarith, by rw [hval]; linarith⟩, ⟨?_, ?_⟩, ⟨?_, ?_⟩, ?_, ?_⟩
    · show (0 : ℝ) ≤ 100
      norm_num
    · show (100 : ℝ) ≤ 200
      norm_num
    · show (0 : ℝ) ≤ 100
      norm_num
    · show (100 : ℝ) ≤ 200
      norm_num
    · show (0 : ℝ) ≤ 1
      norm_num
    · show (1 : ℝ) ≤ 2
      norm_num
  | reset e _ ih =>
    refine ⟨ih.1, ⟨?_, ?_⟩, ⟨?_, ?_⟩, ?_, ?_⟩
    · show (0 : ℝ) ≤ 100
      norm_num
    · show (100 : ℝ) ≤ 200
      norm_num
    · show (0 : ℝ) ≤ 100
      norm_num
    · show (100 : ℝ) ≤ 200
      norm_num
    · show (0 : ℝ) ≤ 1
      norm_num
    · show (1 : ℝ) ≤ 2
      norm_num
  | setWidth e w _ ih =>
    exact ⟨ih.1, ih.2.1, AllpassFilter.jlimit_mem _ _ _ (by norm_num), ih.2.2.2⟩
  | processBlock e buffer _ ih =>
    exact processLoop_WidthInv e buffer buffer.numSamples ih

end StereoEnhancer

/-- C26: `setWidth (w)` stores `clamp (w, 0, 200)` as the width target for every real `w` and
leaves the current width alone; over the reals with `std::exp` the exponential, in every
state an enhancer can reach from construction through `prepare`, `reset`, `setWidth` and
`processBlock`, current and target width lie in `[0, 200]` and the width gain applied to the
side signal at every sample `i` of a following `processBlock`, the smoother's `i`-th value
divided by 100, lies in `[0, 2]`; `reset` puts width at 100 and gain at 1. -/
theorem C26_width_gain_range (M : CMath ℝ) (hexp : M.exp = Real.exp) (e : StereoEnhancer ℝ)
    (he : StereoEnhancer.Reachable M e) :
    (∀ w : ℝ, (e.setWidth w).widthSmoother.targetValue = jlimit 0 200 w
        ∧ 0 ≤ (e.setWidth w).widthSmoother.targetValue
        ∧ (e.setWidth w).widthSmoother.targetValue ≤ 200
        ∧ (e.setWidth w).widthSmoother.currentValue = e.widthSmoother.currentValue)
    ∧ (0 ≤ e.widthSmoother.currentValue ∧ e.widthSmoother.currentValue ≤ 200)
    ∧ (0 ≤ e.widthSmoother.targetValue ∧ e.widthSmoother.targetValue ≤ 200)
    ∧ (∀ (buffer : AudioBuffer ℝ) (i : Nat),
        (StereoEnhancer.updateParameters
            (forLoop i StereoEnhancer.processIndex (buffer, e)).2).currentWidthGain
          = (ParameterSmoother.advance^[i + 1] e.widthSmoother).currentValue / 100
        ∧ 0 ≤ (StereoEnhancer.updateParameters
            (forLoop i StereoEnhancer.processIndex (buffer, e)).2).currentWidthGain
        ∧ (StereoEnhancer.updateParameters
            (forLoop i StereoEnhancer.processIndex (buffer, e)).2).currentWidthGain ≤ 2)
    ∧ (e.reset.widthSmoother.currentValue = 100 ∧ e.reset.widthSmoother.targetValue = 100
        ∧ e.reset.currentWidthGain = 1) := by
  have hinv := StereoEnhancer.Reachable.widthInv M hexp he
  refine ⟨fun w => ?_, hinv.2.1, hinv.2.2.1, fun buffer i => ?_, ⟨rfl, rfl, rfl⟩⟩
  · have h := AllpassFilter.jlimit_mem (0 : ℝ) 200 w (by norm_num)
    exact ⟨rfl, h.1, h.2, rfl⟩
  · have hl := StereoEnhancer.processLoop_WidthInv e buffer i hinv
    have hu := StereoEnhancer.updateParameters_WidthInv _ hl
    refine ⟨?_, hu.2.2.2.1, hu.2.2.2.2⟩
    show ((forLoop i StereoEnhancer.processIndex (buffer, e)).2.widthSmoother.getNextValue).1
      / 100 = _
    rw [(StereoEnhancer.processLoop_spec e buffer i).1, ParameterSmoother.getNextValue_fst,
      Function.iterate_succ_apply']

/-- Witness of C26: the default enhancer after `reset`; `setWidth (300)` stores 200. -/
theorem C26_width_gain_range_witness :
    ((StereoEnhancer.default : StereoEnhancer ℝ).reset.setWidth 300).widthSmoother.targetValue
      = jlimit 0 200 300 :=
  ((C26_width_gain_range
    ⟨Real.exp, Real.log, Real.tanh, fun x y => x ^ y, fun _ => false, fun _ => false⟩ rfl
    (StereoEnhancer.default : StereoEnhancer ℝ).reset
    (StereoEnhancer.Reachable.reset _ StereoEnhancer.Reachable.default)).1 300).1

/-! ## Processor: the dimensions of the scratch buffers -/

/-- The loudness stage keeps the dimensions of the block when the JUCE processors do. -/
theorem MakeItLoud.loudness_processBlock_dims {α : Type} [LinearOrderedField α] {J : Juce α}
    (hJ : J.KeepsDimensions) (M : CMath α) (m : MakeItLoud α J) (buffer : AudioBuffer α) :
    (m.processBlock M buffer).1.numChannels = buffer.numChannels
    ∧ (m.processBlock M buffer).1.numSamples = buffer.numSamples := by
  by_cases hen : m._enabled = true
  · by_cases hc : buffer.numChannels = 0 ∨ buffer.numSamples = 0
    · have h1 : ¬ ((!m._enabled) = true) := by simp [hen]
      unfold MakeItLoud.processBlock
      rw [if_neg h1, if_pos hc]
      exact ⟨rfl, rfl⟩
    · have hc1 : buffer.numChannels ≠ 0 := fun h => hc (Or.inl h)
      have hc2 : buffer.numSamples ≠ 0 := fun h => hc (Or.inr h)
      rw [MakeItLoud.processBlock_of_enabled M m buffer hen hc1 hc2]
      obtain ⟨a2, a3⟩ := hJ.compressorProcess_dims m._preCompressor.thresholddB
        m._preCompressor.ratio m._preCompressor.attackTime m._preCompressor.releaseTime
        m._preCompressor.envelope buffer
      obtain ⟨b2, b3⟩ := hJ.gainProcess_dims
        (J.gainSetGainLinear m._inputGain m._inputGainValue)
        (J.compressorProcess m._preCompressor.thresholddB m._preCompressor.ratio
          m._preCompressor.attackTime m._preCompressor.releaseTime
          m._preCompressor.envelope buffer).1
      obtain ⟨c2, c3⟩ := hJ.gainProcess_dims
        (J.gainSetGainLinear m._boostGain m._boostValue)
        (J.gainProcess (J.gainSetGainLinear m._inputGain m._inputGainValue)
          (J.compressorProcess m._preCompressor.thresholddB m._preCompressor.ratio
            m._preCompressor.attackTime m._preCompressor.releaseTime
            m._preCompressor.envelope buffer).1).1
      obtain ⟨d1, d2, _⟩ := forLoop_mapBlock
        (MakeItLoud.waveshape M (MakeItLoud.beforePostCompressor M m buffer).2)
        (J.gainProcess (J.gainSetGainLinear m._boostGain m._boostValue)
          (J.gainProcess (J.gainSetGainLinear m._inputGain m._inputGainValue)
            (J.compressorProcess m._preCompressor.thresholddB m._preCompressor.ratio
              m._preCompressor.attackTime m._preCompressor.releaseTime
              m._preCompressor.envelope buffer).1).1).1.numChannels
        (J.gainProcess (J.gainSetGainLinear m._boostGain m._boostValue)
          (J.gainProcess (J.gainSetGainLinear m._inputGain m._inputGainValue)
            (J.compressorProcess m._preCompressor.thresholddB m._preCompressor.ratio
              m._preCompressor.attackTime m._preCompressor.releaseTime
              m._preCompressor.envelope buffer).1).1).1
      have hshape : (MakeItLoud.beforePostCompressor M m buffer).1.numChannels
            = buffer.numChannels
          ∧ (MakeItLoud.beforePostCompressor M m buffer).1.numSamples = buffer.numSamples :=
        ⟨(show _ = _ from d1).trans (c2.trans (b2.trans a2)),
          (show _ = _ from d2).trans (c3.trans (b3.trans a3))⟩
      obtain ⟨e2, e3⟩ := hJ.compressorProcess_dims m._postCompressor.thresholddB
        m._postCompressor.ratio m._postCompressor.attackTime m._postCompressor.releaseTime
        m._postCompressor.envelope (MakeItLoud.beforePostCompressor M m buffer).1
      exact ⟨(show _ = _ from e2).trans hshape.1, (show _ = _ from e3).trans hshape.2⟩
  · have h1 : (!m._enabled) = true := by simpa using hen
    unfold MakeItLoud.processBlock
    rw [if_pos h1]
    exact ⟨rfl, rfl⟩

namespace ChasmDSPProcessor

variable {α : Type} [LinearOrderedField α] [FloorRing α] {J : Juce α}

theorem cutUpdate_wetBuffer (p : ChasmDSPProcessor α J) :
    (updateLowCut p).wetBuffer = p.wetBuffer ∧ (updateHighCut p).wetBuffer = p.wetBuffer := by
  constructor
  · unfold updateLowCut; simp only []; split <;> rfl
  · unfold updateHighCut; simp only []; split <;> rfl

theorem cutMono_wetBuffer (p : ChasmDSPProcessor α J) (x : α) :
    (lowCutMono p x).2.wetBuffer = p.wetBuffer ∧ (highCutMono p x).2.wetBuffer = p.wetBuffer := by
  constructor
  · unfold lowCutMono; split <;> rfl
  · unfold highCutMono; split <;> rfl

/-- The processor with which a sample is processed has the wet buffer of the start of the
iteration. -/
theorem atSample_wetBuffer (i : Nat) (p : ChasmDSPProcessor α J) :
    (atSample i p).2.wetBuffer = p.wetBuffer := by
  have h : (updateHighCut (updateLowCut (advanceControls p).2)).wetBuffer = p.wetBuffer :=
    ((cutUpdate_wetBuffer _).2.trans (cutUpdate_wetBuffer _).1)
  unfold atSample
  simp only []
  split
  · exact h
  · exact h

/-- The two sample stages keep the dimensions of the wet buffer. -/
theorem sampleStage_wetDims (M : CMath α) (q : ChasmDSPProcessor α J) (b : AudioBuffer α)
    (i : Nat) (g : α) :
    ((processSingleSample M q b i g).1.wetBuffer.numChannels = q.wetBuffer.numChannels
      ∧ (processSingleSample M q b i g).1.wetBuffer.numSamples = q.wetBuffer.numSamples)
    ∧ ((processSingleSampleMono M q b i g).1.wetBuffer.numChannels = q.wetBuffer.numChannels
      ∧ (processSingleSampleMono M q b i g).1.wetBuffer.numSamples
          = q.wetBuffer.numSamples) := by
  obtain ⟨w1, w2, _⟩ := forLoop_setSample
    (min q.wetBuffer.numChannels (applyInputGain b i g).numChannels) i
    (fun channel => (applyInputGain b i g).getSample channel i) q.wetBuffer
  refine ⟨⟨?_, ?_⟩, ⟨?_, ?_⟩⟩
  · show (highCutStereo _ _ _).2.2.wetBuffer.numChannels = _
    rw [quietState_wetBuffer _ _ ((cutStereo_quietState _ _ _).2),
      quietState_wetBuffer _ _ ((cutStereo_quietState _ _ _).1)]
    exact w1
  · show (highCutStereo _ _ _).2.2.wetBuffer.numSamples = _
    rw [quietState_wetBuffer _ _ ((cutStereo_quietState _ _ _).2),
      quietState_wetBuffer _ _ ((cutStereo_quietState _ _ _).1)]
    exact w2
  · show (highCutMono _ _).2.wetBuffer.numChannels = _
    rw [(cutMono_wetBuffer _ _).2, (cutMono_wetBuffer _ _).1]
    rfl
  · show (highCutMono _ _).2.wetBuffer.numSamples = _
    rw [(cutMono_wetBuffer _ _).2, (cutMono_wetBuffer _ _).1]
    rfl

/-- The first sample loop keeps the dimensions of the wet buffer. -/
theorem beforeIndex_wetDims (M : CMath α) (p : ChasmDSPProcessor α J) (buffer : AudioBuffer α)
    (k : Nat) :
    (beforeIndex M p buffer k).1.wetBuffer.numChannels
        = (resizeScratch p buffer.numSamples).wetBuffer.numChannels
    ∧ (beforeIndex M p buffer k).1.wetBuffer.numSamples
        = (resizeScratch p buffer.numSamples).wetBuffer.numSamples := by
  unfold beforeIndex
  apply forLoop_invariant
    (fun st : ChasmDSPProcessor α J × AudioBuffer α =>
      st.1.wetBuffer.numChannels = (resizeScratch p buffer.numSamples).wetBuffer.numChannels
      ∧ st.1.wetBuffer.numSamples = (resizeScratch p buffer.numSamples).wetBuffer.numSamples)
  · intro i st hst
    obtain ⟨⟨s1, s2⟩, ⟨m1, m2⟩⟩ := sampleStage_wetDims M (atSample i st.1).2 st.2 i
      (atSample i st.1).1.inputGain
    rw [atSample_wetBuffer] at s1 s2 m1 m2
    rw [processIndex_eq_atSample]
    split
    · exact ⟨m1.trans hst.1, m2.trans hst.2⟩
    · exact ⟨s1.trans hst.1, s2.trans hst.2⟩
  · exact ⟨rfl, rfl⟩

/-- The whole-block stages keep the dimensions of the wet buffer when the JUCE processors
do. -/
theorem postStages_wetDims (hJ : J.KeepsDimensions) (M : CMath α) (p : ChasmDSPProcessor α J) :
    (postStages M p).wetBuffer.numChannels = p.wetBuffer.numChannels
    ∧ (postStages M p).wetBuffer.numSamples = p.wetBuffer.numSamples := by
  obtain ⟨b2, b3⟩ := hJ.iirProcess_dims p.brightnessEQ.highShelfFilterDuplicator p.wetBuffer
  obtain ⟨c2, c3, _⟩ := HaasEffect.haasLoop_frame p.haasEffect
    (J.iirProcess p.brightnessEQ.highShelfFilterDuplicator p.wetBuffer).1
    (J.iirProcess p.brightnessEQ.highShelfFilterDuplicator p.wetBuffer).1.numSamples
  obtain ⟨_, d2, d3, _⟩ := StereoEnhancer.processLoop_spec p.stereoEnhancer
    (p.haasEffect.processBlock
      (J.iirProcess p.brightnessEQ.highShelfFilterDuplicator p.wetBuffer).1).1
    (p.haasEffect.processBlock
      (J.iirProcess p.brightnessEQ.highShelfFilterDuplicator p.wetBuffer).1).1.numSamples
  obtain ⟨e2, e3⟩ := MakeItLoud.loudness_processBlock_dims hJ M
    ((p.makeItLoud.setInputGain (p.mil_InputGainSmoother.getNextValue).1).setBoost
      (p.mil_BoostSmoother.getNextValue).1)
    (p.stereoEnhancer.processBlock
      (p.haasEffect.processBlock
        (J.iirProcess p.brightnessEQ.highShelfFilterDuplicator p.wetBuffer).1).1).1
  have c2' : (p.haasEffect.processBlock
      (J.iirProcess p.brightnessEQ.highShelfFilterDuplicator p.wetBuffer).1).1.numChannels
      = _ := c2
  have c3' : (p.haasEffect.processBlock
      (J.iirProcess p.brightnessEQ.highShelfFilterDuplicator p.wetBuffer).1).1.numSamples
      = _ := c3
  have d2' : (p.stereoEnhancer.processBlock
      (p.haasEffect.processBlock
        (J.iirProcess p.brightnessEQ.highShelfFilterDuplicator p.wetBuffer).1).1).1.numChannels
      = _ := d2
  have d3' : (p.stereoEnhancer.processBlock
      (p.haasEffect.processBlock
        (J.iirProcess p.brightnessEQ.highShelfFilterDuplicator p.wetBuffer).1).1).1.numSamples
      = _ := d3
  exact ⟨(show _ = _ from e2).trans (d2'.trans (c2'.trans b2)),
    (show _ = _ from e3).trans (d3'.trans (c3'.trans b3))⟩

/-- The scratch buffers after `processBlock`: the dry buffer is the input block; the wet
buffer has the length of the block, and the channel count `numChannels` of `prepare` if it
was re-dimensioned, its own otherwise. -/
theorem processBlock_scratch (hJ : J.KeepsDimensions) (M : CMath α) (p : ChasmDSPProcessor α J)
    (buffer : AudioBuffer α) :
    (p.processBlock M buffer).1.dryBuffer = buffer
    ∧ (p.processBlock M buffer).1.wetBuffer.numSamples = buffer.numSamples
    ∧ (p.processBlock M buffer).1.wetBuffer.numChannels
        = if p.wetBuffer.numSamples ≠ buffer.numSamples then p.numChannels
          else p.wetBuffer.numChannels := by
  obtain ⟨hdry, _⟩ := wetPath_frame M p buffer
  obtain ⟨hd, hwet, _⟩ := mixLoop_spec (wetPath M p buffer).1 (wetPath M p buffer).2
    buffer.numSamples
  obtain ⟨g1, g2⟩ := postStages_wetDims hJ M (beforeIndex M p buffer buffer.numSamples).1
  obtain ⟨f1, f2⟩ := beforeIndex_wetDims M p buffer buffer.numSamples
  have hw : (p.processBlock M buffer).1.wetBuffer
      = (postStages M (beforeIndex M p buffer buffer.numSamples).1).wetBuffer := hwet
  have hr : (resizeScratch p buffer.numSamples).wetBuffer.numSamples = buffer.numSamples
      ∧ (resizeScratch p buffer.numSamples).wetBuffer.numChannels
        = if p.wetBuffer.numSamples ≠ buffer.numSamples then p.numChannels
          else p.wetBuffer.numChannels := by
    unfold resizeScratch
    split
    · exact ⟨rfl, rfl⟩
    · rename_i h
      exact ⟨not_not.mp h, rfl⟩
  refine ⟨(show (p.processBlock M buffer).1.dryBuffer = _ from hd).trans hdry, ?_, ?_⟩
  · rw [hw, g2, f2]
    exact hr.1
  · rw [hw, g1, f1]
    exact hr.2

end ChasmDSPProcessor

namespace ChasmDSPProcessor

variable {α : Type} [LinearOrderedField α] [FloorRing α] {J : Juce α}

/-- The scratch buffers as `prepare` sizes them: `numChannels` channels of `maximumBlockSize`
samples. -/
theorem prepare_scratch (M : CMath α) (p : ChasmDSPProcessor α J) (spec : ProcessSpec α)
    (a1 a2 a3 a4 a5 a6 a7 a8 a9 a10 a11 : α) (mode : Int) (a13 : α) :
    (p.prepare M spec a1 a2 a3 a4 a5 a6 a7 a8 a9 a10 a11 mode a13).wetBuffer.numChannels
        = spec.numChannels
    ∧ (p.prepare M spec a1 a2 a3 a4 a5 a6 a7 a8 a9 a10 a11 mode a13).wetBuffer.numSamples
        = spec.maximumBlockSize
    ∧ (p.prepare M spec a1 a2 a3 a4 a5 a6 a7 a8 a9 a10 a11 mode a13).dryBuffer.numChannels
        = spec.numChannels
    ∧ (p.prepare M spec a1 a2 a3 a4 a5 a6 a7 a8 a9 a10 a11 mode a13).dryBuffer.numSamples
        = spec.maximumBlockSize
    ∧ (p.prepare M spec a1 a2 a3 a4 a5 a6 a7 a8 a9 a10 a11 mode a13).numChannels
        = spec.numChannels :=
  ⟨rfl, rfl, rfl, rfl, rfl⟩

end ChasmDSPProcessor

/-- C28 (as amended): `prepare` sizes the wet and dry scratch buffers to `numChannels`
channels of `maximumBlockSize` samples.  After `processBlock` (the JUCE processors keeping
the dimensions of the blocks they are given) the dry buffer is a copy of the input block, with
the block's dimensions, and the wet buffer has `numChannels` channels and the block's number
of samples; so the dimensions are those of `prepare` exactly when the block has
`maximumBlockSize` samples (and, for the dry buffer, `numChannels` channels), and a shorter
block re-dimensions both buffers inside `processBlock`. -/
theorem C28_scratch_buffers_follow_block {α : Type} [LinearOrderedField α] [FloorRing α]
    {J : Juce α} (hJ : J.KeepsDimensions) (M : CMath α) (p : ChasmDSPProcessor α J)
    (spec : ProcessSpec α)
    (inputGain outputGain mix delayMs brightness character lowCut highCut width mil_InputGain
      mil_BoostValue : α) (mil_Mode : Int) (haasAmount : α) (buffer : AudioBuffer α) :
    (∀ q : ChasmDSPProcessor α J,
      q = p.prepare M spec inputGain outputGain mix delayMs brightness character lowCut highCut
            width mil_InputGain mil_BoostValue mil_Mode haasAmount →
      (q.wetBuffer.numChannels = spec.numChannels
        ∧ q.wetBuffer.numSamples = spec.maximumBlockSize
        ∧ q.dryBuffer.numChannels = spec.numChannels
        ∧ q.dryBuffer.numSamples = spec.maximumBlockSize)
      ∧ (q.processBlock M buffer).1.dryBuffer = buffer
      ∧ (q.processBlock M buffer).1.wetBuffer.numChannels = spec.numChannels
      ∧ (q.processBlock M buffer).1.wetBuffer.numSamples = buffer.numSamples
      ∧ (buffer.numSamples = spec.maximumBlockSize →
          (q.processBlock M buffer).1.wetBuffer.numChannels = q.wetBuffer.numChannels
          ∧ (q.processBlock M buffer).1.wetBuffer.numSamples = q.wetBuffer.numSamples)
      ∧ (buffer.numSamples = spec.maximumBlockSize → buffer.numChannels = spec.numChannels →
          (q.processBlock M buffer).1.dryBuffer.numChannels = q.dryBuffer.numChannels
          ∧ (q.processBlock M buffer).1.dryBuffer.numSamples = q.dryBuffer.numSamples)
      ∧ (buffer.numSamples ≠ spec.maximumBlockSize →
          (q.processBlock M buffer).1.wetBuffer.numSamples ≠ q.wetBuffer.numSamples
          ∧ (q.processBlock M buffer).1.dryBuffer.numSamples ≠ q.dryBuffer.numSamples)) := by
  intro q hq
  obtain ⟨w1, w2, d1, d2, n1⟩ := ChasmDSPProcessor.prepare_scratch M p spec inputGain outputGain
    mix delayMs brightness character lowCut highCut width mil_InputGain mil_BoostValue mil_Mode
    haasAmount
  rw [← hq] at w1 w2 d1 d2 n1
  obtain ⟨s1, s2, s3⟩ := ChasmDSPProcessor.processBlock_scratch hJ M q buffer
  have hch : (q.processBlock M buffer).1.wetBuffer.numChannels = spec.numChannels := by
    rw [s3]
    split
    · exact n1
    · exact w1
  refine ⟨⟨w1, w2, d1, d2⟩, s1, hch, s2, ?_, ?_, ?_⟩
  · intro hn
    exact ⟨hch.trans w1.symm, s2.trans (hn.trans w2.symm)⟩
  · intro hn hc
    rw [s1]
    exact ⟨hc.trans d1.symm, hn.trans d2.symm⟩
  · intro hn
    rw [s1, s2, w2, d2]
    exact ⟨hn, hn⟩

/-- Witness of C28: the default processor with pass-through JUCE classes, prepared for stereo
blocks of 512 samples, on the stereo test block of 2 samples. -/
theorem C28_scratch_buffers_follow_block_witness :
    (ChasmDSPProcessor.preparedStereo.processBlock CMath.rational
        AudioBuffer.stereoRamp).1.wetBuffer.numSamples = AudioBuffer.stereoRamp.numSamples :=
  ((C28_scratch_buffers_follow_block
    (⟨fun _ _ => ⟨rfl, rfl⟩, fun _ _ => ⟨rfl, rfl⟩, fun _ _ _ _ _ _ => ⟨rfl, rfl⟩⟩ :
      Juce.passThrough.KeepsDimensions)
    CMath.rational (ChasmDSPProcessor.default : ChasmDSPProcessor ℚ Juce.passThrough)
    ⟨44100, 512, 2⟩ 1 1 (1 / 2) 30 0 1 0 0 100 1 0 0 0 AudioBuffer.stereoRamp)
    ChasmDSPProcessor.preparedStereo rfl).2.2.2.1

/-- C28 (counterexample to the claim as worded): the processor prepared for stereo blocks of
up to 512 samples has scratch buffers of 512 samples; after `processBlock` on a stereo block
of 2 samples, at most the prepared size, both have 2 samples. -/
theorem C28_short_block_resizes_scratch_counterexample :
    AudioBuffer.stereoRamp.numSamples ≤ 512
    ∧ ChasmDSPProcessor.preparedStereo.wetBuffer.numSamples = 512
    ∧ ChasmDSPProcessor.preparedStereo.dryBuffer.numSamples = 512
    ∧ (ChasmDSPProcessor.preparedStereo.processBlock CMath.rational
        AudioBuffer.stereoRamp).1.wetBuffer.numSamples = 2
    ∧ (ChasmDSPProcessor.preparedStereo.processBlock CMath.rational
        AudioBuffer.stereoRamp).1.dryBuffer.numSamples = 2 := by
  obtain ⟨_, w2, _, d2, _⟩ := ChasmDSPProcessor.prepare_scratch CMath.rational
    (ChasmDSPProcessor.default : ChasmDSPProcessor ℚ Juce.passThrough)
    ⟨44100, 512, 2⟩ 1 1 (1 / 2) 30 0 1 0 0 100 1 0 0 0
  obtain ⟨s1, s2, _⟩ := ChasmDSPProcessor.processBlock_scratch
    (⟨fun _ _ => ⟨rfl, rfl⟩, fun _ _ => ⟨rfl, rfl⟩, fun _ _ _ _ _ _ => ⟨rfl, rfl⟩⟩ :
      Juce.passThrough.KeepsDimensions)
    CMath.rational ChasmDSPProcessor.preparedStereo AudioBuffer.stereoRamp
  refine ⟨by decide, w2, d2, s2, ?_⟩
  rw [s1]
  rfl

/-! ## Processor: the mono path -/

namespace HaasEffect

variable {α : Type} [LinearOrderedField α] [FloorRing α]

/-- Channel 1 after `k` iterations of the sample loop of the Haas effect: sample `j < k` is
the output of the delay line for the original sample `j` of channel 1. -/
theorem haasLoop_right (h : HaasEffect α) (buffer : AudioBuffer α) (k j : Nat) :
    (forLoop k HaasEffect.processIndex (buffer, h)).1.data 1 j
      = if j < k then
          ((HaasEffect.updateParameters
              (forLoop j HaasEffect.processIndex (buffer, h)).2).rightDelay.processSample
            (buffer.data 1 j)).1
        else buffer.data 1 j := by
  induction k with
  | zero => simp [forLoop]
  | succ k ih =>
    show (if 1 = 1 ∧ j = k then
        ((HaasEffect.updateParameters
            (forLoop k HaasEffect.processIndex (buffer, h)).2).rightDelay.processSample
          ((forLoop k HaasEffect.processIndex (buffer, h)).1.data 1 k)).1
      else (forLoop k HaasEffect.processIndex (buffer, h)).1.data 1 j) = _
    by_cases hjk : j = k
    · subst hjk
      have hprev : (forLoop j HaasEffect.processIndex (buffer, h)).1.data 1 j
          = buffer.data 1 j := by
        rw [ih, if_neg (lt_irrefl j)]
      rw [if_pos ⟨rfl, rfl⟩, if_pos (Nat.lt_succ_self j), hprev]
    · rw [if_neg (fun hh => hjk hh.2), ih]
      by_cases hlt : j < k
      · rw [if_pos hlt, if_pos (Nat.lt_succ_of_lt hlt)]
      · rw [if_neg hlt, if_neg (by omega)]

end HaasEffect

namespace ChasmDSPProcessor

variable {α : Type} [LinearOrderedField α] [FloorRing α] {J : Juce α}

/-- The mono sample stage writes channel 0 only, in the wet buffer and in the block. -/
theorem processSingleSampleMono_frame (M : CMath α) (q : ChasmDSPProcessor α J)
    (b : AudioBuffer α) (i : Nat) (g : α) (c j : Nat) (hc : c ≠ 0) :
    (processSingleSampleMono M q b i g).1.wetBuffer.data c j = q.wetBuffer.data c j
    ∧ (processSingleSampleMono M q b i g).2.data c j = b.data c j := by
  constructor
  · show (if c = 0 ∧ j = i then _ else (highCutMono _ _).2.wetBuffer.data c j) = _
    rw [if_neg (fun hh => hc hh.1), (cutMono_wetBuffer _ _).2, (cutMono_wetBuffer _ _).1]
    show (if c = 0 ∧ j = i then _ else q.wetBuffer.data c j) = _
    rw [if_neg (fun hh => hc hh.1)]
  · show (if c = 0 ∧ j = i then _ else b.data c j) = _
    rw [if_neg (fun hh => hc hh.1)]

/-- On a 1-channel block the first sample loop writes channel 0 only, in the wet buffer and
in the block. -/
theorem beforeIndex_mono_frame (M : CMath α) (p : ChasmDSPProcessor α J)
    (buffer : AudioBuffer α) (hbn : buffer.numChannels = 1) (k c j : Nat) (hc : c ≠ 0) :
    (beforeIndex M p buffer k).1.wetBuffer.data c j = p.wetBuffer.data c j
    ∧ (beforeIndex M p buffer k).2.data c j = buffer.data c j := by
  have h0 : (resizeScratch p buffer.numSamples).wetBuffer.data c j = p.wetBuffer.data c j := by
    unfold resizeScratch
    split <;> rfl
  have key := forLoop_invariant
    (fun st : ChasmDSPProcessor α J × AudioBuffer α =>
      st.2.numChannels = 1
      ∧ st.1.wetBuffer.data c j = p.wetBuffer.data c j ∧ st.2.data c j = buffer.data c j)
    (processIndex M)
    (by
      intro i st hst
      obtain ⟨h1, h2, h3⟩ := hst
      obtain ⟨f1, f2⟩ := processSingleSampleMono_frame M (atSample i st.1).2 st.2 i
        (atSample i st.1).1.inputGain c j hc
      rw [atSample_wetBuffer] at f1
      rw [processIndex_eq_atSample, if_pos h1]
      refine ⟨?_, f1.trans h2, f2.trans h3⟩
      have := (processIndex_frame M i st).2.1
      rw [processIndex_eq_atSample, if_pos h1] at this
      exact this.trans h1)
    k
    ({ resizeScratch p buffer.numSamples with
        dryBuffer := (resizeScratch p buffer.numSamples).dryBuffer.makeCopyOf buffer }, buffer)
    ⟨hbn, h0, rfl⟩
  exact ⟨key.2.1, key.2.2⟩

end ChasmDSPProcessor

/-- C30 (evaluation of the code): for a processor prepared with one channel and a 1-channel
block, the per-sample loop writes channel 0 only and leaves a wet buffer of one channel; the
whole-block stages then run the Haas effect and the stereo enhancer on that 1-channel
buffer, and both use channel index 1: the Haas effect replaces sample `j` of channel 1 by the
output of its delay line, and the stereo enhancer reads channel 1 to form mid and side and
writes `mid + side * gain` to channel 0 and `mid - side * gain` to channel 1.  The JUCE
processors are taken to keep the dimensions of the block. -/
theorem C30_mono_post_stages_use_channel_one {α : Type} [LinearOrderedField α] [FloorRing α]
    {J : Juce α} (hJ : J.KeepsDimensions) (M : CMath α) (p : ChasmDSPProcessor α J)
    (spec : ProcessSpec α) (hspec : spec.numChannels = 1)
    (inputGain outputGain mix delayMs brightness character lowCut highCut width mil_InputGain
      mil_BoostValue : α) (mil_Mode : Int) (haasAmount : α)
    (buffer : AudioBuffer α) (hbn : buffer.numChannels = 1) :
    ∀ p1 q : ChasmDSPProcessor α J,
      p1 = p.prepare M spec inputGain outputGain mix delayMs brightness character lowCut highCut
            width mil_InputGain mil_BoostValue mil_Mode haasAmount →
      q = (ChasmDSPProcessor.beforeIndex M p1 buffer buffer.numSamples).1 →
      (ChasmDSPProcessor.wetPath M p1 buffer).1 = ChasmDSPProcessor.postStages M q
      ∧ (q.wetBuffer.numChannels = 1 ∧ q.wetBuffer.numSamples = buffer.numSamples)
      ∧ (∀ c j, c ≠ 0 → q.wetBuffer.data c j = p1.wetBuffer.data c j)
      ∧ ∀ b1 b2 b3 : AudioBuffer α,
          b1 = (q.brightnessEQ.processBlock q.wetBuffer).1 →
          b2 = (q.haasEffect.processBlock b1).1 →
          b3 = (q.stereoEnhancer.processBlock b2).1 →
          (b1.numChannels = 1 ∧ b2.numChannels = 1 ∧ b3.numChannels = 1)
          ∧ (∀ j, j < buffer.numSamples →
              b2.data 1 j
                = ((HaasEffect.updateParameters
                      (forLoop j HaasEffect.processIndex (b1, q.haasEffect)).2
                    ).rightDelay.processSample (b1.data 1 j)).1
              ∧ b3.data 0 j
                = (b2.data 0 j + b2.data 1 j) * (1 / 2)
                  + (b2.data 0 j - b2.data 1 j) * (1 / 2)
                    * ((ParameterSmoother.advance^[j + 1]
                        q.stereoEnhancer.widthSmoother).currentValue / 100)
              ∧ b3.data 1 j
                = (b2.data 0 j + b2.data 1 j) * (1 / 2)
                  - (b2.data 0 j - b2.data 1 j) * (1 / 2)
                    * ((ParameterSmoother.advance^[j + 1]
                        q.stereoEnhancer.widthSmoother).currentValue / 100))
          ∧ (ChasmDSPProcessor.postStages M q).wetBuffer
              = (((q.makeItLoud.setInputGain (q.mil_InputGainSmoother.getNextValue).1).setBoost
                  (q.mil_BoostSmoother.getNextValue).1).processBlock M b3).1 := by
  intro p1 q hp1 hq
  obtain ⟨w1, _, _, _, n1⟩ := ChasmDSPProcessor.prepare_scratch M p spec inputGain outputGain
    mix delayMs brightness character lowCut highCut width mil_InputGain mil_BoostValue mil_Mode
    haasAmount
  rw [← hp1] at n1 w1
  obtain ⟨f1, f2⟩ := ChasmDSPProcessor.beforeIndex_wetDims M p1 buffer buffer.numSamples
  rw [← hq] at f1 f2
  have hr : (ChasmDSPProcessor.resizeScratch p1 buffer.numSamples).wetBuffer.numSamples
        = buffer.numSamples
      ∧ (ChasmDSPProcessor.resizeScratch p1 buffer.numSamples).wetBuffer.numChannels = 1 := by
    unfold ChasmDSPProcessor.resizeScratch
    split
    · exact ⟨rfl, n1.trans hspec⟩
    · rename_i h
      exact ⟨not_not.mp h, w1.trans hspec⟩
  have hqc : q.wetBuffer.numChannels = 1 := f1.trans hr.2
  have hqs : q.wetBuffer.numSamples = buffer.numSamples := f2.trans hr.1
  refine ⟨by rw [hq]; rfl, ⟨hqc, hqs⟩, ?_, ?_⟩
  · intro c j hc
    rw [hq]
    exact (ChasmDSPProcessor.beforeIndex_mono_frame M p1 buffer hbn buffer.numSamples c j hc).1
  · intro b1 b2 b3 hb1 hb2 hb3
    obtain ⟨i1, i2⟩ := hJ.iirProcess_dims q.brightnessEQ.highShelfFilterDuplicator q.wetBuffer
    have hb1c : b1.numChannels = 1 := by rw [hb1]; exact (show _ = _ from i1).trans hqc
    have hb1s : b1.numSamples = buffer.numSamples := by
      rw [hb1]; exact (show _ = _ from i2).trans hqs
    obtain ⟨c2, c3, _⟩ := HaasEffect.haasLoop_frame q.haasEffect b1 b1.numSamples
    have hb2e : b2 = (forLoop b1.numSamples HaasEffect.processIndex (b1, q.haasEffect)).1 := by
      rw [hb2, HaasEffect.processBlock_eq_forLoop]
    have hb2c : b2.numChannels = 1 := by rw [hb2e]; exact c2.trans hb1c
    have hb2s : b2.numSamples = buffer.numSamples := by rw [hb2e]; exact c3.trans hb1s
    obtain ⟨_, d2, _, d4⟩ := StereoEnhancer.processLoop_spec q.stereoEnhancer b2 b2.numSamples
    have hb3e : b3 = (forLoop b2.numSamples StereoEnhancer.processIndex
        (b2, q.stereoEnhancer)).1 := hb3
    refine ⟨⟨hb1c, hb2c, by rw [hb3e]; exact d2.trans hb2c⟩, ?_, ?_⟩
    · intro j hj
      refine ⟨?_, ?_, ?_⟩
      · rw [hb2e, HaasEffect.haasLoop_right, if_pos (by rw [hb1s]; exact hj)]
      · rw [hb3e, d4 0 j, if_pos ⟨by rw [hb2s]; exact hj, rfl⟩]
      · rw [hb3e, d4 1 j, if_neg (by intro hh; exact absurd hh.2 (by decide)),
          if_pos ⟨by rw [hb2s]; exact hj, rfl⟩]
    · rw [hb3, hb2, hb1]
      rfl

/-- Witness of C30: the default processor with pass-through JUCE classes prepared with one
channel, on the mono block of one sample: the wet buffer handed to the whole-block stages
has one channel. -/
theorem C30_mono_post_stages_use_channel_one_witness :
    (ChasmDSPProcessor.beforeIndex CMath.rational
        ((ChasmDSPProcessor.default : ChasmDSPProcessor ℚ Juce.passThrough).prepare
          CMath.rational ⟨44100, 512, 1⟩ 1 1 (1 / 2) 30 0 1 0 0 100 1 0 0 0)
        AudioBuffer.monoOne AudioBuffer.monoOne.numSamples).1.wetBuffer.numChannels = 1 :=
  ((C30_mono_post_stages_use_channel_one
    (⟨fun _ _ => ⟨rfl, rfl⟩, fun _ _ => ⟨rfl, rfl⟩, fun _ _ _ _ _ _ => ⟨rfl, rfl⟩⟩ :
      Juce.passThrough.KeepsDimensions)
    CMath.rational (ChasmDSPProcessor.default : ChasmDSPProcessor ℚ Juce.passThrough)
    ⟨44100, 512, 1⟩ rfl 1 1 (1 / 2) 30 0 1 0 0 100 1 0 0 0 AudioBuffer.monoOne rfl)
    _ _ rfl rfl).2.1.1

namespace ChasmDSPProcessor

variable {α : Type} [LinearOrderedField α] [FloorRing α] {J : Juce α}

theorem updateLowCut_controlSmoothers (p : ChasmDSPProcessor α J) :
    (updateLowCut p).controlSmoothers = p.controlSmoothers
    ∧ (updateLowCut p).components = p.components := by
  unfold updateLowCut
  simp only []
  split <;> exact ⟨rfl, rfl⟩

theorem updateHighCut_controlSmoothers (p : ChasmDSPProcessor α J) :
    (updateHighCut p).controlSmoothers = p.controlSmoothers
    ∧ (updateHighCut p).components = p.components := by
  unfold updateHighCut
  simp only []
  split <;> exact ⟨rfl, rfl⟩

theorem cutStep_controlSmoothers (p : ChasmDSPProcessor α J) :
    (cutStep p).controlSmoothers = p.controlSmoothers
    ∧ (cutStep p).components = p.components := by
  unfold cutStep
  exact ⟨(updateHighCut_controlSmoothers _).1.trans (updateLowCut_controlSmoothers _).1,
    (updateHighCut_controlSmoothers _).2.trans (updateLowCut_controlSmoothers _).2⟩

theorem lowCutStereo_controlSmoothers (p : ChasmDSPProcessor α J) (l r : α) :
    (lowCutStereo p l r).2.2.controlSmoothers = p.controlSmoothers := by
  unfold lowCutStereo
  split <;> rfl

theorem highCutStereo_controlSmoothers (p : ChasmDSPProcessor α J) (l r : α) :
    (highCutStereo p l r).2.2.controlSmoothers = p.controlSmoothers := by
  unfold highCutStereo
  split <;> rfl

theorem lowCutMono_controlSmoothers (p : ChasmDSPProcessor α J) (x : α) :
    (lowCutMono p x).2.controlSmoothers = p.controlSmoothers := by
  unfold lowCutMono
  split <;> rfl

theorem highCutMono_controlSmoothers (p : ChasmDSPProcessor α J) (x : α) :
    (highCutMono p x).2.controlSmoothers = p.controlSmoothers := by
  unfold highCutMono
  split <;> rfl

theorem processSingleSample_controlSmoothers (M : CMath α) (p : ChasmDSPProcessor α J)
    (buffer : AudioBuffer α) (i : Nat) (g : α) :
    (processSingleSample M p buffer i g).1.controlSmoothers = p.controlSmoothers := by
  unfold processSingleSample
  simp only []
  show (highCutStereo _ _ _).2.2.controlSmoothers = _
  rw [highCutStereo_controlSmoothers, lowCutStereo_controlSmoothers]
  rfl

theorem processSingleSampleMono_controlSmoothers (M : CMath α) (p : ChasmDSPProcessor α J)
    (buffer : AudioBuffer α) (i : Nat) (g : α) :
    (processSingleSampleMono M p buffer i g).1.controlSmoothers = p.controlSmoothers := by
  unfold processSingleSampleMono
  simp only []
  show (highCutMono _ _).2.controlSmoothers = _
  rw [highCutMono_controlSmoothers, lowCutMono_controlSmoothers]
  rfl

theorem resizeScratch_controlSmoothers (p : ChasmDSPProcessor α J) (n : Nat) :
    (resizeScratch p n).controlSmoothers = p.controlSmoothers := by
  unfold resizeScratch
  split <;> rfl

/-- The test of the first sample loop, `i == 0 || shouldUpdateDSPComponents (i)`, holds exactly
at the multiples of 32. -/
theorem refresh_test_iff (i : Nat) :
    (i = 0 ∨ shouldUpdateDSPComponents i = true) ↔ i % 32 = 0 := by
  unfold shouldUpdateDSPComponents
  rw [beq_iff_eq]
  constructor
  · rintro (h | h)
    · rw [h]
    · exact h
  · intro h
    exact Or.inr h

/-- The processor of `atSample` is the cut-off update of the advanced processor, refreshed
at the multiples of 32. -/
theorem atSample_snd (i : Nat) (p : ChasmDSPProcessor α J) :
    (atSample i p).2
      = if i % 32 = 0 then
          updateDSPComponents (cutStep (advanceControls p).2) (advanceControls p).1.delay
            (advanceControls p).1.brightness (advanceControls p).1.character
            (advanceControls p).1.width (advanceControls p).1.haasAmount
        else cutStep (advanceControls p).2 := by
  unfold atSample
  simp only []
  by_cases h : i % 32 = 0
  · rw [if_pos ((refresh_test_iff i).2 h), if_pos h]
    rfl
  · rw [if_neg (fun hc => h ((refresh_test_iff i).1 hc)), if_neg h]
    rfl

/-- One pass through the top of the first sample loop advances the six control smoothers once
and leaves the two smoothers of the loudness stage alone. -/
theorem atSample_controlSmoothers (i : Nat) (p : ChasmDSPProcessor α J) :
    (atSample i p).2.controlSmoothers
      = (p.inputGainSmoother.advance, p.delaySmoother.advance, p.brightnessSmoother.advance,
          p.characterSmoother.advance, p.widthSmoother.advance, p.haasSmoother.advance,
          p.mil_InputGainSmoother, p.mil_BoostSmoother) := by
  have h : (cutStep (advanceControls p).2).controlSmoothers
      = (p.inputGainSmoother.advance, p.delaySmoother.advance, p.brightnessSmoother.advance,
          p.characterSmoother.advance, p.widthSmoother.advance, p.haasSmoother.advance,
          p.mil_InputGainSmoother, p.mil_BoostSmoother) :=
    (cutStep_controlSmoothers _).1
  rw [atSample_snd]
  split
  · exact h
  · exact h

theorem processIndex_controlSmoothers (M : CMath α) (i : Nat)
    (st : ChasmDSPProcessor α J × AudioBuffer α) :
    (processIndex M i st).1.controlSmoothers
      = (st.1.inputGainSmoother.advance, st.1.delaySmoother.advance,
          st.1.brightnessSmoother.advance, st.1.characterSmoother.advance,
          st.1.widthSmoother.advance, st.1.haasSmoother.advance,
          st.1.mil_InputGainSmoother, st.1.mil_BoostSmoother) := by
  rw [processIndex_eq_atSample]
  split
  · rw [processSingleSampleMono_controlSmoothers, atSample_controlSmoothers]
  · rw [processSingleSample_controlSmoothers, atSample_controlSmoothers]

/-- At the start of iteration `i` of the first sample loop the six control smoothers have
been advanced `i` times and the two smoothers of the loudness stage not at all. -/
theorem beforeIndex_controlSmoothers (M : CMath α) (p : ChasmDSPProcessor α J)
    (buffer : AudioBuffer α) (i : Nat) :
    (beforeIndex M p buffer i).1.controlSmoothers
      = (ParameterSmoother.advance^[i] p.inputGainSmoother,
          ParameterSmoother.advance^[i] p.delaySmoother,
          ParameterSmoother.advance^[i] p.brightnessSmoother,
          ParameterSmoother.advance^[i] p.characterSmoother,
          ParameterSmoother.advance^[i] p.widthSmoother,
          ParameterSmoother.advance^[i] p.haasSmoother,
          p.mil_InputGainSmoother, p.mil_BoostSmoother) := by
  induction i with
  | zero =>
    show (resizeScratch p buffer.numSamples).controlSmoothers = _
    exact resizeScratch_controlSmoothers p _
  | succ k ih =>
    show (processIndex M k (beforeIndex M p buffer k)).1.controlSmoothers = _
    rw [processIndex_controlSmoothers]
    simp only [controlSmoothers, Prod.mk.injEq] at ih
    obtain ⟨h1, h2, h3, h4, h5, h6, h7, h8⟩ := ih
    rw [h1, h2, h3, h4, h5, h6, h7, h8]
    simp only [Function.iterate_succ_apply']

/-- The cut-off update advances the two cut-off smoothers once. -/
theorem cutStep_cutSmoothers (p : ChasmDSPProcessor α J) :
    (cutStep p).lowCutSmoother = p.lowCutSmoother.advance
    ∧ (cutStep p).highCutSmoother = p.highCutSmoother.advance := by
  have hl : (updateLowCut p).lowCutSmoother = p.lowCutSmoother.advance := by
    unfold updateLowCut; simp only []; split <;> rfl
  have hh : ∀ q : ChasmDSPProcessor α J,
      (updateHighCut q).highCutSmoother = q.highCutSmoother.advance
      ∧ (updateHighCut q).lowCutSmoother = q.lowCutSmoother := by
    intro q
    unfold updateHighCut; simp only []; split <;> exact ⟨rfl, rfl⟩
  unfold cutStep
  refine ⟨(hh _).2.trans hl, (hh _).1.trans ?_⟩
  rw [(cutStep_fields p).2.2.2.2.2.2]

/-- After `i` cut-off updates the two cut-off smoothers have been advanced `i` times. -/
theorem iterate_cutStep_cutSmoothers (p : ChasmDSPProcessor α J) (i : Nat) :
    (cutStep^[i] p).lowCutSmoother = ParameterSmoother.advance^[i] p.lowCutSmoother
    ∧ (cutStep^[i] p).highCutSmoother = ParameterSmoother.advance^[i] p.highCutSmoother := by
  induction i with
  | zero => exact ⟨rfl, rfl⟩
  | succ k ih =>
    rw [Function.iterate_succ_apply', Function.iterate_succ_apply', Function.iterate_succ_apply',
      (cutStep_cutSmoothers _).1, (cutStep_cutSmoothers _).2, ih.1, ih.2]
    exact ⟨rfl, rfl⟩

/-- At the start of iteration `i` of the first sample loop the two cut-off smoothers have been
advanced `i` times. -/
theorem beforeIndex_cutSmoothers (M : CMath α) (p : ChasmDSPProcessor α J)
    (buffer : AudioBuffer α) (i : Nat) :
    (beforeIndex M p buffer i).1.lowCutSmoother = ParameterSmoother.advance^[i] p.lowCutSmoother
    ∧ (beforeIndex M p buffer i).1.highCutSmoother
        = ParameterSmoother.advance^[i] p.highCutSmoother := by
  obtain ⟨_, _, _, _, h5, h6⟩ := cutState_fields _ _ (beforeIndex_cutState M p buffer i)
  exact ⟨h5.trans (iterate_cutStep_cutSmoothers p i).1,
    h6.trans (iterate_cutStep_cutSmoothers p i).2⟩

/-- The whole-block stages advance the two smoothers of the loudness stage once and leave the
other ten smoothers alone. -/
theorem postStages_smoothers (M : CMath α) (q : ChasmDSPProcessor α J) :
    (postStages M q).controlSmoothers
      = (q.inputGainSmoother, q.delaySmoother, q.brightnessSmoother, q.characterSmoother,
          q.widthSmoother, q.haasSmoother, q.mil_InputGainSmoother.advance,
          q.mil_BoostSmoother.advance)
    ∧ (postStages M q).cutState = q.cutState
    ∧ (postStages M q).mixSmoother = q.mixSmoother
    ∧ (postStages M q).outputGainSmoother = q.outputGainSmoother :=
  ⟨rfl, rfl, rfl, rfl⟩

/-- The final sample loop leaves the smoothers of the first loop and of the loudness stage
alone. -/
theorem mixLoop_controlSmoothers (p1 : ChasmDSPProcessor α J) (b1 : AudioBuffer α) (k : Nat) :
    (forLoop k mixIndex (p1, b1)).1.controlSmoothers = p1.controlSmoothers :=
  forLoop_invariant
    (fun st : ChasmDSPProcessor α J × AudioBuffer α => st.1.controlSmoothers = p1.controlSmoothers)
    mixIndex
    (fun _ st h => (show (mixIndex _ st).1.controlSmoothers = st.1.controlSmoothers from rfl).trans h)
    k (p1, b1) rfl

/-- The smoothers after `processBlock`: the six control smoothers advanced once per sample and
the two smoothers of the loudness stage advanced once. -/
theorem processBlock_controlSmoothers (M : CMath α) (p : ChasmDSPProcessor α J)
    (buffer : AudioBuffer α) :
    (p.processBlock M buffer).1.controlSmoothers
      = (ParameterSmoother.advance^[buffer.numSamples] p.inputGainSmoother,
          ParameterSmoother.advance^[buffer.numSamples] p.delaySmoother,
          ParameterSmoother.advance^[buffer.numSamples] p.brightnessSmoother,
          ParameterSmoother.advance^[buffer.numSamples] p.characterSmoother,
          ParameterSmoother.advance^[buffer.numSamples] p.widthSmoother,
          ParameterSmoother.advance^[buffer.numSamples] p.haasSmoother,
          p.mil_InputGainSmoother.advance, p.mil_BoostSmoother.advance) := by
  have h1 : (p.processBlock M buffer).1.controlSmoothers
      = (wetPath M p buffer).1.controlSmoothers :=
    mixLoop_controlSmoothers (wetPath M p buffer).1 (wetPath M p buffer).2 buffer.numSamples
  have h2 : (wetPath M p buffer).1
      = postStages M (beforeIndex M p buffer buffer.numSamples).1 := rfl
  have h3 := beforeIndex_controlSmoothers M p buffer buffer.numSamples
  rw [h1, h2, (postStages_smoothers M _).1]
  simp only [controlSmoothers, Prod.mk.injEq] at h3
  obtain ⟨e1, e2, e3, e4, e5, e6, e7, e8⟩ := h3
  rw [e1, e2, e3, e4, e5, e6, e7, e8]

end ChasmDSPProcessor

open ChasmDSPProcessor

/-- C31: in `processBlock` the wet buffer left by the first sample loop goes through the
whole-block stages of `postStages` and nothing else before the mix loop: the Brightness EQ
runs on it, the Haas effect on the result, the stereo enhancer on that, and the loudness stage
(with the input gain and boost just read from their smoothers) on that; every stage object is
replaced by its state after that one call; the mix loop leaves the wet buffer alone and every
output sample mixes the dry sample with the sample of that wet buffer. -/
theorem C31_post_stages_fixed_order {α : Type} [LinearOrderedField α] [FloorRing α]
    {J : Juce α} (M : CMath α) (p : ChasmDSPProcessor α J) (buffer : AudioBuffer α) :
    (wetPath M p buffer).1 = postStages M (afterFirstLoop M p buffer)
    ∧ (∀ q : ChasmDSPProcessor α J,
        (postStages M q).wetBuffer
          = (((q.makeItLoud.setInputGain (q.mil_InputGainSmoother.getNextValue).1).setBoost
                (q.mil_BoostSmoother.getNextValue).1).processBlock M
              (q.stereoEnhancer.processBlock
                (q.haasEffect.processBlock (q.brightnessEQ.processBlock q.wetBuffer).1).1).1).1
        ∧ (postStages M q).brightnessEQ = (q.brightnessEQ.processBlock q.wetBuffer).2
        ∧ (postStages M q).haasEffect
          = (q.haasEffect.processBlock (q.brightnessEQ.processBlock q.wetBuffer).1).2
        ∧ (postStages M q).stereoEnhancer
          = (q.stereoEnhancer.processBlock
              (q.haasEffect.processBlock (q.brightnessEQ.processBlock q.wetBuffer).1).1).2
        ∧ (postStages M q).makeItLoud
          = (((q.makeItLoud.setInputGain (q.mil_InputGainSmoother.getNextValue).1).setBoost
                (q.mil_BoostSmoother.getNextValue).1).processBlock M
              (q.stereoEnhancer.processBlock
                (q.haasEffect.processBlock (q.brightnessEQ.processBlock q.wetBuffer).1).1).1).2)
    ∧ (p.processBlock M buffer).1.wetBuffer = (postStages M (afterFirstLoop M p buffer)).wetBuffer
    ∧ ∀ c j, c < buffer.numChannels → j < buffer.numSamples →
        (p.processBlock M buffer).2.data c j
          = (buffer.data c j
                * (1 - (ParameterSmoother.advance^[j + 1] p.mixSmoother).currentValue)
              + (postStages M (afterFirstLoop M p buffer)).wetBuffer.data c j
                * (ParameterSmoother.advance^[j + 1] p.mixSmoother).currentValue)
            * (ParameterSmoother.advance^[j + 1] p.outputGainSmoother).currentValue := by
  obtain ⟨hdry, hmix, hog, hnc, _⟩ := wetPath_frame M p buffer
  obtain ⟨_, hwet, _, _, _, hdata⟩ := mixLoop_spec (wetPath M p buffer).1 (wetPath M p buffer).2
    buffer.numSamples
  refine ⟨rfl, fun q => ⟨rfl, rfl, rfl, rfl, rfl⟩, hwet, ?_⟩
  intro c j hc hj
  have h := hdata c j
  rw [if_pos ⟨hj, hnc.symm ▸ hc⟩, hdry, hmix, hog] at h
  exact h

namespace ChasmDSPProcessor

/-- The member `prepare` leaves the loudness input-gain smoother at rest at the supplied value,
with the coefficient of a smoothing time of 1 ms. -/
theorem prepare_loudnessSmoother {α : Type} [LinearOrderedField α] [FloorRing α]
    {J : Juce α} (M : CMath α) (p : ChasmDSPProcessor α J) (spec : ProcessSpec α)
    (a1 a2 a3 a4 a5 a6 a7 a8 a9 a10 a11 : α) (mode : Int) (a13 : α) :
    (p.prepare M spec a1 a2 a3 a4 a5 a6 a7 a8 a9 a10 a11 mode a13).mil_InputGainSmoother.currentValue
        = a10
    ∧ (p.prepare M spec a1 a2 a3 a4 a5 a6 a7 a8 a9 a10 a11 mode a13).mil_InputGainSmoother.smoothingCoeff
        = (p.mil_InputGainSmoother.prepare M spec.sampleRate 1).smoothingCoeff :=
  ⟨rfl, rfl⟩

/-- The member `updateParameters` gives the loudness input-gain smoother its new target. -/
theorem updateParameters_loudnessSmoother {α : Type} [LinearOrderedField α] [FloorRing α]
    {J : Juce α} (M : CMath α) (q : ChasmDSPProcessor α J)
    (b1 b2 b3 b4 b5 b6 b7 b8 b9 b10 b11 : α) (mode2 : Int) (b13 : α) :
    (q.updateParameters M b1 b2 b3 b4 b5 b6 b7 b8 b9 b10 b11 mode2 b13).mil_InputGainSmoother
      = q.mil_InputGainSmoother.setTargetValue (DSPUtils.dbToGain M b10) :=
  rfl

end ChasmDSPProcessor

/-- C33 (counterexample to the claim as worded): on the processor `retargetedStereo` and the
stereo test block of two samples, `processBlock` advances the loudness input-gain smoother
once, which differs from advancing it once per sample. -/
theorem C33_loudness_smoother_once_per_block_counterexample :
    AudioBuffer.stereoRamp.numSamples = 2
    ∧ (ChasmDSPProcessor.retargetedStereo.processBlock CMath.rational
        AudioBuffer.stereoRamp).1.mil_InputGainSmoother
        = ChasmDSPProcessor.retargetedStereo.mil_InputGainSmoother.advance
    ∧ (ChasmDSPProcessor.retargetedStereo.processBlock CMath.rational
        AudioBuffer.stereoRamp).1.mil_InputGainSmoother
        ≠ ParameterSmoother.advance^[AudioBuffer.stereoRamp.numSamples]
            ChasmDSPProcessor.retargetedStereo.mil_InputGainSmoother := by
  have hs := processBlock_controlSmoothers CMath.rational ChasmDSPProcessor.retargetedStereo
    AudioBuffer.stereoRamp
  simp only [controlSmoothers, Prod.mk.injEq] at hs
  obtain ⟨_, _, _, _, _, _, h7, _⟩ := hs
  have hu : ChasmDSPProcessor.retargetedStereo.mil_InputGainSmoother
      = ChasmDSPProcessor.preparedStereo.mil_InputGainSmoother.setTargetValue
          (DSPUtils.dbToGain CMath.rational 6) :=
    updateParameters_loudnessSmoother CMath.rational ChasmDSPProcessor.preparedStereo
      0 0 50 30 0 1 0 0 100 6 3 0 0
  obtain ⟨hc, hk⟩ := prepare_loudnessSmoother CMath.rational
    (ChasmDSPProcessor.default : ChasmDSPProcessor ℚ Juce.passThrough) ⟨44100, 512, 2⟩
    1 1 (1 / 2) 30 0 1 0 0 100 1 0 0 0
  have hc1 : ChasmDSPProcessor.retargetedStereo.mil_InputGainSmoother.currentValue = 1 := by
    rw [hu]
    exact hc
  have ht1 : ChasmDSPProcessor.retargetedStereo.mil_InputGainSmoother.targetValue = 10 := by
    rw [hu]
    rfl
  have hk1 : ChasmDSPProcessor.retargetedStereo.mil_InputGainSmoother.smoothingCoeff
      = 10 / 441 := by
    rw [hu]
    refine (show _ = _ from hk).trans ?_
    simp only [ParameterSmoother.prepare, CMath.rational]
    norm_num
  refine ⟨rfl, h7, ?_⟩
  rw [h7]
  intro h
  have h2 := congrArg ParameterSmoother.currentValue h
  have e1 := ParameterSmoother.iterate_advance_currentValue
    ChasmDSPProcessor.retargetedStereo.mil_InputGainSmoother 1
  have e2 := ParameterSmoother.iterate_advance_currentValue
    ChasmDSPProcessor.retargetedStereo.mil_InputGainSmoother 2
  rw [hc1, ht1, hk1] at e1 e2
  rw [show AudioBuffer.stereoRamp.numSamples = 2 from rfl, e2] at h2
  rw [show ChasmDSPProcessor.retargetedStereo.mil_InputGainSmoother.advance
    = ParameterSmoother.advance^[1] ChasmDSPProcessor.retargetedStereo.mil_InputGainSmoother
    from rfl, e1] at h2
  norm_num at h2

/-- C33 (amended): during `processBlock` over a block of `n` samples, each of the ten
smoothers for input gain, output gain, mix, delay, brightness, character, low cut, high cut,
width and Haas amount is advanced by `getNextValue` once per sample, `n` times in all: the
eight of the first sample loop have been advanced `i` times when iteration `i` starts, and all
ten end as the `n`-fold advance of their state on entry; the loudness input-gain and boost
smoothers are advanced once per block, whatever `n` is. -/
theorem C33_smoothers_advance_counts {α : Type} [LinearOrderedField α] [FloorRing α]
    {J : Juce α} (M : CMath α) (p : ChasmDSPProcessor α J) (buffer : AudioBuffer α) (i : Nat) :
    ((beforeIndex M p buffer i).1.inputGainSmoother
        = ParameterSmoother.advance^[i] p.inputGainSmoother
      ∧ (beforeIndex M p buffer i).1.delaySmoother = ParameterSmoother.advance^[i] p.delaySmoother
      ∧ (beforeIndex M p buffer i).1.brightnessSmoother
        = ParameterSmoother.advance^[i] p.brightnessSmoother
      ∧ (beforeIndex M p buffer i).1.characterSmoother
        = ParameterSmoother.advance^[i] p.characterSmoother
      ∧ (beforeIndex M p buffer i).1.widthSmoother = ParameterSmoother.advance^[i] p.widthSmoother
      ∧ (beforeIndex M p buffer i).1.haasSmoother = ParameterSmoother.advance^[i] p.haasSmoother
      ∧ (beforeIndex M p buffer i).1.lowCutSmoother
        = ParameterSmoother.advance^[i] p.lowCutSmoother
      ∧ (beforeIndex M p buffer i).1.highCutSmoother
        = ParameterSmoother.advance^[i] p.highCutSmoother)
    ∧ ((forLoop i mixIndex (wetPath M p buffer)).1.mixSmoother
        = ParameterSmoother.advance^[i] p.mixSmoother
      ∧ (forLoop i mixIndex (wetPath M p buffer)).1.outputGainSmoother
        = ParameterSmoother.advance^[i] p.outputGainSmoother)
    ∧ ((p.processBlock M buffer).1.inputGainSmoother
        = ParameterSmoother.advance^[buffer.numSamples] p.inputGainSmoother
      ∧ (p.processBlock M buffer).1.outputGainSmoother
        = ParameterSmoother.advance^[buffer.numSamples] p.outputGainSmoother
      ∧ (p.processBlock M buffer).1.mixSmoother
        = ParameterSmoother.advance^[buffer.numSamples] p.mixSmoother
      ∧ (p.processBlock M buffer).1.delaySmoother
        = ParameterSmoother.advance^[buffer.numSamples] p.delaySmoother
      ∧ (p.processBlock M buffer).1.brightnessSmoother
        = ParameterSmoother.advance^[buffer.numSamples] p.brightnessSmoother
      ∧ (p.processBlock M buffer).1.characterSmoother
        = ParameterSmoother.advance^[buffer.numSamples] p.characterSmoother
      ∧ (p.processBlock M buffer).1.lowCutSmoother
        = ParameterSmoother.advance^[buffer.numSamples] p.lowCutSmoother
      ∧ (p.processBlock M buffer).1.highCutSmoother
        = ParameterSmoother.advance^[buffer.numSamples] p.highCutSmoother
      ∧ (p.processBlock M buffer).1.widthSmoother
        = ParameterSmoother.advance^[buffer.numSamples] p.widthSmoother
      ∧ (p.processBlock M buffer).1.haasSmoother
        = ParameterSmoother.advance^[buffer.numSamples] p.haasSmoother)
    ∧ (p.processBlock M buffer).1.mil_InputGainSmoother = p.mil_InputGainSmoother.advance
    ∧ (p.processBlock M buffer).1.mil_BoostSmoother = p.mil_BoostSmoother.advance := by
  have hs := beforeIndex_controlSmoothers M p buffer i
  simp only [controlSmoothers, Prod.mk.injEq] at hs
  obtain ⟨e1, e2, e3, e4, e5, e6, _, _⟩ := hs
  obtain ⟨c1, c2⟩ := beforeIndex_cutSmoothers M p buffer i
  have hb := processBlock_controlSmoothers M p buffer
  simp only [controlSmoothers, Prod.mk.injEq] at hb
  obtain ⟨f1, f2, f3, f4, f5, f6, f7, f8⟩ := hb
  obtain ⟨_, _, _, _, g5, g6⟩ := cutState_fields _ _ (processBlock_cutState M p buffer)
  obtain ⟨_, hmix, hog, _, _⟩ := wetPath_frame M p buffer
  have hloop : ∀ k, (forLoop k mixIndex (wetPath M p buffer)).1.mixSmoother
        = ParameterSmoother.advance^[k] p.mixSmoother
      ∧ (forLoop k mixIndex (wetPath M p buffer)).1.outputGainSmoother
        = ParameterSmoother.advance^[k] p.outputGainSmoother := by
    intro k
    obtain ⟨_, _, m1, m2, _⟩ := mixLoop_spec (wetPath M p buffer).1 (wetPath M p buffer).2 k
    rw [hmix] at m1
    rw [hog] at m2
    exact ⟨m1, m2⟩
  exact ⟨⟨e1, e2, e3, e4, e5, e6, c1, c2⟩, hloop i,
    ⟨f1, (hloop buffer.numSamples).2, (hloop buffer.numSamples).1, f2, f3, f4,
      g5.trans (iterate_cutStep_cutSmoothers p _).1,
      g6.trans (iterate_cutStep_cutSmoothers p _).2, f5, f6⟩, f7, f8⟩

namespace ChasmDSPProcessor

variable {α : Type} [LinearOrderedField α] [FloorRing α] {J : Juce α}

theorem cutState_limits (p q : ChasmDSPProcessor α J) (h : p.cutState = q.cutState) :
    p.lowCutMin = q.lowCutMin ∧ p.lowCutMax = q.lowCutMax
    ∧ p.highCutMin = q.highCutMin ∧ p.highCutMax = q.highCutMax := by
  simp only [cutState, Prod.mk.injEq] at h
  obtain ⟨_, _, _, _, _, _, h7, h8, h9, h10⟩ := h
  exact ⟨h7, h8, h9, h10⟩

theorem CutExact_congr (p q : ChasmDSPProcessor α J) (h : p.cutState = q.cutState)
    (hp : CutExact p) : CutExact q := by
  obtain ⟨_, h8, h9, _⟩ := cutState_limits p q h
  obtain ⟨h5, _, h3, _⟩ := cutState_fields p q h
  unfold CutExact at hp ⊢
  rw [← h8, ← h9, ← h5, ← h3]
  exact hp

theorem updateLowCut_CutExact (p : ChasmDSPProcessor α J) (h : CutExact p) :
    CutExact (updateLowCut p) := by
  unfold updateLowCut
  simp only []
  split
  · exact ⟨h.1, h.2.1, decide_eq_true_iff⟩
  · exact h

theorem updateHighCut_CutExact (p : ChasmDSPProcessor α J) (h : CutExact p) :
    CutExact (updateHighCut p) := by
  unfold updateHighCut
  simp only []
  split
  · exact h
  · exact h

theorem cutStep_CutExact (p : ChasmDSPProcessor α J) (h : CutExact p) : CutExact (cutStep p) :=
  updateHighCut_CutExact _ (updateLowCut_CutExact _ h)

theorem iterate_cutStep_CutExact (p : ChasmDSPProcessor α J) (h : CutExact p) (n : Nat) :
    CutExact (cutStep^[n] p) := by
  induction n with
  | zero => exact h
  | succ k ih =>
    rw [Function.iterate_succ_apply']
    exact cutStep_CutExact _ ih

/-- Every processor a client can build has the clamp limits of construction, and its low-cut
flag agrees with the cached low-cut cut-off. -/
theorem Reachable.cutExact {M : CMath α} {p : ChasmDSPProcessor α J} (h : Reachable M p) :
    CutExact p := by
  induction h with
  | default =>
    refine ⟨rfl, rfl, ?_⟩
    show (false = true) ↔ (1 : α) < 0
    constructor
    · intro ha; exact absurd ha Bool.false_ne_true
    · intro ha; exact absurd ha (by norm_num)
  | prepare p spec a1 a2 a3 a4 a5 a6 a7 a8 a9 a10 a11 mode a13 _ ih => exact ih
  | reset p a1 a2 a3 a4 a5 a6 a7 a8 a9 a10 a11 mode a13 _ ih => exact ih
  | updateParameters p a1 a2 a3 a4 a5 a6 a7 a8 a9 a10 a11 mode a13 _ ih => exact ih
  | processBlock p buffer _ ih =>
    exact CutExact_congr _ _ (processBlock_cutState M p buffer).symm
      (iterate_cutStep_CutExact p ih _)

/-- Clamping to the limits of construction does not move a cut-off across either threshold. -/
theorem jlimit_cut_thresholds (v : α) :
    (1 < jlimit 0 (44100 * (1 / 2) - 1) v ↔ 1 < v)
    ∧ (jlimit 0 (44100 * (1 / 2) - 1) v < 19999 ↔ v < 19999) := by
  unfold jlimit
  constructor
  · split_ifs with h1 h2
    · constructor
      · intro h; linarith
      · intro h; linarith
    · constructor
      · intro _; linarith
      · intro _; norm_num
    · exact Iff.rfl
  · split_ifs with h1 h2
    · constructor
      · intro _; linarith
      · intro _; norm_num
    · constructor
      · intro h; norm_num at h
      · intro h; linarith
    · exact Iff.rfl

/-- What the cut-off update does to the two filters: a cut-off that is not
`approximatelyEqual` to the cached one is clamped and passed to the filter, another one leaves
the filter alone. -/
theorem cutStep_filters (p : ChasmDSPProcessor α J) :
    (cutStep p).lowCutFilter
      = (if J.approximatelyEqual (p.lowCutSmoother.getNextValue).1 p.lastLowCut = false then
          J.svfSetCutoffFrequency p.lowCutFilter
            (jlimit p.lowCutMin p.lowCutMax (p.lowCutSmoother.getNextValue).1)
        else p.lowCutFilter)
    ∧ (cutStep p).highCutFilter
      = (if J.approximatelyEqual (p.highCutSmoother.getNextValue).1 p.lastHighCut = false then
          J.svfSetCutoffFrequency p.highCutFilter
            (jlimit p.highCutMin p.highCutMax (p.highCutSmoother.getNextValue).1)
        else p.highCutFilter) := by
  have hl : ∀ q : ChasmDSPProcessor α J,
      (updateLowCut q).lowCutFilter
        = (if J.approximatelyEqual (q.lowCutSmoother.getNextValue).1 q.lastLowCut = false then
            J.svfSetCutoffFrequency q.lowCutFilter
              (jlimit q.lowCutMin q.lowCutMax (q.lowCutSmoother.getNextValue).1)
          else q.lowCutFilter)
      ∧ (updateLowCut q).highCutFilter = q.highCutFilter := by
    intro q
    unfold updateLowCut
    simp only []
    cases hq : J.approximatelyEqual (q.lowCutSmoother.getNextValue).1 q.lastLowCut
    · simp only [Bool.not_false, if_true]
      exact ⟨trivial, trivial⟩
    · simp only [Bool.not_true, Bool.false_eq_true, if_false]
      refine ⟨?_, ?_⟩
      · rw [if_neg (by decide)]
      · first | rfl | trivial
  have hh : ∀ q : ChasmDSPProcessor α J,
      (updateHighCut q).highCutFilter
        = (if J.approximatelyEqual (q.highCutSmoother.getNextValue).1 q.lastHighCut = false then
            J.svfSetCutoffFrequency q.highCutFilter
              (jlimit q.highCutMin q.highCutMax (q.highCutSmoother.getNextValue).1)
          else q.highCutFilter)
      ∧ (updateHighCut q).lowCutFilter = q.lowCutFilter := by
    intro q
    unfold updateHighCut
    simp only []
    cases hq : J.approximatelyEqual (q.highCutSmoother.getNextValue).1 q.lastHighCut
    · simp only [Bool.not_false, if_true]
      exact ⟨trivial, trivial⟩
    · simp only [Bool.not_true, Bool.false_eq_true, if_false]
      refine ⟨?_, ?_⟩
      · rw [if_neg (by decide)]
      · first | rfl | trivial
  obtain ⟨_, _, _, h4, h5, h6, h7⟩ := cutStep_fields p
  unfold cutStep
  refine ⟨(hh _).2.trans (hl p).1, ?_⟩
  rw [(hh _).1, h4, h5, h6, h7, (hl p).2]

/-- The filters and the bookkeeping with which sample `i` is processed are those of the
cut-off update of the processor the iteration started with. -/
theorem atSample_filters (i : Nat) (p : ChasmDSPProcessor α J) :
    (atSample i p).2.lowCutFilter = (cutStep p).lowCutFilter
    ∧ (atSample i p).2.highCutFilter = (cutStep p).highCutFilter := by
  have h := cutStep_filters (advanceControls p).2
  have h0 := cutStep_filters p
  have e1 : (cutStep (advanceControls p).2).lowCutFilter = (cutStep p).lowCutFilter :=
    h.1.trans h0.1.symm
  have e2 : (cutStep (advanceControls p).2).highCutFilter = (cutStep p).highCutFilter :=
    h.2.trans h0.2.symm
  rw [atSample_snd]
  split
  · exact ⟨e1, e2⟩
  · exact ⟨e1, e2⟩

/-- The members `prepare` and `reset` snap the high-cut smoother to the supplied cut-off and
leave the cached cut-off and the flag as they were. -/
theorem prepare_highCut (M : CMath α) (p : ChasmDSPProcessor α J) (spec : ProcessSpec α)
    (a1 a2 a3 a4 a5 a6 a7 highCut a9 a10 a11 : α) (mode : Int) (a13 : α) :
    (p.prepare M spec a1 a2 a3 a4 a5 a6 a7 highCut a9 a10 a11 mode a13).highCutSmoother.currentValue
        = highCut
    ∧ (p.prepare M spec a1 a2 a3 a4 a5 a6 a7 highCut a9 a10 a11 mode a13).highCutSmoother.targetValue
        = highCut
    ∧ (p.prepare M spec a1 a2 a3 a4 a5 a6 a7 highCut a9 a10 a11 mode a13).lastHighCut
        = p.lastHighCut
    ∧ (p.prepare M spec a1 a2 a3 a4 a5 a6 a7 highCut a9 a10 a11 mode a13).highCutActive
        = p.highCutActive
    ∧ (p.prepare M spec a1 a2 a3 a4 a5 a6 a7 highCut a9 a10 a11 mode a13).sampleRate
        = spec.sampleRate :=
  ⟨rfl, rfl, rfl, rfl, rfl⟩

/-- The facts about the processor with which sample `i` is processed that the cut-off claims
need, for a processor a client can build. -/
theorem processorAt_cut_facts (M : CMath α) (p : ChasmDSPProcessor α J) (hp : Reachable M p)
    (buffer : AudioBuffer α) (i : Nat) :
    CutInv (beforeIndex M p buffer i).1 ∧ CutExact (beforeIndex M p buffer i).1
    ∧ CutInv (processorAt M p buffer i) ∧ CutExact (processorAt M p buffer i)
    ∧ (processorAt M p buffer i).cutState = (cutStep (beforeIndex M p buffer i).1).cutState := by
  have hb := beforeIndex_cutState M p buffer i
  have hinv0 : CutInv (beforeIndex M p buffer i).1 :=
    CutInv_congr _ _ hb.symm (iterate_cutStep_CutInv p hp.cutInv i)
  have hex0 : CutExact (beforeIndex M p buffer i).1 :=
    CutExact_congr _ _ hb.symm (iterate_cutStep_CutExact p hp.cutExact i)
  have hcs : (processorAt M p buffer i).cutState
      = (cutStep (beforeIndex M p buffer i).1).cutState :=
    atSample_cutState i (beforeIndex M p buffer i).1
  exact ⟨hinv0, hex0, CutInv_congr _ _ hcs.symm (cutStep_CutInv _ hinv0),
    CutExact_congr _ _ hcs.symm (cutStep_CutExact _ hex0), hcs⟩

end ChasmDSPProcessor

open ChasmDSPProcessor

/-- C34 (counterexample to the claim as worded): the default processor prepared with the
default cut-offs of 0 Hz, on the stereo test block: at sample 0 the smoothed high-cut cut-off
is 0 Hz, which is below 19999 Hz, yet `highCutActive` is false, because 0 equals the cached
cut-off of construction and the flag is not computed. -/
theorem C34_high_cut_flag_at_default_cutoff_counterexample :
    highCutAt CMath.rational ChasmDSPProcessor.preparedStereo AudioBuffer.stereoRamp 0 = 0
    ∧ (processorAt CMath.rational ChasmDSPProcessor.preparedStereo
        AudioBuffer.stereoRamp 0).highCutActive = false
    ∧ ¬ ((processorAt CMath.rational ChasmDSPProcessor.preparedStereo
          AudioBuffer.stereoRamp 0).highCutActive = true
        ↔ highCutAt CMath.rational ChasmDSPProcessor.preparedStereo AudioBuffer.stereoRamp 0
            < 19999) := by
  obtain ⟨hc, ht, hl, ha, _⟩ := prepare_highCut CMath.rational
    (ChasmDSPProcessor.default : ChasmDSPProcessor ℚ Juce.passThrough) ⟨44100, 512, 2⟩
    1 1 (1 / 2) 30 0 1 0 0 100 1 0 0 0
  have hnext : (ChasmDSPProcessor.preparedStereo.highCutSmoother.getNextValue).1 = 0 :=
    getNextValue_of_rest _ _ hc ht
  have hlast : ChasmDSPProcessor.preparedStereo.lastHighCut = 0 := hl
  have hact : ChasmDSPProcessor.preparedStereo.highCutActive = false := ha
  have hb := beforeIndex_cutState CMath.rational ChasmDSPProcessor.preparedStereo
    AudioBuffer.stereoRamp 0
  have hcs : (processorAt CMath.rational ChasmDSPProcessor.preparedStereo
      AudioBuffer.stereoRamp 0).cutState = (cutStep ChasmDSPProcessor.preparedStereo).cutState :=
    (atSample_cutState 0 _).trans (cutStep_congr _ _ hb)
  obtain ⟨_, hfh, _, _⟩ := cutState_fields _ _ hcs
  obtain ⟨_, _, _, _, _, hsm⟩ := cutState_fields _ _ hb
  have hap : Juce.passThrough.approximatelyEqual
      (ChasmDSPProcessor.preparedStereo.highCutSmoother.getNextValue).1
      ChasmDSPProcessor.preparedStereo.lastHighCut = true := by
    rw [hnext, hlast]
    show decide ((0 : ℚ) = 0) = true
    exact decide_eq_true rfl
  have hflag : (processorAt CMath.rational ChasmDSPProcessor.preparedStereo
      AudioBuffer.stereoRamp 0).highCutActive = false := by
    rw [hfh, ((cutStep_highCut ChasmDSPProcessor.preparedStereo).2 hap).1]
    exact hact
  have hcut : highCutAt CMath.rational ChasmDSPProcessor.preparedStereo AudioBuffer.stereoRamp 0
      = 0 := by
    unfold highCutAt
    rw [hsm]
    exact hnext
  refine ⟨hcut, hflag, ?_⟩
  intro h
  have := h.2 (by rw [hcut]; norm_num)
  rw [hflag] at this
  exact Bool.noConfusion this

/-- C34 (amended): at every sample processed by `processBlock`, for every processor built from
construction by `prepare`, `reset`, `updateParameters` and `processBlock`: when the smoothed
low-cut cut-off is not `approximatelyEqual` to the cached one, `lowCutActive` is true exactly
when that cut-off is above 1 Hz, and when the smoothed high-cut cut-off is not
`approximatelyEqual` to the cached one, `highCutActive` is true exactly when that cut-off is
below 19999 Hz; a cut-off that is `approximatelyEqual` to the cached one leaves its flag as it
was; `lowCutActive` is true exactly when the cached low-cut cut-off is above 1 Hz, and
`highCutActive` is true only when the cached high-cut cut-off is below 19999 Hz. -/
theorem C34_cut_flags_follow_fresh_cutoff {α : Type} [LinearOrderedField α] [FloorRing α]
    {J : Juce α} (M : CMath α) (p : ChasmDSPProcessor α J) (hp : ChasmDSPProcessor.Reachable M p)
    (buffer : AudioBuffer α) (i : Nat) :
    (J.approximatelyEqual (lowCutAt M p buffer i) (beforeIndex M p buffer i).1.lastLowCut
          = false →
        ((processorAt M p buffer i).lowCutActive = true ↔ 1 < lowCutAt M p buffer i))
    ∧ (J.approximatelyEqual (highCutAt M p buffer i) (beforeIndex M p buffer i).1.lastHighCut
          = false →
        ((processorAt M p buffer i).highCutActive = true ↔ highCutAt M p buffer i < 19999))
    ∧ (J.approximatelyEqual (lowCutAt M p buffer i) (beforeIndex M p buffer i).1.lastLowCut
          = true →
        (processorAt M p buffer i).lowCutActive = (beforeIndex M p buffer i).1.lowCutActive)
    ∧ (J.approximatelyEqual (highCutAt M p buffer i) (beforeIndex M p buffer i).1.lastHighCut
          = true →
        (processorAt M p buffer i).highCutActive = (beforeIndex M p buffer i).1.highCutActive)
    ∧ ((processorAt M p buffer i).lowCutActive = true ↔ 1 < (processorAt M p buffer i).lastLowCut)
    ∧ ((processorAt M p buffer i).highCutActive = true →
        (processorAt M p buffer i).lastHighCut < 19999) := by
  obtain ⟨hinv0, hex0, hinv, hex, hcs⟩ := processorAt_cut_facts M p hp buffer i
  obtain ⟨hfl, hfh, _⟩ := cutState_fields _ _ hcs
  refine ⟨?_, ?_, ?_, ?_, hex.2.2, hinv.2.2.2⟩
  · intro ha
    have h := ((cutStep_lowCut (beforeIndex M p buffer i).1).1 ha).1
    rw [hfl, h, hinv0.1, hex0.1, decide_eq_true_iff]
    exact (jlimit_cut_thresholds _).1
  · intro ha
    have h := ((cutStep_highCut (beforeIndex M p buffer i).1).1 ha).1
    rw [hfh, h, hinv0.2.1, hex0.2.1, decide_eq_true_iff]
    exact (jlimit_cut_thresholds _).2
  · intro ha
    rw [hfl]
    exact ((cutStep_lowCut (beforeIndex M p buffer i).1).2 ha).1
  · intro ha
    rw [hfh]
    exact ((cutStep_highCut (beforeIndex M p buffer i).1).2 ha).1

/-- Witness of C34: the default processor, on the stereo test block at sample 0: the smoothed
cut-offs equal the cached ones, so both flags are as they were. -/
theorem C34_cut_flags_follow_fresh_cutoff_witness :
    ChasmDSPProcessor.Reachable CMath.rational
        (ChasmDSPProcessor.default : ChasmDSPProcessor ℚ Juce.passThrough)
    ∧ ((processorAt CMath.rational (ChasmDSPProcessor.default : ChasmDSPProcessor ℚ Juce.passThrough)
          AudioBuffer.stereoRamp 0).lowCutActive = true
        ↔ 1 < (processorAt CMath.rational
          (ChasmDSPProcessor.default : ChasmDSPProcessor ℚ Juce.passThrough)
          AudioBuffer.stereoRamp 0).lastLowCut) :=
  ⟨ChasmDSPProcessor.Reachable.default,
    (C34_cut_flags_follow_fresh_cutoff CMath.rational
      (ChasmDSPProcessor.default : ChasmDSPProcessor ℚ Juce.passThrough)
      ChasmDSPProcessor.Reachable.default AudioBuffer.stereoRamp 0).2.2.2.2.1⟩

/-- C35 (evaluation of the code): for every processor built from construction by `prepare`
(at any sample rate), `reset`, `updateParameters` and `processBlock`, the clamp limits used at
every sample are those of construction, 0 and `44100 / 2 - 1 = 22049` Hz: a cut-off that is
not `approximatelyEqual` to the cached one is passed to its filter clamped to `[0, 22049]`,
whatever the prepared sample rate is, and a cut-off that is `approximatelyEqual` to the cached
one is not passed on. -/
theorem C35_cut_limits_fixed_at_construction {α : Type} [LinearOrderedField α] [FloorRing α]
    {J : Juce α} (M : CMath α) (p : ChasmDSPProcessor α J) (hp : ChasmDSPProcessor.Reachable M p)
    (buffer : AudioBuffer α) (i : Nat) :
    ((processorAt M p buffer i).lowCutMin = 0
      ∧ (processorAt M p buffer i).lowCutMax = 44100 * (1 / 2) - 1
      ∧ (processorAt M p buffer i).highCutMin = 0
      ∧ (processorAt M p buffer i).highCutMax = 44100 * (1 / 2) - 1)
    ∧ (processorAt M p buffer i).lowCutFilter
        = (if J.approximatelyEqual (lowCutAt M p buffer i)
              (beforeIndex M p buffer i).1.lastLowCut = false then
            J.svfSetCutoffFrequency (beforeIndex M p buffer i).1.lowCutFilter
              (jlimit 0 (44100 * (1 / 2) - 1) (lowCutAt M p buffer i))
          else (beforeIndex M p buffer i).1.lowCutFilter)
    ∧ (processorAt M p buffer i).highCutFilter
        = (if J.approximatelyEqual (highCutAt M p buffer i)
              (beforeIndex M p buffer i).1.lastHighCut = false then
            J.svfSetCutoffFrequency (beforeIndex M p buffer i).1.highCutFilter
              (jlimit 0 (44100 * (1 / 2) - 1) (highCutAt M p buffer i))
          else (beforeIndex M p buffer i).1.highCutFilter)
    ∧ (J.approximatelyEqual (lowCutAt M p buffer i) (beforeIndex M p buffer i).1.lastLowCut
          = false →
        (processorAt M p buffer i).lastLowCut
          = jlimit 0 (44100 * (1 / 2) - 1) (lowCutAt M p buffer i))
    ∧ (J.approximatelyEqual (highCutAt M p buffer i) (beforeIndex M p buffer i).1.lastHighCut
          = false →
        (processorAt M p buffer i).lastHighCut
          = jlimit 0 (44100 * (1 / 2) - 1) (highCutAt M p buffer i)) := by
  obtain ⟨hinv0, hex0, hinv, hex, hcs⟩ := processorAt_cut_facts M p hp buffer i
  obtain ⟨_, _, hll, hlh, _⟩ := cutState_fields _ _ hcs
  obtain ⟨hf1, hf2⟩ := atSample_filters i (beforeIndex M p buffer i).1
  obtain ⟨hc1, hc2⟩ := cutStep_filters (beforeIndex M p buffer i).1
  rw [hinv0.1, hex0.1] at hc1
  rw [hinv0.2.1, hex0.2.1] at hc2
  refine ⟨⟨hinv.1, hex.1, hex.2.1, hinv.2.1⟩, hf1.trans hc1, hf2.trans hc2, ?_, ?_⟩
  · intro ha
    have h := ((cutStep_lowCut (beforeIndex M p buffer i).1).1 ha).2
    rw [hinv0.1, hex0.1] at h
    exact hll.trans h
  · intro ha
    have h := ((cutStep_highCut (beforeIndex M p buffer i).1).1 ha).2
    rw [hinv0.2.1, hex0.2.1] at h
    exact hlh.trans h



open ChasmDSPProcessor

/-- The processor `preparedAt32k` at sample 0 of the stereo test block: it runs at 32000 Hz,
the smoothed high-cut cut-off is 20000 Hz and the cached one is the 0 Hz of construction. -/
theorem ChasmDSPProcessor.preparedAt32k_facts :
    ChasmDSPProcessor.preparedAt32k.sampleRate = 32000
    ∧ highCutAt CMath.rational ChasmDSPProcessor.preparedAt32k AudioBuffer.stereoRamp 0 = 20000
    ∧ (beforeIndex CMath.rational ChasmDSPProcessor.preparedAt32k
        AudioBuffer.stereoRamp 0).1.lastHighCut = 0 := by
  obtain ⟨hc, ht, hl, _, hsr⟩ := prepare_highCut CMath.rational
    (ChasmDSPProcessor.default : ChasmDSPProcessor ℚ Juce.passThrough) ⟨32000, 512, 2⟩
    1 1 (1 / 2) 30 0 1 0 20000 100 1 0 0 0
  have hnext : (ChasmDSPProcessor.preparedAt32k.highCutSmoother.getNextValue).1 = 20000 :=
    getNextValue_of_rest _ _ hc ht
  have hlast : ChasmDSPProcessor.preparedAt32k.lastHighCut = 0 := hl
  have hb := beforeIndex_cutState CMath.rational ChasmDSPProcessor.preparedAt32k
    AudioBuffer.stereoRamp 0
  obtain ⟨_, _, _, hlh, _, hsm⟩ := cutState_fields _ _ hb
  refine ⟨hsr, ?_, hlh.trans hlast⟩
  unfold highCutAt
  rw [hsm]
  exact hnext

/-- Witness of C35: the default processor prepared at 32000 Hz with a high-cut cut-off of
20000 Hz, on the stereo test block: at sample 0 the upper clamp limit is 22049 Hz and the
cut-off handed to the high-cut filter is 20000 Hz, which is above the Nyquist frequency of
16000 Hz. -/
theorem C35_cut_limits_fixed_at_construction_witness :
    ChasmDSPProcessor.Reachable CMath.rational ChasmDSPProcessor.preparedAt32k
    ∧ ChasmDSPProcessor.preparedAt32k.sampleRate = 32000
    ∧ (processorAt CMath.rational ChasmDSPProcessor.preparedAt32k
        AudioBuffer.stereoRamp 0).highCutMax = 22049
    ∧ (processorAt CMath.rational ChasmDSPProcessor.preparedAt32k
        AudioBuffer.stereoRamp 0).lastHighCut = 20000
    ∧ ¬ ((20000 : ℚ) ≤ 32000 * (1 / 2) - 1) := by
  have hr : ChasmDSPProcessor.Reachable CMath.rational ChasmDSPProcessor.preparedAt32k :=
    ChasmDSPProcessor.Reachable.prepare _ ⟨32000, 512, 2⟩ 1 1 (1 / 2) 30 0 1 0 20000 100 1 0 0 0
      ChasmDSPProcessor.Reachable.default
  obtain ⟨hsr, hcut, hlast⟩ := ChasmDSPProcessor.preparedAt32k_facts
  have h := C35_cut_limits_fixed_at_construction CMath.rational ChasmDSPProcessor.preparedAt32k
    hr AudioBuffer.stereoRamp 0
  have hap : Juce.passThrough.approximatelyEqual
      (highCutAt CMath.rational ChasmDSPProcessor.preparedAt32k AudioBuffer.stereoRamp 0)
      (beforeIndex CMath.rational ChasmDSPProcessor.preparedAt32k
        AudioBuffer.stereoRamp 0).1.lastHighCut = false := by
    rw [hcut, hlast]
    show decide ((20000 : ℚ) = 0) = false
    exact decide_eq_false (by norm_num)
  have hl := h.2.2.2.2 hap
  rw [hcut] at hl
  refine ⟨hr, hsr, h.1.2.2.2.trans (by norm_num), hl.trans ?_, by norm_num⟩
  unfold jlimit
  norm_num

namespace ChasmDSPProcessor

variable {α : Type} [LinearOrderedField α] [FloorRing α] {J : Juce α}

/-- One `getNextValue` keeps a smoother with coefficient, current value and target value in
`[0, 1]` in that state: the new current value is a convex combination of the old one and the
target. -/
theorem advance_UnitMix (s : ParameterSmoother α) (h : UnitMix s) :
    UnitMix (ParameterSmoother.advance s) := by
  obtain ⟨⟨hc0, hc1⟩, ⟨hv0, hv1⟩, ⟨ht0, ht1⟩⟩ := h
  refine ⟨⟨hc0, hc1⟩, ⟨?_, ?_⟩, ⟨ht0, ht1⟩⟩
  · rw [ParameterSmoother.advance_currentValue]
    have e : s.currentValue + s.smoothingCoeff * (s.targetValue - s.currentValue)
        = (1 - s.smoothingCoeff) * s.currentValue + s.smoothingCoeff * s.targetValue := by ring
    rw [e]
    exact add_nonneg (mul_nonneg (by linarith) hv0) (mul_nonneg hc0 ht0)
  · rw [ParameterSmoother.advance_currentValue]
    have e : s.currentValue + s.smoothingCoeff * (s.targetValue - s.currentValue)
        = 1 - ((1 - s.smoothingCoeff) * (1 - s.currentValue)
            + s.smoothingCoeff * (1 - s.targetValue)) := by ring
    rw [e]
    have := add_nonneg (mul_nonneg (show 0 ≤ 1 - s.smoothingCoeff by linarith)
      (show 0 ≤ 1 - s.currentValue by linarith))
      (mul_nonneg hc0 (show 0 ≤ 1 - s.targetValue by linarith))
    linarith

theorem iterate_advance_UnitMix (s : ParameterSmoother α) (h : UnitMix s) (n : Nat) :
    UnitMix (ParameterSmoother.advance^[n] s) := by
  induction n with
  | zero => exact h
  | succ k ih =>
    rw [Function.iterate_succ_apply']
    exact advance_UnitMix _ ih

/-- The mix smoother after `processBlock` is the one on entry advanced once per sample. -/
theorem processBlock_mixSmoother (M : CMath α) (p : ChasmDSPProcessor α J)
    (buffer : AudioBuffer α) :
    (p.processBlock M buffer).1.mixSmoother
      = ParameterSmoother.advance^[buffer.numSamples] p.mixSmoother := by
  obtain ⟨_, hmix, _⟩ := wetPath_frame M p buffer
  obtain ⟨_, _, m1, _⟩ := mixLoop_spec (wetPath M p buffer).1 (wetPath M p buffer).2
    buffer.numSamples
  rw [hmix] at m1
  exact m1

/-- What the members do to the mix smoother. -/
theorem mixSmoother_of_members (M : CMath α) (p : ChasmDSPProcessor α J) (spec : ProcessSpec α)
    (a1 a2 mix a4 a5 a6 a7 a8 a9 a10 a11 : α) (mode : Int) (a13 : α) :
    ((p.prepare M spec a1 a2 mix a4 a5 a6 a7 a8 a9 a10 a11 mode a13).mixSmoother.smoothingCoeff
        = (p.mixSmoother.prepare M spec.sampleRate 5).smoothingCoeff
      ∧ (p.prepare M spec a1 a2 mix a4 a5 a6 a7 a8 a9 a10 a11 mode a13).mixSmoother.currentValue
        = mix
      ∧ (p.prepare M spec a1 a2 mix a4 a5 a6 a7 a8 a9 a10 a11 mode a13).mixSmoother.targetValue
        = mix)
    ∧ ((p.reset a1 a2 mix a4 a5 a6 a7 a8 a9 a10 a11 mode a13).mixSmoother.smoothingCoeff
        = p.mixSmoother.smoothingCoeff
      ∧ (p.reset a1 a2 mix a4 a5 a6 a7 a8 a9 a10 a11 mode a13).mixSmoother.currentValue = mix
      ∧ (p.reset a1 a2 mix a4 a5 a6 a7 a8 a9 a10 a11 mode a13).mixSmoother.targetValue = mix)
    ∧ ((p.updateParameters M a1 a2 mix a4 a5 a6 a7 a8 a9 a10 a11 mode a13).mixSmoother.smoothingCoeff
        = p.mixSmoother.smoothingCoeff
      ∧ (p.updateParameters M a1 a2 mix a4 a5 a6 a7 a8 a9 a10 a11 mode a13).mixSmoother.currentValue
        = p.mixSmoother.currentValue
      ∧ (p.updateParameters M a1 a2 mix a4 a5 a6 a7 a8 a9 a10 a11 mode a13).mixSmoother.targetValue
        = DSPUtils.percentageToNormalized mix) :=
  ⟨⟨rfl, rfl, rfl⟩, ⟨rfl, rfl, rfl⟩, ⟨rfl, rfl, rfl⟩⟩

end ChasmDSPProcessor

/-- Over the reals with `std::exp` the exponential, `prepare` with a positive sample rate and
a smoothing time of 5 ms gives a coefficient in `[0, 1]`. -/
theorem ParameterSmoother.prepare_coeff_unit (M : CMath ℝ) (hexp : M.exp = Real.exp)
    (s : ParameterSmoother ℝ) (sampleRate : ℝ) (hsr : 0 < sampleRate) :
    0 ≤ (s.prepare M sampleRate 5).smoothingCoeff
    ∧ (s.prepare M sampleRate 5).smoothingCoeff ≤ 1 := by
  have hval : (s.prepare M sampleRate 5).smoothingCoeff
      = 1 - Real.exp (-1 / (5 * (1 / 1000) * sampleRate)) := by
    simp only [ParameterSmoother.prepare, gt_iff_lt, if_pos (show (0 : ℝ) < 5 by norm_num), hexp]
  have hx : 0 < 5 * (1 / 1000) * sampleRate := by positivity
  have hneg : -1 / (5 * (1 / 1000) * sampleRate) < 0 :=
    div_neg_of_neg_of_pos (by norm_num) hx
  have h1 : Real.exp (-1 / (5 * (1 / 1000) * sampleRate)) < 1 := Real.exp_lt_one_iff.mpr hneg
  have h0 : 0 < Real.exp (-1 / (5 * (1 / 1000) * sampleRate)) := Real.exp_pos _
  rw [hval]
  constructor <;> linarith

/-- Every processor built with positive sample rates and mix values in `[0, 1]` has its mix
smoother's coefficient, current value and target value in `[0, 1]`. -/
theorem ChasmDSPProcessor.ReachableWithUnitMix.unitMix {J : Juce ℝ} {M : CMath ℝ}
    (hexp : M.exp = Real.exp) {p : ChasmDSPProcessor ℝ J}
    (h : ChasmDSPProcessor.ReachableWithUnitMix M p) : ChasmDSPProcessor.UnitMix p.mixSmoother := by
  induction h with
  | default =>
    refine ⟨⟨?_, ?_⟩, ⟨?_, ?_⟩, ⟨?_, ?_⟩⟩
    · show (0 : ℝ) ≤ 1
      norm_num
    · show (1 : ℝ) ≤ 1
      norm_num
    · show (0 : ℝ) ≤ 0
      norm_num
    · show (0 : ℝ) ≤ 1
      norm_num
    · show (0 : ℝ) ≤ 0
      norm_num
    · show (0 : ℝ) ≤ 1
      norm_num
  | prepare p spec a1 a2 mix a4 a5 a6 a7 a8 a9 a10 a11 mode a13 hsr h0 h1 =>
    obtain ⟨⟨e1, e2, e3⟩, _, _⟩ := ChasmDSPProcessor.mixSmoother_of_members M p spec
      a1 a2 mix a4 a5 a6 a7 a8 a9 a10 a11 mode a13
    unfold ChasmDSPProcessor.UnitMix
    rw [e1, e2, e3]
    exact ⟨ParameterSmoother.prepare_coeff_unit M hexp _ _ hsr, ⟨h0, h1⟩, ⟨h0, h1⟩⟩
  | reset p a1 a2 mix a4 a5 a6 a7 a8 a9 a10 a11 mode a13 _ h0 h1 ih =>
    obtain ⟨_, ⟨e1, e2, e3⟩, _⟩ := ChasmDSPProcessor.mixSmoother_of_members M p ⟨0, 0, 0⟩
      a1 a2 mix a4 a5 a6 a7 a8 a9 a10 a11 mode a13
    unfold ChasmDSPProcessor.UnitMix
    rw [e1, e2, e3]
    exact ⟨ih.1, ⟨h0, h1⟩, ⟨h0, h1⟩⟩
  | updateParameters p a1 a2 mix a4 a5 a6 a7 a8 a9 a10 a11 mode a13 _ ih =>
    obtain ⟨_, _, ⟨e1, e2, e3⟩⟩ := ChasmDSPProcessor.mixSmoother_of_members M p ⟨0, 0, 0⟩
      a1 a2 mix a4 a5 a6 a7 a8 a9 a10 a11 mode a13
    unfold ChasmDSPProcessor.UnitMix
    rw [e1, e2, e3]
    refine ⟨ih.1, ih.2.1, ?_⟩
    unfold DSPUtils.percentageToNormalized
    exact AllpassFilter.jlimit_mem 0 1 _ (by norm_num)
  | processBlock p buffer _ ih =>
    rw [ChasmDSPProcessor.processBlock_mixSmoother]
    exact ChasmDSPProcessor.iterate_advance_UnitMix _ ih _

open ChasmDSPProcessor

/-- C37: over the reals with `std::exp` the exponential, for a processor built from
construction or `prepare` by calls of `prepare` (positive sample rate, mix in `[0, 1]`),
`reset` (mix in `[0, 1]`), `updateParameters` (arbitrary arguments) and `processBlock`: in
`processBlock` the mix value that iteration `j` of the final loop reads from the mix smoother
is the smoother's value after `j + 1` advances, it lies in `[0, 1]`, and the output sample is
the smoothed output gain times `dry * (1 - mix) + wet * mix`, a convex combination of the dry
and the wet sample. -/
theorem C37_mix_stays_in_unit_interval {J : Juce ℝ} (M : CMath ℝ) (hexp : M.exp = Real.exp)
    (p : ChasmDSPProcessor ℝ J) (hp : ChasmDSPProcessor.ReachableWithUnitMix M p)
    (buffer : AudioBuffer ℝ) (c j : Nat) (hc : c < buffer.numChannels)
    (hj : j < buffer.numSamples) :
    ((forLoop j mixIndex (wetPath M p buffer)).1.mixSmoother.getNextValue).1
        = (ParameterSmoother.advance^[j + 1] p.mixSmoother).currentValue
    ∧ 0 ≤ (ParameterSmoother.advance^[j + 1] p.mixSmoother).currentValue
    ∧ (ParameterSmoother.advance^[j + 1] p.mixSmoother).currentValue ≤ 1
    ∧ 0 ≤ 1 - (ParameterSmoother.advance^[j + 1] p.mixSmoother).currentValue
    ∧ (p.processBlock M buffer).2.data c j
        = (ParameterSmoother.advance^[j + 1] p.outputGainSmoother).currentValue
          * ((1 - (ParameterSmoother.advance^[j + 1] p.mixSmoother).currentValue)
                * buffer.data c j
              + (ParameterSmoother.advance^[j + 1] p.mixSmoother).currentValue
                * (wetPath M p buffer).1.wetBuffer.data c j) := by
  obtain ⟨hdry, hmix, hog, hnc, _⟩ := wetPath_frame M p buffer
  obtain ⟨_, _, _, _, _, hdata⟩ := mixLoop_spec (wetPath M p buffer).1 (wetPath M p buffer).2
    buffer.numSamples
  obtain ⟨_, _, m1, _⟩ := mixLoop_spec (wetPath M p buffer).1 (wetPath M p buffer).2 j
  have hu := (ChasmDSPProcessor.iterate_advance_UnitMix _ (hp.unitMix hexp) (j + 1)).2.1
  refine ⟨?_, hu.1, hu.2, by linarith [hu.2], ?_⟩
  · rw [ParameterSmoother.getNextValue_fst, m1, hmix, Function.iterate_succ_apply']
  · have h := hdata c j
    rw [if_pos ⟨hj, hnc.symm ▸ hc⟩, hdry, hmix, hog] at h
    have e : (p.processBlock M buffer).2.data c j
        = (forLoop buffer.numSamples mixIndex
            ((wetPath M p buffer).1, (wetPath M p buffer).2)).2.data c j := rfl
    rw [e, h]
    ring

/-- Witness of C37: with the real exponential, the default processor prepared at 44100 Hz with
a mix of one half, on a stereo block of one sample: the mix of sample 0 lies in `[0, 1]`. -/
theorem C37_mix_stays_in_unit_interval_witness :
    0 ≤ (ParameterSmoother.advance^[0 + 1]
          ((ChasmDSPProcessor.default : ChasmDSPProcessor ℝ (Juce.stateless ℝ)).prepare
            ⟨Real.exp, Real.log, Real.tanh, fun x y => x ^ y, fun _ => false, fun _ => false⟩
            ⟨44100, 512, 2⟩ 1 1 (1 / 2) 30 0 1 0 0 100 1 0 0 0).mixSmoother).currentValue
    ∧ (ParameterSmoother.advance^[0 + 1]
          ((ChasmDSPProcessor.default : ChasmDSPProcessor ℝ (Juce.stateless ℝ)).prepare
            ⟨Real.exp, Real.log, Real.tanh, fun x y => x ^ y, fun _ => false, fun _ => false⟩
            ⟨44100, 512, 2⟩ 1 1 (1 / 2) 30 0 1 0 0 100 1 0 0 0).mixSmoother).currentValue ≤ 1 :=
  have h := C37_mix_stays_in_unit_interval
    ⟨Real.exp, Real.log, Real.tanh, fun x y => x ^ y, fun _ => false, fun _ => false⟩ rfl
    ((ChasmDSPProcessor.default : ChasmDSPProcessor ℝ (Juce.stateless ℝ)).prepare
      ⟨Real.exp, Real.log, Real.tanh, fun x y => x ^ y, fun _ => false, fun _ => false⟩
      ⟨44100, 512, 2⟩ 1 1 (1 / 2) 30 0 1 0 0 100 1 0 0 0)
    (ChasmDSPProcessor.ReachableWithUnitMix.prepare _ ⟨44100, 512, 2⟩ 1 1 (1 / 2) 30 0 1 0 0 100
      1 0 0 0 (by norm_num) (by norm_num) (by norm_num))
    ⟨2, 1, fun _ _ => 1⟩ 0 0 (by decide) (by decide)
  ⟨h.2.1, h.2.2.1⟩

/-- The hyperbolic tangent of a real number lies strictly between -1 and 1. -/
theorem abs_tanh_lt_one (x : ℝ) : |Real.tanh x| < 1 := by
  have hc := Real.cosh_pos x
  have h1 : Real.sinh x < Real.cosh x := Real.sinh_lt_cosh x
  have h2 : -Real.cosh x < Real.sinh x := by
    have h := Real.sinh_lt_cosh (-x)
    rw [Real.sinh_neg, Real.cosh_neg] at h
    linarith
  rw [Real.tanh_eq_sinh_div_cosh, abs_div, abs_of_pos hc, div_lt_one hc]
  exact abs_lt.mpr ⟨h2, h1⟩

/-- C38: over the reals with `std::tanh` the hyperbolic tangent, for every state of the
loudness stage (so for every input gain and boost) and every input sample, the waveshaped
sample has magnitude strictly below 1; hence every sample of the buffer handed to the
post-compressor does, and when the stage runs (enabled, non-empty block) that buffer is what
the post-compressor processes. -/
theorem C38_waveshaper_output_below_one {J : Juce ℝ} (M : CMath ℝ) (htanh : M.tanh = Real.tanh)
    (m : MakeItLoud ℝ J) (buffer : AudioBuffer ℝ) :
    (∀ s : ℝ, |MakeItLoud.waveshape M m s| < 1)
    ∧ (∀ c j, c < (MakeItLoud.beforePostCompressor M m buffer).1.numChannels →
        j < (MakeItLoud.beforePostCompressor M m buffer).1.numSamples →
        |(MakeItLoud.beforePostCompressor M m buffer).1.getSample c j| < 1)
    ∧ (m._enabled = true → buffer.numChannels ≠ 0 → buffer.numSamples ≠ 0 →
        (m.processBlock M buffer).1
          = ((MakeItLoud.beforePostCompressor M m buffer).2._postCompressor.process
              (MakeItLoud.beforePostCompressor M m buffer).1).1) := by
  have hw : ∀ (m1 : MakeItLoud ℝ J) (s : ℝ), |MakeItLoud.waveshape M m1 s| < 1 := by
    intro m1 s
    have hdef : MakeItLoud.waveshape M m1 s
        = if (M.isnan (M.tanh (s * m1._boostValue))
              || M.isinf (M.tanh (s * m1._boostValue))) = true then 0
          else M.tanh (s * m1._boostValue) := rfl
    rw [hdef]
    split
    · rw [abs_zero]
      exact zero_lt_one
    · rw [htanh]
      exact abs_tanh_lt_one _
  refine ⟨hw m, ?_, fun hen hc hs => ?_⟩
  · intro c j hc hj
    obtain ⟨d1, d2, d3⟩ := forLoop_mapBlock
      (MakeItLoud.waveshape M (MakeItLoud.beforePostCompressor M m buffer).2)
      (J.gainProcess (J.gainSetGainLinear m._boostGain m._boostValue)
        (J.gainProcess (J.gainSetGainLinear m._inputGain m._inputGainValue)
          (m._preCompressor.process buffer).1).1).1.numChannels
      (J.gainProcess (J.gainSetGainLinear m._boostGain m._boostValue)
        (J.gainProcess (J.gainSetGainLinear m._inputGain m._inputGainValue)
          (m._preCompressor.process buffer).1).1).1
    have hc' := (show _ = _ from d1) ▸ hc
    have hj' := (show _ = _ from d2) ▸ hj
    have hd : (MakeItLoud.beforePostCompressor M m buffer).1.getSample c j = _ := d3 c j
    rw [hd, if_pos ⟨hc', hj'⟩]
    exact hw _ _
  · rw [MakeItLoud.processBlock_of_enabled M m buffer hen hc hs]

/-- Witness of C38: with the real hyperbolic tangent, the default loudness stage waveshapes
the sample 3 to a value of magnitude below 1. -/
theorem C38_waveshaper_output_below_one_witness :
    |MakeItLoud.waveshape
        ⟨Real.exp, Real.log, Real.tanh, fun x y => x ^ y, fun _ => false, fun _ => false⟩
        (MakeItLoud.default : MakeItLoud ℝ (Juce.stateless ℝ)) 3| < 1 :=
  (C38_waveshaper_output_below_one
    ⟨Real.exp, Real.log, Real.tanh, fun x y => x ^ y, fun _ => false, fun _ => false⟩ rfl
    (MakeItLoud.default : MakeItLoud ℝ (Juce.stateless ℝ)) ⟨2, 1, fun _ _ => 1⟩).1 3

namespace SmoothLimiter

variable {α : Type} [LinearOrderedField α] {J : Juce α}

/-- The private member `dynamicLimit` on a sample of magnitude below one half, for a limiter
that satisfies the invariant: the envelope stays in `[0, 1/2)`, below the threshold, so the
sample is returned unchanged and nothing but the envelope follower changes. -/
theorem dynamicLimit_of_small (l : SmoothLimiter α J) (h : Inv l) (s : α) (hs : |s| < 1 / 2) :
    (dynamicLimit l s).1 = s ∧ Inv (dynamicLimit l s).2
    ∧ (dynamicLimit l s).2._enabled = l._enabled
    ∧ (dynamicLimit l s).2._ceiling = l._ceiling := by
  obtain ⟨ht, ha, hr, he0, he1, hc⟩ := h
  have hs0 : 0 ≤ |s| := abs_nonneg s
  unfold dynamicLimit
  simp only []
  split
  · have hlt : ¬ (l._envelopeFollower + (|s| - l._envelopeFollower) * l._attackCoeff
        > l._threshold) := by
      rw [ht, ha]
      intro hgt
      linarith
    rw [if_neg hlt]
    refine ⟨mul_one s, ⟨ht, ha, hr, ?_, ?_, hc⟩, rfl, rfl⟩
    · show 0 ≤ l._envelopeFollower + (|s| - l._envelopeFollower) * l._attackCoeff
      rw [ha]
      linarith
    · show l._envelopeFollower + (|s| - l._envelopeFollower) * l._attackCoeff < 1 / 2
      rw [ha]
      linarith
  · have hlt : ¬ (l._envelopeFollower + (|s| - l._envelopeFollower) * l._releaseCoeff
        > l._threshold) := by
      rw [ht, hr]
      intro hgt
      linarith
    rw [if_neg hlt]
    refine ⟨mul_one s, ⟨ht, ha, hr, ?_, ?_, hc⟩, rfl, rfl⟩
    · show 0 ≤ l._envelopeFollower + (|s| - l._envelopeFollower) * l._releaseCoeff
      rw [hr]
      linarith
    · show l._envelopeFollower + (|s| - l._envelopeFollower) * l._releaseCoeff < 1 / 2
      rw [hr]
      linarith

/-- A disabled limiter returns the input and does not change. -/
theorem processSample_of_disabled (M : CMath α) (l : SmoothLimiter α J) (h : l._enabled = false)
    (x : α) : l.processSample M x = (x, l) := by
  unfold processSample
  rw [h]
  rfl

/-- An enabled limiter soft-clips, runs the dynamic stage and clamps to the ceiling. -/
theorem processSample_of_enabled (M : CMath α) (l : SmoothLimiter α J) (h : l._enabled = true)
    (x : α) :
    l.processSample M x
      = (jlimit (-(dynamicLimit l (softClip M x)).2._ceiling)
          (dynamicLimit l (softClip M x)).2._ceiling (dynamicLimit l (softClip M x)).1,
        (dynamicLimit l (softClip M x)).2) := by
  unfold processSample
  rw [h]
  rfl

/-- A clamp to `[-c, c]` with `c` not negative does not increase the magnitude and bounds it
by `c`. -/
theorem abs_jlimit_symm (c v : α) (hc : 0 ≤ c) :
    |jlimit (-c) c v| ≤ |v| ∧ |jlimit (-c) c v| ≤ c := by
  unfold jlimit
  split_ifs with h1 h2
  · rw [abs_neg, abs_of_nonneg hc]
    exact ⟨by rw [abs_of_neg (by linarith : v < 0)]; linarith, le_refl c⟩
  · rw [abs_of_nonneg hc]
    exact ⟨by rw [abs_of_pos (by linarith : 0 < v)]; linarith, le_refl c⟩
  · exact ⟨le_refl _, abs_le.mpr ⟨not_lt.mp h1, not_lt.mp h2⟩⟩

end SmoothLimiter

/-- Over the reals the soft clipper returns a sample of magnitude below one half. -/
theorem SmoothLimiter.abs_softClip_lt (M : CMath ℝ) (htanh : M.tanh = Real.tanh) (x : ℝ) :
    |SmoothLimiter.softClip M x| < 1 / 2 := by
  unfold SmoothLimiter.softClip
  rw [htanh, abs_mul, abs_of_pos (show (0 : ℝ) < 1 / 2 by norm_num)]
  have := abs_tanh_lt_one (x * 2)
  linarith

/-- Every limiter a client can build satisfies the invariant. -/
theorem SmoothLimiter.Reachable.limiterInv {J : Juce ℝ} {M : CMath ℝ} (htanh : M.tanh = Real.tanh)
    {l : SmoothLimiter ℝ J} (h : SmoothLimiter.Reachable M l) : SmoothLimiter.Inv l := by
  induction h with
  | default =>
    refine ⟨rfl, rfl, rfl, ?_, ?_, ?_⟩
    · show (0 : ℝ) ≤ 0
      norm_num
    · show (0 : ℝ) < 1 / 2
      norm_num
    · show (0 : ℝ) ≤ 1
      norm_num
  | prepare l sr _ ih =>
    obtain ⟨ht, ha, hr, _, _, hc⟩ := ih
    refine ⟨ht, ha, hr, ?_, ?_, hc⟩
    · show (0 : ℝ) ≤ 0
      norm_num
    · show (0 : ℝ) < 1 / 2
      norm_num
  | setEnabled l b _ ih => exact ih
  | setCeiling l db _ hdb ih =>
    obtain ⟨ht, ha, hr, h0, h1, _⟩ := ih
    exact ⟨ht, ha, hr, h0, h1, hdb⟩
  | reset l _ ih =>
    obtain ⟨ht, ha, hr, _, _, hc⟩ := ih
    refine ⟨ht, ha, hr, ?_, ?_, hc⟩
    · show (0 : ℝ) ≤ 0
      norm_num
    · show (0 : ℝ) < 1 / 2
      norm_num
  | processSample l x _ ih =>
    cases hen : l._enabled
    · rw [SmoothLimiter.processSample_of_disabled M l hen]
      exact ih
    · rw [SmoothLimiter.processSample_of_enabled M l hen]
      exact (SmoothLimiter.dynamicLimit_of_small l ih _
        (SmoothLimiter.abs_softClip_lt M htanh x)).2.1

/-- C39: over the reals with `std::tanh` the hyperbolic tangent, for every limiter built from
construction by `prepare`, `setEnabled`, `setCeiling` (with a gain that is not negative),
`reset` and `processSample`: the envelope follower lies in `[0, 1/2)`, below the threshold of
0.8, before and after every `processSample`; the dynamic stage returns a soft-clipped sample
unchanged (gain reduction 1); an enabled limiter returns
`jlimit (-ceiling, ceiling, tanh (2 x) / 2)`, of magnitude below one half and at most the
ceiling; a disabled limiter returns `x` and keeps its state. -/
theorem C39_limiter_is_clamped_soft_clip {J : Juce ℝ} (M : CMath ℝ) (htanh : M.tanh = Real.tanh)
    (l : SmoothLimiter ℝ J) (hl : SmoothLimiter.Reachable M l) (x : ℝ) :
    (0 ≤ l._envelopeFollower ∧ l._envelopeFollower < 1 / 2 ∧ l._threshold = 8 / 10)
    ∧ (0 ≤ (l.processSample M x).2._envelopeFollower
        ∧ (l.processSample M x).2._envelopeFollower < 1 / 2)
    ∧ (SmoothLimiter.dynamicLimit l (SmoothLimiter.softClip M x)).1 = SmoothLimiter.softClip M x
    ∧ (l._enabled = true →
        (l.processSample M x).1 = jlimit (-l._ceiling) l._ceiling (Real.tanh (x * 2) * (1 / 2))
        ∧ |(l.processSample M x).1| < 1 / 2
        ∧ |(l.processSample M x).1| ≤ l._ceiling)
    ∧ (l._enabled = false → l.processSample M x = (x, l)) := by
  have hinv := hl.limiterInv htanh
  have hnext := (SmoothLimiter.Reachable.processSample l x hl).limiterInv htanh
  obtain ⟨hd1, _, _, hd4⟩ := SmoothLimiter.dynamicLimit_of_small l hinv _
    (SmoothLimiter.abs_softClip_lt M htanh x)
  refine ⟨⟨hinv.2.2.2.1, hinv.2.2.2.2.1, hinv.1⟩, ⟨hnext.2.2.2.1, hnext.2.2.2.2.1⟩, hd1, ?_,
    fun hen => SmoothLimiter.processSample_of_disabled M l hen x⟩
  intro hen
  have hout : (l.processSample M x).1
      = jlimit (-l._ceiling) l._ceiling (SmoothLimiter.softClip M x) := by
    rw [SmoothLimiter.processSample_of_enabled M l hen]
    show jlimit (-(SmoothLimiter.dynamicLimit l (SmoothLimiter.softClip M x)).2._ceiling)
      (SmoothLimiter.dynamicLimit l (SmoothLimiter.softClip M x)).2._ceiling
      (SmoothLimiter.dynamicLimit l (SmoothLimiter.softClip M x)).1 = _
    rw [hd4, hd1]
  obtain ⟨hb1, hb2⟩ := SmoothLimiter.abs_jlimit_symm l._ceiling (SmoothLimiter.softClip M x)
    hinv.2.2.2.2.2
  refine ⟨?_, ?_, ?_⟩
  · rw [hout]
    unfold SmoothLimiter.softClip
    rw [htanh]
  · rw [hout]
    exact lt_of_le_of_lt hb1 (SmoothLimiter.abs_softClip_lt M htanh x)
  · rw [hout]
    exact hb2

/-- Witness of C39: with the real hyperbolic tangent, the default limiter (enabled, ceiling 1)
returns for the input 3 a sample of magnitude below one half. -/
theorem C39_limiter_is_clamped_soft_clip_witness :
    |((SmoothLimiter.default : SmoothLimiter ℝ (Juce.stateless ℝ)).processSample
        ⟨Real.exp, Real.log, Real.tanh, fun x y => x ^ y, fun _ => false, fun _ => false⟩ 3).1|
      < 1 / 2 :=
  ((C39_limiter_is_clamped_soft_clip
    ⟨Real.exp, Real.log, Real.tanh, fun x y => x ^ y, fun _ => false, fun _ => false⟩ rfl
    (SmoothLimiter.default : SmoothLimiter ℝ (Juce.stateless ℝ))
    SmoothLimiter.Reachable.default 3).2.2.2.1 rfl).2.1

namespace PresetManager

variable {σ : Type}

/-- The digit loop of `getSortPriority` never makes a number that is not negative negative. -/
theorem leadingNumber_nonneg (l : List Char) (number : Int) (h : 0 ≤ number) :
    0 ≤ leadingNumber l number := by
  induction l generalizing number with
  | nil => exact h
  | cons c rest ih =>
    unfold leadingNumber
    split
    · rename_i hd
      apply ih
      unfold isDigit at hd
      rw [Bool.and_eq_true, decide_eq_true_eq, decide_eq_true_eq] at hd
      have h1 : (('0'.toNat : Nat) : Int) ≤ ((c.toNat : Nat) : Int) := Int.ofNat_le.mpr hd.1
      omega
    · exact h

/-- The priority of a name that starts with a digit, and of one that starts with another
character. -/
theorem getSortPriority_of_head (str : String) (c : Char) (rest : List Char)
    (h : str.data = c :: rest) :
    getSortPriority str
      = if isDigit c = true then Int.tdiv (leadingNumber str.data 0) 10 else 100 := by
  unfold getSortPriority
  rw [h]

/-- The search of `indexOf` in terms of the position in the list. -/
theorem indexOfFrom_eq (l : List String) (s : String) (i : Int) :
    indexOfFrom l s i = if s ∈ l then i + (List.indexOf s l : Int) else -1 := by
  induction l generalizing i with
  | nil => simp [indexOfFrom]
  | cons x xs ih =>
    unfold indexOfFrom
    by_cases hx : x = s
    · rw [if_pos hx, if_pos (by rw [hx]; exact List.mem_cons_self _ _),
        List.indexOf_cons_eq _ hx]
      simp
    · rw [if_neg hx, ih]
      have hs : s ≠ x := fun h => hx h.symm
      by_cases hm : s ∈ xs
      · rw [if_pos hm, if_pos (List.mem_cons_of_mem _ hm), List.indexOf_cons_ne _ hx]
        push_cast
        ring
      · rw [if_neg hm, if_neg (by
          intro hc
          rcases List.mem_cons.mp hc with h | h
          · exact hs h
          · exact hm h)]

/-- The index that `indexOf` returns: -1 exactly for a string that is not in the list, and
otherwise the position of its first occurrence. -/
theorem indexOf_spec (l : List String) (s : String) :
    (s ∉ l → indexOf l s = -1)
    ∧ (s ∈ l → 0 ≤ indexOf l s ∧ indexOf l s < (l.length : Int)
        ∧ stringAt l (indexOf l s) = s)
    ∧ -1 ≤ indexOf l s ∧ indexOf l s < (l.length : Int) := by
  have he := indexOfFrom_eq l s 0
  have hin : s ∈ l → 0 ≤ indexOf l s ∧ indexOf l s < (l.length : Int)
        ∧ stringAt l (indexOf l s) = s := by
    intro hm
    have hlt : List.indexOf s l < l.length := List.indexOf_lt_length.mpr hm
    have hv : indexOf l s = (List.indexOf s l : Int) := by
      unfold indexOf
      rw [he, if_pos hm, zero_add]
    rw [hv]
    refine ⟨Int.natCast_nonneg _, Int.ofNat_lt.mpr hlt, ?_⟩
    unfold stringAt
    rw [if_pos ⟨Int.natCast_nonneg _, Int.ofNat_lt.mpr hlt⟩, Int.toNat_natCast,
      List.getD_eq_getElem _ _ hlt]
    exact List.getElem_indexOf hlt
  have hout : s ∉ l → indexOf l s = -1 := by
    intro hm
    unfold indexOf
    rw [he, if_neg hm]
  refine ⟨hout, hin, ?_⟩
  by_cases hm : s ∈ l
  · obtain ⟨h0, h1, _⟩ := hin hm
    exact ⟨by omega, h1⟩
  · rw [hout hm]
    exact ⟨le_refl _, by omega⟩

/-- In a list without repetition, the string at a valid index is found at that index. -/
theorem indexOf_stringAt (l : List String) (hnd : l.Nodup) (j : Int) (h0 : 0 ≤ j)
    (h1 : j < (l.length : Int)) : indexOf l (stringAt l j) = j := by
  have hlt : j.toNat < l.length := by omega
  have hs : stringAt l j = l.get ⟨j.toNat, hlt⟩ := by
    unfold stringAt
    rw [if_pos ⟨h0, h1⟩, List.getD_eq_getElem _ _ hlt]
    rfl
  have hm : l.get ⟨j.toNat, hlt⟩ ∈ l := List.get_mem l j.toNat hlt
  unfold indexOf
  rw [hs, indexOfFrom_eq, if_pos hm, zero_add]
  have := List.indexOf_getElem hnd j.toNat hlt
  rw [List.get_eq_getElem, this]
  omega

/-- The index that `loadNextPresetInCategory` computes is `(k + 1) mod n`, and the one that
`loadPreviousPresetInCategory` computes is `k - 1` for `k >= 1` and `n - 1` otherwise. -/
theorem navigation_indices (k n : Int) (hk0 : -1 ≤ k) (hk1 : k < n) (hn : 0 < n) :
    (if k + 1 > n - 1 then 0 else k + 1) = (k + 1) % n
    ∧ (if k - 1 < 0 then n - 1 else k - 1) = (if 1 ≤ k then k - 1 else n - 1)
    ∧ 0 ≤ (k + 1) % n ∧ (k + 1) % n < n
    ∧ 0 ≤ (if 1 ≤ k then k - 1 else n - 1) ∧ (if 1 ≤ k then k - 1 else n - 1) < n := by
  have hmod : (k + 1) % n = if k + 1 > n - 1 then 0 else k + 1 := by
    split
    · have : k + 1 = n := by omega
      rw [this, Int.emod_self]
    · exact Int.emod_eq_of_lt (by omega) (by omega)
  refine ⟨hmod.symm, ?_, Int.emod_nonneg _ (by omega), Int.emod_lt_of_pos _ hn, ?_, ?_⟩
  · split_ifs <;> first | rfl | omega
  · split_ifs <;> omega
  · split_ifs <;> omega

end PresetManager

open PresetManager

/-- C36 (evaluation of the code): for a category name `a` that starts with a digit and a name
`b` that starts with another character, the comparator gives `a` the priority
`leadingNumber / 10` and `b` the priority 100, so `a` is ordered before `b` when the leading
number is below 1000, the order is left to `compareNatural` when it is 1000 to 1009, and `b`
is ordered before `a` when it is 1010 or more; the empty name has priority 1000. -/
theorem C36_category_order_depends_on_leading_number (compareNatural : String → String → Int)
    (a b : String) (ca cb : Char) (ra rb : List Char)
    (ha : a.data = ca :: ra) (hda : PresetManager.isDigit ca = true)
    (hb : b.data = cb :: rb) (hdb : PresetManager.isDigit cb = false) :
    getSortPriority a = Int.tdiv (leadingNumber a.data 0) 10
    ∧ getSortPriority b = 100
    ∧ getSortPriority "" = 1000
    ∧ 0 ≤ leadingNumber a.data 0
    ∧ (leadingNumber a.data 0 < 1000 →
        categoryLess compareNatural a b = true ∧ categoryLess compareNatural b a = false)
    ∧ (1000 ≤ leadingNumber a.data 0 → leadingNumber a.data 0 < 1010 →
        categoryLess compareNatural a b = decide (compareNatural a b < 0)
        ∧ categoryLess compareNatural b a = decide (compareNatural b a < 0))
    ∧ (1010 ≤ leadingNumber a.data 0 →
        categoryLess compareNatural a b = false ∧ categoryLess compareNatural b a = true) := by
  have hpa : getSortPriority a = Int.tdiv (leadingNumber a.data 0) 10 := by
    rw [getSortPriority_of_head a ca ra ha, if_pos hda]
  have hpb : getSortPriority b = 100 := by
    rw [getSortPriority_of_head b cb rb hb, if_neg (by rw [hdb]; exact Bool.false_ne_true)]
  have hn : 0 ≤ leadingNumber a.data 0 := leadingNumber_nonneg _ _ (le_refl _)
  have hdiv : Int.tdiv (leadingNumber a.data 0) 10 = leadingNumber a.data 0 / 10 :=
    Int.tdiv_eq_ediv hn (by norm_num)
  have hab : categoryLess compareNatural a b
      = if leadingNumber a.data 0 / 10 ≠ 100 then decide (leadingNumber a.data 0 / 10 < 100)
        else decide (compareNatural a b < 0) := by
    unfold categoryLess
    simp only [hpa, hpb, hdiv]
  have hba : categoryLess compareNatural b a
      = if (100 : Int) ≠ leadingNumber a.data 0 / 10 then
          decide (100 < leadingNumber a.data 0 / 10)
        else decide (compareNatural b a < 0) := by
    unfold categoryLess
    simp only [hpa, hpb, hdiv]
  refine ⟨hpa, hpb, by decide, hn, ?_, ?_, ?_⟩
  · intro h
    have h1 : leadingNumber a.data 0 / 10 < 100 := by omega
    rw [hab, hba, if_pos (by omega), if_pos (by omega)]
    exact ⟨decide_eq_true h1, decide_eq_false (by omega)⟩
  · intro h1 h2
    have h3 : leadingNumber a.data 0 / 10 = 100 := by omega
    rw [hab, hba, if_neg (by rw [h3]; exact fun h => h rfl),
      if_neg (by rw [h3]; exact fun h => h rfl)]
    exact ⟨rfl, rfl⟩
  · intro h
    have h1 : 100 < leadingNumber a.data 0 / 10 := by omega
    rw [hab, hba, if_pos (by omega), if_pos (by omega)]
    exact ⟨decide_eq_false (by omega), decide_eq_true h1⟩

/-- Witness of C36: the category names `1010` and `A`: the comparator orders `A` before
`1010`, whatever `compareNatural` returns (here 0). -/
theorem C36_category_order_depends_on_leading_number_witness :
    getSortPriority "1010" = 101 ∧ getSortPriority "A" = 100
    ∧ categoryLess (fun _ _ => 0) "1010" "A" = false
    ∧ categoryLess (fun _ _ => 0) "A" "1010" = true :=
  have h := C36_category_order_depends_on_leading_number (fun _ _ => 0) "1010" "A"
    '1' 'A' ['0', '1', '0'] [] rfl (by decide) rfl (by decide)
  ⟨by decide, by decide, (h.2.2.2.2.2.2 (by decide)).1, (h.2.2.2.2.2.2 (by decide)).2⟩

namespace ParameterSmoother

variable {α : Type} [LinearOrderedField α]

/-- One `getNextValue` keeps a smoother between positive values. -/
theorem advance_PositiveRamp (s : ParameterSmoother α) (h : PositiveRamp s) :
    PositiveRamp (advance s) ∧ 0 < (s.getNextValue).1 := by
  obtain ⟨hc, ht, hk0, hk1⟩ := h
  have e : s.currentValue + s.smoothingCoeff * (s.targetValue - s.currentValue)
      = (1 - s.smoothingCoeff) * s.currentValue + s.smoothingCoeff * s.targetValue := by ring
  have hpos : 0 < s.currentValue + s.smoothingCoeff * (s.targetValue - s.currentValue) := by
    rw [e]
    rcases eq_or_lt_of_le hk0 with h0 | h0
    · rw [← h0]
      simpa using hc
    · have h1 : 0 ≤ (1 - s.smoothingCoeff) * s.currentValue :=
        mul_nonneg (by linarith) (le_of_lt hc)
      have h2 : 0 < s.smoothingCoeff * s.targetValue := mul_pos h0 ht
      linarith
  exact ⟨⟨hpos, ht, hk0, hk1⟩, hpos⟩

/-- The target that `SchroederAllpassChain::setCharacter` stores is positive. -/
theorem setTarget_clamped_PositiveRamp (s : ParameterSmoother α) (h : PositiveRamp s) (x : α) :
    PositiveRamp (s.setTargetValue (jlimit (1 / 10) 10 x)) := by
  obtain ⟨hc, _, hk0, hk1⟩ := h
  have hj : (1 / 10 : α) ≤ jlimit (1 / 10) 10 x :=
    (AllpassFilter.jlimit_mem (1 / 10) 10 x (by norm_num)).1
  exact ⟨hc, by
    show (0 : α) < jlimit (1 / 10) 10 x
    have : (0 : α) < 1 / 10 := by norm_num
    linarith, hk0, hk1⟩

end ParameterSmoother

namespace SchroederAllpassChain

variable {α : Type} [LinearOrderedField α] [FloorRing α]

/-- What the members of the chain do to its character smoother: `prepare` and `reset` snap it
to the supplied value as it is, `setCharacter` stores the clamped value as target,
`setDelayTime` leaves it alone and `processSample` advances it once. -/
theorem characterSmoother_of_members (M : CMath α) (c : SchroederAllpassChain α)
    (sampleRate delayMs character x : α) :
    ((c.prepare M sampleRate delayMs character).characterSmoother.currentValue = character
      ∧ (c.prepare M sampleRate delayMs character).characterSmoother.targetValue = character
      ∧ (c.prepare M sampleRate delayMs character).characterSmoother.smoothingCoeff
        = (c.characterSmoother.prepare M sampleRate 10).smoothingCoeff)
    ∧ ((c.reset delayMs character).characterSmoother.currentValue = character
      ∧ (c.reset delayMs character).characterSmoother.targetValue = character
      ∧ (c.reset delayMs character).characterSmoother.smoothingCoeff
        = c.characterSmoother.smoothingCoeff)
    ∧ (c.setCharacter character).characterSmoother
        = c.characterSmoother.setTargetValue (jlimit (1 / 10) 10 character)
    ∧ (c.setDelayTime delayMs).characterSmoother = c.characterSmoother
    ∧ (c.processSample M x).2.characterSmoother = c.characterSmoother.advance :=
  ⟨⟨rfl, rfl, rfl⟩, ⟨rfl, rfl, rfl⟩, rfl, rfl, rfl⟩

end SchroederAllpassChain

namespace ChasmDSPProcessor

variable {α : Type} [LinearOrderedField α] [FloorRing α] {J : Juce α}

theorem lowCutStereo_chainCharacters (p : ChasmDSPProcessor α J) (l r : α) :
    (lowCutStereo p l r).2.2.chainCharacters = p.chainCharacters := by
  unfold lowCutStereo
  split <;> rfl

theorem highCutStereo_chainCharacters (p : ChasmDSPProcessor α J) (l r : α) :
    (highCutStereo p l r).2.2.chainCharacters = p.chainCharacters := by
  unfold highCutStereo
  split <;> rfl

theorem lowCutMono_chainCharacters (p : ChasmDSPProcessor α J) (x : α) :
    (lowCutMono p x).2.chainCharacters = p.chainCharacters := by
  unfold lowCutMono
  split <;> rfl

theorem highCutMono_chainCharacters (p : ChasmDSPProcessor α J) (x : α) :
    (highCutMono p x).2.chainCharacters = p.chainCharacters := by
  unfold highCutMono
  split <;> rfl

/-- The stereo sample stage advances the character smoother of each chain once. -/
theorem processSingleSample_chainCharacters (M : CMath α) (p : ChasmDSPProcessor α J)
    (buffer : AudioBuffer α) (i : Nat) (g : α) :
    (processSingleSample M p buffer i g).1.chainCharacters
      = (p.leftAllpassChain.characterSmoother.advance,
          p.rightAllpassChain.characterSmoother.advance) := by
  unfold processSingleSample
  simp only []
  show (highCutStereo _ _ _).2.2.chainCharacters = _
  rw [highCutStereo_chainCharacters, lowCutStereo_chainCharacters]
  rfl

/-- The mono sample stage advances the character smoother of the left chain once and leaves
the right chain alone. -/
theorem processSingleSampleMono_chainCharacters (M : CMath α) (p : ChasmDSPProcessor α J)
    (buffer : AudioBuffer α) (i : Nat) (g : α) :
    (processSingleSampleMono M p buffer i g).1.chainCharacters
      = (p.leftAllpassChain.characterSmoother.advance, p.rightAllpassChain.characterSmoother) := by
  unfold processSingleSampleMono
  simp only []
  show (highCutMono _ _).2.chainCharacters = _
  rw [highCutMono_chainCharacters, lowCutMono_chainCharacters]
  rfl

theorem resizeScratch_chainCharacters (p : ChasmDSPProcessor α J) (n : Nat) :
    (resizeScratch p n).chainCharacters = p.chainCharacters
    ∧ (resizeScratch p n).characterSmoother = p.characterSmoother := by
  unfold resizeScratch
  split <;> exact ⟨rfl, rfl⟩

/-- The character smoothers of the chains with which sample `i` is processed: those the
iteration started with, given the clamped smoothed character as target at the multiples of
32. -/
theorem atSample_chainCharacters (i : Nat) (p : ChasmDSPProcessor α J) :
    (atSample i p).2.chainCharacters
      = if i % 32 = 0 then
          (p.leftAllpassChain.characterSmoother.setTargetValue
              (jlimit (1 / 10) 10 (p.characterSmoother.getNextValue).1),
            p.rightAllpassChain.characterSmoother.setTargetValue
              (jlimit (1 / 10) 10 (p.characterSmoother.getNextValue).1))
        else p.chainCharacters := by
  have hc : (cutStep (advanceControls p).2).components = p.components :=
    (cutStep_controlSmoothers _).2
  simp only [components, Prod.mk.injEq] at hc
  obtain ⟨h1, h2, _⟩ := hc
  have hu : ∀ (q : ChasmDSPProcessor α J) (d b ch w h : α),
      (updateDSPComponents q d b ch w h).chainCharacters
        = (q.leftAllpassChain.characterSmoother.setTargetValue (jlimit (1 / 10) 10 ch),
            q.rightAllpassChain.characterSmoother.setTargetValue (jlimit (1 / 10) 10 ch)) :=
    fun _ _ _ _ _ _ => rfl
  have hq : (cutStep (advanceControls p).2).chainCharacters = p.chainCharacters := by
    unfold chainCharacters
    rw [h1, h2]
  rw [atSample_snd]
  split
  · rw [hu, h1, h2]
    rfl
  · exact hq

/-- The values handed to `std::log` at sample `i`, in terms of the processor the iteration
starts with. -/
theorem characterAt_eq (M : CMath α) (p : ChasmDSPProcessor α J) (buffer : AudioBuffer α)
    (i : Nat) :
    (leftCharacterAt M p buffer i, rightCharacterAt M p buffer i)
      = (((atSample i (beforeIndex M p buffer i).1).2.chainCharacters.1.getNextValue).1,
          ((atSample i (beforeIndex M p buffer i).1).2.chainCharacters.2.getNextValue).1) :=
  rfl

/-- Positive character smoothers stay positive through one iteration of the first sample
loop, and the values handed to `std::log` in that iteration are positive. -/
theorem processIndex_PositiveRamp (M : CMath α) (i : Nat)
    (st : ChasmDSPProcessor α J × AudioBuffer α)
    (h : st.1.chainCharacters.1.PositiveRamp ∧ st.1.chainCharacters.2.PositiveRamp) :
    ((processIndex M i st).1.chainCharacters.1.PositiveRamp
      ∧ (processIndex M i st).1.chainCharacters.2.PositiveRamp)
    ∧ 0 < ((atSample i st.1).2.chainCharacters.1.getNextValue).1
    ∧ 0 < ((atSample i st.1).2.chainCharacters.2.getNextValue).1 := by
  have hat : (atSample i st.1).2.chainCharacters.1.PositiveRamp
      ∧ (atSample i st.1).2.chainCharacters.2.PositiveRamp := by
    rw [atSample_chainCharacters]
    split
    · exact ⟨ParameterSmoother.setTarget_clamped_PositiveRamp _ h.1 _,
        ParameterSmoother.setTarget_clamped_PositiveRamp _ h.2 _⟩
    · exact h
  refine ⟨?_, (ParameterSmoother.advance_PositiveRamp _ hat.1).2,
    (ParameterSmoother.advance_PositiveRamp _ hat.2).2⟩
  rw [processIndex_eq_atSample]
  split
  · rw [processSingleSampleMono_chainCharacters]
    exact ⟨(ParameterSmoother.advance_PositiveRamp _ hat.1).1, hat.2⟩
  · rw [processSingleSample_chainCharacters]
    exact ⟨(ParameterSmoother.advance_PositiveRamp _ hat.1).1,
      (ParameterSmoother.advance_PositiveRamp _ hat.2).1⟩

/-- With positive character smoothers on entry of `processBlock`, every value handed to
`std::log` during the block is positive. -/
theorem characterAt_pos (M : CMath α) (p : ChasmDSPProcessor α J) (buffer : AudioBuffer α)
    (hl : p.leftAllpassChain.characterSmoother.PositiveRamp)
    (hr : p.rightAllpassChain.characterSmoother.PositiveRamp) (i : Nat) :
    0 < leftCharacterAt M p buffer i ∧ 0 < rightCharacterAt M p buffer i := by
  have hinv : ∀ k, (beforeIndex M p buffer k).1.chainCharacters.1.PositiveRamp
      ∧ (beforeIndex M p buffer k).1.chainCharacters.2.PositiveRamp := by
    intro k
    induction k with
    | zero =>
      show (resizeScratch p buffer.numSamples).chainCharacters.1.PositiveRamp
        ∧ (resizeScratch p buffer.numSamples).chainCharacters.2.PositiveRamp
      rw [(resizeScratch_chainCharacters p _).1]
      exact ⟨hl, hr⟩
    | succ k ih =>
      exact (processIndex_PositiveRamp M k (beforeIndex M p buffer k) ih).1
  have h := (processIndex_PositiveRamp M i (beforeIndex M p buffer i) (hinv i)).2
  have e := characterAt_eq M p buffer i
  simp only [Prod.mk.injEq] at e
  rw [e.1, e.2]
  exact h

/-- The values handed to `std::log` at sample 0 of a block: one advance of the chain's
character smoother towards the clamped smoothed character of the processor. -/
theorem characterAt_zero (M : CMath α) (p : ChasmDSPProcessor α J) (buffer : AudioBuffer α) :
    leftCharacterAt M p buffer 0
        = p.leftAllpassChain.characterSmoother.currentValue
          + p.leftAllpassChain.characterSmoother.smoothingCoeff
            * (jlimit (1 / 10) 10 (p.characterSmoother.getNextValue).1
                - p.leftAllpassChain.characterSmoother.currentValue)
    ∧ rightCharacterAt M p buffer 0
        = p.rightAllpassChain.characterSmoother.currentValue
          + p.rightAllpassChain.characterSmoother.smoothingCoeff
            * (jlimit (1 / 10) 10 (p.characterSmoother.getNextValue).1
                - p.rightAllpassChain.characterSmoother.currentValue) := by
  have e := characterAt_eq M p buffer 0
  simp only [Prod.mk.injEq] at e
  have hb : (beforeIndex M p buffer 0).1.chainCharacters = p.chainCharacters
      ∧ (beforeIndex M p buffer 0).1.characterSmoother = p.characterSmoother := by
    show (resizeScratch p buffer.numSamples).chainCharacters = _
      ∧ (resizeScratch p buffer.numSamples).characterSmoother = _
    exact resizeScratch_chainCharacters p _
  have hc := hb.1
  simp only [chainCharacters, Prod.mk.injEq] at hc
  rw [e.1, e.2, atSample_chainCharacters, if_pos (Nat.zero_mod 32), hb.2, hc.1, hc.2]
  exact ⟨rfl, rfl⟩

/-- The members `prepare`, `reset` and `updateParameters` of the processor and the chains:
`prepare` prepares and then resets each chain with the supplied delay and character, `reset`
resets them, `updateParameters` leaves them alone; `prepare` leaves the processor's own
character smoother at rest at the supplied character. -/
theorem chains_of_members (M : CMath α) (p : ChasmDSPProcessor α J)
    (spec : ProcessSpec α) (a1 a2 a3 delayMs a5 character a7 a8 a9 a10 a11 : α) (mode : Int)
    (a13 : α) :
    ((p.prepare M spec a1 a2 a3 delayMs a5 character a7 a8 a9 a10 a11 mode a13).leftAllpassChain
        = (p.leftAllpassChain.prepare M spec.sampleRate delayMs character).reset delayMs character
      ∧ (p.prepare M spec a1 a2 a3 delayMs a5 character a7 a8 a9 a10 a11 mode
          a13).rightAllpassChain
        = (p.rightAllpassChain.prepare M spec.sampleRate delayMs character).reset delayMs
            character
      ∧ (p.prepare M spec a1 a2 a3 delayMs a5 character a7 a8 a9 a10 a11 mode
          a13).characterSmoother.currentValue = character
      ∧ (p.prepare M spec a1 a2 a3 delayMs a5 character a7 a8 a9 a10 a11 mode
          a13).characterSmoother.targetValue = character)
    ∧ ((p.reset a1 a2 a3 delayMs a5 character a7 a8 a9 a10 a11 mode a13).leftAllpassChain
        = p.leftAllpassChain.reset delayMs character
      ∧ (p.reset a1 a2 a3 delayMs a5 character a7 a8 a9 a10 a11 mode a13).rightAllpassChain
        = p.rightAllpassChain.reset delayMs character)
    ∧ ((p.updateParameters M a1 a2 a3 delayMs a5 character a7 a8 a9 a10 a11 mode
          a13).leftAllpassChain = p.leftAllpassChain
      ∧ (p.updateParameters M a1 a2 a3 delayMs a5 character a7 a8 a9 a10 a11 mode
          a13).rightAllpassChain = p.rightAllpassChain) :=
  ⟨⟨rfl, rfl, rfl, rfl⟩, ⟨rfl, rfl⟩, ⟨rfl, rfl⟩⟩

/-- A chain that was prepared and then reset with a character has its character smoother at
rest at that character, as it is, with the coefficient of a smoothing time of 10 ms. -/
theorem prepared_chainCharacter (M : CMath α) (c : SchroederAllpassChain α)
    (sampleRate delayMs character : α) :
    ((c.prepare M sampleRate delayMs character).reset delayMs character).characterSmoother.currentValue
        = character
    ∧ ((c.prepare M sampleRate delayMs character).reset delayMs character).characterSmoother.targetValue
        = character
    ∧ ((c.prepare M sampleRate delayMs character).reset delayMs character).characterSmoother.smoothingCoeff
        = (c.characterSmoother.prepare M sampleRate 10).smoothingCoeff :=
  ⟨rfl, rfl, rfl⟩

/-- The coefficient that `prepare` gives the character smoother of a chain. -/
theorem chainCharacter_coeff (M : CMath α) (s : ParameterSmoother α) (sampleRate : α) :
    (s.prepare M sampleRate 10).smoothingCoeff
      = 1 - M.exp (-1 / (10 * (1 / 1000) * sampleRate)) := by
  simp only [ParameterSmoother.prepare, gt_iff_lt, if_pos (show (0 : α) < 10 by norm_num)]

end ChasmDSPProcessor

namespace ChasmDSPProcessor

variable {α : Type} [LinearOrderedField α] [FloorRing α] {J : Juce α}

/-- After `prepare` with a positive character, at a sample rate for which the exponential of
the smoother's exponent lies in `[0, 1]` (as `std::exp` does for every positive rate), the
character smoothers of both chains move between positive values. -/
theorem prepared_PositiveRamp (M : CMath α) (p : ChasmDSPProcessor α J) (spec : ProcessSpec α)
    (a1 a2 a3 delayMs a5 character a7 a8 a9 a10 a11 : α) (mode : Int) (a13 : α)
    (hc : 0 < character)
    (h0 : 0 ≤ M.exp (-1 / (10 * (1 / 1000) * spec.sampleRate)))
    (h1 : M.exp (-1 / (10 * (1 / 1000) * spec.sampleRate)) ≤ 1) :
    (p.prepare M spec a1 a2 a3 delayMs a5 character a7 a8 a9 a10 a11 mode
        a13).leftAllpassChain.characterSmoother.PositiveRamp
    ∧ (p.prepare M spec a1 a2 a3 delayMs a5 character a7 a8 a9 a10 a11 mode
        a13).rightAllpassChain.characterSmoother.PositiveRamp := by
  obtain ⟨⟨el, er, _, _⟩, _, _⟩ := chains_of_members M p spec a1 a2 a3 delayMs a5 character
    a7 a8 a9 a10 a11 mode a13
  obtain ⟨l1, l2, l3⟩ := prepared_chainCharacter M p.leftAllpassChain spec.sampleRate delayMs
    character
  obtain ⟨r1, r2, r3⟩ := prepared_chainCharacter M p.rightAllpassChain spec.sampleRate delayMs
    character
  rw [el, er]
  unfold ParameterSmoother.PositiveRamp
  rw [l1, l2, l3, r1, r2, r3, chainCharacter_coeff, chainCharacter_coeff]
  exact ⟨⟨hc, hc, by linarith, by linarith⟩, ⟨hc, hc, by linarith, by linarith⟩⟩

/-- The value handed to `std::log` by each chain at sample 0 of the first block after
`prepare`. -/
theorem prepared_characterAt_zero (M : CMath α) (p : ChasmDSPProcessor α J)
    (spec : ProcessSpec α) (a1 a2 a3 delayMs a5 character a7 a8 a9 a10 a11 : α) (mode : Int)
    (a13 : α) (buffer : AudioBuffer α) :
    leftCharacterAt M (p.prepare M spec a1 a2 a3 delayMs a5 character a7 a8 a9 a10 a11 mode a13)
        buffer 0
      = character + (1 - M.exp (-1 / (10 * (1 / 1000) * spec.sampleRate)))
          * (jlimit (1 / 10) 10 character - character)
    ∧ rightCharacterAt M
        (p.prepare M spec a1 a2 a3 delayMs a5 character a7 a8 a9 a10 a11 mode a13) buffer 0
      = character + (1 - M.exp (-1 / (10 * (1 / 1000) * spec.sampleRate)))
          * (jlimit (1 / 10) 10 character - character) := by
  obtain ⟨⟨el, er, c1, c2⟩, _, _⟩ := chains_of_members M p spec a1 a2 a3 delayMs a5 character
    a7 a8 a9 a10 a11 mode a13
  obtain ⟨l1, _, l3⟩ := prepared_chainCharacter M p.leftAllpassChain spec.sampleRate delayMs
    character
  obtain ⟨r1, _, r3⟩ := prepared_chainCharacter M p.rightAllpassChain spec.sampleRate delayMs
    character
  obtain ⟨z1, z2⟩ := characterAt_zero M
    (p.prepare M spec a1 a2 a3 delayMs a5 character a7 a8 a9 a10 a11 mode a13) buffer
  rw [z1, z2, getNextValue_of_rest _ _ c1 c2, el, er, l1, l3, r1, r3, chainCharacter_coeff,
    chainCharacter_coeff]
  exact ⟨rfl, rfl⟩

end ChasmDSPProcessor

open ChasmDSPProcessor

/-- C16 (evaluation of the code): `prepare` leaves the character smoother of each allpass
chain at rest at the supplied character as it is, whereas `setCharacter` stores the character
clamped to `[0.1, 10]`; so at sample 0 of the first block each chain hands to `std::log` the
value `character + k * (jlimit (0.1, 10, character) - character)` with
`k = 1 - exp (-1 / (10 * 0.001 * sampleRate))`.  When the character passed to `prepare` is
positive (and the exponential of the smoother's exponent lies in `[0, 1]`, as `std::exp` does
at every positive sample rate), every value handed to `std::log` during the block is
positive, also after an `updateParameters` with any arguments, and a stereo processor fresh
from `prepare` answers an all-zero stereo block with an all-zero block.  The JUCE classes are
taken to map silence to silence from a reset state, and `tanh 0 = 0`. -/
theorem C16_silence_for_positive_character {α : Type} [LinearOrderedField α] [FloorRing α]
    {J : Juce α} (M : CMath α) (svfRest : J.SVF → Prop) (iirRest : J.IIR → Prop)
    (envRest : J.Envelope → Prop) (hJ : J.SilenceLaws svfRest iirRest envRest)
    (htanh : M.tanh 0 = 0) (p : ChasmDSPProcessor α J) (spec : ProcessSpec α)
    (hspec : spec.numChannels = 2)
    (inputGain outputGain mix delayMs brightness character lowCut highCut width mil_InputGain
      mil_BoostValue : α) (mil_Mode : Int) (haasAmount : α)
    (u1 u2 u3 u4 u5 u6 u7 u8 u9 u10 u11 : α) (uMode : Int) (u13 : α)
    (buffer : AudioBuffer α) (hbn : buffer.numChannels = 2) (hb : buffer.Silent)
    (ch i : Nat) (hch : ch < 2) (hi : i < buffer.numSamples) :
    ((p.prepare M spec inputGain outputGain mix delayMs brightness character lowCut highCut
          width mil_InputGain mil_BoostValue mil_Mode
          haasAmount).leftAllpassChain.characterSmoother.currentValue = character
      ∧ (p.prepare M spec inputGain outputGain mix delayMs brightness character lowCut highCut
          width mil_InputGain mil_BoostValue mil_Mode
          haasAmount).leftAllpassChain.characterSmoother.targetValue = character
      ∧ (p.prepare M spec inputGain outputGain mix delayMs brightness character lowCut highCut
          width mil_InputGain mil_BoostValue mil_Mode
          haasAmount).rightAllpassChain.characterSmoother.currentValue = character
      ∧ (p.prepare M spec inputGain outputGain mix delayMs brightness character lowCut highCut
          width mil_InputGain mil_BoostValue mil_Mode
          haasAmount).rightAllpassChain.characterSmoother.targetValue = character)
    ∧ (∀ (c : SchroederAllpassChain α) (x : α),
        (c.setCharacter x).characterSmoother.targetValue = jlimit (1 / 10) 10 x)
    ∧ (leftCharacterAt M
          (p.prepare M spec inputGain outputGain mix delayMs brightness character lowCut highCut
            width mil_InputGain mil_BoostValue mil_Mode haasAmount) buffer 0
        = character + (1 - M.exp (-1 / (10 * (1 / 1000) * spec.sampleRate)))
            * (jlimit (1 / 10) 10 character - character)
      ∧ rightCharacterAt M
          (p.prepare M spec inputGain outputGain mix delayMs brightness character lowCut highCut
            width mil_InputGain mil_BoostValue mil_Mode haasAmount) buffer 0
        = character + (1 - M.exp (-1 / (10 * (1 / 1000) * spec.sampleRate)))
            * (jlimit (1 / 10) 10 character - character))
    ∧ (0 < character →
        0 ≤ M.exp (-1 / (10 * (1 / 1000) * spec.sampleRate)) →
        M.exp (-1 / (10 * (1 / 1000) * spec.sampleRate)) ≤ 1 →
        (∀ j, 0 < leftCharacterAt M
              (p.prepare M spec inputGain outputGain mix delayMs brightness character lowCut
                highCut width mil_InputGain mil_BoostValue mil_Mode haasAmount) buffer j
            ∧ 0 < rightCharacterAt M
              (p.prepare M spec inputGain outputGain mix delayMs brightness character lowCut
                highCut width mil_InputGain mil_BoostValue mil_Mode haasAmount) buffer j)
        ∧ (∀ j, 0 < leftCharacterAt M
              ((p.prepare M spec inputGain outputGain mix delayMs brightness character lowCut
                highCut width mil_InputGain mil_BoostValue mil_Mode
                haasAmount).updateParameters M u1 u2 u3 u4 u5 u6 u7 u8 u9 u10 u11 uMode u13)
              buffer j
            ∧ 0 < rightCharacterAt M
              ((p.prepare M spec inputGain outputGain mix delayMs brightness character lowCut
                highCut width mil_InputGain mil_BoostValue mil_Mode
                haasAmount).updateParameters M u1 u2 u3 u4 u5 u6 u7 u8 u9 u10 u11 uMode u13)
              buffer j)
        ∧ ChasmDSPProcessor.Cleared svfRest iirRest envRest
            (p.prepare M spec inputGain outputGain mix delayMs brightness character lowCut
              highCut width mil_InputGain mil_BoostValue mil_Mode haasAmount)
        ∧ ((p.prepare M spec inputGain outputGain mix delayMs brightness character lowCut
              highCut width mil_InputGain mil_BoostValue mil_Mode haasAmount).processBlock M
            buffer).2.getSample ch i = 0
        ∧ (((p.prepare M spec inputGain outputGain mix delayMs brightness character lowCut
              highCut width mil_InputGain mil_BoostValue mil_Mode haasAmount).updateParameters M
              u1 u2 u3 u4 u5 u6 u7 u8 u9 u10 u11 uMode u13).processBlock M
            buffer).2.getSample ch i = 0) := by
  obtain ⟨⟨el, er, _, _⟩, _, _⟩ := chains_of_members M p spec inputGain outputGain mix delayMs
    brightness character lowCut highCut width mil_InputGain mil_BoostValue mil_Mode haasAmount
  obtain ⟨l1, l2, _⟩ := prepared_chainCharacter M p.leftAllpassChain spec.sampleRate delayMs
    character
  obtain ⟨r1, r2, _⟩ := prepared_chainCharacter M p.rightAllpassChain spec.sampleRate delayMs
    character
  refine ⟨⟨?_, ?_, ?_, ?_⟩, fun _ _ => rfl,
    prepared_characterAt_zero M p spec inputGain outputGain mix delayMs brightness character
      lowCut highCut width mil_InputGain mil_BoostValue mil_Mode haasAmount buffer, ?_⟩
  · rw [el]; exact l1
  · rw [el]; exact l2
  · rw [er]; exact r1
  · rw [er]; exact r2
  · intro hc h0 h1
    obtain ⟨pl, pr⟩ := prepared_PositiveRamp M p spec inputGain outputGain mix delayMs
      brightness character lowCut highCut width mil_InputGain mil_BoostValue mil_Mode haasAmount
      hc h0 h1
    obtain ⟨_, _, ul, ur⟩ := chains_of_members M
      (p.prepare M spec inputGain outputGain mix delayMs brightness character lowCut highCut
        width mil_InputGain mil_BoostValue mil_Mode haasAmount)
      spec u1 u2 u3 u4 u5 u6 u7 u8 u9 u10 u11 uMode u13
    have hcl := ChasmDSPProcessor.prepare_Cleared hJ M p spec hspec inputGain outputGain mix
      delayMs brightness character lowCut highCut width mil_InputGain mil_BoostValue mil_Mode
      haasAmount
    refine ⟨fun j => characterAt_pos M _ buffer pl pr j,
      fun j => characterAt_pos M _ buffer (by rw [ul]; exact pl) (by rw [ur]; exact pr) j,
      hcl,
      ChasmDSPProcessor.processBlock_silent hJ M htanh _ hcl buffer hbn hb ch i hch hi,
      ChasmDSPProcessor.processBlock_silent hJ M htanh _
        (ChasmDSPProcessor.updateParameters_Cleared M _ hcl u1 u2 u3 u4 u5 u6 u7 u8 u9 u10 u11
          uMode u13) buffer hbn hb ch i hch hi⟩

/-- Witness of C16: with pass-through JUCE classes (every state counts as cleared) and the
default processor prepared at 44100 Hz for two channels, on the silent stereo block: with
character -1 the left chain hands `-4399/4410` to `std::log` at sample 0; with character 1
the first output sample is 0. -/
theorem C16_silence_for_positive_character_witness :
    leftCharacterAt CMath.rational ChasmDSPProcessor.preparedNegativeCharacter
        AudioBuffer.stereoSilence 0 = -4399 / 4410
    ∧ (((ChasmDSPProcessor.default : ChasmDSPProcessor ℚ Juce.passThrough).prepare
          CMath.rational ⟨44100, 512, 2⟩ 1 1 (1 / 2) 30 0 1 0 0 100 1 0 0 0).processBlock
        CMath.rational AudioBuffer.stereoSilence).2.getSample 0 0 = 0 := by
  have hexp : CMath.rational.exp (-1 / (10 * (1 / 1000) * (44100 : ℚ))) = 440 / 441 := by
    show (1 : ℚ) + -1 / (10 * (1 / 1000) * 44100) = 440 / 441
    norm_num
  have hlaws : Juce.passThrough.SilenceLaws (fun _ => True) (fun _ => True) (fun _ => True) :=
    ⟨fun _ => trivial, fun _ _ _ => trivial, fun _ _ _ => ⟨rfl, trivial⟩, fun _ => trivial,
      fun _ _ _ _ _ _ => trivial, fun _ _ _ hb => ⟨hb, rfl, rfl, trivial⟩, fun _ => trivial,
      fun _ _ _ _ _ _ _ hb => ⟨hb, rfl, rfl, trivial⟩, fun _ _ hb => ⟨hb, rfl, rfl⟩⟩
  have hneg := (C16_silence_for_positive_character CMath.rational (fun _ => True)
    (fun _ => True) (fun _ => True) hlaws rfl
    (ChasmDSPProcessor.default : ChasmDSPProcessor ℚ Juce.passThrough) ⟨44100, 512, 2⟩ rfl
    1 1 0 30 0 (-1) 0 0 100 1 0 0 0 0 0 50 30 0 1 0 0 100 0 0 0 0
    AudioBuffer.stereoSilence rfl (fun _ _ _ _ => rfl) 0 0 (by decide) (by decide)).2.2.1.1
  have hpos := (C16_silence_for_positive_character CMath.rational (fun _ => True)
    (fun _ => True) (fun _ => True) hlaws rfl
    (ChasmDSPProcessor.default : ChasmDSPProcessor ℚ Juce.passThrough) ⟨44100, 512, 2⟩ rfl
    1 1 (1 / 2) 30 0 1 0 0 100 1 0 0 0 0 0 50 30 0 1 0 0 100 0 0 0 0
    AudioBuffer.stereoSilence rfl (fun _ _ _ _ => rfl) 0 0 (by decide) (by decide)).2.2.2
    (by norm_num) (by rw [hexp]; norm_num) (by rw [hexp]; norm_num)
  refine ⟨?_, hpos.2.2.2.1⟩
  have hz : leftCharacterAt CMath.rational ChasmDSPProcessor.preparedNegativeCharacter
      AudioBuffer.stereoSilence 0
      = -1 + (1 - CMath.rational.exp (-1 / (10 * (1 / 1000) * (44100 : ℚ))))
        * (jlimit (1 / 10) 10 (-1) - -1) := hneg
  rw [hz, hexp]
  unfold jlimit
  norm_num

open PresetManager

/-- C40 (counterexample to the claim as worded): a category that lists the presets `A`, `B`,
`C`, none of whose files can be read, with `C` the current preset (index 2): next returns
index 0 although nothing is loaded and `C` stays the current preset, and previous after next
returns index 1, not 2. -/
theorem C40_unreadable_preset_counterexample :
    indexOf ["A", "B", "C"] "C" = 2
    ∧ (loadNextPresetInCategory
        (⟨fun _ => ["A", "B", "C"], fun _ _ => none⟩ : PresetFiles Unit)
        ⟨(), "C", "Default"⟩ "Default").1 = 0
    ∧ (loadNextPresetInCategory
        (⟨fun _ => ["A", "B", "C"], fun _ _ => none⟩ : PresetFiles Unit)
        ⟨(), "C", "Default"⟩ "Default").2.currentPreset = "C"
    ∧ (loadPreviousPresetInCategory
        (⟨fun _ => ["A", "B", "C"], fun _ _ => none⟩ : PresetFiles Unit)
        (loadNextPresetInCategory
          (⟨fun _ => ["A", "B", "C"], fun _ _ => none⟩ : PresetFiles Unit)
          ⟨(), "C", "Default"⟩ "Default").2 "Default").1 = 1
    ∧ ¬ ((loadPreviousPresetInCategory
        (⟨fun _ => ["A", "B", "C"], fun _ _ => none⟩ : PresetFiles Unit)
        (loadNextPresetInCategory
          (⟨fun _ => ["A", "B", "C"], fun _ _ => none⟩ : PresetFiles Unit)
          ⟨(), "C", "Default"⟩ "Default").2 "Default").1
        = indexOf ["A", "B", "C"] "C") :=
  ⟨by decide, by decide, by decide, by decide, by decide⟩

/-- C40 (amended): with `n` the length of the category's preset list and `k` the index of the
current preset in it (-1 exactly when it is not in the list): on an empty list
`loadNextPresetInCategory` and `loadPreviousPresetInCategory` return -1 and leave the manager
as it is; otherwise next returns `(k + 1) mod n` and previous returns `k - 1` when `k >= 1`
and `n - 1` otherwise, each after calling `loadPreset` on the list entry at that index, and
the returned index lies in `[0, n)`, so -1 is returned exactly for an empty list.
`loadPreset` leaves the manager as it is when the name is empty or the file cannot be read,
and otherwise makes the entry the current preset.  When the current preset is in the list,
the names of the list are distinct and the entry that next selects has a name and a readable
file, previous after next returns `k`. -/
theorem C40_navigation_indices_and_round_trip {σ : Type} (E : PresetFiles σ)
    (m : PresetManager σ) (category : String) :
    (E.getPresetsInCategory category = [] →
        loadNextPresetInCategory E m category = (-1, m)
        ∧ loadPreviousPresetInCategory E m category = (-1, m))
    ∧ (E.getPresetsInCategory category ≠ [] →
        (loadNextPresetInCategory E m category).1
            = (indexOf (E.getPresetsInCategory category) m.currentPreset + 1)
                % ((E.getPresetsInCategory category).length : Int)
        ∧ (loadNextPresetInCategory E m category).2
            = loadPreset E m (stringAt (E.getPresetsInCategory category)
                (loadNextPresetInCategory E m category).1) category
        ∧ (loadPreviousPresetInCategory E m category).1
            = (if 1 ≤ indexOf (E.getPresetsInCategory category) m.currentPreset then
                indexOf (E.getPresetsInCategory category) m.currentPreset - 1
              else ((E.getPresetsInCategory category).length : Int) - 1)
        ∧ (loadPreviousPresetInCategory E m category).2
            = loadPreset E m (stringAt (E.getPresetsInCategory category)
                (loadPreviousPresetInCategory E m category).1) category
        ∧ (0 ≤ (loadNextPresetInCategory E m category).1
          ∧ (loadNextPresetInCategory E m category).1
              < ((E.getPresetsInCategory category).length : Int))
        ∧ (0 ≤ (loadPreviousPresetInCategory E m category).1
          ∧ (loadPreviousPresetInCategory E m category).1
              < ((E.getPresetsInCategory category).length : Int)))
    ∧ ((loadNextPresetInCategory E m category).1 = -1 ↔ E.getPresetsInCategory category = [])
    ∧ ((loadPreviousPresetInCategory E m category).1 = -1
        ↔ E.getPresetsInCategory category = [])
    ∧ (indexOf (E.getPresetsInCategory category) m.currentPreset = -1
        ↔ m.currentPreset ∉ E.getPresetsInCategory category)
    ∧ (∀ presetName c : String,
        (presetName.isEmpty = true → loadPreset E m presetName c = m)
        ∧ (E.readPresetFile presetName (if c.isEmpty then getCurrentCategory m else c) = none →
            loadPreset E m presetName c = m)
        ∧ (∀ t : σ, presetName.isEmpty = false →
            E.readPresetFile presetName (if c.isEmpty then getCurrentCategory m else c)
              = some t →
            loadPreset E m presetName c
              = { m with valueTreeState := t, currentPreset := presetName,
                         currentCategory := if c.isEmpty then getCurrentCategory m else c }))
    ∧ (m.currentPreset ∈ E.getPresetsInCategory category →
        (E.getPresetsInCategory category).Nodup →
        (stringAt (E.getPresetsInCategory category)
          (loadNextPresetInCategory E m category).1).isEmpty = false →
        (E.readPresetFile
          (stringAt (E.getPresetsInCategory category) (loadNextPresetInCategory E m category).1)
          (if category.isEmpty then getCurrentCategory m else category)).isSome = true →
        (loadPreviousPresetInCategory E (loadNextPresetInCategory E m category).2 category).1
          = indexOf (E.getPresetsInCategory category) m.currentPreset) := by
  have hload3 : ∀ (presetName c : String) (t : σ), presetName.isEmpty = false →
      E.readPresetFile presetName (if c.isEmpty then getCurrentCategory m else c) = some t →
      loadPreset E m presetName c
        = { m with valueTreeState := t, currentPreset := presetName,
                   currentCategory := if c.isEmpty then getCurrentCategory m else c } := by
    intro presetName c t hn ht
    unfold loadPreset
    simp only [hn, Bool.false_eq_true, if_false, ht]
  have hload1 : ∀ presetName c : String, presetName.isEmpty = true →
      loadPreset E m presetName c = m := by
    intro presetName c hn
    unfold loadPreset
    simp only [hn, if_true]
  have hload2 : ∀ presetName c : String,
      E.readPresetFile presetName (if c.isEmpty then getCurrentCategory m else c) = none →
      loadPreset E m presetName c = m := by
    intro presetName c hr
    unfold loadPreset
    simp only [hr]
    split <;> rfl
  have hempty : ∀ m1 : PresetManager σ, E.getPresetsInCategory category = [] →
      loadNextPresetInCategory E m1 category = (-1, m1)
      ∧ loadPreviousPresetInCategory E m1 category = (-1, m1) := by
    intro m1 h
    unfold loadNextPresetInCategory loadPreviousPresetInCategory
    simp only [h, List.isEmpty_nil, if_true]
    exact ⟨trivial, trivial⟩
  have hfull : ∀ m1 : PresetManager σ, E.getPresetsInCategory category ≠ [] →
      (loadNextPresetInCategory E m1 category).1
            = (indexOf (E.getPresetsInCategory category) m1.currentPreset + 1)
                % ((E.getPresetsInCategory category).length : Int)
        ∧ (loadNextPresetInCategory E m1 category).2
            = loadPreset E m1 (stringAt (E.getPresetsInCategory category)
                (loadNextPresetInCategory E m1 category).1) category
        ∧ (loadPreviousPresetInCategory E m1 category).1
            = (if 1 ≤ indexOf (E.getPresetsInCategory category) m1.currentPreset then
                indexOf (E.getPresetsInCategory category) m1.currentPreset - 1
              else ((E.getPresetsInCategory category).length : Int) - 1)
        ∧ (loadPreviousPresetInCategory E m1 category).2
            = loadPreset E m1 (stringAt (E.getPresetsInCategory category)
                (loadPreviousPresetInCategory E m1 category).1) category
        ∧ (0 ≤ (loadNextPresetInCategory E m1 category).1
          ∧ (loadNextPresetInCategory E m1 category).1
              < ((E.getPresetsInCategory category).length : Int))
        ∧ (0 ≤ (loadPreviousPresetInCategory E m1 category).1
          ∧ (loadPreviousPresetInCategory E m1 category).1
              < ((E.getPresetsInCategory category).length : Int)) := by
    intro m1 h
    have hne : (E.getPresetsInCategory category).isEmpty = false := isEmpty_eq_false_of_ne_nil h
    obtain ⟨_, _, hk0, hk1⟩ := indexOf_spec (E.getPresetsInCategory category) m1.currentPreset
    have hpos : (0 : Int) < ((E.getPresetsInCategory category).length : Int) := by
      have := List.length_pos.mpr h
      omega
    obtain ⟨e1, e2, b1, b2, b3, b4⟩ := navigation_indices _ _ hk0 hk1 hpos
    have hnext : loadNextPresetInCategory E m1 category
        = ((if indexOf (E.getPresetsInCategory category) m1.currentPreset + 1
                > ((E.getPresetsInCategory category).length : Int) - 1 then 0
            else indexOf (E.getPresetsInCategory category) m1.currentPreset + 1),
          loadPreset E m1 (stringAt (E.getPresetsInCategory category)
            (if indexOf (E.getPresetsInCategory category) m1.currentPreset + 1
                > ((E.getPresetsInCategory category).length : Int) - 1 then 0
            else indexOf (E.getPresetsInCategory category) m1.currentPreset + 1)) category) := by
      unfold loadNextPresetInCategory
      simp only [hne, Bool.false_eq_true, if_false]
      rfl
    have hprev : loadPreviousPresetInCategory E m1 category
        = ((if indexOf (E.getPresetsInCategory category) m1.currentPreset - 1 < 0 then
              ((E.getPresetsInCategory category).length : Int) - 1
            else indexOf (E.getPresetsInCategory category) m1.currentPreset - 1),
          loadPreset E m1 (stringAt (E.getPresetsInCategory category)
            (if indexOf (E.getPresetsInCategory category) m1.currentPreset - 1 < 0 then
              ((E.getPresetsInCategory category).length : Int) - 1
            else indexOf (E.getPresetsInCategory category) m1.currentPreset - 1)) category) := by
      unfold loadPreviousPresetInCategory
      simp only [hne, Bool.false_eq_true, if_false]
      rfl
    have f1 : (loadNextPresetInCategory E m1 category).1
        = (indexOf (E.getPresetsInCategory category) m1.currentPreset + 1)
            % ((E.getPresetsInCategory category).length : Int) := by
      rw [hnext]
      exact e1
    have f3 : (loadPreviousPresetInCategory E m1 category).1
        = (if 1 ≤ indexOf (E.getPresetsInCategory category) m1.currentPreset then
            indexOf (E.getPresetsInCategory category) m1.currentPreset - 1
          else ((E.getPresetsInCategory category).length : Int) - 1) := by
      rw [hprev]
      exact e2
    refine ⟨f1, by rw [hnext], f3, by rw [hprev], ?_, ?_⟩
    · rw [f1]
      exact ⟨b1, b2⟩
    · rw [f3]
      exact ⟨b3, b4⟩
  obtain ⟨hout, hin, hk0, hk1⟩ := indexOf_spec (E.getPresetsInCategory category) m.currentPreset
  refine ⟨hempty m, hfull m, ?_, ?_, ?_,
    fun presetName c => ⟨hload1 presetName c, hload2 presetName c, hload3 presetName c⟩, ?_⟩
  · constructor
    · intro h
      by_contra hne
      have := (hfull m hne).2.2.2.2.1.1
      omega
    · intro h
      rw [(hempty m h).1]
  · constructor
    · intro h
      by_contra hne
      have := (hfull m hne).2.2.2.2.2.1
      omega
    · intro h
      rw [(hempty m h).2]
  · constructor
    · intro h hm
      have := (hin hm).1
      omega
    · exact hout
  · intro hm hnd hname hread
    have hne : E.getPresetsInCategory category ≠ [] := by
      intro h
      rw [h] at hm
      exact absurd hm (List.not_mem_nil _)
    obtain ⟨n1, n2, _, _, ⟨n5, n6⟩, _⟩ := hfull m hne
    obtain ⟨t, ht⟩ := Option.isSome_iff_exists.mp hread
    have hload : (loadNextPresetInCategory E m category).2.currentPreset
        = stringAt (E.getPresetsInCategory category)
            (loadNextPresetInCategory E m category).1 := by
      rw [n2, hload3 _ _ t hname ht]
    obtain ⟨_, _, p3, _⟩ := hfull (loadNextPresetInCategory E m category).2 hne
    have hidx : indexOf (E.getPresetsInCategory category)
        (loadNextPresetInCategory E m category).2.currentPreset
        = (loadNextPresetInCategory E m category).1 := by
      rw [hload]
      exact indexOf_stringAt _ hnd _ n5 n6
    rw [p3, hidx, n1]
    have hpos : (0 : Int) < ((E.getPresetsInCategory category).length : Int) := by
      have := List.length_pos.mpr hne
      omega
    obtain ⟨e1, _⟩ := navigation_indices _ _ hk0 hk1 hpos
    rw [← e1]
    have h0 := (hin hm).1
    split_ifs <;> omega

/-- Witness of C40: a category with the presets `A`, `B`, `C`, all readable, and `C` the
current preset (index 2): next wraps to index 0 and makes `A` the current preset, and
previous after next returns index 2. -/
theorem C40_navigation_indices_and_round_trip_witness :
    (loadNextPresetInCategory
        (⟨fun _ => ["A", "B", "C"], fun _ _ => some ()⟩ : PresetFiles Unit)
        ⟨(), "C", "Default"⟩ "Default").1 = 0
    ∧ (loadNextPresetInCategory
        (⟨fun _ => ["A", "B", "C"], fun _ _ => some ()⟩ : PresetFiles Unit)
        ⟨(), "C", "Default"⟩ "Default").2.currentPreset = "A"
    ∧ (loadPreviousPresetInCategory
        (⟨fun _ => ["A", "B", "C"], fun _ _ => some ()⟩ : PresetFiles Unit)
        (loadNextPresetInCategory
          (⟨fun _ => ["A", "B", "C"], fun _ _ => some ()⟩ : PresetFiles Unit)
          ⟨(), "C", "Default"⟩ "Default").2 "Default").1
      = indexOf ["A", "B", "C"] "C" :=
  ⟨by decide, by decide,
    (C40_navigation_indices_and_round_trip
      (⟨fun _ => ["A", "B", "C"], fun _ _ => some ()⟩ : PresetFiles Unit)
      ⟨(), "C", "Default"⟩ "Default").2.2.2.2.2.2 (by decide) (by decide) (by decide)
      (by decide)⟩

end DSP
